import Mathlib

/-!
# cparser: type system and compound layout

A shallow embedding of the type graph, the typeref resolver, the type
compatibility check and the struct/union layout engine of `src/type.c`.

Conventions of the embedding.

* Type nodes are modelled by value (a finite tree).  The C code compares
  hash-consed type pointers; for identified types pointer equality and
  structural equality coincide, so `type1 == type2` becomes `=` on trees.
  The pointer level of hash-consing is modelled separately (`type_store`).
* Compound and enum entities are referenced by number, as the C types hold a
  pointer to the entity; compound entities live in an environment
  `Nat → compound_t`.
* Machine integers are natural numbers reduced modulo a power of two at the
  places where the C code stores into a fixed-width object.
* A failed `assert`, a `panic` and a NULL dereference are modelled by `none`.
-/

namespace CParser

/-! ## Atomic kinds and their property table -/

/-- The atomic type kinds, in the order of the property table of `type.c`. -/
inductive atomic_type_kind_t
  | ATOMIC_TYPE_INVALID
  | ATOMIC_TYPE_VOID
  | ATOMIC_TYPE_WCHAR_T
  | ATOMIC_TYPE_CHAR
  | ATOMIC_TYPE_SCHAR
  | ATOMIC_TYPE_UCHAR
  | ATOMIC_TYPE_SHORT
  | ATOMIC_TYPE_USHORT
  | ATOMIC_TYPE_INT
  | ATOMIC_TYPE_UINT
  | ATOMIC_TYPE_LONG
  | ATOMIC_TYPE_ULONG
  | ATOMIC_TYPE_LONGLONG
  | ATOMIC_TYPE_ULONGLONG
  | ATOMIC_TYPE_BOOL
  | ATOMIC_TYPE_FLOAT
  | ATOMIC_TYPE_DOUBLE
  | ATOMIC_TYPE_LONG_DOUBLE
  deriving DecidableEq, Repr

/-- Calling conventions of a function type. -/
inductive cc_kind_t
  | CC_DEFAULT
  | CC_CDECL
  | CC_STDCALL
  | CC_FASTCALL
  | CC_THISCALL
  deriving DecidableEq, Repr

/-- Linkage of a function type. -/
inductive linkage_kind_t
  | LINKAGE_INVALID
  | LINKAGE_C
  | LINKAGE_CXX
  deriving DecidableEq, Repr

/-- The global configuration consulted by `type.c`.  `il_size_bits` and
`il_alignment_bits` are the widths of the typedefs `il_size_t` and
`il_alignment_t`, whose declarations are not part of the sources at hand;
both are unsigned integer types no wider than `unsigned`. -/
structure config_t where
  machine_size : Nat
  char_is_signed : Bool
  byte_order_big_endian : Bool
  wchar_atomic_kind : atomic_type_kind_t
  force_long_double_size : Nat
  default_calling_convention : cc_kind_t
  il_size_bits : Nat
  il_alignment_bits : Nat
  warning_padded : Bool
  warning_packed : Bool
  deriving DecidableEq, Repr

/-- Flags of an atomic kind (`atomic_type_flag_t`): distinct single bits. -/
def ATOMIC_TYPE_FLAG_NONE : Nat := 0
/-- Flag bit: the kind is signed. -/
def ATOMIC_TYPE_FLAG_SIGNED : Nat := 1
/-- Flag bit: the kind is an integer kind. -/
def ATOMIC_TYPE_FLAG_INTEGER : Nat := 2
/-- Flag bit: the kind is a floating point kind. -/
def ATOMIC_TYPE_FLAG_FLOAT : Nat := 4
/-- Flag bit: the kind is arithmetic. -/
def ATOMIC_TYPE_FLAG_ARITHMETIC : Nat := 8
/-- Flag bit: the kind is complex. -/
def ATOMIC_TYPE_FLAG_COMPLEX : Nat := 16

/-- Qualifier bit set (`type_qualifiers_t`): the empty set. -/
def TYPE_QUALIFIER_NONE : Nat := 0
/-- Qualifier bit `const`. -/
def TYPE_QUALIFIER_CONST : Nat := 1
/-- Qualifier bit `restrict`. -/
def TYPE_QUALIFIER_RESTRICT : Nat := 2
/-- Qualifier bit `volatile`. -/
def TYPE_QUALIFIER_VOLATILE : Nat := 4

/-- The value of `(unsigned) -1` for a 32 bit `unsigned`. -/
def UNSIGNED_MINUS_ONE : Nat := 4294967295

/-- One row of the property table. -/
structure atomic_type_properties_t where
  size : Nat
  alignment : Nat
  flags : Nat
  deriving DecidableEq, Repr

open atomic_type_kind_t in
/-- The static initialiser of `atomic_type_properties`. -/
def atomic_type_properties_initial : atomic_type_kind_t → atomic_type_properties_t
  | ATOMIC_TYPE_INVALID => ⟨0, 0, 0⟩
  | ATOMIC_TYPE_VOID => ⟨0, 0, ATOMIC_TYPE_FLAG_NONE⟩
  | ATOMIC_TYPE_WCHAR_T =>
      ⟨UNSIGNED_MINUS_ONE, UNSIGNED_MINUS_ONE,
        ATOMIC_TYPE_FLAG_INTEGER ||| ATOMIC_TYPE_FLAG_ARITHMETIC⟩
  | ATOMIC_TYPE_CHAR => ⟨1, 1, ATOMIC_TYPE_FLAG_INTEGER ||| ATOMIC_TYPE_FLAG_ARITHMETIC⟩
  | ATOMIC_TYPE_SCHAR =>
      ⟨1, 1, ATOMIC_TYPE_FLAG_INTEGER ||| ATOMIC_TYPE_FLAG_ARITHMETIC
        ||| ATOMIC_TYPE_FLAG_SIGNED⟩
  | ATOMIC_TYPE_UCHAR => ⟨1, 1, ATOMIC_TYPE_FLAG_INTEGER ||| ATOMIC_TYPE_FLAG_ARITHMETIC⟩
  | ATOMIC_TYPE_SHORT =>
      ⟨2, 2, ATOMIC_TYPE_FLAG_INTEGER ||| ATOMIC_TYPE_FLAG_ARITHMETIC
        ||| ATOMIC_TYPE_FLAG_SIGNED⟩
  | ATOMIC_TYPE_USHORT => ⟨2, 2, ATOMIC_TYPE_FLAG_INTEGER ||| ATOMIC_TYPE_FLAG_ARITHMETIC⟩
  | ATOMIC_TYPE_INT =>
      ⟨UNSIGNED_MINUS_ONE, UNSIGNED_MINUS_ONE,
        ATOMIC_TYPE_FLAG_INTEGER ||| ATOMIC_TYPE_FLAG_ARITHMETIC
        ||| ATOMIC_TYPE_FLAG_SIGNED⟩
  | ATOMIC_TYPE_UINT =>
      ⟨UNSIGNED_MINUS_ONE, UNSIGNED_MINUS_ONE,
        ATOMIC_TYPE_FLAG_INTEGER ||| ATOMIC_TYPE_FLAG_ARITHMETIC⟩
  | ATOMIC_TYPE_LONG =>
      ⟨UNSIGNED_MINUS_ONE, UNSIGNED_MINUS_ONE,
        ATOMIC_TYPE_FLAG_INTEGER ||| ATOMIC_TYPE_FLAG_ARITHMETIC
        ||| ATOMIC_TYPE_FLAG_SIGNED⟩
  | ATOMIC_TYPE_ULONG =>
      ⟨UNSIGNED_MINUS_ONE, UNSIGNED_MINUS_ONE,
        ATOMIC_TYPE_FLAG_INTEGER ||| ATOMIC_TYPE_FLAG_ARITHMETIC⟩
  | ATOMIC_TYPE_LONGLONG =>
      ⟨UNSIGNED_MINUS_ONE, UNSIGNED_MINUS_ONE,
        ATOMIC_TYPE_FLAG_INTEGER ||| ATOMIC_TYPE_FLAG_ARITHMETIC
        ||| ATOMIC_TYPE_FLAG_SIGNED⟩
  | ATOMIC_TYPE_ULONGLONG =>
      ⟨UNSIGNED_MINUS_ONE, UNSIGNED_MINUS_ONE,
        ATOMIC_TYPE_FLAG_INTEGER ||| ATOMIC_TYPE_FLAG_ARITHMETIC⟩
  | ATOMIC_TYPE_BOOL =>
      ⟨UNSIGNED_MINUS_ONE, UNSIGNED_MINUS_ONE,
        ATOMIC_TYPE_FLAG_INTEGER ||| ATOMIC_TYPE_FLAG_ARITHMETIC⟩
  | ATOMIC_TYPE_FLOAT =>
      ⟨4, UNSIGNED_MINUS_ONE,
        ATOMIC_TYPE_FLAG_FLOAT ||| ATOMIC_TYPE_FLAG_ARITHMETIC ||| ATOMIC_TYPE_FLAG_SIGNED⟩
  | ATOMIC_TYPE_DOUBLE =>
      ⟨8, UNSIGNED_MINUS_ONE,
        ATOMIC_TYPE_FLAG_FLOAT ||| ATOMIC_TYPE_FLAG_ARITHMETIC ||| ATOMIC_TYPE_FLAG_SIGNED⟩
  | ATOMIC_TYPE_LONG_DOUBLE =>
      ⟨12, UNSIGNED_MINUS_ONE,
        ATOMIC_TYPE_FLAG_FLOAT ||| ATOMIC_TYPE_FLAG_ARITHMETIC ||| ATOMIC_TYPE_FLAG_SIGNED⟩

/-- Assignment `props[k] = v` on the property table. -/
def props_set (props : atomic_type_kind_t → atomic_type_properties_t)
    (k : atomic_type_kind_t) (v : atomic_type_properties_t) :
    atomic_type_kind_t → atomic_type_properties_t :=
  fun j => if j = k then v else props j

open atomic_type_kind_t in
/-- The table `atomic_type_properties` as `init_types` leaves it: the
assignments of `init_types` applied in order to the static initialiser. -/
def atomic_type_properties (cfg : config_t) : atomic_type_kind_t → atomic_type_properties_t :=
  let p0 := atomic_type_properties_initial
  let p1 := if cfg.char_is_signed then
      props_set p0 ATOMIC_TYPE_CHAR
        { p0 ATOMIC_TYPE_CHAR with
          flags := (p0 ATOMIC_TYPE_CHAR).flags ||| ATOMIC_TYPE_FLAG_SIGNED }
    else p0
  let int_size := if cfg.machine_size < 32 then 2 else 4
  let long_size := if cfg.machine_size < 64 then 4 else 8
  let llong_size := if cfg.machine_size < 32 then 4 else 8
  let sized := fun (p : atomic_type_kind_t → atomic_type_properties_t)
      (k : atomic_type_kind_t) (s a : Nat) => props_set p k { p k with size := s, alignment := a }
  let aligned := fun (p : atomic_type_kind_t → atomic_type_properties_t)
      (k : atomic_type_kind_t) (a : Nat) => props_set p k { p k with alignment := a }
  let p2 := sized p1 ATOMIC_TYPE_INT int_size int_size
  let p3 := sized p2 ATOMIC_TYPE_UINT int_size int_size
  let p4 := sized p3 ATOMIC_TYPE_LONG long_size long_size
  let p5 := sized p4 ATOMIC_TYPE_ULONG long_size long_size
  let p6 := sized p5 ATOMIC_TYPE_LONGLONG llong_size llong_size
  let p7 := sized p6 ATOMIC_TYPE_ULONGLONG llong_size llong_size
  let p8 := aligned p7 ATOMIC_TYPE_FLOAT 4
  let p9 := aligned p8 ATOMIC_TYPE_DOUBLE 4
  let p10 := aligned p9 ATOMIC_TYPE_LONG_DOUBLE 4
  let p11 := aligned p10 ATOMIC_TYPE_LONGLONG 4
  let p12 := aligned p11 ATOMIC_TYPE_ULONGLONG 4
  let p13 := if cfg.force_long_double_size > 0 then
      sized p12 ATOMIC_TYPE_LONG_DOUBLE cfg.force_long_double_size cfg.force_long_double_size
    else p12
  let p14 := props_set p13 ATOMIC_TYPE_BOOL (p13 ATOMIC_TYPE_UCHAR)
  props_set p14 ATOMIC_TYPE_WCHAR_T (p14 cfg.wchar_atomic_kind)

/-- Size in bytes of an atomic kind. -/
def get_atomic_type_size (cfg : config_t) (kind : atomic_type_kind_t) : Nat :=
  (atomic_type_properties cfg kind).size

/-- Alignment in bytes of an atomic kind. -/
def get_atomic_type_alignment (cfg : config_t) (kind : atomic_type_kind_t) : Nat :=
  (atomic_type_properties cfg kind).alignment

/-- Flags of an atomic kind. -/
def get_atomic_type_flags (cfg : config_t) (kind : atomic_type_kind_t) : Nat :=
  (atomic_type_properties cfg kind).flags

/-! ## The type graph -/

/-- The tag of a type node (`type_kind_t`). -/
inductive type_kind_t
  | TYPE_INVALID
  | TYPE_ERROR
  | TYPE_ATOMIC
  | TYPE_COMPLEX
  | TYPE_IMAGINARY
  | TYPE_COMPOUND_STRUCT
  | TYPE_COMPOUND_UNION
  | TYPE_ENUM
  | TYPE_FUNCTION
  | TYPE_POINTER
  | TYPE_REFERENCE
  | TYPE_ARRAY
  | TYPE_BITFIELD
  | TYPE_BUILTIN
  | TYPE_TYPEDEF
  | TYPE_TYPEOF
  deriving DecidableEq, Repr

mutual
/-- A type node.  Every variant starts with the qualifier set of
`type_base_t`; the remaining fields are the payload that `type.c` reads.  A
typedef node carries the declared type and the alignment of its typedef
entity (`typedefe`) and the optional resolved-type cache; a typeof node its
optional `typeof_type` and the type of its optional expression. -/
inductive type_t
  | invalid (qualifiers : Nat)
  | error (qualifiers : Nat)
  | atomic (qualifiers : Nat) (akind : atomic_type_kind_t)
  | complex (qualifiers : Nat) (akind : atomic_type_kind_t)
  | imaginary (qualifiers : Nat) (akind : atomic_type_kind_t)
  | compound_struct (qualifiers : Nat) (compound : Nat)
  | compound_union (qualifiers : Nat) (compound : Nat)
  | enumt (qualifiers : Nat) (enume : Nat) (akind : atomic_type_kind_t)
  | function (qualifiers : Nat) (return_type : type_t) (parameters : function_parameter_t)
      (variadic : Bool) (unspecified_parameters : Bool) (kr_style_parameters : Bool)
      (linkage : linkage_kind_t) (calling_convention : cc_kind_t) (modifiers : Nat)
  | pointer (qualifiers : Nat) (points_to : type_t) (base_variable : Option Nat)
  | reference (qualifiers : Nat) (refers_to : type_t)
  | array (qualifiers : Nat) (element_type : type_t) (size : Nat) (size_constant : Bool)
      (size_expression : Option Nat) (is_vla : Bool)
  | bitfield (qualifiers : Nat) (base_type : type_t) (bit_size : Nat)
  | builtin (qualifiers : Nat) (symbol : Nat) (real_type : type_t)
  | typedeft (qualifiers : Nat) (typedefe_type : type_t) (typedefe_alignment : Nat)
      (resolved_type : type_ptr)
  | typeoft (qualifiers : Nat) (typeof_type : type_ptr) (expression_type : type_ptr)
  deriving DecidableEq, Repr
/-- The parameter list of a function type, linked through `next`. -/
inductive function_parameter_t
  | null
  | param (type : type_t) (next : function_parameter_t)
  deriving DecidableEq, Repr
/-- A possibly NULL pointer to a type. -/
inductive type_ptr
  | null
  | ptr (type : type_t)
  deriving DecidableEq, Repr
end

open type_kind_t in
/-- The tag `type->kind`. -/
def type_t.kind : type_t → type_kind_t
  | .invalid _ => TYPE_INVALID
  | .error _ => TYPE_ERROR
  | .atomic _ _ => TYPE_ATOMIC
  | .complex _ _ => TYPE_COMPLEX
  | .imaginary _ _ => TYPE_IMAGINARY
  | .compound_struct _ _ => TYPE_COMPOUND_STRUCT
  | .compound_union _ _ => TYPE_COMPOUND_UNION
  | .enumt _ _ _ => TYPE_ENUM
  | .function _ _ _ _ _ _ _ _ _ => TYPE_FUNCTION
  | .pointer _ _ _ => TYPE_POINTER
  | .reference _ _ => TYPE_REFERENCE
  | .array _ _ _ _ _ _ => TYPE_ARRAY
  | .bitfield _ _ _ => TYPE_BITFIELD
  | .builtin _ _ _ => TYPE_BUILTIN
  | .typedeft _ _ _ _ => TYPE_TYPEDEF
  | .typeoft _ _ _ => TYPE_TYPEOF

/-- The field `type->base.qualifiers`. -/
def type_t.qualifiers : type_t → Nat
  | .invalid q => q
  | .error q => q
  | .atomic q _ => q
  | .complex q _ => q
  | .imaginary q _ => q
  | .compound_struct q _ => q
  | .compound_union q _ => q
  | .enumt q _ _ => q
  | .function q _ _ _ _ _ _ _ _ => q
  | .pointer q _ _ => q
  | .reference q _ => q
  | .array q _ _ _ _ _ => q
  | .bitfield q _ _ => q
  | .builtin q _ _ => q
  | .typedeft q _ _ _ => q
  | .typeoft q _ _ => q

/-- The assignment `type->base.qualifiers = q` on a copy of the node. -/
def type_t.set_qualifiers (q : Nat) : type_t → type_t
  | .invalid _ => .invalid q
  | .error _ => .error q
  | .atomic _ k => .atomic q k
  | .complex _ k => .complex q k
  | .imaginary _ k => .imaginary q k
  | .compound_struct _ c => .compound_struct q c
  | .compound_union _ c => .compound_union q c
  | .enumt _ e k => .enumt q e k
  | .function _ r p v u k l c m => .function q r p v u k l c m
  | .pointer _ p b => .pointer q p b
  | .reference _ r => .reference q r
  | .array _ e s c x v => .array q e s c x v
  | .bitfield _ b s => .bitfield q b s
  | .builtin _ s r => .builtin q s r
  | .typedeft _ t a r => .typedeft q t a r
  | .typeoft _ t e => .typeoft q t e

/-- Modelled from the spec: `is_typeref` of the header `type_t.h`, which is
not among the sources: a typeref is a Typedef or a Typeof node. -/
def is_typeref (type : type_t) : Bool :=
  type.kind = .TYPE_TYPEDEF || type.kind = .TYPE_TYPEOF

/-- Modelled from the spec: `is_type_valid` of the header `type_t.h`, which
is not among the sources: every type but the error sentinel is valid. -/
def is_type_valid (type : type_t) : Bool :=
  type.kind ≠ .TYPE_ERROR

/-- Modelled from the spec: `is_type_array` of the header `type_t.h`, which
is not among the sources. -/
def is_type_array (type : type_t) : Bool :=
  type.kind = .TYPE_ARRAY

open type_kind_t in
/-- The table of `get_type_struct_size`: `true` where the table has a
(non-zero) entry.  `get_type_struct_size` asserts `sizes[kind] != 0`; the
table has no entry for `TYPE_INVALID`, `TYPE_ERROR` and `TYPE_REFERENCE`. -/
def get_type_struct_size_known : type_kind_t → Bool
  | TYPE_ATOMIC => true
  | TYPE_COMPLEX => true
  | TYPE_IMAGINARY => true
  | TYPE_BITFIELD => true
  | TYPE_COMPOUND_STRUCT => true
  | TYPE_COMPOUND_UNION => true
  | TYPE_ENUM => true
  | TYPE_FUNCTION => true
  | TYPE_POINTER => true
  | TYPE_ARRAY => true
  | TYPE_BUILTIN => true
  | TYPE_TYPEDEF => true
  | TYPE_TYPEOF => true
  | TYPE_INVALID => false
  | TYPE_ERROR => false
  | TYPE_REFERENCE => false

/-- Shallow copy of a type node (`duplicate_type`); the assertion of
`get_type_struct_size` fails on a kind without a table entry. -/
def duplicate_type (type : type_t) : Option type_t :=
  if get_type_struct_size_known type.kind then some type else none

/-- The loop of `skip_typeref`.  The result is `(returned, type, qualifiers)`:
`returned` is set when the loop left the function through `return type`
(error type), otherwise the loop was left by `break` with the accumulated
qualifiers. -/
def skip_typeref_loop : type_t → Nat → Option (Bool × type_t × Nat)
  | .error q, qualifiers => some (true, .error q, qualifiers)
  | .typedeft q _ _ (.ptr resolved), qualifiers => some (false, resolved, qualifiers ||| q)
  | .typedeft q typedefe_type _ .null, qualifiers =>
      skip_typeref_loop typedefe_type (qualifiers ||| q)
  | .typeoft q (.ptr typeof_type) _, qualifiers =>
      skip_typeref_loop typeof_type (qualifiers ||| q)
  | .typeoft _ .null _, _ => none
  | type, qualifiers => some (false, type, qualifiers)

/-- The qualified clone built after the loop of `skip_typeref`: for an array
the qualifiers go onto a copy of its element type, otherwise onto the copy
itself. -/
def skip_typeref_qualify (type : type_t) (qualifiers : Nat) : Option type_t :=
  match duplicate_type type with
  | none => none
  | some copy =>
    match copy with
    | .array q element_type size size_constant size_expression is_vla =>
        match duplicate_type element_type with
        | none => none
        | some element =>
            some (.array q (element.set_qualifiers (element.qualifiers ||| qualifiers))
              size size_constant size_expression is_vla)
    | _ => some (copy.set_qualifiers (copy.qualifiers ||| qualifiers))

/-- Skip all typerefs and return the underlying type (`skip_typeref`).  The
final `identify_new_type` returns the canonical node of the clone, which in
the by-value model is the clone. -/
def skip_typeref (type : type_t) : Option type_t :=
  match skip_typeref_loop type TYPE_QUALIFIER_NONE with
  | none => none
  | some (true, type, _) => some type
  | some (false, type, qualifiers) =>
      if qualifiers ≠ TYPE_QUALIFIER_NONE then skip_typeref_qualify type qualifiers
      else some type

/-- Returns the unqualified type of a given type (`get_unqualified_type`);
the function asserts that its argument is no typeref. -/
def get_unqualified_type (type : type_t) : Option type_t :=
  if is_typeref type then none
  else if type.qualifiers = TYPE_QUALIFIER_NONE then some type
  else
    match duplicate_type type with
    | none => none
    | some unqualified_type => some (unqualified_type.set_qualifiers TYPE_QUALIFIER_NONE)

/-! ## Type compatibility -/

/-- The parameter loop of `function_types_compatible`, with the final test
for the same number of arguments.  `types_compatible` is the recursive
callee. -/
def function_parameters_compatible (types_compatible : type_t → type_t → Option Bool) :
    function_parameter_t → function_parameter_t → Option Bool
  | .param type1 next1, .param type2 next2 =>
      match skip_typeref type1, skip_typeref type2 with
      | some parameter1_type, some parameter2_type =>
          match get_unqualified_type parameter1_type, get_unqualified_type parameter2_type with
          | some unqualified1, some unqualified2 =>
              match types_compatible unqualified1 unqualified2 with
              | none => none
              | some false => some false
              | some true => function_parameters_compatible types_compatible next1 next2
          | _, _ => none
      | _, _ => none
  | .null, .null => some true
  | .null, .param _ _ => some false
  | .param _ _, .null => some false

/-- Check if two function types are compatible
(`function_types_compatible`); both arguments are function nodes. -/
def function_types_compatible (cfg : config_t)
    (types_compatible : type_t → type_t → Option Bool) (func1 func2 : type_t) : Option Bool :=
  match func1, func2 with
  | .function _ return_type1 parameters1 variadic1 unspecified1 kr_style1 linkage1 cc1 _,
    .function _ return_type2 parameters2 variadic2 unspecified2 kr_style2 linkage2 cc2 _ =>
      match skip_typeref return_type1, skip_typeref return_type2 with
      | some ret1, some ret2 =>
          match types_compatible ret1 ret2 with
          | none => none
          | some false => some false
          | some true =>
              if linkage1 ≠ linkage2 then some false
              else
                let cc1 := if cc1 = .CC_DEFAULT then cfg.default_calling_convention else cc1
                let cc2 := if cc2 = .CC_DEFAULT then cfg.default_calling_convention else cc2
                if cc1 ≠ cc2 then some false
                else if variadic1 ≠ variadic2 then some false
                else if (unspecified1 && !kr_style1) || (unspecified2 && !kr_style2) then
                  some true
                else function_parameters_compatible types_compatible parameters1 parameters2
      | _, _ => none
  | _, _ => none

/-- Check if two array types are compatible (`array_types_compatible`); both
arguments are array nodes. -/
def array_types_compatible (types_compatible : type_t → type_t → Option Bool)
    (array1 array2 : type_t) : Option Bool :=
  match array1, array2 with
  | .array _ element1 size1 size_constant1 _ _, .array _ element2 size2 size_constant2 _ _ =>
      match skip_typeref element1, skip_typeref element2 with
      | some element_type1, some element_type2 =>
          match types_compatible element_type1 element_type2 with
          | none => none
          | some false => some false
          | some true =>
              if !size_constant1 || !size_constant2 then some true
              else some (size1 == size2)
      | _, _ => none
  | _, _ => none

/-- Check if two types are compatible (`types_compatible`).  The first
argument bounds the depth of the recursion; `none` is returned when the
bound is reached, when an assertion fails and on `panic`. -/
def types_compatible (cfg : config_t) : Nat → type_t → type_t → Option Bool
  | 0, _, _ => none
  | fuel + 1, type1, type2 =>
    if is_typeref type1 || is_typeref type2 then none
    else if type1 = type2 then some true
    else if !is_type_valid type1 || !is_type_valid type2 then some true
    else if type1.qualifiers ≠ type2.qualifiers then some false
    else if type1.kind ≠ type2.kind then some false
    else
      match type1 with
      | .function _ _ _ _ _ _ _ _ _ =>
          function_types_compatible cfg (types_compatible cfg fuel) type1 type2
      | .atomic _ akind1 =>
          match type2 with
          | .atomic _ akind2 => some (akind1 == akind2)
          | _ => none
      | .complex _ akind1 =>
          match type2 with
          | .complex _ akind2 => some (akind1 == akind2)
          | _ => none
      | .imaginary _ akind1 =>
          match type2 with
          | .imaginary _ akind2 => some (akind1 == akind2)
          | _ => none
      | .array _ _ _ _ _ _ => array_types_compatible (types_compatible cfg fuel) type1 type2
      | .pointer _ points_to1 _ =>
          match type2 with
          | .pointer _ points_to2 _ =>
              match skip_typeref points_to1, skip_typeref points_to2 with
              | some to1, some to2 => types_compatible cfg fuel to1 to2
              | _, _ => none
          | _ => none
      | .reference _ refers_to1 =>
          match type2 with
          | .reference _ refers_to2 =>
              match skip_typeref refers_to1, skip_typeref refers_to2 with
              | some to1, some to2 => types_compatible cfg fuel to1 to2
              | _, _ => none
          | _ => none
      | .compound_struct _ _ => some false
      | .compound_union _ _ => some false
      | .enumt _ _ _ => some false
      | .builtin _ _ _ => some false
      | .bitfield _ _ _ => none
      | .error _ => some true
      | .invalid _ => none
      | .typedeft _ _ _ _ => none
      | .typeoft _ _ _ => none

/-! ## Entities of a compound -/

/-- The tag of an entity (`entity_kind_tag_t`). -/
inductive entity_kind_t
  | ENTITY_INVALID
  | ENTITY_VARIABLE
  | ENTITY_COMPOUND_MEMBER
  | ENTITY_PARAMETER
  | ENTITY_FUNCTION
  | ENTITY_TYPEDEF
  | ENTITY_CLASS
  | ENTITY_STRUCT
  | ENTITY_UNION
  | ENTITY_ENUM
  | ENTITY_ENUM_VALUE
  | ENTITY_LABEL
  | ENTITY_LOCAL_LABEL
  | ENTITY_NAMESPACE
  deriving DecidableEq, Repr

/-- An entity of a member scope, with the fields that the layout engine
reads and writes: `base.kind`, `declaration.type`, `compound_member.offset`
(an `unsigned short`) and `compound_member.bit_offset` (an `unsigned char`). -/
structure entity_t where
  kind : entity_kind_t
  type : type_t
  offset : Nat
  bit_offset : Nat
  deriving DecidableEq, Repr

/-- A struct or union entity (`compound_t`); `members` is the list
`members.entities` linked through `base.next`. -/
structure compound_t where
  members : List entity_t
  modifiers : Nat
  layouted : Bool
  complete : Bool
  transparent_union : Bool
  packed : Bool
  alignment : Nat
  size : Nat
  deriving DecidableEq, Repr

/-- The two warnings of the layout engine. -/
inductive warning_t
  | needs_padding
  | superfluous_packed
  deriving DecidableEq, Repr

/-! ## Machine arithmetic of the layout engine -/

/-- The constant `BITS_PER_BYTE`. -/
def BITS_PER_BYTE : Nat := 8

/-- Conversion to `il_size_t`. -/
def to_il_size (cfg : config_t) (x : Nat) : Nat := x % 2 ^ cfg.il_size_bits

/-- Conversion to `il_alignment_t`. -/
def to_il_alignment (cfg : config_t) (x : Nat) : Nat := x % 2 ^ cfg.il_alignment_bits

/-- Conversion to `unsigned short` (16 bits). -/
def to_ushort (x : Nat) : Nat := x % 65536

/-- Conversion to `unsigned char` (8 bits). -/
def to_uchar (x : Nat) : Nat := x % 256

/-- Conversion to `unsigned` (32 bits). -/
def to_unsigned (x : Nat) : Nat := x % 4294967296

/-- The C expression `(offset + alignment-1) & -alignment` stored into an
`il_size_t`: two's complement arithmetic, reduced to the width of
`il_size_t` (reduction commutes with `+`, `-` and `&`). -/
def align_expr (cfg : config_t) (offset alignment : Nat) : Nat :=
  to_il_size cfg (offset + alignment + (2 ^ cfg.il_size_bits - 1)) &&&
    to_il_size cfg (2 ^ cfg.il_size_bits - alignment % 2 ^ cfg.il_size_bits)

/-- The C expression `x & ~mask` on unsigned operands. -/
def and_not (x mask : Nat) : Nat := x - (x &&& mask)

/-- The C expression `base_alignment-1` stored into an `il_alignment_t`. -/
def alignment_mask_of (cfg : config_t) (base_alignment : Nat) : Nat :=
  to_il_alignment cfg (base_alignment + (2 ^ cfg.il_alignment_bits - 1))

/-- The C expression `(offset + base_alignment-1) & ~alignment_mask` stored
into an `il_size_t`. -/
def align_mask_expr (cfg : config_t) (offset base_alignment alignment_mask : Nat) : Nat :=
  and_not (to_il_size cfg (offset + base_alignment + (2 ^ cfg.il_size_bits - 1))) alignment_mask

/-! ## Bit-field packing -/

/-- What a bit-field packer hands back: the updated `*struct_offset` and
`*struct_alignment`, the entities it walked (with the recorded offsets) and
the returned `member`, the list of the entities it did not consume. -/
structure pack_result where
  offset : Nat
  alignment : Nat
  members : List entity_t
  rest : List entity_t
  deriving DecidableEq, Repr

/-- Prepend a walked entity to the result of the remaining walk. -/
def pack_result.push (member : entity_t) (r : pack_result) : pack_result :=
  { r with members := member :: r.members }

/-- The body of the loop of `pack_bitfield_members` for a bit-field member
with base type `base_type` (not yet skipped) and width `bit_size`.  Returns
the updated member and the new `offset`, `alignment` and `bit_offset`.
`bit_offset` is a `size_t` and is not reduced. -/
def pack_bitfield_member (cfg : config_t) (get_type_size get_type_alignment : type_t → Option Nat)
    (packed : Bool) (member : entity_t) (base_type : type_t) (bit_size : Nat)
    (offset alignment bit_offset : Nat) : Option (entity_t × Nat × Nat × Nat) :=
  match skip_typeref base_type with
  | none => none
  | some base_type =>
    match get_type_alignment base_type with
    | none => none
    | some a =>
      let base_alignment := to_il_alignment cfg a
      let alignment_mask := alignment_mask_of cfg base_alignment
      let alignment := if base_alignment > alignment then base_alignment else alignment
      let placed : Option (Nat × Nat) :=
        if !packed then
          let bit_offset := bit_offset + (offset &&& alignment_mask) * BITS_PER_BYTE
          let offset := and_not offset alignment_mask
          match get_type_size base_type with
          | none => none
          | some s =>
            let base_size := to_unsigned (s * BITS_PER_BYTE)
            if bit_offset + bit_size > base_size || bit_size = 0 then
              let offset := to_il_size cfg (offset + (bit_offset + BITS_PER_BYTE - 1) / BITS_PER_BYTE)
              let offset := align_mask_expr cfg offset base_alignment alignment_mask
              some (offset, 0)
            else some (offset, bit_offset)
        else some (offset, bit_offset)
      match placed with
      | none => none
      | some (offset, bit_offset) =>
        let member := { member with offset := to_ushort offset, bit_offset := to_uchar bit_offset }
        let bit_offset := bit_offset + bit_size
        let offset := to_il_size cfg (offset + bit_offset / BITS_PER_BYTE)
        let bit_offset := bit_offset % BITS_PER_BYTE
        some (member, offset, alignment, bit_offset)

/-- The loop of `pack_bitfield_members` with the code after it. -/
def pack_bitfield_members_loop (cfg : config_t)
    (get_type_size get_type_alignment : type_t → Option Nat) (packed : Bool) :
    List entity_t → Nat → Nat → Nat → Option pack_result
  | [], offset, alignment, bit_offset =>
      some ⟨if bit_offset > 0 then to_il_size cfg (offset + 1) else offset, alignment, [], []⟩
  | member :: next, offset, alignment, bit_offset =>
      if member.kind ≠ .ENTITY_COMPOUND_MEMBER then
        (pack_bitfield_members_loop cfg get_type_size get_type_alignment packed next
          offset alignment bit_offset).map (pack_result.push member)
      else
        match member.type with
        | .bitfield _ base_type bit_size =>
            match pack_bitfield_member cfg get_type_size get_type_alignment packed member
                base_type bit_size offset alignment bit_offset with
            | none => none
            | some (member, offset, alignment, bit_offset) =>
                (pack_bitfield_members_loop cfg get_type_size get_type_alignment packed next
                  offset alignment bit_offset).map (pack_result.push member)
        | _ =>
            some ⟨if bit_offset > 0 then to_il_size cfg (offset + 1) else offset, alignment, [],
              member :: next⟩

/-- The little-endian bit-field packer (`pack_bitfield_members`). -/
def pack_bitfield_members (cfg : config_t)
    (get_type_size get_type_alignment : type_t → Option Nat)
    (struct_offset struct_alignment : Nat) (packed : Bool) (first : List entity_t) :
    Option pack_result :=
  pack_bitfield_members_loop cfg get_type_size get_type_alignment packed first
    struct_offset struct_alignment 0

/-- The statement `if (current_base_type != NULL) offset +=
get_type_size(current_base_type);` of `pack_bitfield_members_big_endian`, which
closes the current bucket; it stands in the loop and after it. -/
def pack_big_endian_close (cfg : config_t) (get_type_size : type_t → Option Nat)
    (current_base_type : Option type_t) (offset : Nat) : Option Nat :=
  match current_base_type with
  | none => some offset
  | some current =>
      match get_type_size current with
      | none => none
      | some s => some (to_il_size cfg (offset + s))

/-- The body of the loop of `pack_bitfield_members_big_endian` for a
bit-field member.  `current_base_type` is `none` for the NULL pointer. -/
def pack_bitfield_member_big_endian (cfg : config_t)
    (get_type_size get_type_alignment : type_t → Option Nat)
    (member : entity_t) (base_type : type_t) (bit_size : Nat)
    (current_base_type : Option type_t) (offset alignment bit_offset : Nat) :
    Option (entity_t × Option type_t × Nat × Nat × Nat) :=
  match skip_typeref base_type with
  | none => none
  | some base_type =>
    let bucket : Option (Option type_t × Nat × Nat × Nat) :=
      if some base_type ≠ current_base_type || bit_size > bit_offset then
        match pack_big_endian_close cfg get_type_size current_base_type offset,
            get_type_alignment base_type, get_type_size base_type with
        | some offset, some a, some s =>
            let base_alignment := to_il_alignment cfg a
            let alignment_mask := alignment_mask_of cfg base_alignment
            let alignment := if base_alignment > alignment then base_alignment else alignment
            let offset := align_mask_expr cfg offset base_alignment alignment_mask
            let bit_offset := to_unsigned (s * BITS_PER_BYTE)
            if bit_offset ≥ bit_size then some (some base_type, offset, alignment, bit_offset)
            else none
        | _, _, _ => none
      else some (current_base_type, offset, alignment, bit_offset)
    match bucket with
    | none => none
    | some (current_base_type, offset, alignment, bit_offset) =>
        let bit_offset := bit_offset - bit_size
        some ({ member with offset := to_ushort offset, bit_offset := to_uchar bit_offset },
          current_base_type, offset, alignment, bit_offset)

/-- The loop of `pack_bitfield_members_big_endian` with the code after it. -/
def pack_bitfield_members_big_endian_loop (cfg : config_t)
    (get_type_size get_type_alignment : type_t → Option Nat) :
    List entity_t → Option type_t → Nat → Nat → Nat → Option pack_result
  | [], current_base_type, offset, alignment, _ =>
      match pack_big_endian_close cfg get_type_size current_base_type offset with
      | none => none
      | some offset => some ⟨offset, alignment, [], []⟩
  | member :: next, current_base_type, offset, alignment, bit_offset =>
      if member.kind ≠ .ENTITY_COMPOUND_MEMBER then
        (pack_bitfield_members_big_endian_loop cfg get_type_size get_type_alignment next
          current_base_type offset alignment bit_offset).map (pack_result.push member)
      else
        match member.type with
        | .bitfield _ base_type bit_size =>
            match pack_bitfield_member_big_endian cfg get_type_size get_type_alignment member
                base_type bit_size current_base_type offset alignment bit_offset with
            | none => none
            | some (member, current_base_type, offset, alignment, bit_offset) =>
                (pack_bitfield_members_big_endian_loop cfg get_type_size get_type_alignment next
                  current_base_type offset alignment bit_offset).map (pack_result.push member)
        | _ =>
            match pack_big_endian_close cfg get_type_size current_base_type offset with
            | none => none
            | some offset => some ⟨offset, alignment, [], member :: next⟩

/-- The big-endian bit-field packer (`pack_bitfield_members_big_endian`);
it panics on a packed compound. -/
def pack_bitfield_members_big_endian (cfg : config_t)
    (get_type_size get_type_alignment : type_t → Option Nat)
    (struct_offset struct_alignment : Nat) (packed : Bool) (first : List entity_t) :
    Option pack_result :=
  if packed then none
  else
    pack_bitfield_members_big_endian_loop cfg get_type_size get_type_alignment first none
      struct_offset struct_alignment 0

/-! ## Struct and union layout -/

/-- The `while` loop of `layout_struct_type` over the entities from `entry`
on.  The result is the list of the entities with their recorded offsets and
the final `offset`, `alignment` and `need_pad`.  The first argument bounds
the number of iterations: an iteration either moves `entry` forward or, when
a bit-field packer returns the entity it was given, repeats unchanged for
ever; the bound is reached only in the latter case. -/
def layout_struct_loop (cfg : config_t)
    (get_type_size get_type_alignment : type_t → Option Nat) (packed : Bool) :
    Nat → List entity_t → Nat → Nat → Bool → Option (List entity_t × Nat × Nat × Bool)
  | 0, _, _, _, _ => none
  | _ + 1, [], offset, alignment, need_pad => some ([], offset, alignment, need_pad)
  | fuel + 1, entry :: next, offset, alignment, need_pad =>
      if entry.kind ≠ .ENTITY_COMPOUND_MEMBER then
        (layout_struct_loop cfg get_type_size get_type_alignment packed fuel next
          offset alignment need_pad).map (fun r => (entry :: r.1, r.2))
      else
        match skip_typeref entry.type with
        | none => none
        | some skipped =>
          if !is_type_valid skipped then
            (layout_struct_loop cfg get_type_size get_type_alignment packed fuel next
              offset alignment need_pad).map (fun r => (entry :: r.1, r.2))
          else if skipped.kind = .TYPE_BITFIELD then
            match (if cfg.byte_order_big_endian then
                pack_bitfield_members_big_endian cfg get_type_size get_type_alignment
                  offset alignment packed (entry :: next)
              else
                pack_bitfield_members cfg get_type_size get_type_alignment
                  offset alignment packed (entry :: next)) with
            | none => none
            | some r =>
                (layout_struct_loop cfg get_type_size get_type_alignment packed fuel r.rest
                  r.offset r.alignment need_pad).map (fun q => (r.members ++ q.1, q.2))
          else
            match get_type_alignment entry.type with
            | none => none
            | some a =>
              let m_alignment := to_il_alignment cfg a
              let alignment := if m_alignment > alignment then m_alignment else alignment
              let new_offset := align_expr cfg offset m_alignment
              let padded := !packed && new_offset > offset
              let need_pad := if padded then true else need_pad
              let offset := if padded then new_offset else offset
              match get_type_size entry.type with
              | none => none
              | some s =>
                (layout_struct_loop cfg get_type_size get_type_alignment packed fuel next
                  (to_il_size cfg (offset + s)) alignment need_pad).map
                  (fun r => ({ entry with offset := to_ushort offset } :: r.1, r.2))

/-- Layout of a struct (`layout_struct_type`): the updated compound entity
and the warnings emitted.  `get_type_size` and `get_type_alignment` are the
functions of that name, passed explicitly because they call back into the
layout engine for members of compound type. -/
def layout_struct_type (cfg : config_t)
    (get_type_size get_type_alignment : type_t → Option Nat) (compound : compound_t) :
    Option (compound_t × List warning_t) :=
  if !compound.complete then some (compound, [])
  else if compound.layouted then some (compound, [])
  else
    match layout_struct_loop cfg get_type_size get_type_alignment compound.packed
        (compound.members.length + 1) compound.members 0 compound.alignment false with
    | none => none
    | some (members, offset, alignment, need_pad) =>
      let new_offset := align_expr cfg offset alignment
      let padded := !compound.packed && new_offset > offset
      let need_pad := if padded then true else need_pad
      let offset := if padded then new_offset else offset
      let warnings :=
        if need_pad then (if cfg.warning_padded then [warning_t.needs_padding] else [])
        else if compound.packed && cfg.warning_packed then [warning_t.superfluous_packed]
        else []
      some ({ compound with
              members := members, size := offset, alignment := alignment, layouted := true },
            warnings)

/-- The `for` loop of `layout_union_type`: the entities with their recorded
offsets and the final `size` and `alignment`. -/
def layout_union_loop (cfg : config_t)
    (get_type_size get_type_alignment : type_t → Option Nat) :
    List entity_t → Nat → Nat → Option (List entity_t × Nat × Nat)
  | [], size, alignment => some ([], size, alignment)
  | entry :: next, size, alignment =>
      if entry.kind ≠ .ENTITY_COMPOUND_MEMBER then
        (layout_union_loop cfg get_type_size get_type_alignment next size alignment).map
          (fun r => (entry :: r.1, r.2))
      else
        match skip_typeref entry.type with
        | none => none
        | some skipped =>
          if !is_type_valid skipped then
            (layout_union_loop cfg get_type_size get_type_alignment next size alignment).map
              (fun r => (entry :: r.1, r.2))
          else
            match get_type_size entry.type, get_type_alignment entry.type with
            | some s, some a =>
              let m_size := to_il_size cfg s
              let size := if m_size > size then m_size else size
              let m_alignment := to_il_alignment cfg a
              let alignment := if m_alignment > alignment then m_alignment else alignment
              (layout_union_loop cfg get_type_size get_type_alignment next size alignment).map
                (fun r => ({ entry with offset := 0 } :: r.1, r.2))
            | _, _ => none

/-- Layout of a union (`layout_union_type`). -/
def layout_union_type (cfg : config_t)
    (get_type_size get_type_alignment : type_t → Option Nat) (compound : compound_t) :
    Option compound_t :=
  if !compound.complete then some compound
  else
    match layout_union_loop cfg get_type_size get_type_alignment compound.members 0
        compound.alignment with
    | none => none
    | some (members, size, alignment) =>
      some { compound with
             members := members, size := align_expr cfg size alignment, alignment := alignment }

mutual
/-- Size of a type in bytes (`get_type_size`).  `compounds` maps the number
of a compound entity to the entity; the first argument bounds the depth of
the recursion. -/
def get_type_size (cfg : config_t) (compounds : Nat → compound_t) : Nat → type_t → Option Nat
  | 0, _ => none
  | fuel + 1, type =>
    match type with
    | .invalid _ => none
    | .error _ => some 0
    | .atomic _ akind => some (get_atomic_type_size cfg akind)
    | .complex _ akind => some (to_unsigned (get_atomic_type_size cfg akind * 2))
    | .imaginary _ akind => some (get_atomic_type_size cfg akind)
    | .compound_union _ compound =>
        match layout_union_type cfg (fun t => get_type_size cfg compounds fuel t)
            (fun t => get_type_alignment cfg compounds fuel t) (compounds compound) with
        | none => none
        | some c => some c.size
    | .compound_struct _ compound =>
        match layout_struct_type cfg (fun t => get_type_size cfg compounds fuel t)
            (fun t => get_type_alignment cfg compounds fuel t) (compounds compound) with
        | none => none
        | some (c, _) => some c.size
    | .enumt _ _ akind => some (get_atomic_type_size cfg akind)
    | .function _ _ _ _ _ _ _ _ _ => some 0
    | .reference _ _ => some 4
    | .pointer _ _ _ => some 4
    | .array _ element_type size _ _ _ =>
        match get_type_size cfg compounds fuel element_type with
        | none => none
        | some s => some (to_unsigned (size * to_il_size cfg s))
    | .bitfield _ _ _ => some 0
    | .builtin _ _ real_type => get_type_size cfg compounds fuel real_type
    | .typedeft _ typedefe_type _ _ => get_type_size cfg compounds fuel typedefe_type
    | .typeoft _ (.ptr typeof_type) _ => get_type_size cfg compounds fuel typeof_type
    | .typeoft _ .null (.ptr expression_type) => get_type_size cfg compounds fuel expression_type
    | .typeoft _ .null .null => none
/-- Alignment of a type in bytes (`get_type_alignment`). -/
def get_type_alignment (cfg : config_t) (compounds : Nat → compound_t) :
    Nat → type_t → Option Nat
  | 0, _ => none
  | fuel + 1, type =>
    match type with
    | .invalid _ => none
    | .error _ => some 0
    | .atomic _ akind => some (get_atomic_type_alignment cfg akind)
    | .complex _ akind => some (get_atomic_type_alignment cfg akind)
    | .imaginary _ akind => some (get_atomic_type_alignment cfg akind)
    | .compound_union _ compound =>
        match layout_union_type cfg (fun t => get_type_size cfg compounds fuel t)
            (fun t => get_type_alignment cfg compounds fuel t) (compounds compound) with
        | none => none
        | some c => some c.alignment
    | .compound_struct _ compound =>
        match layout_struct_type cfg (fun t => get_type_size cfg compounds fuel t)
            (fun t => get_type_alignment cfg compounds fuel t) (compounds compound) with
        | none => none
        | some (c, _) => some c.alignment
    | .enumt _ _ akind => some (get_atomic_type_alignment cfg akind)
    | .function _ _ _ _ _ _ _ _ _ => some 4
    | .reference _ _ => some 4
    | .pointer _ _ _ => some 4
    | .array _ element_type _ _ _ _ => get_type_alignment cfg compounds fuel element_type
    | .bitfield _ _ _ => some 0
    | .builtin _ _ real_type => get_type_alignment cfg compounds fuel real_type
    | .typedeft _ typedefe_type typedefe_alignment _ =>
        match get_type_alignment cfg compounds fuel typedefe_type with
        | none => none
        | some a =>
            let alignment := to_il_alignment cfg a
            some (if typedefe_alignment > alignment then typedefe_alignment else alignment)
    | .typeoft _ (.ptr typeof_type) _ => get_type_alignment cfg compounds fuel typeof_type
    | .typeoft _ .null (.ptr expression_type) =>
        get_type_alignment cfg compounds fuel expression_type
    | .typeoft _ .null .null => none
end

/-! ## Hash-consing of type nodes, at the level of pointers -/

/-- A type node as the constructors of `type.c` lay it out in memory: the
types it refers to are held as addresses of other nodes.  The variants are
those built by `make_atomic_type`, `make_complex_type`,
`make_imaginary_type`, `make_pointer_type`, `make_based_pointer_type`,
`make_reference_type` and `make_array_type`. -/
inductive type_node
  | atomic (qualifiers : Nat) (akind : atomic_type_kind_t)
  | complex (qualifiers : Nat) (akind : atomic_type_kind_t)
  | imaginary (qualifiers : Nat) (akind : atomic_type_kind_t)
  | pointer (qualifiers : Nat) (points_to : Nat) (base_variable : Option Nat)
  | reference (qualifiers : Nat) (refers_to : Nat)
  | array (qualifiers : Nat) (element_type : Nat) (size : Nat) (size_constant : Bool)
  deriving DecidableEq, Repr

/-- The memory of the type module: the obstack `type_obst`, in which the
address of a node is its position, and the hash table `typehash`, the
addresses of the identified nodes. -/
structure type_store where
  type_obst : List type_node
  typehash : List Nat
  deriving DecidableEq, Repr

/-- The call `obstack_alloc(type_obst, ...)` followed by the initialisation
of the new node: the address of the node and the new memory. -/
def obstack_alloc (store : type_store) (node : type_node) : Nat × type_store :=
  (store.type_obst.length, { store with type_obst := store.type_obst ++ [node] })

/-- The call `obstack_free(type_obst, type)`: the node at `type` and all
nodes allocated after it are released. -/
def obstack_free (store : type_store) (type : Nat) : type_store :=
  { store with type_obst := store.type_obst.take type }

/-- Modelled from the spec: `typehash_insert` of the type hash table, which
is not among the sources: it "looks up a structurally-equal existing type;
returns it if found, otherwise adds `t` and returns `t`", where "structural
equality covers the variant payload and the qualifier bitset". -/
def typehash_insert (store : type_store) (type : Nat) : Nat × type_store :=
  match store.typehash.find? (fun existing => store.type_obst[existing]? == store.type_obst[type]?) with
  | some existing => (existing, store)
  | none => (type, { store with typehash := store.typehash ++ [type] })

/-- Hash the given type and return the "singleton" version of it
(`identify_new_type`). -/
def identify_new_type (store : type_store) (type : Nat) : Nat × type_store :=
  let inserted := typehash_insert store type
  if inserted.1 ≠ type then (inserted.1, obstack_free inserted.2 type)
  else inserted

/-- The common shape of the type constructors: allocate a node, fill it in
and identify it. -/
def make_type (store : type_store) (node : type_node) : Nat × type_store :=
  let allocated := obstack_alloc store node
  identify_new_type allocated.2 allocated.1

/-- Creates a new atomic type (`make_atomic_type`). -/
def make_atomic_type (store : type_store) (akind : atomic_type_kind_t) (qualifiers : Nat) :
    Nat × type_store :=
  make_type store (.atomic qualifiers akind)

/-- Creates a new pointer type (`make_pointer_type`). -/
def make_pointer_type (store : type_store) (points_to : Nat) (qualifiers : Nat) :
    Nat × type_store :=
  make_type store (.pointer qualifiers points_to none)

/-- Creates a new based pointer type (`make_based_pointer_type`). -/
def make_based_pointer_type (store : type_store) (points_to : Nat) (qualifiers : Nat)
    (base_variable : Nat) : Nat × type_store :=
  make_type store (.pointer qualifiers points_to (some base_variable))

/-- Creates a new reference type (`make_reference_type`). -/
def make_reference_type (store : type_store) (refers_to : Nat) : Nat × type_store :=
  make_type store (.reference 0 refers_to)

/-- Creates a new array type of constant size (`make_array_type`). -/
def make_array_type (store : type_store) (element_type : Nat) (size : Nat) (qualifiers : Nat) :
    Nat × type_store :=
  make_type store (.array qualifiers element_type size true)

/-- The memory is consistent: every address of the hash table lies in the
obstack, and no two addresses of the table hold structurally equal nodes. -/
def type_store.consistent (store : type_store) : Prop :=
  (∀ a ∈ store.typehash, a < store.type_obst.length) ∧
  (∀ a ∈ store.typehash, ∀ b ∈ store.typehash,
    store.type_obst[a]? = store.type_obst[b]? → a = b)

/-! ## Notions used to state the properties of the type operations -/

/-- The resolved-type cache of the typedef that ends the walk of
`skip_typeref`, when that typedef has one, holds a resolved type (no
typeref). -/
def typeref_cache_resolved : type_t → Bool
  | .typedeft _ _ _ (.ptr resolved) => !is_typeref resolved
  | .typedeft _ typedefe_type _ .null => typeref_cache_resolved typedefe_type
  | .typeoft _ (.ptr typeof_type) _ => typeref_cache_resolved typeof_type
  | _ => true

/-- The type in which the chain of typerefs starting at a type ends: a
typedef leads to its resolved-type cache when that is set and to the type of
its entity otherwise, a typeof leads to its type; `none` when a typeof
without a type is met. -/
def typeref_chain_end : type_t → Option type_t
  | .typedeft _ _ _ (.ptr resolved) => some resolved
  | .typedeft _ typedefe_type _ .null => typeref_chain_end typedefe_type
  | .typeoft _ (.ptr typeof_type) _ => typeref_chain_end typeof_type
  | .typeoft _ .null _ => none
  | type => some type

/-- The union of the qualifier sets of the typerefs of the chain. -/
def typeref_chain_qualifiers : type_t → Nat
  | .typedeft q _ _ (.ptr _) => q
  | .typedeft q typedefe_type _ .null => q ||| typeref_chain_qualifiers typedefe_type
  | .typeoft q (.ptr typeof_type) _ => q ||| typeref_chain_qualifiers typeof_type
  | _ => 0

/-- `duplicate_type` succeeds on the type that ends the chain and, when that
is an array, on its element type. -/
def clone_possible : type_t → Bool
  | .array _ element_type _ _ _ _ => get_type_struct_size_known element_type.kind
  | type => get_type_struct_size_known type.kind

/-- The type `u` with the qualifier set `qualifiers` added the way the claim
words it: onto the element type when `u` is an array, onto `u` otherwise. -/
def add_chain_qualifiers (u : type_t) (qualifiers : Nat) : type_t :=
  match u with
  | .array q element_type size size_constant size_expression is_vla =>
      .array q (element_type.set_qualifiers (element_type.qualifiers ||| qualifiers))
        size size_constant size_expression is_vla
  | _ => u.set_qualifiers (u.qualifiers ||| qualifiers)

/-- The calling convention that takes part in the comparison: the default
convention stands for `default_calling_convention`. -/
def effective_calling_convention (cfg : config_t) (cc : cc_kind_t) : cc_kind_t :=
  if cc = .CC_DEFAULT then cfg.default_calling_convention else cc

/-- One pair of parameter types is compatible after `skip_typeref` and the
removal of the top-level qualifiers. -/
def parameter_pair_compatible (tc : type_t → type_t → Option Bool) (type1 type2 : type_t) :
    Prop :=
  ∃ p1 p2 u1 u2, skip_typeref type1 = some p1 ∧ skip_typeref type2 = some p2 ∧
    get_unqualified_type p1 = some u1 ∧ get_unqualified_type p2 = some u2 ∧
    tc u1 u2 = some true

/-- The check of one pair of parameter types returns a verdict. -/
def parameter_pair_checked (tc : type_t → type_t → Option Bool) (type1 type2 : type_t) :
    Prop :=
  ∃ p1 p2 u1 u2 r, skip_typeref type1 = some p1 ∧ skip_typeref type2 = some p2 ∧
    get_unqualified_type p1 = some u1 ∧ get_unqualified_type p2 = some u2 ∧
    tc u1 u2 = some r

/-- The two parameter lists have the same length and each pair of parameter
types is compatible. -/
def parameters_pairwise_compatible (tc : type_t → type_t → Option Bool) :
    function_parameter_t → function_parameter_t → Prop
  | .null, .null => True
  | .param type1 next1, .param type2 next2 =>
      parameter_pair_compatible tc type1 type2 ∧ parameters_pairwise_compatible tc next1 next2
  | .null, .param _ _ => False
  | .param _ _, .null => False

/-- Every pair of corresponding parameter types can be checked. -/
def parameters_checked (tc : type_t → type_t → Option Bool) :
    function_parameter_t → function_parameter_t → Prop
  | .param type1 next1, .param type2 next2 =>
      parameter_pair_checked tc type1 type2 ∧ parameters_checked tc next1 next2
  | _, _ => True

/-! ## Example inputs -/

/-- A 32 bit little-endian configuration; `il_size_t` and `il_alignment_t`
are taken to be 32 bits wide. -/
def example_config : config_t :=
  { machine_size := 32, char_is_signed := true, byte_order_big_endian := false,
    wchar_atomic_kind := .ATOMIC_TYPE_INT, force_long_double_size := 0,
    default_calling_convention := .CC_CDECL, il_size_bits := 32, il_alignment_bits := 32,
    warning_padded := true, warning_packed := true }

/-- The type `int`. -/
def example_int : type_t := .atomic TYPE_QUALIFIER_NONE .ATOMIC_TYPE_INT

/-- The type `const int`. -/
def example_const_int : type_t := .atomic TYPE_QUALIFIER_CONST .ATOMIC_TYPE_INT

/-- The type `unsigned`. -/
def example_unsigned : type_t := .atomic TYPE_QUALIFIER_NONE .ATOMIC_TYPE_UINT

/-- The type `char`. -/
def example_char : type_t := .atomic TYPE_QUALIFIER_NONE .ATOMIC_TYPE_CHAR

/-- The type `const T` for `typedef typeof(volatile int[3]) T`, the typeof
carrying `volatile`. -/
def example_typedef_array : type_t :=
  .typedeft TYPE_QUALIFIER_CONST
    (.typeoft TYPE_QUALIFIER_VOLATILE (.ptr (.array 0 example_int 3 true none false)) .null)
    0 .null

/-- The type `const R` for `typedef int &R`. -/
def example_typedef_reference : type_t :=
  .typedeft TYPE_QUALIFIER_CONST (.reference 0 example_int) 0 .null

/-- The type memory after `make_atomic_type(ATOMIC_TYPE_INT, none)` and
`make_atomic_type(ATOMIC_TYPE_INT, const)`: `int` at address 0 and
`const int` at address 1. -/
def example_store : type_store :=
  (make_atomic_type (make_atomic_type ⟨[], []⟩ .ATOMIC_TYPE_INT TYPE_QUALIFIER_NONE).2
    .ATOMIC_TYPE_INT TYPE_QUALIFIER_CONST).2

/-! ## Notions used to state the properties of the layout engine -/

/-- The smallest multiple of `a` that is not below `n`; `n` itself when `a`
is zero. -/
def round_up (n a : Nat) : Nat :=
  if a = 0 then n else (n + a - 1) / a * a

/-- A member the struct loop lays out as an ordinary member: an entity of
kind compound member whose type, typerefs skipped, is valid and no
bit-field, and whose size and alignment are `size_of` and `alignment_of`. -/
def plain_member (get_type_size get_type_alignment : type_t → Option Nat)
    (size_of alignment_of : type_t → Nat) (m : entity_t) : Prop :=
  (∃ skipped, skip_typeref m.type = some skipped ∧ is_type_valid skipped = true ∧
    skipped.kind ≠ .TYPE_BITFIELD) ∧
  get_type_size m.type = some (size_of m.type) ∧
  get_type_alignment m.type = some (alignment_of m.type)

/-- The members with the offsets the claim describes, starting behind a free
byte `e`: each member gets the smallest multiple of its alignment that is not
below the end of the previous member.  Entities that are no compound members
are passed over. -/
def struct_member_offsets (size_of alignment_of : type_t → Nat) :
    Nat → List entity_t → List entity_t
  | _, [] => []
  | e, m :: rest =>
      if m.kind = .ENTITY_COMPOUND_MEMBER then
        { m with offset := round_up e (alignment_of m.type) } ::
          struct_member_offsets size_of alignment_of
            (round_up e (alignment_of m.type) + size_of m.type) rest
      else m :: struct_member_offsets size_of alignment_of e rest

/-- The end (offset + size) of the last member under `struct_member_offsets`. -/
def struct_members_end (size_of alignment_of : type_t → Nat) : Nat → List entity_t → Nat
  | e, [] => e
  | e, m :: rest =>
      if m.kind = .ENTITY_COMPOUND_MEMBER then
        struct_members_end size_of alignment_of
          (round_up e (alignment_of m.type) + size_of m.type) rest
      else struct_members_end size_of alignment_of e rest

/-- The maximum of `a` and the alignments of the members. -/
def struct_members_alignment (alignment_of : type_t → Nat) : Nat → List entity_t → Nat
  | a, [] => a
  | a, m :: rest =>
      if m.kind = .ENTITY_COMPOUND_MEMBER then
        struct_members_alignment alignment_of (max a (alignment_of m.type)) rest
      else struct_members_alignment alignment_of a rest

/-- The sum of the sizes of the members. -/
def struct_members_size (size_of : type_t → Nat) : List entity_t → Nat
  | [] => 0
  | m :: rest =>
      if m.kind = .ENTITY_COMPOUND_MEMBER then size_of m.type + struct_members_size size_of rest
      else struct_members_size size_of rest

/-- The members of a packed struct with the offsets the code records: the
sum `e` of the sizes of the preceding members, reduced to `il_size_t` and
stored in the `unsigned short` offset field. -/
def packed_member_offsets (cfg : config_t) (size_of : type_t → Nat) :
    Nat → List entity_t → List entity_t
  | _, [] => []
  | e, m :: rest =>
      if m.kind = .ENTITY_COMPOUND_MEMBER then
        { m with offset := to_ushort (to_il_size cfg e) } ::
          packed_member_offsets cfg size_of (e + size_of m.type) rest
      else m :: packed_member_offsets cfg size_of e rest

/-- The maximum of `a` and the alignments of the members as the code reads
them, reduced to `il_alignment_t`. -/
def packed_members_alignment (cfg : config_t) (alignment_of : type_t → Nat) :
    Nat → List entity_t → Nat
  | a, [] => a
  | a, m :: rest =>
      if m.kind = .ENTITY_COMPOUND_MEMBER then
        packed_members_alignment cfg alignment_of
          (max a (to_il_alignment cfg (alignment_of m.type))) rest
      else packed_members_alignment cfg alignment_of a rest

/-- The bucket property of a recorded bit-field member: when the declared
width does not exceed the width of the base type, the bit-field lies inside
one unit of the base type, `bit_offset + bit_size <= base_size * 8`.  The
width of the base type is `get_type_size(base_type) * BITS_PER_BYTE`, an
`unsigned`, as the packers compute it. -/
def bitfield_in_bucket (get_type_size : type_t → Option Nat) (m : entity_t) : Prop :=
  m.kind = .ENTITY_COMPOUND_MEMBER →
    ∀ q base_type bit_size, m.type = .bitfield q base_type bit_size →
      ∀ base s, skip_typeref base_type = some base → get_type_size base = some s →
        bit_size ≤ to_unsigned (s * BITS_PER_BYTE) →
        m.bit_offset + bit_size ≤ to_unsigned (s * BITS_PER_BYTE)

/-- Where the claim puts a bit-field of width `w` when `p` is the first free
bit (counted from the start of the struct) and the base type has `s` bytes:
at `p` when the bit-field fits into the `s`-byte aligned unit that holds bit
`p`, and otherwise at bit 0 of the next unit.  The result is the byte offset
of the unit and the bit position inside it. -/
def bitfield_place (s w p : Nat) : Nat × Nat :=
  if p % (8 * s) + w ≤ 8 * s then (p / (8 * s) * s, p % (8 * s))
  else (p / (8 * s) * s + s, 0)

/-- The first free bit behind a bit-field placed by `bitfield_place`. -/
def bitfield_after (s w p : Nat) : Nat :=
  8 * (bitfield_place s w p).1 + (bitfield_place s w p).2 + w

/-- A run of bit-field members with the offsets of `bitfield_place`, the
first free bit being `p`. -/
def bitfield_run_offsets (s : Nat) : Nat → List entity_t → List entity_t
  | _, [] => []
  | p, m :: rest =>
      match m.type with
      | .bitfield _ _ w =>
          { m with offset := (bitfield_place s w p).1, bit_offset := (bitfield_place s w p).2 } ::
            bitfield_run_offsets s (bitfield_after s w p) rest
      | _ => m :: bitfield_run_offsets s p rest

/-- The first free bit behind a run of bit-field members. -/
def bitfield_run_end (s : Nat) : Nat → List entity_t → Nat
  | p, [] => p
  | p, m :: rest =>
      match m.type with
      | .bitfield _ _ w => bitfield_run_end s (bitfield_after s w p) rest
      | _ => bitfield_run_end s p rest

/-- A bit-field member of the run the claim speaks of: its base type has
size `s` and alignment `s`, and its width `w` satisfies `0 < w <= 8*s`. -/
def run_member (get_type_size get_type_alignment : type_t → Option Nat) (s : Nat)
    (m : entity_t) : Prop :=
  m.kind = .ENTITY_COMPOUND_MEMBER ∧
  ∃ q base_type w base, m.type = .bitfield q base_type w ∧ 0 < w ∧ w ≤ 8 * s ∧
    skip_typeref base_type = some base ∧
    get_type_size base = some s ∧ get_type_alignment base = some s

/-- The entities behind the run: none, or a compound member that is no
bit-field first. -/
def run_tail (tail : List entity_t) : Prop :=
  tail = [] ∨ ∃ t rest, tail = t :: rest ∧ t.kind = .ENTITY_COMPOUND_MEMBER ∧
    ∀ q b w, t.type ≠ .bitfield q b w

/-- The members of a union with the offset the code records: 0 for every
compound member. -/
def union_member_offsets : List entity_t → List entity_t
  | [] => []
  | m :: rest =>
      if m.kind = .ENTITY_COMPOUND_MEMBER then { m with offset := 0 } :: union_member_offsets rest
      else m :: union_member_offsets rest

/-- The maximum of `n` and the sizes of the members. -/
def union_members_size (size_of : type_t → Nat) : Nat → List entity_t → Nat
  | n, [] => n
  | n, m :: rest =>
      if m.kind = .ENTITY_COMPOUND_MEMBER then
        union_members_size size_of (max n (size_of m.type)) rest
      else union_members_size size_of n rest

/-- A member the union loop lays out: an entity of kind compound member
whose type, typerefs skipped, is valid, and whose size and alignment are
`size_of` and `alignment_of`. -/
def union_member (get_type_size get_type_alignment : type_t → Option Nat)
    (size_of alignment_of : type_t → Nat) (m : entity_t) : Prop :=
  (∃ skipped, skip_typeref m.type = some skipped ∧ is_type_valid skipped = true) ∧
  get_type_size m.type = some (size_of m.type) ∧
  get_type_alignment m.type = some (alignment_of m.type)

/-! ## Example structs and unions -/

/-- No compound entity is referenced by the example types. -/
def example_compounds : Nat → compound_t :=
  fun _ => ⟨[], 0, false, false, false, false, 0, 0⟩

/-- The function `get_type_size` under `example_config`. -/
def example_get_type_size : type_t → Option Nat :=
  get_type_size example_config example_compounds 2

/-- The function `get_type_alignment` under `example_config`. -/
def example_get_type_alignment : type_t → Option Nat :=
  get_type_alignment example_config example_compounds 2

/-- The size of a type under `example_config`, 0 where undefined. -/
def example_size_of (type : type_t) : Nat := (example_get_type_size type).getD 0

/-- The alignment of a type under `example_config`, 0 where undefined. -/
def example_alignment_of (type : type_t) : Nat := (example_get_type_alignment type).getD 0

/-- A compound member of the given type, not yet laid out. -/
def example_member (type : type_t) : entity_t := ⟨.ENTITY_COMPOUND_MEMBER, type, 0, 0⟩

/-- A bit-field member `unsigned : bit_size`, not yet laid out. -/
def example_bitfield (bit_size : Nat) : entity_t :=
  example_member (.bitfield TYPE_QUALIFIER_NONE example_unsigned bit_size)

/-- A complete compound that is not yet laid out. -/
def example_compound (members : List entity_t) (packed : Bool) : compound_t :=
  ⟨members, 0, false, true, false, packed, 0, 0⟩

/-- The struct `struct S { char a; int b; char c; }`. -/
def example_struct_S : compound_t :=
  example_compound [example_member example_char, example_member example_int,
    example_member example_char] false

/-- The struct `struct __attribute__((packed)) P { char a; int b; }`. -/
def example_struct_P : compound_t :=
  example_compound [example_member example_char, example_member example_int] true

/-- The bit-fields `unsigned x:3; unsigned y:5; unsigned z:9;`. -/
def example_bitfields : List entity_t :=
  [example_bitfield 3, example_bitfield 5, example_bitfield 9]

/-- The struct `struct B { unsigned x:3; unsigned y:5; unsigned z:9; }`. -/
def example_struct_B : compound_t := example_compound example_bitfields false

/-- The struct `struct __attribute__((packed)) { unsigned a:1; unsigned b:32; }`. -/
def example_struct_packed_bits : compound_t :=
  example_compound [example_bitfield 1, example_bitfield 32] true

/-- The struct `struct { char a[65536]; unsigned x:3; }`. -/
def example_struct_far : compound_t :=
  example_compound
    [example_member (.array TYPE_QUALIFIER_NONE example_char 65536 true none false),
      example_bitfield 3] false

/-- The union `union U { char c; int i; }`. -/
def example_union_U : compound_t :=
  example_compound [example_member example_char, example_member example_int] false

/-- The struct `struct { char a; unsigned x:3; int b; }`. -/
def example_struct_mixed : compound_t :=
  example_compound [example_member example_char, example_bitfield 3,
    example_member example_int] false

/-- The type whose size and alignment the layout engine uses for a member:
the type of the member, and for a bit-field its base type with typerefs
skipped. -/
def member_unit_type (m : entity_t) : type_t :=
  match m.type with
  | .bitfield _ base_type _ => (skip_typeref base_type).getD base_type
  | type => type

/-- A member the layout engine can lay out, with the size and alignment
`size_of` and `alignment_of` of its unit type: an ordinary member of valid
type, or a bit-field whose width does not exceed the width of its base type
(the size of the bit-field type itself is 0). -/
def layout_member (get_type_size get_type_alignment : type_t → Option Nat)
    (size_of alignment_of : type_t → Nat) (m : entity_t) : Prop :=
  get_type_size (member_unit_type m) = some (size_of (member_unit_type m)) ∧
  get_type_alignment (member_unit_type m) = some (alignment_of (member_unit_type m)) ∧
  match m.type with
  | .bitfield _ base_type bit_size =>
      (∃ base, skip_typeref base_type = some base) ∧ size_of m.type = 0 ∧
      bit_size ≤ 8 * size_of (member_unit_type m) ∧
      8 * size_of (member_unit_type m) < 4294967296
  | type =>
      ∃ skipped, skip_typeref type = some skipped ∧ is_type_valid skipped = true ∧
        skipped.kind ≠ .TYPE_BITFIELD

/-- An upper bound of the bytes a struct can take: the sizes and alignments
of the unit types of all members, and the largest alignment, `a` included. -/
def struct_room (size_of alignment_of : type_t → Nat) : Nat → List entity_t → Nat
  | a, [] => a
  | a, m :: rest =>
      if m.kind = .ENTITY_COMPOUND_MEMBER then
        size_of (member_unit_type m) + alignment_of (member_unit_type m) +
          struct_room size_of alignment_of (max a (alignment_of (member_unit_type m))) rest
      else struct_room size_of alignment_of a rest

/-! ## Qualified types -/

/-- Adds qualifiers to a type (`get_qualified_type`); for an array the
element type is adjusted.  The first argument bounds the depth of the
recursion through nested arrays.  The test `qual_element_type ==
element_type` compares the canonical nodes, which in the by-value model is
equality of the types; `identify_new_type` returns the canonical node of the
copy, which is the copy. -/
def get_qualified_type : Nat → type_t → Nat → Option type_t
  | 0, _, _ => none
  | fuel + 1, orig_type, qual =>
    match skip_typeref orig_type with
    | none => none
    | some type =>
      if is_type_array type then
        match type with
        | .array q element_type size size_constant size_expression is_vla =>
          match get_qualified_type fuel element_type qual with
          | none => none
          | some qual_element_type =>
            if qual_element_type = element_type then some orig_type
            else
              match duplicate_type type with
              | none => none
              | some _ =>
                some (.array q qual_element_type size size_constant size_expression is_vla)
        | _ => none
      else if is_type_valid type then
        if type.qualifiers &&& qual = qual then some orig_type
        else
          match duplicate_type type with
          | none => none
          | some copy => some (copy.set_qualifiers (copy.qualifiers ||| qual))
      else some type

/-- The resolved type carries every qualifier of `qual`; for an array its
element type does.  The first argument bounds the number of array levels. -/
def qualifiers_carried : Nat → type_t → Nat → Bool
  | 0, _, _ => false
  | depth + 1, type, qual =>
    match skip_typeref type with
    | none => false
    | some (.array _ element_type _ _ _ _) => qualifiers_carried depth element_type qual
    | some resolved => is_type_valid resolved && (resolved.qualifiers &&& qual == qual)

/-- Every array level of the type resolves, and the innermost element type
resolves to a valid type, no typeref, that `duplicate_type` copies.  The
first argument bounds the number of array levels. -/
def array_qualifiable : Nat → type_t → Bool
  | 0, _ => false
  | depth + 1, type =>
    match skip_typeref type with
    | none => false
    | some (.array _ element_type _ _ _ _) => array_qualifiable depth element_type
    | some resolved =>
        is_type_valid resolved && !is_typeref resolved &&
          get_type_struct_size_known resolved.kind

/-- The type `T` for `typedef <error> T`: a typedef of the error type. -/
def example_typedef_error : type_t := .typedeft TYPE_QUALIFIER_NONE (.error 0) 0 .null

/-- The array type `int[3]`. -/
def example_int_array : type_t := .array TYPE_QUALIFIER_NONE example_int 3 true none false

/-- The type `A` for `typedef int A[2][3]`. -/
def example_typedef_matrix : type_t :=
  .typedeft TYPE_QUALIFIER_NONE
    (.array TYPE_QUALIFIER_NONE example_int_array 2 true none false) 0 .null

/-- An array of three elements of the error type. -/
def example_error_array : type_t := .array TYPE_QUALIFIER_NONE (.error 0) 3 true none false

/-! ## Type predicates used by the constant classifier -/

/-- Modelled from the spec: `is_type_pointer` of the header `type_t.h`, which
is not among the sources. -/
def is_type_pointer (type : type_t) : Bool :=
  type.kind = .TYPE_POINTER

/-- Modelled from the spec: `is_type_function` of the header `type_t.h`,
which is not among the sources. -/
def is_type_function (type : type_t) : Bool :=
  type.kind = .TYPE_FUNCTION

/-- Tests a flag of an atomic kind (`test_atomic_type_flag`). -/
def test_atomic_type_flag (cfg : config_t) (kind : atomic_type_kind_t) (flag : Nat) : Bool :=
  (get_atomic_type_flags cfg kind &&& flag) ≠ 0

/-- Returns true if the given type is an integer type (`is_type_integer`);
the function asserts that its argument is no typeref. -/
def is_type_integer (cfg : config_t) (type : type_t) : Option Bool :=
  if is_typeref type then none
  else if type.kind = .TYPE_ENUM then some true
  else if type.kind = .TYPE_BITFIELD then some true
  else
    match type with
    | .atomic _ akind => some (test_atomic_type_flag cfg akind ATOMIC_TYPE_FLAG_INTEGER)
    | _ => some false

/-- Returns true if the given type is a floating point type
(`is_type_float`). -/
def is_type_float (cfg : config_t) (type : type_t) : Option Bool :=
  if is_typeref type then none
  else
    match type with
    | .atomic _ akind => some (test_atomic_type_flag cfg akind ATOMIC_TYPE_FLAG_FLOAT)
    | _ => some false

/-- Returns true if the given type represents an arithmetic type
(`is_type_arithmetic`). -/
def is_type_arithmetic (cfg : config_t) (type : type_t) : Option Bool :=
  if is_typeref type then none
  else
    match type with
    | .bitfield _ _ _ => some true
    | .enumt _ _ _ => some true
    | .atomic _ akind => some (test_atomic_type_flag cfg akind ATOMIC_TYPE_FLAG_ARITHMETIC)
    | .complex _ akind => some (test_atomic_type_flag cfg akind ATOMIC_TYPE_FLAG_ARITHMETIC)
    | .imaginary _ akind => some (test_atomic_type_flag cfg akind ATOMIC_TYPE_FLAG_ARITHMETIC)
    | _ => some false

/-- Returns true if the given type represents a scalar type
(`is_type_scalar`). -/
def is_type_scalar (cfg : config_t) : type_t → Option Bool
  | .pointer _ _ _ => some true
  | .builtin _ _ real_type => is_type_scalar cfg real_type
  | type => is_type_arithmetic cfg type

/-- The atomic kind as wide as a pointer (`get_intptr_kind`). -/
def get_intptr_kind (cfg : config_t) : atomic_type_kind_t :=
  if cfg.machine_size ≤ 32 then .ATOMIC_TYPE_INT
  else if cfg.machine_size ≤ 64 then .ATOMIC_TYPE_LONG
  else .ATOMIC_TYPE_LONGLONG

/-! ## Expressions -/

/-- Storage classes (`storage_class_tag_t`). -/
inductive storage_class_tag_t
  | STORAGE_CLASS_NONE
  | STORAGE_CLASS_EXTERN
  | STORAGE_CLASS_STATIC
  | STORAGE_CLASS_TYPEDEF
  | STORAGE_CLASS_AUTO
  | STORAGE_CLASS_REGISTER
  deriving DecidableEq, Repr

/-- GNU builtin or MS intrinsic functions (`builtin_kind_t`), as far as the
classifier tells them apart: the kinds named in `is_builtin_const_call`, and
`bk_other` for every other builtin. -/
inductive builtin_kind_t
  | bk_none
  | bk_gnu_builtin_huge_val
  | bk_gnu_builtin_huge_valf
  | bk_gnu_builtin_huge_vall
  | bk_gnu_builtin_inf
  | bk_gnu_builtin_inff
  | bk_gnu_builtin_infl
  | bk_gnu_builtin_nan
  | bk_gnu_builtin_nanf
  | bk_gnu_builtin_nanl
  | bk_other
  deriving DecidableEq, Repr

/-- An entity as an expression refers to it, with the fields the classifier
and the format checker read: `base.kind`, `declaration.type`,
`declaration.storage_class`, `variable.thread_local`, `function.btk` and
`base.symbol` (possibly `NULL`). -/
structure declaration_t where
  kind : entity_kind_t
  type : type_t
  storage_class : storage_class_tag_t := .STORAGE_CLASS_NONE
  thread_local : Bool := false
  btk : builtin_kind_t := .bk_none
  symbol : Option String := none
  deriving DecidableEq, Repr

/-- Is the entity a declaration (`is_declaration`): a function, variable,
parameter or compound member. -/
def is_declaration (entity : declaration_t) : Bool :=
  match entity.kind with
  | .ENTITY_FUNCTION => true
  | .ENTITY_VARIABLE => true
  | .ENTITY_PARAMETER => true
  | .ENTITY_COMPOUND_MEMBER => true
  | _ => false

/-- A string with its size (`string_t`); the size counts the terminating
NUL. -/
structure string_t where
  begin_chars : List Nat
  size : Nat
  deriving DecidableEq, Repr

/-- The part of an expression node shared by all kinds (`expression_base_t`
without the kind): the type of the expression. -/
structure expression_base_t where
  type : type_t
  parenthesized : Bool := false
  deriving DecidableEq, Repr

/-- Modelled from the spec: the literal kinds, the cases of the macro
`EXPR_LITERAL_CASES` of the header `ast_t.h`, which is not among the
sources. -/
inductive literal_kind_t
  | EXPR_LITERAL_BOOLEAN
  | EXPR_LITERAL_INTEGER
  | EXPR_LITERAL_INTEGER_OCTAL
  | EXPR_LITERAL_INTEGER_HEXADECIMAL
  | EXPR_LITERAL_FLOATINGPOINT
  | EXPR_LITERAL_FLOATINGPOINT_HEXADECIMAL
  | EXPR_LITERAL_CHARACTER
  | EXPR_LITERAL_WIDE_CHARACTER
  | EXPR_LITERAL_MS_NOOP
  deriving DecidableEq, Repr

/-- The kinds of unary expressions (the cases of `EXPR_UNARY_CASES`). -/
inductive unary_kind_t
  | EXPR_UNARY_NEGATE
  | EXPR_UNARY_PLUS
  | EXPR_UNARY_BITWISE_NEGATE
  | EXPR_UNARY_NOT
  | EXPR_UNARY_DEREFERENCE
  | EXPR_UNARY_TAKE_ADDRESS
  | EXPR_UNARY_POSTFIX_INCREMENT
  | EXPR_UNARY_POSTFIX_DECREMENT
  | EXPR_UNARY_PREFIX_INCREMENT
  | EXPR_UNARY_PREFIX_DECREMENT
  | EXPR_UNARY_CAST
  | EXPR_UNARY_CAST_IMPLICIT
  | EXPR_UNARY_ASSUME
  | EXPR_UNARY_DELETE
  | EXPR_UNARY_DELETE_ARRAY
  | EXPR_UNARY_THROW
  deriving DecidableEq, Repr

/-- The kinds of binary expressions (the cases of `EXPR_BINARY_CASES`). -/
inductive binary_kind_t
  | EXPR_BINARY_ADD
  | EXPR_BINARY_SUB
  | EXPR_BINARY_MUL
  | EXPR_BINARY_DIV
  | EXPR_BINARY_MOD
  | EXPR_BINARY_EQUAL
  | EXPR_BINARY_NOTEQUAL
  | EXPR_BINARY_LESS
  | EXPR_BINARY_LESSEQUAL
  | EXPR_BINARY_GREATER
  | EXPR_BINARY_GREATEREQUAL
  | EXPR_BINARY_BITWISE_AND
  | EXPR_BINARY_BITWISE_OR
  | EXPR_BINARY_BITWISE_XOR
  | EXPR_BINARY_LOGICAL_AND
  | EXPR_BINARY_LOGICAL_OR
  | EXPR_BINARY_SHIFTLEFT
  | EXPR_BINARY_SHIFTRIGHT
  | EXPR_BINARY_ASSIGN
  | EXPR_BINARY_MUL_ASSIGN
  | EXPR_BINARY_DIV_ASSIGN
  | EXPR_BINARY_MOD_ASSIGN
  | EXPR_BINARY_ADD_ASSIGN
  | EXPR_BINARY_SUB_ASSIGN
  | EXPR_BINARY_SHIFTLEFT_ASSIGN
  | EXPR_BINARY_SHIFTRIGHT_ASSIGN
  | EXPR_BINARY_BITWISE_AND_ASSIGN
  | EXPR_BINARY_BITWISE_XOR_ASSIGN
  | EXPR_BINARY_BITWISE_OR_ASSIGN
  | EXPR_BINARY_COMMA
  | EXPR_BINARY_ISGREATER
  | EXPR_BINARY_ISGREATEREQUAL
  | EXPR_BINARY_ISLESS
  | EXPR_BINARY_ISLESSEQUAL
  | EXPR_BINARY_ISLESSGREATER
  | EXPR_BINARY_ISUNORDERED
  deriving DecidableEq, Repr

mutual
/-- An expression (`expression_t`): a node with its kind, its base and the
fields of its kind.  A pointer that may be NULL is an `expression_ptr`. -/
inductive expression_t
  | unknown (base : expression_base_t)
  | invalid (base : expression_base_t)
  | reference (base : expression_base_t) (entity : declaration_t)
  | reference_enum_value (base : expression_base_t) (entity : declaration_t)
  | literal (kind : literal_kind_t) (base : expression_base_t) (value : List Nat)
  | string_literal (base : expression_base_t) (value : string_t)
  | wide_string_literal (base : expression_base_t) (value : string_t)
  | compound_literal (base : expression_base_t) (type : type_t)
      (initializer_value : initializer_t)
  | call (base : expression_base_t) (function : expression_t) (arguments : call_argument_t)
  | conditional (base : expression_base_t) (condition : expression_t)
      (true_expression : expression_ptr) (false_expression : expression_t)
  | select (base : expression_base_t) (compound : expression_t) (compound_entry : Nat)
  | array_access (base : expression_base_t) (array_ref : expression_t) (index : expression_t)
  | sizeof (base : expression_base_t) (type : type_t) (tp_expression : expression_ptr)
  | alignof (base : expression_base_t) (type : type_t) (tp_expression : expression_ptr)
  | classify_type (base : expression_base_t) (type_expression : expression_t)
  | funcname (base : expression_base_t)
  | builtin_constant_p (base : expression_base_t) (value : expression_t)
  | builtin_types_compatible_p (base : expression_base_t) (left right : type_t)
  | offsetof (base : expression_base_t) (type : type_t)
  | va_start (base : expression_base_t) (ap : expression_t)
  | va_arg (base : expression_base_t) (ap : expression_t)
  | va_copy (base : expression_base_t) (dst src : expression_t)
  | statement (base : expression_base_t)
  | label_address (base : expression_base_t)
  | unary (kind : unary_kind_t) (base : expression_base_t) (value : expression_t)
  | binary (kind : binary_kind_t) (base : expression_base_t) (left right : expression_t)
/-- A pointer to an expression, possibly NULL. -/
inductive expression_ptr
  | null
  | ptr (expression : expression_t)
/-- The argument list of a call (`call_argument_t`), linked through `next`;
`null` is the NULL pointer. -/
inductive call_argument_t
  | null
  | argument (expression : expression_t) (next : call_argument_t)
/-- An initializer (`initializer_t`) of one of the five kinds. -/
inductive initializer_t
  | INITIALIZER_VALUE (value : expression_t)
  | INITIALIZER_LIST (initializers : initializer_list_t)
  | INITIALIZER_STRING (string : string_t)
  | INITIALIZER_WIDE_STRING (string : string_t)
  | INITIALIZER_DESIGNATOR
/-- The array `list.initializers` of an initializer list. -/
inductive initializer_list_t
  | nil
  | cons (head : initializer_t) (tail : initializer_list_t)
end

/-- The base of an expression node. -/
def expression_t.base : expression_t → expression_base_t
  | .unknown b => b
  | .invalid b => b
  | .reference b _ => b
  | .reference_enum_value b _ => b
  | .literal _ b _ => b
  | .string_literal b _ => b
  | .wide_string_literal b _ => b
  | .compound_literal b _ _ => b
  | .call b _ _ => b
  | .conditional b _ _ _ => b
  | .select b _ _ => b
  | .array_access b _ _ => b
  | .sizeof b _ _ => b
  | .alignof b _ _ => b
  | .classify_type b _ => b
  | .funcname b => b
  | .builtin_constant_p b _ => b
  | .builtin_types_compatible_p b _ _ => b
  | .offsetof b _ => b
  | .va_start b _ => b
  | .va_arg b _ => b
  | .va_copy b _ _ => b
  | .statement b => b
  | .label_address b => b
  | .unary _ b _ => b
  | .binary _ b _ _ => b

/-- The functions of the parser that the classifier calls and that are not
among the sources: `fold_constant_to_bool` and
`revert_automatic_type_conversion`. -/
structure ast_env_t where
  fold_constant_to_bool : expression_t → Bool
  revert_automatic_type_conversion : expression_t → type_t

/-- The C operator `&&` on two calls that may panic: the right call counts
only when the left call returned true. -/
def c_and (left right : Option Bool) : Option Bool :=
  match left with
  | none => none
  | some false => some false
  | some true => right

/-- The C operator `||` on two calls that may panic: the right call counts
only when the left call returned false. -/
def c_or (left right : Option Bool) : Option Bool :=
  match left with
  | none => none
  | some true => some true
  | some false => right

/-! ## The constant classifier -/

open builtin_kind_t in
/-- Checks if the given expression is a call to a builtin function returning
a constant result (`is_builtin_const_call`). -/
def is_builtin_const_call (expression : expression_t) : Bool :=
  match expression with
  | .call _ (.reference _ entity) _ =>
      if entity.kind ≠ .ENTITY_FUNCTION then false
      else
        match entity.btk with
        | bk_gnu_builtin_huge_val => true
        | bk_gnu_builtin_huge_valf => true
        | bk_gnu_builtin_huge_vall => true
        | bk_gnu_builtin_inf => true
        | bk_gnu_builtin_inff => true
        | bk_gnu_builtin_infl => true
        | bk_gnu_builtin_nan => true
        | bk_gnu_builtin_nanf => true
        | bk_gnu_builtin_nanl => true
        | _ => false
  | _ => false

/-- The test of the cast case of `is_address_constant` that makes it return
false: the destination is no pointer and no integer type as wide as a
pointer. -/
def cast_drops_address (cfg : config_t) (dest : type_t) : Bool :=
  !is_type_pointer dest &&
    (match dest with
     | .atomic _ akind =>
         !(get_atomic_type_flags cfg akind &&& ATOMIC_TYPE_FLAG_INTEGER ≠ 0) ||
           get_atomic_type_size cfg akind < get_atomic_type_size cfg (get_intptr_kind cfg)
     | _ => true)

/-- The classifier functions as one of them calls the others: the calls a
function of the classifier makes go through this record. -/
structure classifier_calls_t where
  is_constant_initializer : initializer_t → Option Bool
  is_constant_initializer_list : initializer_list_t → Option Bool
  is_object_with_linker_constant_address : expression_t → Option Bool
  is_address_constant : expression_t → Option Bool
  is_constant_pointer : expression_t → Option Bool
  is_object_with_constant_address : expression_t → Option Bool
  is_constant_expression : expression_t → Option Bool

open unary_kind_t binary_kind_t in
/-- The body of `is_constant_initializer`; the calls it makes go through
`calls`. -/
def is_constant_initializer_step (calls : classifier_calls_t)
    (initializer_value : initializer_t) : Option Bool :=
  match initializer_value with
  | .INITIALIZER_STRING _ => some true
  | .INITIALIZER_WIDE_STRING _ => some true
  | .INITIALIZER_DESIGNATOR => some true
  | .INITIALIZER_VALUE value => calls.is_constant_expression value
  | .INITIALIZER_LIST initializers => calls.is_constant_initializer_list initializers

open unary_kind_t binary_kind_t in
/-- The loop of `is_constant_initializer` over the initializers of a list,
one iteration with the rest of the loop as a call. -/
def is_constant_initializer_list_step (calls : classifier_calls_t)
    (initializers : initializer_list_t) : Option Bool :=
  match initializers with
  | .nil => some true
  | .cons sub_initializer rest =>
      match calls.is_constant_initializer sub_initializer with
      | none => none
      | some false => some false
      | some true => calls.is_constant_initializer_list rest

open unary_kind_t binary_kind_t in
/-- The body of `is_object_with_linker_constant_address`. -/
def is_object_with_linker_constant_address_step (calls : classifier_calls_t)
    (expression : expression_t) : Option Bool :=
  match expression with
  | .unary EXPR_UNARY_DEREFERENCE _ value => calls.is_address_constant value
  | .select _ compound _ =>
      match skip_typeref compound.base.type with
      | none => none
      | some base_type =>
          if is_type_pointer base_type then calls.is_address_constant compound
          else calls.is_object_with_linker_constant_address compound
  | .array_access _ array_ref index =>
      c_and (calls.is_constant_expression index)
        (calls.is_address_constant array_ref)
  | .reference _ entity =>
      if is_declaration entity then
        match entity.storage_class with
        | .STORAGE_CLASS_NONE =>
            some (entity.kind ≠ .ENTITY_VARIABLE || !entity.thread_local)
        | .STORAGE_CLASS_EXTERN =>
            some (entity.kind ≠ .ENTITY_VARIABLE || !entity.thread_local)
        | .STORAGE_CLASS_STATIC =>
            some (entity.kind ≠ .ENTITY_VARIABLE || !entity.thread_local)
        | .STORAGE_CLASS_REGISTER => some false
        | .STORAGE_CLASS_TYPEDEF => some false
        | .STORAGE_CLASS_AUTO => some false
      else some false
  | _ => some false

open unary_kind_t binary_kind_t in
/-- The body of `is_address_constant`. -/
def is_address_constant_step (cfg : config_t) (env : ast_env_t) (calls : classifier_calls_t)
    (expression : expression_t) : Option Bool :=
  match expression with
  | .string_literal _ _ => some true
  | .wide_string_literal _ _ => some true
  | .funcname _ => some true
  | .label_address _ => some true
  | .unary EXPR_UNARY_TAKE_ADDRESS _ value =>
      calls.is_object_with_linker_constant_address value
  | .unary EXPR_UNARY_DEREFERENCE base value =>
      if is_type_function (env.revert_automatic_type_conversion value) then
        calls.is_address_constant value
      else
        match skip_typeref base.type with
        | none => none
        | some dest =>
            if cast_drops_address cfg dest then some false
            else
              c_or (calls.is_constant_expression value)
                (calls.is_address_constant value)
  | .unary EXPR_UNARY_CAST base value =>
      match skip_typeref base.type with
      | none => none
      | some dest =>
          if cast_drops_address cfg dest then some false
          else
            c_or (calls.is_constant_expression value)
              (calls.is_address_constant value)
  | .binary kind _ left right =>
      if kind = EXPR_BINARY_ADD ∨ kind = EXPR_BINARY_SUB then
        match skip_typeref left.base.type with
        | none => none
        | some left_type =>
            if is_type_pointer left_type then
              c_and (calls.is_address_constant left)
                (calls.is_constant_expression right)
            else
              match skip_typeref right.base.type with
              | none => none
              | some right_type =>
                  if is_type_pointer right_type then
                    c_and (calls.is_constant_expression left)
                      (calls.is_address_constant right)
                  else some false
      else some false
  | .reference _ entity =>
      if !is_declaration entity then some false
      else
        match skip_typeref entity.type with
        | none => none
        | some type =>
            if is_type_function type then some true
            else if is_type_array type then
              calls.is_object_with_linker_constant_address expression
            else if !is_type_valid type then some true
            else some false
  | .array_access _ array_ref index =>
      match skip_typeref (env.revert_automatic_type_conversion expression) with
      | none => none
      | some type =>
          c_and (some (is_type_array type))
            (c_and (calls.is_constant_expression index)
              (calls.is_address_constant array_ref))
  | .conditional _ c true_expression false_expression =>
      match calls.is_constant_expression c with
      | none => none
      | some false => some false
      | some true =>
          if env.fold_constant_to_bool c then
            match true_expression with
            | .ptr t => calls.is_address_constant t
            | .null => calls.is_address_constant c
          else calls.is_address_constant false_expression
  | _ => some false

open unary_kind_t binary_kind_t in
/-- The body of `is_constant_pointer`. -/
def is_constant_pointer_step (calls : classifier_calls_t)
    (expression : expression_t) : Option Bool :=
  match calls.is_constant_expression expression with
  | none => none
  | some true => some true
  | some false =>
      match expression with
      | .unary EXPR_UNARY_CAST _ value => calls.is_constant_pointer value
      | _ => some false

open unary_kind_t binary_kind_t in
/-- The body of `is_object_with_constant_address`. -/
def is_object_with_constant_address_step (calls : classifier_calls_t)
    (expression : expression_t) : Option Bool :=
  match expression with
  | .select _ compound _ =>
      match skip_typeref compound.base.type with
      | none => none
      | some compound_type =>
          if is_type_pointer compound_type then calls.is_constant_pointer compound
          else calls.is_object_with_constant_address compound
  | .array_access _ array_ref index =>
      c_and (calls.is_constant_expression index)
        (c_or (calls.is_object_with_constant_address array_ref)
          (calls.is_constant_pointer array_ref))
  | .unary EXPR_UNARY_DEREFERENCE _ value => calls.is_constant_pointer value
  | _ => some false

open unary_kind_t binary_kind_t in
/-- The body of `is_constant_expression`; the function panics on
`EXPR_UNKNOWN`. -/
def is_constant_expression_step (cfg : config_t) (env : ast_env_t) (calls : classifier_calls_t)
    (expression : expression_t) : Option Bool :=
  match expression with
  | .literal _ _ _ => some true
  | .classify_type _ _ => some true
  | .offsetof _ _ => some true
  | .alignof _ _ _ => some true
  | .builtin_constant_p _ _ => some true
  | .builtin_types_compatible_p _ _ _ => some true
  | .reference_enum_value _ _ => some true
  | .sizeof _ type _ =>
      match skip_typeref type with
      | none => none
      | some type =>
          match type with
          | .array _ _ _ _ _ is_vla => some (!is_vla)
          | _ => some true
  | .string_literal _ _ => some false
  | .wide_string_literal _ _ => some false
  | .funcname _ => some false
  | .label_address _ => some false
  | .select _ _ _ => some false
  | .va_start _ _ => some false
  | .va_arg _ _ => some false
  | .va_copy _ _ _ => some false
  | .statement _ => some false
  | .reference _ _ => some false
  | .array_access _ _ _ => some false
  | .unary kind base value =>
      match kind with
      | EXPR_UNARY_POSTFIX_INCREMENT => some false
      | EXPR_UNARY_POSTFIX_DECREMENT => some false
      | EXPR_UNARY_PREFIX_INCREMENT => some false
      | EXPR_UNARY_PREFIX_DECREMENT => some false
      | EXPR_UNARY_ASSUME => some false
      | EXPR_UNARY_DEREFERENCE => some false
      | EXPR_UNARY_DELETE => some false
      | EXPR_UNARY_DELETE_ARRAY => some false
      | EXPR_UNARY_THROW => some false
      | EXPR_UNARY_TAKE_ADDRESS => calls.is_object_with_constant_address value
      | EXPR_UNARY_NEGATE => calls.is_constant_expression value
      | EXPR_UNARY_PLUS => calls.is_constant_expression value
      | EXPR_UNARY_BITWISE_NEGATE => calls.is_constant_expression value
      | EXPR_UNARY_NOT => calls.is_constant_expression value
      | EXPR_UNARY_CAST =>
          match skip_typeref base.type with
          | none => none
          | some type =>
              c_and (is_type_scalar cfg type) (calls.is_constant_expression value)
      | EXPR_UNARY_CAST_IMPLICIT =>
          match skip_typeref base.type with
          | none => none
          | some type =>
              c_and (is_type_scalar cfg type) (calls.is_constant_expression value)
  | .call _ _ _ => some (is_builtin_const_call expression)
  | .binary kind _ left right =>
      match kind with
      | EXPR_BINARY_ASSIGN => some false
      | EXPR_BINARY_MUL_ASSIGN => some false
      | EXPR_BINARY_DIV_ASSIGN => some false
      | EXPR_BINARY_MOD_ASSIGN => some false
      | EXPR_BINARY_ADD_ASSIGN => some false
      | EXPR_BINARY_SUB_ASSIGN => some false
      | EXPR_BINARY_SHIFTLEFT_ASSIGN => some false
      | EXPR_BINARY_SHIFTRIGHT_ASSIGN => some false
      | EXPR_BINARY_BITWISE_AND_ASSIGN => some false
      | EXPR_BINARY_BITWISE_XOR_ASSIGN => some false
      | EXPR_BINARY_BITWISE_OR_ASSIGN => some false
      | EXPR_BINARY_COMMA => some false
      | EXPR_BINARY_LOGICAL_AND =>
          match calls.is_constant_expression left with
          | none => none
          | some false => some false
          | some true =>
              if env.fold_constant_to_bool left = false then some true
              else calls.is_constant_expression right
      | EXPR_BINARY_LOGICAL_OR =>
          match calls.is_constant_expression left with
          | none => none
          | some false => some false
          | some true =>
              if env.fold_constant_to_bool left = true then some true
              else calls.is_constant_expression right
      | _ =>
          c_and (calls.is_constant_expression left)
            (calls.is_constant_expression right)
  | .compound_literal _ _ initializer_value =>
      calls.is_constant_initializer initializer_value
  | .conditional _ condition true_expression false_expression =>
      match calls.is_constant_expression condition with
      | none => none
      | some false => some false
      | some true =>
          if env.fold_constant_to_bool condition = true then
            match true_expression with
            | .null => some true
            | .ptr t => calls.is_constant_expression t
          else calls.is_constant_expression false_expression
  | .invalid _ => some true
  | .unknown _ => none

/-- The classifier functions with calls nested at most `fuel` deep: each
function is its body with the calls going to the functions of depth
`fuel - 1`; at depth 0 no result is reached. -/
def classifier_calls (cfg : config_t) (env : ast_env_t) : Nat → classifier_calls_t
  | 0 =>
      { is_constant_initializer := fun _ => none,
        is_constant_initializer_list := fun _ => none,
        is_object_with_linker_constant_address := fun _ => none,
        is_address_constant := fun _ => none,
        is_constant_pointer := fun _ => none,
        is_object_with_constant_address := fun _ => none,
        is_constant_expression := fun _ => none }
  | fuel + 1 =>
      { is_constant_initializer :=
          is_constant_initializer_step (classifier_calls cfg env fuel),
        is_constant_initializer_list :=
          is_constant_initializer_list_step (classifier_calls cfg env fuel),
        is_object_with_linker_constant_address :=
          is_object_with_linker_constant_address_step (classifier_calls cfg env fuel),
        is_address_constant :=
          is_address_constant_step cfg env (classifier_calls cfg env fuel),
        is_constant_pointer :=
          is_constant_pointer_step (classifier_calls cfg env fuel),
        is_object_with_constant_address :=
          is_object_with_constant_address_step (classifier_calls cfg env fuel),
        is_constant_expression :=
          is_constant_expression_step cfg env (classifier_calls cfg env fuel) }

/-- Is the initializer constant (`is_constant_initializer`); the first
argument bounds the depth of the calls. -/
def is_constant_initializer (cfg : config_t) (env : ast_env_t) (fuel : Nat)
    (initializer_value : initializer_t) : Option Bool :=
  (classifier_calls cfg env fuel).is_constant_initializer initializer_value

/-- The loop of `is_constant_initializer` over a list. -/
def is_constant_initializer_list (cfg : config_t) (env : ast_env_t) (fuel : Nat)
    (initializers : initializer_list_t) : Option Bool :=
  (classifier_calls cfg env fuel).is_constant_initializer_list initializers

/-- Has the object a constant address for the linker
(`is_object_with_linker_constant_address`). -/
def is_object_with_linker_constant_address (cfg : config_t) (env : ast_env_t) (fuel : Nat)
    (expression : expression_t) : Option Bool :=
  (classifier_calls cfg env fuel).is_object_with_linker_constant_address expression

/-- Is the expression an address constant (`is_address_constant`). -/
def is_address_constant (cfg : config_t) (env : ast_env_t) (fuel : Nat)
    (expression : expression_t) : Option Bool :=
  (classifier_calls cfg env fuel).is_address_constant expression

/-- Is the expression a constant pointer (`is_constant_pointer`). -/
def is_constant_pointer (cfg : config_t) (env : ast_env_t) (fuel : Nat)
    (expression : expression_t) : Option Bool :=
  (classifier_calls cfg env fuel).is_constant_pointer expression

/-- Has the object a constant address (`is_object_with_constant_address`). -/
def is_object_with_constant_address (cfg : config_t) (env : ast_env_t) (fuel : Nat)
    (expression : expression_t) : Option Bool :=
  (classifier_calls cfg env fuel).is_object_with_constant_address expression

/-- Is the expression a constant expression (`is_constant_expression`). -/
def is_constant_expression (cfg : config_t) (env : ast_env_t) (fuel : Nat)
    (expression : expression_t) : Option Bool :=
  (classifier_calls cfg env fuel).is_constant_expression expression

/-! ## Example expressions -/

/-- A parser environment that folds every expression to false and reverts
no conversion. -/
def example_env : ast_env_t :=
  { fold_constant_to_bool := fun _ => false,
    revert_automatic_type_conversion := fun e => e.base.type }

/-- A parser environment that folds every expression to true. -/
def example_env_true : ast_env_t :=
  { fold_constant_to_bool := fun _ => true,
    revert_automatic_type_conversion := fun e => e.base.type }

/-- The literal `0` of type `int`. -/
def example_zero : expression_t :=
  .literal .EXPR_LITERAL_INTEGER { type := example_int } [48]

/-- A reference to a variable `x` of type `int` with the given storage class. -/
def example_variable (storage_class : storage_class_tag_t) (thread_local : Bool) :
    expression_t :=
  .reference { type := example_int }
    { kind := .ENTITY_VARIABLE, type := example_int, storage_class := storage_class,
      thread_local := thread_local }

/-- The expression `x = 0` for an automatic variable `x`. -/
def example_assignment : expression_t :=
  .binary .EXPR_BINARY_ASSIGN { type := example_int }
    (example_variable .STORAGE_CLASS_AUTO false) example_zero

/-- The type `char *`. -/
def example_char_pointer : type_t := .pointer TYPE_QUALIFIER_NONE example_char none

/-- The expression `__builtin_nan((x = 0, ""))`. -/
def example_nan_call : expression_t :=
  .call { type := .atomic TYPE_QUALIFIER_NONE .ATOMIC_TYPE_DOUBLE }
    (.reference { type := .atomic TYPE_QUALIFIER_NONE .ATOMIC_TYPE_DOUBLE }
      { kind := .ENTITY_FUNCTION, type := .atomic TYPE_QUALIFIER_NONE .ATOMIC_TYPE_DOUBLE,
        btk := .bk_gnu_builtin_nan })
    (.argument
      (.binary .EXPR_BINARY_COMMA { type := example_char_pointer } example_assignment
        (.string_literal { type := example_char_pointer } ⟨[0], 1⟩))
      .null)

/-! ## Notions used to state the properties of the classifier -/

mutual
/-- The number of nodes of an expression, its arguments and initializers
counted in. -/
def expression_t.node_count : expression_t → Nat
  | .unknown _ => 1
  | .invalid _ => 1
  | .reference _ _ => 1
  | .reference_enum_value _ _ => 1
  | .literal _ _ _ => 1
  | .string_literal _ _ => 1
  | .wide_string_literal _ _ => 1
  | .compound_literal _ _ i => 1 + i.node_count
  | .call _ f a => 1 + f.node_count + a.node_count
  | .conditional _ c t f => 1 + c.node_count + t.node_count + f.node_count
  | .select _ c _ => 1 + c.node_count
  | .array_access _ a i => 1 + a.node_count + i.node_count
  | .sizeof _ _ p => 1 + p.node_count
  | .alignof _ _ p => 1 + p.node_count
  | .classify_type _ e => 1 + e.node_count
  | .funcname _ => 1
  | .builtin_constant_p _ e => 1 + e.node_count
  | .builtin_types_compatible_p _ _ _ => 1
  | .offsetof _ _ => 1
  | .va_start _ e => 1 + e.node_count
  | .va_arg _ e => 1 + e.node_count
  | .va_copy _ d s => 1 + d.node_count + s.node_count
  | .statement _ => 1
  | .label_address _ => 1
  | .unary _ _ v => 1 + v.node_count
  | .binary _ _ l r => 1 + l.node_count + r.node_count
/-- The number of nodes behind a pointer. -/
def expression_ptr.node_count : expression_ptr → Nat
  | .null => 1
  | .ptr e => 1 + e.node_count
/-- The number of nodes of an argument list. -/
def call_argument_t.node_count : call_argument_t → Nat
  | .null => 1
  | .argument e n => 1 + e.node_count + n.node_count
/-- The number of nodes of an initializer. -/
def initializer_t.node_count : initializer_t → Nat
  | .INITIALIZER_VALUE e => 1 + e.node_count
  | .INITIALIZER_LIST l => 1 + l.node_count
  | .INITIALIZER_STRING _ => 1
  | .INITIALIZER_WIDE_STRING _ => 1
  | .INITIALIZER_DESIGNATOR => 1
/-- The number of nodes of a list of initializers. -/
def initializer_list_t.node_count : initializer_list_t → Nat
  | .nil => 1
  | .cons h t => 1 + h.node_count + t.node_count
end

/-- The type resolves: `skip_typeref` returns a type, on which
`is_type_scalar` is defined. -/
def type_resolves (cfg : config_t) (type : type_t) : Bool :=
  match skip_typeref type with
  | none => false
  | some resolved => (is_type_scalar cfg resolved).isSome

mutual
/-- The expression contains no node of kind `EXPR_UNKNOWN`, and the types of
its nodes and of the entities it refers to resolve. -/
def expression_t.well_formed (cfg : config_t) : expression_t → Bool
  | .unknown _ => false
  | .invalid b => type_resolves cfg b.type
  | .reference b e => type_resolves cfg b.type && type_resolves cfg e.type
  | .reference_enum_value b _ => type_resolves cfg b.type
  | .literal _ b _ => type_resolves cfg b.type
  | .string_literal b _ => type_resolves cfg b.type
  | .wide_string_literal b _ => type_resolves cfg b.type
  | .compound_literal b _ i => type_resolves cfg b.type && i.well_formed cfg
  | .call b f a => type_resolves cfg b.type && f.well_formed cfg && a.well_formed cfg
  | .conditional b c t f =>
      type_resolves cfg b.type && c.well_formed cfg && t.well_formed cfg && f.well_formed cfg
  | .select b c _ => type_resolves cfg b.type && c.well_formed cfg
  | .array_access b a i => type_resolves cfg b.type && a.well_formed cfg && i.well_formed cfg
  | .sizeof b t p => type_resolves cfg b.type && type_resolves cfg t && p.well_formed cfg
  | .alignof b t p => type_resolves cfg b.type && type_resolves cfg t && p.well_formed cfg
  | .classify_type b e => type_resolves cfg b.type && e.well_formed cfg
  | .funcname b => type_resolves cfg b.type
  | .builtin_constant_p b e => type_resolves cfg b.type && e.well_formed cfg
  | .builtin_types_compatible_p b _ _ => type_resolves cfg b.type
  | .offsetof b _ => type_resolves cfg b.type
  | .va_start b e => type_resolves cfg b.type && e.well_formed cfg
  | .va_arg b e => type_resolves cfg b.type && e.well_formed cfg
  | .va_copy b d s => type_resolves cfg b.type && d.well_formed cfg && s.well_formed cfg
  | .statement b => type_resolves cfg b.type
  | .label_address b => type_resolves cfg b.type
  | .unary _ b v => type_resolves cfg b.type && v.well_formed cfg
  | .binary _ b l r => type_resolves cfg b.type && l.well_formed cfg && r.well_formed cfg
/-- The expression behind the pointer, if any, is well-formed. -/
def expression_ptr.well_formed (cfg : config_t) : expression_ptr → Bool
  | .null => true
  | .ptr e => e.well_formed cfg
/-- The arguments are well-formed. -/
def call_argument_t.well_formed (cfg : config_t) : call_argument_t → Bool
  | .null => true
  | .argument e n => e.well_formed cfg && n.well_formed cfg
/-- The expressions of the initializer are well-formed. -/
def initializer_t.well_formed (cfg : config_t) : initializer_t → Bool
  | .INITIALIZER_VALUE e => e.well_formed cfg
  | .INITIALIZER_LIST l => l.well_formed cfg
  | .INITIALIZER_STRING _ => true
  | .INITIALIZER_WIDE_STRING _ => true
  | .INITIALIZER_DESIGNATOR => true
/-- The initializers of the list are well-formed. -/
def initializer_list_t.well_formed (cfg : config_t) : initializer_list_t → Bool
  | .nil => true
  | .cons h t => h.well_formed cfg && t.well_formed cfg
end

/-- The calls of the classifier return on every well-formed expression and
initializer with fewer than `n` nodes. -/
def calls_defined_below (cfg : config_t) (calls : classifier_calls_t) (n : Nat) : Prop :=
  (∀ x : expression_t, x.node_count < n → x.well_formed cfg = true →
    (∃ b, calls.is_constant_expression x = some b) ∧
    (∃ b, calls.is_address_constant x = some b) ∧
    (∃ b, calls.is_object_with_linker_constant_address x = some b) ∧
    (∃ b, calls.is_object_with_constant_address x = some b) ∧
    (∃ b, calls.is_constant_pointer x = some b)) ∧
  (∀ x : initializer_t, x.node_count < n → x.well_formed cfg = true →
    ∃ b, calls.is_constant_initializer x = some b) ∧
  (∀ x : initializer_list_t, x.node_count < n → x.well_formed cfg = true →
    ∃ b, calls.is_constant_initializer_list x = some b)

/-! ## Name mangling (`src/mangle.c`)

The mangler appends characters to an obstack and panics on input it does
not handle.  Every function of the model returns the characters it appends,
or `none` where the C function panics or reads through a `NULL` pointer.
Symbol strings are taken to be ASCII, so that `strlen` is the number of
characters. -/

/-- The letter of an atomic kind (`get_atomic_type_mangle`); the function
panics on `ATOMIC_TYPE_INVALID`. -/
def get_atomic_type_mangle : atomic_type_kind_t → Option Char
  | .ATOMIC_TYPE_INVALID => none
  | .ATOMIC_TYPE_VOID => some 'v'
  | .ATOMIC_TYPE_WCHAR_T => some 'w'
  | .ATOMIC_TYPE_BOOL => some 'b'
  | .ATOMIC_TYPE_CHAR => some 'c'
  | .ATOMIC_TYPE_SCHAR => some 'a'
  | .ATOMIC_TYPE_UCHAR => some 'h'
  | .ATOMIC_TYPE_INT => some 'i'
  | .ATOMIC_TYPE_UINT => some 'j'
  | .ATOMIC_TYPE_SHORT => some 's'
  | .ATOMIC_TYPE_USHORT => some 't'
  | .ATOMIC_TYPE_LONG => some 'l'
  | .ATOMIC_TYPE_ULONG => some 'm'
  | .ATOMIC_TYPE_LONGLONG => some 'x'
  | .ATOMIC_TYPE_ULONGLONG => some 'y'
  | .ATOMIC_TYPE_LONG_DOUBLE => some 'e'
  | .ATOMIC_TYPE_FLOAT => some 'f'
  | .ATOMIC_TYPE_DOUBLE => some 'd'

/-- The decimal digit of a number below ten. -/
def decimal_digit : Nat → Char
  | 0 => '0'
  | 1 => '1'
  | 2 => '2'
  | 3 => '3'
  | 4 => '4'
  | 5 => '5'
  | 6 => '6'
  | 7 => '7'
  | 8 => '8'
  | _ => '9'

/-- The decimal digits of a number, most significant first; the fuel bounds
the number of digits. -/
def decimal_digits : Nat → Nat → List Char
  | 0, _ => []
  | fuel + 1, n =>
      if n < 10 then [decimal_digit n]
      else decimal_digits fuel (n / 10) ++ [decimal_digit (n % 10)]

/-- What the conversion `%u` of `obstack_printf` prints for an `unsigned`
(32 bits, at most ten digits). -/
def print_unsigned (n : Nat) : List Char := decimal_digits 10 (to_unsigned n)

/-- The length of a name in decimal, then the name (`print_name`). -/
def print_name (name : String) : List Char :=
  print_unsigned name.length ++ name.toList

/-- `mangle_atomic_type`. -/
def mangle_atomic_type (akind : atomic_type_kind_t) : Option (List Char) :=
  match get_atomic_type_mangle akind with
  | none => none
  | some c => some [c]

/-- `mangle_pointer_type`, over the recursive call of `mangle_type`. -/
def mangle_pointer_type (mangle_type : type_t → Option (List Char)) (points_to : type_t) :
    Option (List Char) :=
  match mangle_type points_to with
  | none => none
  | some s => some ('P' :: s)

/-- `mangle_reference_type`, over the recursive call of `mangle_type`. -/
def mangle_reference_type (mangle_type : type_t → Option (List Char)) (refers_to : type_t) :
    Option (List Char) :=
  match mangle_type refers_to with
  | none => none
  | some s => some ('R' :: s)

/-- The loop of `mangle_parameters` over the parameter list. -/
def mangle_parameters_loop (mangle_type : type_t → Option (List Char)) :
    function_parameter_t → Option (List Char)
  | .null => some []
  | .param type next =>
      match mangle_type type with
      | none => none
      | some s =>
          match mangle_parameters_loop mangle_type next with
          | none => none
          | some rest => some (s ++ rest)

/-- `mangle_parameters`, on the fields of the function type that it reads;
the function panics on unspecified and on K&R parameters. -/
def mangle_parameters (mangle_type : type_t → Option (List Char))
    (parameters : function_parameter_t) (variadic unspecified_parameters
      kr_style_parameters : Bool) : Option (List Char) :=
  if unspecified_parameters then none
  else if kr_style_parameters then none
  else
    match parameters with
    | .param _ _ =>
        match mangle_parameters_loop mangle_type parameters with
        | none => none
        | some s => some (s ++ (if variadic then ['z'] else []))
    | .null => some ['v']

/-- `mangle_function_type`, on the fields of the function type that it
reads. -/
def mangle_function_type (mangle_type : type_t → Option (List Char))
    (return_type : type_t) (parameters : function_parameter_t) (variadic
      unspecified_parameters kr_style_parameters : Bool) (linkage : linkage_kind_t) :
    Option (List Char) :=
  match mangle_type return_type with
  | none => none
  | some r =>
      match mangle_parameters mangle_type parameters variadic unspecified_parameters
          kr_style_parameters with
      | none => none
      | some p =>
          some ('F' :: ((if linkage = .LINKAGE_C then ['Y'] else []) ++ r ++ p ++ ['E']))

/-- A struct, union or enum entity as the mangler reads it: `base.symbol`
and `alias` (a keyword of Lean, hence `alias_entity`), each a pointer that
may be `NULL`; of the alias only its `base.symbol` is read. -/
structure tag_entity_t where
  symbol : Option String
  alias_entity : Option (Option String)
  deriving DecidableEq, Repr

/-- The compound and enum entities that the type nodes point to. -/
structure tag_entities_t where
  compound : Nat → tag_entity_t
  enume : Nat → tag_entity_t

/-- `mangle_class_type` and `mangle_enum_type`, which have the same body:
the name of the entity, or of its alias when it has no symbol; the
functions panic when there is no alias either. -/
def mangle_class_type (entity : tag_entity_t) : Option (List Char) :=
  match entity.symbol with
  | some sym => some (print_name sym)
  | none =>
      match entity.alias_entity with
      | none => none
      | some none => none
      | some (some sym) => some (print_name sym)

/-- `mangle_enum_type`. -/
def mangle_enum_type (entity : tag_entity_t) : Option (List Char) :=
  mangle_class_type entity

/-- `mangle_array_type`, over the recursive call of `mangle_type`; the
function panics on an array that is neither a VLA nor of constant size. -/
def mangle_array_type (mangle_type : type_t → Option (List Char)) (element_type : type_t)
    (size : Nat) (size_constant is_vla : Bool) : Option (List Char) :=
  if is_vla then
    match mangle_type element_type with
    | none => none
    | some s => some ('A' :: '_' :: s)
  else if size_constant then
    match mangle_type element_type with
    | none => none
    | some s => some ('A' :: (print_unsigned size ++ '_' :: s))
  else none

/-- `mangle_complex_type`. -/
def mangle_complex_type (akind : atomic_type_kind_t) : Option (List Char) :=
  match get_atomic_type_mangle akind with
  | none => none
  | some c => some ['C', c]

/-- `mangle_imaginary_type`. -/
def mangle_imaginary_type (akind : atomic_type_kind_t) : Option (List Char) :=
  match get_atomic_type_mangle akind with
  | none => none
  | some c => some ['G', c]

/-- `mangle_qualifiers`: `V` for volatile, then `K` for const; restrict is
left out on purpose (the lines are under `#if 0`). -/
def mangle_qualifiers (qualifiers : Nat) : List Char :=
  (if qualifiers &&& TYPE_QUALIFIER_VOLATILE ≠ 0 then ['V'] else []) ++
    (if qualifiers &&& TYPE_QUALIFIER_CONST ≠ 0 then ['K'] else [])

/-- `mangle_type`: the qualifiers of the resolved type, then the mangling of
its kind; the fuel bounds the depth of the type.  The function panics on
invalid, error, typeref and bit-field types. -/
def mangle_type (tags : tag_entities_t) : Nat → type_t → Option (List Char)
  | 0, _ => none
  | fuel + 1, orig_type =>
      match skip_typeref orig_type with
      | none => none
      | some type =>
          match
            (match type with
             | .atomic _ akind => mangle_atomic_type akind
             | .pointer _ points_to _ => mangle_pointer_type (mangle_type tags fuel) points_to
             | .reference _ refers_to =>
                 mangle_reference_type (mangle_type tags fuel) refers_to
             | .function _ return_type parameters variadic unspecified_parameters
                 kr_style_parameters linkage _ _ =>
                 mangle_function_type (mangle_type tags fuel) return_type parameters variadic
                   unspecified_parameters kr_style_parameters linkage
             | .compound_struct _ compound => mangle_class_type (tags.compound compound)
             | .compound_union _ compound => mangle_class_type (tags.compound compound)
             | .enumt _ enume _ => mangle_enum_type (tags.enume enume)
             | .array _ element_type size size_constant _ is_vla =>
                 mangle_array_type (mangle_type tags fuel) element_type size size_constant
                   is_vla
             | .complex _ akind => mangle_complex_type akind
             | .imaginary _ akind => mangle_imaginary_type akind
             | .invalid _ => none
             | .error _ => none
             | .builtin _ _ _ => none
             | .typedeft _ _ _ _ => none
             | .typeoft _ _ _ => none
             | .bitfield _ _ _ => none) with
          | none => none
          | some s => some (mangle_qualifiers type.qualifiers ++ s)

/-- The chain of entities reached through `base.parent_entity`, with the
fields that `mangle_namespace` reads: `kind`, `base.symbol` and
`base.parent_entity`.  The field `parent_entity` is not declared in the
`entity_t.h` at hand; `mangle.c` reads it. -/
inductive parent_entity_t
  | null
  | entity (kind : entity_kind_t) (symbol : Option String) (parent_entity : parent_entity_t)
  deriving DecidableEq, Repr

/-- `mangle_namespace`, on the parent chain of its argument: the enclosing
namespaces, outermost first. -/
def mangle_namespace : parent_entity_t → Option (List Char)
  | .null => some []
  | .entity kind symbol parent_entity =>
      if kind = .ENTITY_NAMESPACE then
        match mangle_namespace parent_entity with
        | none => none
        | some outer =>
            match symbol with
            | none => none
            | some name => some (outer ++ print_name name)
      else mangle_namespace parent_entity

/-- The fields of the member `function` of a type node that
`mangle_parameters` reads. -/
structure function_fields_t where
  parameters : function_parameter_t
  variadic : Bool
  unspecified_parameters : Bool
  kr_style_parameters : Bool
  deriving DecidableEq, Repr

/-- An entity as the mangler reads it (`entity_t`): `kind`, `base.symbol`,
`base.parent_entity`, `declaration.type` and `function.actual_name`.  The
field `actual_name` is not declared in the `entity_t.h` at hand;
`mangle.c` reads it.  The field `type_function` is what the member
`function` of the node `declaration.type` holds when the node is of
another kind than function: `mangle_entity` reads the member without
`skip_typeref`, so for a function declared through a typedef name it reads
the node of the typedef through the member of a function type.  The
layout of the union is in `type_t.h`, which is not among the sources. -/
structure linker_entity_t where
  kind : entity_kind_t
  symbol : Option String
  parent_entity : parent_entity_t
  type : type_t
  actual_name : Option String
  type_function : function_fields_t
  deriving DecidableEq, Repr

/-- The expression `&entity->declaration.type->function` of `mangle_entity`,
on the fields that `mangle_parameters` reads: the fields of the node when it
is a function type, else what the member holds. -/
def declaration_type_function (entity : linker_entity_t) : function_fields_t :=
  match entity.type with
  | .function _ _ parameters variadic unspecified_parameters kr_style_parameters _ _ _ =>
      { parameters := parameters, variadic := variadic,
        unspecified_parameters := unspecified_parameters,
        kr_style_parameters := kr_style_parameters }
  | _ => entity.type_function

/-- `mangle_entity`: `_Z`, `N` and the namespaces when the entity has a
parent, the name, and for a function its parameters.  The parameters are
read from `declaration.type` as it stands, without `skip_typeref`. -/
def mangle_entity (tags : tag_entities_t) (fuel : Nat) (entity : linker_entity_t) :
    Option (List Char) :=
  match
    (if entity.parent_entity ≠ .null then
      match mangle_namespace entity.parent_entity with
      | none => none
      | some s => some ('N' :: s)
    else some []) with
  | none => none
  | some nested =>
      match entity.symbol with
      | none => none
      | some name =>
          if entity.kind = .ENTITY_FUNCTION then
            match mangle_parameters (mangle_type tags fuel)
                (declaration_type_function entity).parameters
                (declaration_type_function entity).variadic
                (declaration_type_function entity).unspecified_parameters
                (declaration_type_function entity).kr_style_parameters with
            | none => none
            | some p => some ('_' :: 'Z' :: (nested ++ print_name name ++ p))
          else some ('_' :: 'Z' :: (nested ++ print_name name))

/-- `make_id_from_obst`: the identifier made of the characters of the
obstack. -/
def make_id_from_obst (obst : List Char) : String := String.mk obst

/-- `create_name_linux_elf`: the plain name (or the `actual_name` of a
function with C linkage), the mangled name for a function with C++
linkage; the function panics on the invalid linkage. -/
def create_name_linux_elf (tags : tag_entities_t) (fuel : Nat) (entity : linker_entity_t) :
    Option String :=
  match entity.symbol with
  | none => none
  | some name =>
      if entity.kind = .ENTITY_FUNCTION then
        match skip_typeref entity.type with
        | none => none
        | some type =>
            match type with
            | .function _ _ _ _ _ _ linkage _ _ =>
                match linkage with
                | .LINKAGE_INVALID => none
                | .LINKAGE_C =>
                    match entity.actual_name with
                    | some actual_name => some actual_name
                    | none => some name
                | .LINKAGE_CXX =>
                    match mangle_entity tags fuel entity with
                    | none => none
                    | some obst => some (make_id_from_obst obst)
            | _ => none
      else some name

/-- `create_name_macho`: an underscore and the name of the entity; the
function panics on a function of invalid linkage. -/
def create_name_macho (entity : linker_entity_t) : Option String :=
  if entity.kind = .ENTITY_FUNCTION then
    match skip_typeref entity.type with
    | none => none
    | some type =>
        match type with
        | .function _ _ _ _ _ _ linkage _ _ =>
            if linkage = .LINKAGE_INVALID then none
            else
              match entity.symbol with
              | none => none
              | some name => some (make_id_from_obst ('_' :: name.toList))
        | _ => none
  else
    match entity.symbol with
    | none => none
    | some name => some (make_id_from_obst ('_' :: name.toList))

/-! ### Example entities -/

/-- No named compounds or enums. -/
def example_tags : tag_entities_t :=
  { compound := fun _ => ⟨none, none⟩, enume := fun _ => ⟨none, none⟩ }

/-- The namespace `ns` at file scope. -/
def example_namespace : parent_entity_t := .entity .ENTITY_NAMESPACE (some "ns") .null

/-- The type `const char *`. -/
def example_const_char_pointer : type_t :=
  .pointer TYPE_QUALIFIER_NONE (.atomic TYPE_QUALIFIER_CONST .ATOMIC_TYPE_CHAR) none

/-- The type `void (int, const char *)` with the given linkage. -/
def example_function_type (linkage : linkage_kind_t) : type_t :=
  .function TYPE_QUALIFIER_NONE (.atomic TYPE_QUALIFIER_NONE .ATOMIC_TYPE_VOID)
    (.param example_int (.param example_const_char_pointer .null))
    false false false linkage .CC_DEFAULT 0

/-- The member `function` of a node of another kind in the examples: it
reads as an empty parameter list with no flag set. -/
def example_function_fields : function_fields_t :=
  { parameters := .null, variadic := false, unspecified_parameters := false,
    kr_style_parameters := false }

/-- The function `void ns::f(int, const char *)` of C++ linkage. -/
def example_namespace_function : linker_entity_t :=
  { kind := .ENTITY_FUNCTION, symbol := some "f", parent_entity := example_namespace,
    type := example_function_type .LINKAGE_CXX, actual_name := none,
    type_function := example_function_fields }

/-- The variable `int x` at file scope. -/
def example_linker_variable : linker_entity_t :=
  { kind := .ENTITY_VARIABLE, symbol := some "x", parent_entity := .null,
    type := example_int, actual_name := none, type_function := example_function_fields }

/-- The function `void g(int, const char *)` of C linkage at file scope. -/
def example_c_function : linker_entity_t :=
  { kind := .ENTITY_FUNCTION, symbol := some "g", parent_entity := .null,
    type := example_function_type .LINKAGE_C, actual_name := none,
    type_function := example_function_fields }

/-- The function `F f;` with `typedef void F(int, const char *)` of C++
linkage at file scope: the declared type is the node of the typedef. -/
def example_typedef_function : linker_entity_t :=
  { kind := .ENTITY_FUNCTION, symbol := some "f", parent_entity := .null,
    type := .typedeft TYPE_QUALIFIER_NONE (example_function_type .LINKAGE_CXX) 0 .null,
    actual_name := none, type_function := example_function_fields }

/-! ## Format checker (`src/format_check.c`)

The checker walks the format string through a cursor and emits warnings.
The model returns the list of the warnings in the order of emission, or
`none` where the C code reads through a `NULL` pointer or outside the
string.  A character is its code; the counters `num_fmt` and `num_args`
are taken not to overflow. -/

/-- `FMT_FLAG_NONE`. -/
def FMT_FLAG_NONE : Nat := 0
/-- `FMT_FLAG_HASH`. -/
def FMT_FLAG_HASH : Nat := 1
/-- `FMT_FLAG_ZERO`. -/
def FMT_FLAG_ZERO : Nat := 2
/-- `FMT_FLAG_MINUS`. -/
def FMT_FLAG_MINUS : Nat := 4
/-- `FMT_FLAG_SPACE`. -/
def FMT_FLAG_SPACE : Nat := 8
/-- `FMT_FLAG_PLUS`. -/
def FMT_FLAG_PLUS : Nat := 16
/-- `FMT_FLAG_TICK`. -/
def FMT_FLAG_TICK : Nat := 32

/-- The length modifiers (`format_length_modifier_t`). -/
inductive format_length_modifier_t
  | FMT_MOD_NONE
  | FMT_MOD_L
  | FMT_MOD_hh
  | FMT_MOD_h
  | FMT_MOD_l
  | FMT_MOD_ll
  | FMT_MOD_j
  | FMT_MOD_t
  | FMT_MOD_z
  | FMT_MOD_q
  | FMT_MOD_w
  | FMT_MOD_I
  | FMT_MOD_I32
  | FMT_MOD_I64
  deriving DecidableEq, Repr

/-- The kinds of format (`format_kind_t`). -/
inductive format_kind_t
  | FORMAT_PRINTF
  | FORMAT_SCANF
  | FORMAT_STRFTIME
  | FORMAT_STRFMON
  deriving DecidableEq, Repr

/-- An entry of the table of checked functions (`format_spec_t`). -/
structure format_spec_t where
  name : String
  fmt_kind : format_kind_t
  fmt_idx : Nat
  arg_idx : Nat
  deriving DecidableEq, Repr

/-- The global types of `types.c` that the checker compares with; the file
is not among the sources, so the table is a parameter of the model. -/
structure types_t where
  type_int : type_t
  type_long : type_t
  type_long_long : type_t
  type_intmax_t : type_t
  type_ssize_t : type_t
  type_ptrdiff_t : type_t
  type_int32 : type_t
  type_int64 : type_t
  type_unsigned_int : type_t
  type_unsigned_long : type_t
  type_unsigned_long_long : type_t
  type_uintmax_t : type_t
  type_size_t : type_t
  type_uptrdiff_t : type_t
  type_unsigned_int32 : type_t
  type_unsigned_int64 : type_t
  type_double : type_t
  type_long_double : type_t
  type_wchar_t : type_t
  type_wint_t : type_t
  type_char : type_t
  type_signed_char : type_t
  type_unsigned_char : type_t
  type_short : type_t
  type_unsigned_short : type_t
  type_wchar_t_ptr : type_t
  type_char_ptr : type_t
  type_void_ptr : type_t
  type_int_ptr : type_t
  type_signed_char_ptr : type_t
  type_short_ptr : type_t
  type_long_ptr : type_t
  type_long_long_ptr : type_t
  type_intmax_t_ptr : type_t
  type_ssize_t_ptr : type_t
  type_ptrdiff_t_ptr : type_t

/-- The globals that the checker reads: the type table, the bit `_MS` of
`c_mode` and the flag `warning.format`. -/
structure format_env_t where
  types : types_t
  c_mode_ms : Bool
  warning_format : Bool

/-- The warnings of the checker, one constructor per message, with the
values that the message prints. -/
inductive format_warning_t
  /-- Message `' ' is overridden by prior '+' in conversion specification %u`. -/
  | space_overridden (num_fmt : Nat)
  /-- Message `'+' overrides prior ' ' in conversion specification %u`. -/
  | plus_overrides (num_fmt : Nat)
  /-- Message `repeated flag '%c' in conversion specification %u`. -/
  | repeated_flag (fmt : Nat) (num_fmt : Nat)
  /-- Message `missing argument for '*' field width in conversion specification %u`. -/
  | missing_width_argument (num_fmt : Nat)
  /-- Message `argument for '*' field width in conversion specification %u is not an
  'int', but an '%T'`. -/
  | width_not_int (num_fmt : Nat) (arg_type : type_t)
  /-- Message `missing argument for '*' precision in conversion specification %u`. -/
  | missing_precision_argument (num_fmt : Nat)
  /-- Message `argument for '*' precision in conversion specification %u is not an
  'int', but an '%T'`. -/
  | precision_not_int (num_fmt : Nat) (arg_type : type_t)
  /-- Message `dangling %% in format string`. -/
  | dangling_percent
  /-- Message `invalid length modifier '%s' for conversion specifier '%%%c'`. -/
  | invalid_length_modifier (fmt_mod : format_length_modifier_t) (conversion : Nat)
  /-- Message `encountered unknown conversion specifier '%%%C' at position %u`. -/
  | unknown_conversion (fmt : Nat) (num_fmt : Nat)
  /-- Message `too few arguments for format string`. -/
  | too_few_arguments
  /-- Message `invalid format flags "%s" in conversion specification %%%c at
  position %u`. -/
  | invalid_format_flags (wrong_flags : Nat) (fmt : Nat) (num_fmt : Nat)
  /-- Message `argument type '%T' does not match conversion specifier '%%%s%c' at
  position %u`. -/
  | argument_type_mismatch (arg_type : type_t) (fmt_mod : format_length_modifier_t)
      (fmt : Nat) (num_fmt : Nat)
  /-- Message `format string contains '\\0'`. -/
  | embedded_nul
  /-- Message `%u argument%s but only %u format specifier%s`. -/
  | too_many_arguments (num_args : Nat) (num_fmt : Nat)
  deriving DecidableEq, Repr

/-- The cursor of the walk (`vchar_t`): the `position` and the characters
`begin[position]`, `begin[position + 1]`, ... up to the end of the array. -/
structure vchar_t where
  position : Nat
  rest : List Nat
  deriving DecidableEq, Repr

/-- `string_first` and `wstring_first`: the character at position 0. -/
def vchar_first (string : string_t) : Option (Nat × vchar_t) :=
  match string.begin_chars with
  | [] => none
  | c :: rest => some (c, ⟨0, c :: rest⟩)

/-- `string_next` and `wstring_next`: advance the position and read. -/
def vchar_next (vchar : vchar_t) : Option (Nat × vchar_t) :=
  match vchar.rest with
  | [] => none
  | _ :: tail =>
      match tail with
      | [] => none
      | c :: _ => some (c, ⟨vchar.position + 1, tail⟩)

/-- `string_isdigit` and `wstring_isdigit`. -/
def vchar_is_digit (vchar : Nat) : Bool := decide (48 ≤ vchar) && decide (vchar ≤ 57)

/-- `atend`: the position is that of the last character of the array. -/
def atend (vchar : vchar_t) (size : Nat) : Bool := vchar.position + 1 == size

/-- The loop `while (vchar.is_digit(fmt)) fmt = vchar.next(&vchar);`, by
recursion on the characters from the position on. -/
def skip_digits : List Nat → Nat → Nat → Option (Nat × vchar_t)
  | [], fmt, position => if vchar_is_digit fmt then none else some (fmt, ⟨position, []⟩)
  | x :: tail, fmt, position =>
      if vchar_is_digit fmt then
        match tail with
        | [] => none
        | c :: _ => skip_digits tail c (position + 1)
      else some (fmt, ⟨position, x :: tail⟩)

/-- What a step of the walk hands on: the current character, the cursor,
the flags, the next argument and the warnings so far; or the early
`return -1` with the warnings so far. -/
inductive format_walk_t
  | go (fmt : Nat) (vchar : vchar_t) (fmt_flags : Nat) (arg : call_argument_t)
      (warnings : List format_warning_t)
  | return_minus_one (warnings : List format_warning_t)

/-- The flag of a flag character and the warning that `' '` and `'+'` draw
(the `switch` of the flags loop); `none` for any other character. -/
def printf_flag (fmt fmt_flags num_fmt : Nat) : Option (Nat × List format_warning_t) :=
  if fmt = '#'.toNat then some (FMT_FLAG_HASH, [])
  else if fmt = '0'.toNat then some (FMT_FLAG_ZERO, [])
  else if fmt = '-'.toNat then some (FMT_FLAG_MINUS, [])
  else if fmt = 39 then some (FMT_FLAG_TICK, [])
  else if fmt = 32 then
    some (FMT_FLAG_SPACE,
      if fmt_flags &&& FMT_FLAG_PLUS ≠ 0 then [.space_overridden num_fmt] else [])
  else if fmt = '+'.toNat then
    some (FMT_FLAG_PLUS,
      if fmt_flags &&& FMT_FLAG_SPACE ≠ 0 then [.plus_overrides num_fmt] else [])
  else none

/-- The flags loop `for (;;)`, left through `break_fmt_flags`. -/
def printf_flags_loop (num_fmt : Nat) :
    List Nat → Nat → Nat → Nat → List format_warning_t →
      Option (Nat × vchar_t × Nat × List format_warning_t)
  | [], fmt, position, fmt_flags, warnings =>
      match printf_flag fmt fmt_flags num_fmt with
      | none => some (fmt, ⟨position, []⟩, fmt_flags, warnings)
      | some _ => none
  | x :: tail, fmt, position, fmt_flags, warnings =>
      match printf_flag fmt fmt_flags num_fmt with
      | none => some (fmt, ⟨position, x :: tail⟩, fmt_flags, warnings)
      | some (flag, ws) =>
          match tail with
          | [] => none
          | c :: _ =>
              printf_flags_loop num_fmt tail c (position + 1) (fmt_flags ||| flag)
                (warnings ++ ws ++
                  (if fmt_flags &&& flag ≠ 0 then [.repeated_flag fmt num_fmt] else []))

/-- The argument selector or minimum field width, with the flags. -/
def printf_width (env : format_env_t) (num_fmt : Nat) (fmt : Nat) (vchar : vchar_t)
    (fmt_flags : Nat) (arg : call_argument_t) (warnings : List format_warning_t) :
    Option format_walk_t :=
  if vchar_is_digit fmt then
    match vchar_next vchar with
    | none => none
    | some (fmt, vchar) =>
        match skip_digits vchar.rest fmt vchar.position with
        | none => none
        | some (fmt, vchar) =>
            if fmt = '$'.toNat then some (.return_minus_one warnings)
            else some (.go fmt vchar fmt_flags arg warnings)
  else
    match printf_flags_loop num_fmt vchar.rest fmt vchar.position fmt_flags warnings with
    | none => none
    | some (fmt, vchar, fmt_flags, warnings) =>
        if fmt = '*'.toNat then
          match vchar_next vchar with
          | none => none
          | some (fmt, vchar) =>
              match arg with
              | .null =>
                  some (.return_minus_one (warnings ++ [.missing_width_argument num_fmt]))
              | .argument expression next =>
                  some (.go fmt vchar fmt_flags next
                    (warnings ++
                      (if expression.base.type ≠ env.types.type_int then
                        [.width_not_int num_fmt expression.base.type] else [])))
        else
          match skip_digits vchar.rest fmt vchar.position with
          | none => none
          | some (fmt, vchar) => some (.go fmt vchar fmt_flags arg warnings)

/-- The precision. -/
def printf_precision (env : format_env_t) (num_fmt : Nat) (fmt : Nat) (vchar : vchar_t)
    (fmt_flags : Nat) (arg : call_argument_t) (warnings : List format_warning_t) :
    Option format_walk_t :=
  if fmt = '.'.toNat then
    match vchar_next vchar with
    | none => none
    | some (fmt, vchar) =>
        if fmt = '*'.toNat then
          match vchar_next vchar with
          | none => none
          | some (fmt, vchar) =>
              match arg with
              | .null =>
                  some (.return_minus_one
                    (warnings ++ [.missing_precision_argument num_fmt]))
              | .argument expression next =>
                  some (.go fmt vchar fmt_flags next
                    (warnings ++
                      (if expression.base.type ≠ env.types.type_int then
                        [.precision_not_int num_fmt expression.base.type] else [])))
        else
          match skip_digits vchar.rest fmt vchar.position with
          | none => none
          | some (fmt, vchar) => some (.go fmt vchar fmt_flags arg warnings)
  else some (.go fmt vchar fmt_flags arg warnings)

/-- The `case 'I'` of the length modifier in Microsoft mode: `I`, `I32` or
`I64`; where the digit after `3` or `6` does not fit, the position is
rewound by one while `fmt` keeps the character read last. -/
def length_modifier_I (vchar : vchar_t) :
    Option (Nat × vchar_t × format_length_modifier_t) :=
  match vchar_next vchar with
  | none => none
  | some (fmt, vchar) =>
      if fmt = '3'.toNat then
        match vchar_next vchar with
        | none => none
        | some (fmt2, vchar2) =>
            if fmt2 = '2'.toNat then
              match vchar_next vchar2 with
              | none => none
              | some (fmt3, vchar3) => some (fmt3, vchar3, .FMT_MOD_I32)
            else some (fmt2, ⟨vchar2.position - 1, vchar.rest⟩, .FMT_MOD_I)
      else if fmt = '6'.toNat then
        match vchar_next vchar with
        | none => none
        | some (fmt2, vchar2) =>
            if fmt2 = '4'.toNat then
              match vchar_next vchar2 with
              | none => none
              | some (fmt3, vchar3) => some (fmt3, vchar3, .FMT_MOD_I64)
            else some (fmt2, ⟨vchar2.position - 1, vchar.rest⟩, .FMT_MOD_I)
      else some (fmt, vchar, .FMT_MOD_I)

/-- One character of length modifier: advance and hand back the modifier. -/
def length_modifier_one (vchar : vchar_t) (fmt_mod : format_length_modifier_t) :
    Option (Nat × vchar_t × format_length_modifier_t) :=
  match vchar_next vchar with
  | none => none
  | some (fmt, vchar) => some (fmt, vchar, fmt_mod)

/-- The length modifier of the printf checker. -/
def printf_length_modifier (env : format_env_t) (fmt : Nat) (vchar : vchar_t) :
    Option (Nat × vchar_t × format_length_modifier_t) :=
  if fmt = 'h'.toNat then
    match vchar_next vchar with
    | none => none
    | some (fmt, vchar) =>
        if fmt = 'h'.toNat then length_modifier_one vchar .FMT_MOD_hh
        else some (fmt, vchar, .FMT_MOD_h)
  else if fmt = 'l'.toNat then
    match vchar_next vchar with
    | none => none
    | some (fmt, vchar) =>
        if fmt = 'l'.toNat then length_modifier_one vchar .FMT_MOD_ll
        else some (fmt, vchar, .FMT_MOD_l)
  else if fmt = 'L'.toNat then length_modifier_one vchar .FMT_MOD_L
  else if fmt = 'j'.toNat then length_modifier_one vchar .FMT_MOD_j
  else if fmt = 't'.toNat then length_modifier_one vchar .FMT_MOD_t
  else if fmt = 'z'.toNat then length_modifier_one vchar .FMT_MOD_z
  else if fmt = 'q'.toNat then length_modifier_one vchar .FMT_MOD_q
  else if fmt = 'w'.toNat then
    if env.c_mode_ms then length_modifier_one vchar .FMT_MOD_w
    else some (fmt, vchar, .FMT_MOD_NONE)
  else if fmt = 'I'.toNat then
    if env.c_mode_ms then length_modifier_I vchar
    else some (fmt, vchar, .FMT_MOD_NONE)
  else some (fmt, vchar, .FMT_MOD_NONE)

/-- What the `switch (fmt)` over the conversion specifier yields: the
expected type with its qualifiers and the allowed flags; the warning of an
invalid length modifier (then `goto next_arg`); or the `default` case. -/
inductive format_expected_t
  | expected (expected_type : type_t) (expected_qual : Nat) (allowed_flags : Nat)
  | invalid_length_modifier
  | unknown_conversion
  deriving DecidableEq, Repr

open format_length_modifier_t in
/-- The inner `switch (fmt_mod)` of the conversions `d` and `i` of printf. -/
def printf_expected_signed (types : types_t) : format_length_modifier_t → Option type_t
  | FMT_MOD_NONE => some types.type_int
  | FMT_MOD_hh => some types.type_int
  | FMT_MOD_h => some types.type_int
  | FMT_MOD_l => some types.type_long
  | FMT_MOD_ll => some types.type_long_long
  | FMT_MOD_j => some types.type_intmax_t
  | FMT_MOD_z => some types.type_ssize_t
  | FMT_MOD_t => some types.type_ptrdiff_t
  | FMT_MOD_I => some types.type_ptrdiff_t
  | FMT_MOD_I32 => some types.type_int32
  | FMT_MOD_I64 => some types.type_int64
  | _ => none

open format_length_modifier_t in
/-- The inner `switch (fmt_mod)` at `eval_fmt_mod_unsigned` of printf. -/
def printf_expected_unsigned (types : types_t) : format_length_modifier_t → Option type_t
  | FMT_MOD_NONE => some types.type_unsigned_int
  | FMT_MOD_hh => some types.type_int
  | FMT_MOD_h => some types.type_int
  | FMT_MOD_l => some types.type_unsigned_long
  | FMT_MOD_ll => some types.type_unsigned_long_long
  | FMT_MOD_j => some types.type_uintmax_t
  | FMT_MOD_z => some types.type_size_t
  | FMT_MOD_t => some types.type_uptrdiff_t
  | FMT_MOD_I => some types.type_size_t
  | FMT_MOD_I32 => some types.type_unsigned_int32
  | FMT_MOD_I64 => some types.type_unsigned_int64
  | _ => none

open format_length_modifier_t in
/-- The inner `switch (fmt_mod)` of the floating conversions. -/
def format_expected_float (types : types_t) : format_length_modifier_t → Option type_t
  | FMT_MOD_l => some types.type_double
  | FMT_MOD_NONE => some types.type_double
  | FMT_MOD_L => some types.type_long_double
  | _ => none

open format_length_modifier_t in
/-- The inner `switch (fmt_mod)` of the conversion `c`. -/
def format_expected_char (types : types_t) : format_length_modifier_t → Option type_t
  | FMT_MOD_NONE => some types.type_int
  | FMT_MOD_l => some types.type_wint_t
  | FMT_MOD_w => some types.type_wchar_t
  | _ => none

open format_length_modifier_t in
/-- The inner `switch (fmt_mod)` of the conversion `s` of printf. -/
def printf_expected_string (types : types_t) : format_length_modifier_t → Option type_t
  | FMT_MOD_NONE => some types.type_char_ptr
  | FMT_MOD_l => some types.type_wchar_t_ptr
  | FMT_MOD_w => some types.type_wchar_t_ptr
  | _ => none

open format_length_modifier_t in
/-- The inner `switch (fmt_mod)` of the conversion `n` of printf. -/
def printf_expected_count (types : types_t) : format_length_modifier_t → Option type_t
  | FMT_MOD_NONE => some types.type_int_ptr
  | FMT_MOD_hh => some types.type_signed_char_ptr
  | FMT_MOD_h => some types.type_short_ptr
  | FMT_MOD_l => some types.type_long_ptr
  | FMT_MOD_ll => some types.type_long_long_ptr
  | FMT_MOD_j => some types.type_intmax_t_ptr
  | FMT_MOD_z => some types.type_ssize_t_ptr
  | FMT_MOD_t => some types.type_ptrdiff_t_ptr
  | _ => none

/-- The expected type of an inner switch with the qualifiers and flags of
its conversion, or the invalid length modifier. -/
def format_expected_of (type : Option type_t) (expected_qual allowed_flags : Nat) :
    format_expected_t :=
  match type with
  | some expected_type => .expected expected_type expected_qual allowed_flags
  | none => .invalid_length_modifier

/-- The `switch (fmt)` over the conversion specifier of printf. -/
def printf_expected (types : types_t) (fmt : Nat) (fmt_mod : format_length_modifier_t) :
    format_expected_t :=
  if fmt = 'd'.toNat ∨ fmt = 'i'.toNat then
    format_expected_of (printf_expected_signed types fmt_mod) TYPE_QUALIFIER_NONE
      (FMT_FLAG_MINUS ||| FMT_FLAG_SPACE ||| FMT_FLAG_PLUS ||| FMT_FLAG_ZERO)
  else if fmt = 'o'.toNat ∨ fmt = 'X'.toNat ∨ fmt = 'x'.toNat then
    format_expected_of (printf_expected_unsigned types fmt_mod) TYPE_QUALIFIER_NONE
      (FMT_FLAG_MINUS ||| FMT_FLAG_HASH ||| FMT_FLAG_ZERO)
  else if fmt = 'u'.toNat then
    format_expected_of (printf_expected_unsigned types fmt_mod) TYPE_QUALIFIER_NONE
      (FMT_FLAG_MINUS ||| FMT_FLAG_ZERO)
  else if fmt = 'A'.toNat ∨ fmt = 'a'.toNat ∨ fmt = 'E'.toNat ∨ fmt = 'e'.toNat ∨
      fmt = 'F'.toNat ∨ fmt = 'f'.toNat ∨ fmt = 'G'.toNat ∨ fmt = 'g'.toNat then
    format_expected_of (format_expected_float types fmt_mod) TYPE_QUALIFIER_NONE
      (FMT_FLAG_MINUS ||| FMT_FLAG_SPACE ||| FMT_FLAG_PLUS ||| FMT_FLAG_HASH |||
        FMT_FLAG_ZERO)
  else if fmt = 'C'.toNat then
    if fmt_mod ≠ .FMT_MOD_NONE then .invalid_length_modifier
    else .expected types.type_wchar_t TYPE_QUALIFIER_NONE FMT_FLAG_NONE
  else if fmt = 'c'.toNat then
    format_expected_of (format_expected_char types fmt_mod) TYPE_QUALIFIER_NONE FMT_FLAG_NONE
  else if fmt = 'S'.toNat then
    if fmt_mod ≠ .FMT_MOD_NONE then .invalid_length_modifier
    else .expected types.type_wchar_t_ptr TYPE_QUALIFIER_CONST FMT_FLAG_MINUS
  else if fmt = 's'.toNat then
    format_expected_of (printf_expected_string types fmt_mod) TYPE_QUALIFIER_CONST
      FMT_FLAG_MINUS
  else if fmt = 'p'.toNat then
    if fmt_mod ≠ .FMT_MOD_NONE then .invalid_length_modifier
    else .expected types.type_void_ptr TYPE_QUALIFIER_NONE FMT_FLAG_NONE
  else if fmt = 'n'.toNat then
    format_expected_of (printf_expected_count types fmt_mod) TYPE_QUALIFIER_NONE
      FMT_FLAG_NONE
  else .unknown_conversion

/-- The comparison of the argument type with the expected type in the
printf checker: `some true` where the code jumps to `next_arg` without a
warning, `some false` where it falls through to the test of
`is_type_valid`. -/
def printf_argument_matches (fmt : Nat) (arg_skip expected_type_skip : type_t)
    (expected_qual : Nat) : Option Bool :=
  if fmt = 'p'.toNat ∧ is_type_pointer arg_skip = true then some true
  else
    match expected_type_skip with
    | .pointer _ expected_points_to _ =>
        match arg_skip with
        | .pointer _ arg_points_to _ =>
            match skip_typeref expected_points_to, skip_typeref arg_points_to with
            | some exp_to, some arg_to =>
                if and_not arg_to.qualifiers expected_qual = 0 then
                  match get_unqualified_type arg_to with
                  | none => none
                  | some unqualified => some (decide (unqualified = exp_to))
                else some false
            | _, _ => none
        | _ => some false
    | _ =>
        match get_unqualified_type arg_skip with
        | none => none
        | some unqualified => some (decide (unqualified = expected_type_skip))

/-- What the body of the loop hands back for one conversion specification:
arrival at `next_arg`, the `break` after a dangling `%`, or `return -1`. -/
inductive format_step_t
  | next_arg (vchar : vchar_t) (arg : call_argument_t) (warnings : List format_warning_t)
  | break_loop (vchar : vchar_t) (warnings : List format_warning_t)
  | return_minus_one (warnings : List format_warning_t)

/-- The body of the loop of `internal_check_printf_format` from the length
modifier to the label `next_arg`. -/
def printf_specifier (env : format_env_t) (num_fmt : Nat) (fmt : Nat) (vchar : vchar_t)
    (fmt_flags : Nat) (arg : call_argument_t) (warnings : List format_warning_t) :
    Option format_step_t :=
  match printf_length_modifier env fmt vchar with
  | none => none
  | some (fmt, vchar, fmt_mod) =>
      if fmt = 0 then some (.break_loop vchar (warnings ++ [.dangling_percent]))
      else
        match printf_expected env.types fmt fmt_mod with
        | .invalid_length_modifier =>
            some (.next_arg vchar arg (warnings ++ [.invalid_length_modifier fmt_mod fmt]))
        | .unknown_conversion =>
            match arg with
            | .null =>
                some (.return_minus_one
                  (warnings ++ [.unknown_conversion fmt num_fmt, .too_few_arguments]))
            | .argument _ _ =>
                some (.next_arg vchar arg (warnings ++ [.unknown_conversion fmt num_fmt]))
        | .expected expected_type expected_qual allowed_flags =>
            let wrong_flags := and_not fmt_flags allowed_flags
            let warnings := warnings ++
              (if wrong_flags ≠ 0 then [.invalid_format_flags wrong_flags fmt num_fmt]
               else [])
            match arg with
            | .null => some (.return_minus_one (warnings ++ [.too_few_arguments]))
            | .argument expression _ =>
                match skip_typeref expression.base.type, skip_typeref expected_type with
                | some arg_skip, some expected_type_skip =>
                    match printf_argument_matches fmt arg_skip expected_type_skip
                        expected_qual with
                    | none => none
                    | some true => some (.next_arg vchar arg warnings)
                    | some false =>
                        some (.next_arg vchar arg (warnings ++
                          (if is_type_valid arg_skip then
                            [.argument_type_mismatch expression.base.type fmt_mod fmt num_fmt]
                           else [])))
                | _, _ => none

/-- The body of the loop of `internal_check_printf_format` after
`++num_fmt`: flags, width, precision, then the rest. -/
def printf_conversion (env : format_env_t) (num_fmt : Nat) (fmt : Nat) (vchar : vchar_t)
    (arg : call_argument_t) (warnings : List format_warning_t) : Option format_step_t :=
  match
    (if fmt = '0'.toNat then
      match vchar_next vchar with
      | none => none
      | some (fmt, vchar) => some (fmt, vchar, FMT_FLAG_NONE ||| FMT_FLAG_ZERO)
    else some (fmt, vchar, FMT_FLAG_NONE)) with
  | none => none
  | some (fmt, vchar, fmt_flags) =>
      match printf_width env num_fmt fmt vchar fmt_flags arg warnings with
      | none => none
      | some (.return_minus_one warnings) => some (.return_minus_one warnings)
      | some (.go fmt vchar fmt_flags arg warnings) =>
          match printf_precision env num_fmt fmt vchar fmt_flags arg warnings with
          | none => none
          | some (.return_minus_one warnings) => some (.return_minus_one warnings)
          | some (.go fmt vchar fmt_flags arg warnings) =>
              printf_specifier env num_fmt fmt vchar fmt_flags arg warnings

/-- The end of the walk: the warning of an embedded NUL unless the cursor is
at the end. -/
def format_finish (vchar : vchar_t) (size : Nat) (warnings : List format_warning_t) :
    List format_warning_t :=
  warnings ++ (if atend vchar size then [] else [.embedded_nul])

/-- The loop of `internal_check_printf_format` over the format string; the
fuel bounds the number of iterations.  At `next_arg` the code reads
`arg->next` whether or not there is an argument. -/
def internal_check_printf_loop (env : format_env_t) (size : Nat) :
    Nat → Nat → vchar_t → Nat → call_argument_t → List format_warning_t →
      Option (Int × List format_warning_t)
  | 0, _, _, _, _, _ => none
  | fuel + 1, fmt, vchar, num_fmt, arg, warnings =>
      if fmt = 0 then some (Int.ofNat num_fmt, format_finish vchar size warnings)
      else if fmt ≠ '%'.toNat then
        match vchar_next vchar with
        | none => none
        | some (fmt, vchar) => internal_check_printf_loop env size fuel fmt vchar num_fmt arg
            warnings
      else
        match vchar_next vchar with
        | none => none
        | some (fmt, vchar) =>
            if fmt = '%'.toNat then
              match vchar_next vchar with
              | none => none
              | some (fmt, vchar) =>
                  internal_check_printf_loop env size fuel fmt vchar num_fmt arg warnings
            else
              match printf_conversion env (num_fmt + 1) fmt vchar arg warnings with
              | none => none
              | some (.return_minus_one warnings) => some (-1, warnings)
              | some (.break_loop vchar warnings) =>
                  some (Int.ofNat (num_fmt + 1), format_finish vchar size warnings)
              | some (.next_arg vchar arg warnings) =>
                  match arg with
                  | .null => none
                  | .argument _ next =>
                      match vchar_next vchar with
                      | none => none
                      | some (fmt, vchar) =>
                          internal_check_printf_loop env size fuel fmt vchar (num_fmt + 1)
                            next warnings

/-- The walk of `internal_check_printf_format` over one string literal. -/
def internal_check_printf_string (env : format_env_t) (fuel : Nat) (string : string_t)
    (arg : call_argument_t) : Option (Int × List format_warning_t) :=
  match vchar_first string with
  | none => none
  | some (fmt, vchar) => internal_check_printf_loop env string.size fuel fmt vchar 0 arg []

/-- `internal_check_printf_format`: an implicit cast around the format
expression is stripped; string literals are walked, a conditional is
checked on both branches and yields the larger count, anything else yields
-1.  The fuel bounds the nesting of conditionals and the iterations of each
walk. -/
def internal_check_printf_format (env : format_env_t) :
    Nat → expression_t → call_argument_t → Option (Int × List format_warning_t)
  | 0, _, _ => none
  | fuel + 1, fmt_expr, arg =>
      let fmt_expr := match fmt_expr with
        | .unary .EXPR_UNARY_CAST_IMPLICIT _ value => value
        | _ => fmt_expr
      match fmt_expr with
      | .string_literal _ value => internal_check_printf_string env fuel value arg
      | .wide_string_literal _ value => internal_check_printf_string env fuel value arg
      | .conditional _ condition true_expression false_expression =>
          let t := match true_expression with
            | .null => condition
            | .ptr t => t
          match internal_check_printf_format env fuel t arg with
          | none => none
          | some (nt, warnings_t) =>
              match internal_check_printf_format env fuel false_expression arg with
              | none => none
              | some (nf, warnings_f) =>
                  some (if nt > nf then nt else nf, warnings_t ++ warnings_f)
      | _ => some (-1, [])

/-- The first loop of `check_printf_format` and `check_scanf_format`: skip
`fmt_idx` arguments; `none` is the early `return` when the list ends. -/
def find_format_arg : Nat → call_argument_t → Option call_argument_t
  | 0, arg => some arg
  | _ + 1, .null => none
  | n + 1, .argument _ next => find_format_arg n next

/-- The loop `for (; idx < spec->arg_idx && arg != NULL; ++idx)`, with the
number of steps left. -/
def find_real_args : Nat → call_argument_t → call_argument_t
  | 0, arg => arg
  | _ + 1, .null => .null
  | n + 1, .argument _ next => find_real_args n next

/-- The number of arguments of a list (the loop counting `num_args`). -/
def count_arguments : call_argument_t → Nat
  | .null => 0
  | .argument _ next => count_arguments next + 1

/-- `check_printf_format`: the format expression is read from the argument
at `fmt_idx` without a test for `NULL`. -/
def check_printf_format (env : format_env_t) (fuel : Nat) (arg : call_argument_t)
    (spec : format_spec_t) : Option (List format_warning_t) :=
  match find_format_arg spec.fmt_idx arg with
  | none => some []
  | some .null => none
  | some (.argument fmt_expr next) =>
      let arg := find_real_args (spec.arg_idx - spec.fmt_idx) (.argument fmt_expr next)
      match internal_check_printf_format env fuel fmt_expr arg with
      | none => none
      | some (num_fmt, warnings) =>
          if num_fmt < 0 then some warnings
          else
            let num_args := count_arguments arg
            if (num_args : Int) > num_fmt then
              some (warnings ++ [.too_many_arguments num_args num_fmt.toNat])
            else some warnings

/-- The length modifier of the scanf checker (no `q`). -/
def scanf_length_modifier (env : format_env_t) (fmt : Nat) (vchar : vchar_t) :
    Option (Nat × vchar_t × format_length_modifier_t) :=
  if fmt = 'h'.toNat then
    match vchar_next vchar with
    | none => none
    | some (fmt, vchar) =>
        if fmt = 'h'.toNat then length_modifier_one vchar .FMT_MOD_hh
        else some (fmt, vchar, .FMT_MOD_h)
  else if fmt = 'l'.toNat then
    match vchar_next vchar with
    | none => none
    | some (fmt, vchar) =>
        if fmt = 'l'.toNat then length_modifier_one vchar .FMT_MOD_ll
        else some (fmt, vchar, .FMT_MOD_l)
  else if fmt = 'L'.toNat then length_modifier_one vchar .FMT_MOD_L
  else if fmt = 'j'.toNat then length_modifier_one vchar .FMT_MOD_j
  else if fmt = 't'.toNat then length_modifier_one vchar .FMT_MOD_t
  else if fmt = 'z'.toNat then length_modifier_one vchar .FMT_MOD_z
  else if fmt = 'w'.toNat then
    if env.c_mode_ms then length_modifier_one vchar .FMT_MOD_w
    else some (fmt, vchar, .FMT_MOD_NONE)
  else if fmt = 'I'.toNat then
    if env.c_mode_ms then length_modifier_I vchar
    else some (fmt, vchar, .FMT_MOD_NONE)
  else some (fmt, vchar, .FMT_MOD_NONE)

open format_length_modifier_t in
/-- The inner `switch (fmt_mod)` of the conversions `d` and `i` of scanf. -/
def scanf_expected_signed (types : types_t) : format_length_modifier_t → Option type_t
  | FMT_MOD_NONE => some types.type_int
  | FMT_MOD_hh => some types.type_signed_char
  | FMT_MOD_h => some types.type_short
  | FMT_MOD_l => some types.type_long
  | FMT_MOD_ll => some types.type_long_long
  | FMT_MOD_j => some types.type_intmax_t
  | FMT_MOD_z => some types.type_ssize_t
  | FMT_MOD_t => some types.type_ptrdiff_t
  | FMT_MOD_I => some types.type_ptrdiff_t
  | FMT_MOD_I32 => some types.type_int32
  | FMT_MOD_I64 => some types.type_int64
  | _ => none

open format_length_modifier_t in
/-- The inner `switch (fmt_mod)` at `eval_fmt_mod_unsigned` of scanf. -/
def scanf_expected_unsigned (types : types_t) : format_length_modifier_t → Option type_t
  | FMT_MOD_NONE => some types.type_unsigned_int
  | FMT_MOD_hh => some types.type_unsigned_char
  | FMT_MOD_h => some types.type_unsigned_short
  | FMT_MOD_l => some types.type_unsigned_long
  | FMT_MOD_ll => some types.type_unsigned_long_long
  | FMT_MOD_j => some types.type_uintmax_t
  | FMT_MOD_z => some types.type_size_t
  | FMT_MOD_t => some types.type_uptrdiff_t
  | FMT_MOD_I => some types.type_size_t
  | FMT_MOD_I32 => some types.type_unsigned_int32
  | FMT_MOD_I64 => some types.type_unsigned_int64
  | _ => none

open format_length_modifier_t in
/-- The inner `switch (fmt_mod)` of the conversions `s` and `[` of scanf. -/
def scanf_expected_string (types : types_t) : format_length_modifier_t → Option type_t
  | FMT_MOD_NONE => some types.type_char
  | FMT_MOD_l => some types.type_wchar_t
  | FMT_MOD_w => some types.type_wchar_t
  | _ => none

open format_length_modifier_t in
/-- The inner `switch (fmt_mod)` of the conversion `n` of scanf. -/
def scanf_expected_count (types : types_t) : format_length_modifier_t → Option type_t
  | FMT_MOD_NONE => some types.type_int
  | FMT_MOD_hh => some types.type_signed_char
  | FMT_MOD_h => some types.type_short
  | FMT_MOD_l => some types.type_long
  | FMT_MOD_ll => some types.type_long_long
  | FMT_MOD_j => some types.type_intmax_t
  | FMT_MOD_z => some types.type_ssize_t
  | FMT_MOD_t => some types.type_ptrdiff_t
  | _ => none

/-- The `switch (fmt)` over the conversion specifier of scanf; the scanf
checker has neither expected qualifiers nor flags. -/
def scanf_expected (types : types_t) (fmt : Nat) (fmt_mod : format_length_modifier_t) :
    format_expected_t :=
  if fmt = 'd'.toNat ∨ fmt = 'i'.toNat then
    format_expected_of (scanf_expected_signed types fmt_mod) TYPE_QUALIFIER_NONE FMT_FLAG_NONE
  else if fmt = 'o'.toNat ∨ fmt = 'X'.toNat ∨ fmt = 'x'.toNat ∨ fmt = 'u'.toNat then
    format_expected_of (scanf_expected_unsigned types fmt_mod) TYPE_QUALIFIER_NONE
      FMT_FLAG_NONE
  else if fmt = 'A'.toNat ∨ fmt = 'a'.toNat ∨ fmt = 'E'.toNat ∨ fmt = 'e'.toNat ∨
      fmt = 'F'.toNat ∨ fmt = 'f'.toNat ∨ fmt = 'G'.toNat ∨ fmt = 'g'.toNat then
    format_expected_of (format_expected_float types fmt_mod) TYPE_QUALIFIER_NONE FMT_FLAG_NONE
  else if fmt = 'C'.toNat then
    if fmt_mod ≠ .FMT_MOD_NONE then .invalid_length_modifier
    else .expected types.type_wchar_t TYPE_QUALIFIER_NONE FMT_FLAG_NONE
  else if fmt = 'c'.toNat then
    format_expected_of (format_expected_char types fmt_mod) TYPE_QUALIFIER_NONE FMT_FLAG_NONE
  else if fmt = 'S'.toNat then
    if fmt_mod ≠ .FMT_MOD_NONE then .invalid_length_modifier
    else .expected types.type_wchar_t TYPE_QUALIFIER_NONE FMT_FLAG_NONE
  else if fmt = 's'.toNat ∨ fmt = '['.toNat then
    format_expected_of (scanf_expected_string types fmt_mod) TYPE_QUALIFIER_NONE FMT_FLAG_NONE
  else if fmt = 'p'.toNat then
    if fmt_mod ≠ .FMT_MOD_NONE then .invalid_length_modifier
    else .expected types.type_void_ptr TYPE_QUALIFIER_NONE FMT_FLAG_NONE
  else if fmt = 'n'.toNat then
    format_expected_of (scanf_expected_count types fmt_mod) TYPE_QUALIFIER_NONE FMT_FLAG_NONE
  else .unknown_conversion

/-- The comparison of the argument type with the expected type in the scanf
checker: `some true` where the code jumps to `next_arg` without a warning,
`some false` where it reaches `error_arg_type`. -/
def scanf_argument_matches (types : types_t) (fmt : Nat)
    (arg_skip expected_type_skip : type_t) : Option Bool :=
  match arg_skip with
  | .pointer _ points_to _ =>
      match skip_typeref points_to with
      | none => none
      | some ptr_skip =>
          if fmt = 'p'.toNat ∧ is_type_pointer ptr_skip = true then some true
          else if ptr_skip.qualifiers &&& (TYPE_QUALIFIER_CONST ||| TYPE_QUALIFIER_VOLATILE) ≠ 0
          then some false
          else
            match get_unqualified_type ptr_skip with
            | none => none
            | some unqual_ptr =>
                if unqual_ptr = expected_type_skip then some true
                else if expected_type_skip = types.type_char then
                  some (decide (unqual_ptr = types.type_signed_char ∨
                    unqual_ptr = types.type_unsigned_char))
                else some false
  | _ => some false

/-- The body of the loop of `check_scanf_format` after `++num_fmt`, up to
the label `next_arg`. -/
def scanf_conversion (env : format_env_t) (num_fmt : Nat) (fmt : Nat) (vchar : vchar_t)
    (arg : call_argument_t) (warnings : List format_warning_t) : Option format_step_t :=
  match scanf_length_modifier env fmt vchar with
  | none => none
  | some (fmt, vchar, fmt_mod) =>
      if fmt = 0 then some (.break_loop vchar (warnings ++ [.dangling_percent]))
      else
        match scanf_expected env.types fmt fmt_mod with
        | .invalid_length_modifier =>
            some (.next_arg vchar arg (warnings ++ [.invalid_length_modifier fmt_mod fmt]))
        | .unknown_conversion =>
            match arg with
            | .null =>
                some (.return_minus_one
                  (warnings ++ [.unknown_conversion fmt num_fmt, .too_few_arguments]))
            | .argument _ _ =>
                some (.next_arg vchar arg (warnings ++ [.unknown_conversion fmt num_fmt]))
        | .expected expected_type _ _ =>
            match arg with
            | .null => some (.return_minus_one (warnings ++ [.too_few_arguments]))
            | .argument expression _ =>
                match skip_typeref expression.base.type, skip_typeref expected_type with
                | some arg_skip, some expected_type_skip =>
                    match scanf_argument_matches env.types fmt arg_skip expected_type_skip with
                    | none => none
                    | some true => some (.next_arg vchar arg warnings)
                    | some false =>
                        some (.next_arg vchar arg (warnings ++
                          (if is_type_valid arg_skip then
                            [.argument_type_mismatch expression.base.type fmt_mod fmt num_fmt]
                           else [])))
                | _, _ => none

/-- The end of `check_scanf_format`: the warning of an embedded NUL, then
the warning of surplus arguments. -/
def scanf_finish (vchar : vchar_t) (size : Nat) (num_fmt : Nat) (arg : call_argument_t)
    (warnings : List format_warning_t) : List format_warning_t :=
  format_finish vchar size warnings ++
    (match arg with
     | .null => []
     | .argument _ _ => [.too_many_arguments (num_fmt + count_arguments arg) num_fmt])

/-- The loop of `check_scanf_format` over the format string, with what
follows it; the fuel bounds the number of iterations. -/
def check_scanf_loop (env : format_env_t) (size : Nat) :
    Nat → Nat → vchar_t → Nat → call_argument_t → List format_warning_t →
      Option (List format_warning_t)
  | 0, _, _, _, _, _ => none
  | fuel + 1, fmt, vchar, num_fmt, arg, warnings =>
      if fmt = 0 then some (scanf_finish vchar size num_fmt arg warnings)
      else if fmt ≠ '%'.toNat then
        match vchar_next vchar with
        | none => none
        | some (fmt, vchar) => check_scanf_loop env size fuel fmt vchar num_fmt arg warnings
      else
        match vchar_next vchar with
        | none => none
        | some (fmt, vchar) =>
            if fmt = '%'.toNat then
              match vchar_next vchar with
              | none => none
              | some (fmt, vchar) => check_scanf_loop env size fuel fmt vchar num_fmt arg warnings
            else
              match scanf_conversion env (num_fmt + 1) fmt vchar arg warnings with
              | none => none
              | some (.return_minus_one warnings) => some warnings
              | some (.break_loop vchar warnings) =>
                  some (scanf_finish vchar size (num_fmt + 1) arg warnings)
              | some (.next_arg vchar arg warnings) =>
                  match arg with
                  | .null => none
                  | .argument _ next =>
                      match vchar_next vchar with
                      | none => none
                      | some (fmt, vchar) =>
                          check_scanf_loop env size fuel fmt vchar (num_fmt + 1) next warnings

/-- `check_scanf_format`: the format expression is read from the argument
at `fmt_idx` without a test for `NULL`; anything but a string literal is
left unchecked. -/
def check_scanf_format (env : format_env_t) (fuel : Nat) (arg : call_argument_t)
    (spec : format_spec_t) : Option (List format_warning_t) :=
  match find_format_arg spec.fmt_idx arg with
  | none => some []
  | some .null => none
  | some (.argument fmt_arg next) =>
      let fmt_expr := match fmt_arg with
        | .unary .EXPR_UNARY_CAST_IMPLICIT _ value => value
        | _ => fmt_arg
      let walk := fun (string : string_t) =>
        let arg := find_real_args (spec.arg_idx - spec.fmt_idx) (.argument fmt_arg next)
        match vchar_first string with
        | none => none
        | some (fmt, vchar) => check_scanf_loop env string.size fuel fmt vchar 0 arg []
      match fmt_expr with
      | .wide_string_literal _ value => walk value
      | .string_literal _ value => walk value
      | _ => some []

/-- The table of the functions that are always checked (`builtin_table`). -/
def builtin_table : List format_spec_t :=
  [ ⟨"printf", .FORMAT_PRINTF, 0, 1⟩,
    ⟨"wprintf", .FORMAT_PRINTF, 0, 1⟩,
    ⟨"sprintf", .FORMAT_PRINTF, 1, 2⟩,
    ⟨"swprintf", .FORMAT_PRINTF, 1, 2⟩,
    ⟨"snprintf", .FORMAT_PRINTF, 2, 3⟩,
    ⟨"snwprintf", .FORMAT_PRINTF, 2, 3⟩,
    ⟨"fprintf", .FORMAT_PRINTF, 1, 2⟩,
    ⟨"fwprintf", .FORMAT_PRINTF, 1, 2⟩,
    ⟨"snwprintf", .FORMAT_PRINTF, 2, 3⟩,
    ⟨"snwprintf", .FORMAT_PRINTF, 2, 3⟩,
    ⟨"scanf", .FORMAT_SCANF, 0, 1⟩,
    ⟨"wscanf", .FORMAT_SCANF, 0, 1⟩,
    ⟨"sscanf", .FORMAT_SCANF, 1, 2⟩,
    ⟨"swscanf", .FORMAT_SCANF, 1, 2⟩,
    ⟨"fscanf", .FORMAT_SCANF, 1, 2⟩,
    ⟨"fwscanf", .FORMAT_SCANF, 1, 2⟩,
    ⟨"strftime", .FORMAT_STRFTIME, 3, 4⟩,
    ⟨"wcstrftime", .FORMAT_STRFTIME, 3, 4⟩,
    ⟨"strfmon", .FORMAT_STRFMON, 3, 4⟩,
    ⟨"_snprintf", .FORMAT_PRINTF, 2, 3⟩,
    ⟨"_snwprintf", .FORMAT_PRINTF, 2, 3⟩,
    ⟨"_scrintf", .FORMAT_PRINTF, 0, 1⟩,
    ⟨"_scwprintf", .FORMAT_PRINTF, 0, 1⟩,
    ⟨"printf_s", .FORMAT_PRINTF, 0, 1⟩,
    ⟨"wprintf_s", .FORMAT_PRINTF, 0, 1⟩,
    ⟨"sprintf_s", .FORMAT_PRINTF, 3, 4⟩,
    ⟨"swprintf_s", .FORMAT_PRINTF, 3, 4⟩,
    ⟨"fprintf_s", .FORMAT_PRINTF, 1, 2⟩,
    ⟨"fwprintf_s", .FORMAT_PRINTF, 1, 2⟩,
    ⟨"_sprintf_l", .FORMAT_PRINTF, 1, 3⟩,
    ⟨"_swprintf_l", .FORMAT_PRINTF, 1, 3⟩,
    ⟨"_printf_l", .FORMAT_PRINTF, 0, 2⟩,
    ⟨"_wprintf_l", .FORMAT_PRINTF, 0, 2⟩,
    ⟨"_fprintf_l", .FORMAT_PRINTF, 1, 3⟩,
    ⟨"_fwprintf_l", .FORMAT_PRINTF, 1, 3⟩,
    ⟨"_printf_s_l", .FORMAT_PRINTF, 0, 2⟩,
    ⟨"_wprintf_s_l", .FORMAT_PRINTF, 0, 2⟩,
    ⟨"_sprintf_s_l", .FORMAT_PRINTF, 3, 5⟩,
    ⟨"_swprintf_s_l", .FORMAT_PRINTF, 3, 5⟩,
    ⟨"_fprintf_s_l", .FORMAT_PRINTF, 1, 3⟩,
    ⟨"_fwprintf_s_l", .FORMAT_PRINTF, 1, 3⟩ ]

/-- The loop of `check_format` over the table: the first entry of the name
decides. -/
def check_format_loop (env : format_env_t) (fuel : Nat) (name : String)
    (arg : call_argument_t) : List format_spec_t → Option (List format_warning_t)
  | [] => some []
  | spec :: table =>
      if name = spec.name then
        match spec.fmt_kind with
        | .FORMAT_PRINTF => check_printf_format env fuel arg spec
        | .FORMAT_SCANF => check_scanf_format env fuel arg spec
        | .FORMAT_STRFTIME => some []
        | .FORMAT_STRFMON => some []
      else check_format_loop env fuel name arg table

/-- `check_format`, on the fields `function` and `arguments` of the call:
nothing is checked unless the warning is on and the callee is a reference;
the name of the entity is read without a test for `NULL`. -/
def check_format (env : format_env_t) (fuel : Nat) (function : expression_t)
    (arguments : call_argument_t) : Option (List format_warning_t) :=
  if !env.warning_format then some []
  else
    match function with
    | .reference _ entity =>
        match entity.symbol with
        | none => none
        | some name => check_format_loop env fuel name arguments builtin_table
    | _ => some []

/-! ### Example calls -/

/-- A type table for the examples: `int`, `long`, ... are the atomic types
of these names, `size_t` is `unsigned long`, and the pointer types point to
the unqualified types. -/
def example_types : types_t :=
  let atomic := fun (k : atomic_type_kind_t) => type_t.atomic TYPE_QUALIFIER_NONE k
  let pointer := fun (t : type_t) => type_t.pointer TYPE_QUALIFIER_NONE t none
  { type_int := atomic .ATOMIC_TYPE_INT
    type_long := atomic .ATOMIC_TYPE_LONG
    type_long_long := atomic .ATOMIC_TYPE_LONGLONG
    type_intmax_t := atomic .ATOMIC_TYPE_LONGLONG
    type_ssize_t := atomic .ATOMIC_TYPE_LONG
    type_ptrdiff_t := atomic .ATOMIC_TYPE_LONG
    type_int32 := atomic .ATOMIC_TYPE_INT
    type_int64 := atomic .ATOMIC_TYPE_LONGLONG
    type_unsigned_int := atomic .ATOMIC_TYPE_UINT
    type_unsigned_long := atomic .ATOMIC_TYPE_ULONG
    type_unsigned_long_long := atomic .ATOMIC_TYPE_ULONGLONG
    type_uintmax_t := atomic .ATOMIC_TYPE_ULONGLONG
    type_size_t := atomic .ATOMIC_TYPE_ULONG
    type_uptrdiff_t := atomic .ATOMIC_TYPE_ULONG
    type_unsigned_int32 := atomic .ATOMIC_TYPE_UINT
    type_unsigned_int64 := atomic .ATOMIC_TYPE_ULONGLONG
    type_double := atomic .ATOMIC_TYPE_DOUBLE
    type_long_double := atomic .ATOMIC_TYPE_LONG_DOUBLE
    type_wchar_t := atomic .ATOMIC_TYPE_INT
    type_wint_t := atomic .ATOMIC_TYPE_INT
    type_char := atomic .ATOMIC_TYPE_CHAR
    type_signed_char := atomic .ATOMIC_TYPE_SCHAR
    type_unsigned_char := atomic .ATOMIC_TYPE_UCHAR
    type_short := atomic .ATOMIC_TYPE_SHORT
    type_unsigned_short := atomic .ATOMIC_TYPE_USHORT
    type_wchar_t_ptr := pointer (atomic .ATOMIC_TYPE_INT)
    type_char_ptr := pointer (atomic .ATOMIC_TYPE_CHAR)
    type_void_ptr := pointer (atomic .ATOMIC_TYPE_VOID)
    type_int_ptr := pointer (atomic .ATOMIC_TYPE_INT)
    type_signed_char_ptr := pointer (atomic .ATOMIC_TYPE_SCHAR)
    type_short_ptr := pointer (atomic .ATOMIC_TYPE_SHORT)
    type_long_ptr := pointer (atomic .ATOMIC_TYPE_LONG)
    type_long_long_ptr := pointer (atomic .ATOMIC_TYPE_LONGLONG)
    type_intmax_t_ptr := pointer (atomic .ATOMIC_TYPE_LONGLONG)
    type_ssize_t_ptr := pointer (atomic .ATOMIC_TYPE_LONG)
    type_ptrdiff_t_ptr := pointer (atomic .ATOMIC_TYPE_LONG) }

/-- The globals of the examples: the warning is on, no Microsoft mode. -/
def example_format_env : format_env_t :=
  { types := example_types, c_mode_ms := false, warning_format := true }

/-- The string literal of the given text, of type `char *`; the array holds
the characters and the terminating NUL. -/
def example_string_literal (text : String) : expression_t :=
  .string_literal { type := example_char_pointer }
    ⟨text.toList.map Char.toNat ++ [0], text.length + 1⟩

/-- An integer literal, of type `int`. -/
def example_int_literal : expression_t :=
  .literal .EXPR_LITERAL_INTEGER { type := example_int } [49]

/-- A reference to the function of the given name. -/
def example_callee (name : String) : expression_t :=
  .reference { type := example_function_type .LINKAGE_C }
    { kind := .ENTITY_FUNCTION, type := example_function_type .LINKAGE_C, symbol := some name }

/-- The argument list of the given expressions. -/
def example_arguments : List expression_t → call_argument_t
  | [] => .null
  | e :: rest => .argument e (example_arguments rest)

/-! ## Signatures: what a mangled name tells

The claim of injectivity compares functions by their namespace-qualified
name and their parameter types after resolving typedefs.  A signature is
that view of a type: the resolved kind with its `const` and `volatile`
qualifiers; struct, union and enum types by their tag name; a function type
by its linkage (C or not), return type, parameter types and variadic flag;
an array type by its element type and its size as an `unsigned`, without a
size for a VLA.  The mangler leaves `restrict` and the calling convention
out on purpose, and so does the signature. -/

mutual
/-- The signature of a type. -/
inductive signature_t
  | atomic (is_volatile is_const : Bool) (akind : atomic_type_kind_t)
  | complex (is_volatile is_const : Bool) (akind : atomic_type_kind_t)
  | imaginary (is_volatile is_const : Bool) (akind : atomic_type_kind_t)
  | pointer (is_volatile is_const : Bool) (points_to : signature_t)
  | reference (is_volatile is_const : Bool) (refers_to : signature_t)
  | array (is_volatile is_const : Bool) (size : Option Nat) (element_type : signature_t)
  | tag (is_volatile is_const : Bool) (name : String)
  | function (is_volatile is_const : Bool) (c_linkage : Bool) (return_type : signature_t)
      (parameters : signature_list_t) (variadic : Bool)
  deriving DecidableEq, Repr
/-- The signatures of a parameter list. -/
inductive signature_list_t
  | nil
  | cons (head : signature_t) (tail : signature_list_t)
  deriving DecidableEq, Repr
end

/-- The name under which a struct, union or enum is mangled: its symbol, or
the symbol of its alias. -/
def tag_name (entity : tag_entity_t) : Option String :=
  match entity.symbol with
  | some sym => some sym
  | none =>
      match entity.alias_entity with
      | none => none
      | some none => none
      | some (some sym) => some sym

/-- The signatures of the parameters of a list. -/
def parameter_signatures (type_signature : type_t → Option signature_t) :
    function_parameter_t → Option signature_list_t
  | .null => some .nil
  | .param type next =>
      match type_signature type with
      | none => none
      | some head =>
          match parameter_signatures type_signature next with
          | none => none
          | some tail => some (.cons head tail)

/-- The signature of a type, where the mangler handles the type; the fuel
bounds the depth of the type.  The size of an array is taken as an
`unsigned`, the way the mangler prints it; a VLA has no size. -/
def type_signature (tags : tag_entities_t) : Nat → type_t → Option signature_t
  | 0, _ => none
  | fuel + 1, orig_type =>
      match skip_typeref orig_type with
      | none => none
      | some type =>
          let v := decide (type.qualifiers &&& TYPE_QUALIFIER_VOLATILE ≠ 0)
          let c := decide (type.qualifiers &&& TYPE_QUALIFIER_CONST ≠ 0)
          match type with
          | .atomic _ akind =>
              if akind = .ATOMIC_TYPE_INVALID then none else some (.atomic v c akind)
          | .complex _ akind =>
              if akind = .ATOMIC_TYPE_INVALID then none else some (.complex v c akind)
          | .imaginary _ akind =>
              if akind = .ATOMIC_TYPE_INVALID then none else some (.imaginary v c akind)
          | .pointer _ points_to _ =>
              match type_signature tags fuel points_to with
              | none => none
              | some s => some (.pointer v c s)
          | .reference _ refers_to =>
              match type_signature tags fuel refers_to with
              | none => none
              | some s => some (.reference v c s)
          | .array _ element_type size size_constant _ is_vla =>
              match type_signature tags fuel element_type with
              | none => none
              | some s =>
                  if is_vla then some (.array v c none s)
                  else if size_constant then some (.array v c (some (to_unsigned size)) s)
                  else none
          | .compound_struct _ compound =>
              match tag_name (tags.compound compound) with
              | none => none
              | some name => some (.tag v c name)
          | .compound_union _ compound =>
              match tag_name (tags.compound compound) with
              | none => none
              | some name => some (.tag v c name)
          | .enumt _ enume _ =>
              match tag_name (tags.enume enume) with
              | none => none
              | some name => some (.tag v c name)
          | .function _ return_type parameters variadic unspecified_parameters
              kr_style_parameters linkage _ _ =>
              if unspecified_parameters then none
              else if kr_style_parameters then none
              else
                match type_signature tags fuel return_type with
                | none => none
                | some r =>
                    match parameter_signatures (type_signature tags fuel) parameters with
                    | none => none
                    | some p =>
                        some (.function v c (decide (linkage = .LINKAGE_C)) r p variadic)
          | _ => none

/-- The names of the namespaces around an entity, outermost first. -/
def entity_namespaces : parent_entity_t → Option (List String)
  | .null => some []
  | .entity kind symbol parent_entity =>
      if kind = .ENTITY_NAMESPACE then
        match entity_namespaces parent_entity with
        | none => none
        | some outer =>
            match symbol with
            | none => none
            | some name => some (outer ++ [name])
      else entity_namespaces parent_entity

/-- The signature of a function: whether it has a parent entity, the names
of the namespaces around it, its name, and its parameter list. -/
structure entity_signature_t where
  nested : Bool
  namespaces : List String
  name : String
  parameters : signature_list_t
  variadic : Bool
  deriving DecidableEq, Repr

/-- The signature of a function entity, from the declared type as it
stands. -/
def entity_signature (tags : tag_entities_t) (fuel : Nat) (entity : linker_entity_t) :
    Option entity_signature_t :=
  match entity_namespaces entity.parent_entity, entity.symbol, entity.type with
  | some namespaces, some name,
      .function _ _ parameters variadic unspecified_parameters kr_style_parameters _ _ _ =>
      if unspecified_parameters then none
      else if kr_style_parameters then none
      else
        match parameter_signatures (type_signature tags fuel) parameters with
        | none => none
        | some p =>
            some { nested := decide (entity.parent_entity ≠ .null), namespaces := namespaces,
                   name := name, parameters := p, variadic := variadic }
  | _, _, _ => none

/-- The function is declared with a function type of its own: the node
`declaration.type` is a function type, not the name of a typedef. -/
def declared_with_function_type (entity : linker_entity_t) : Bool :=
  is_type_function entity.type

/-- The entity is a function whose type resolves to a function type of C++
linkage. -/
def is_cxx_function (entity : linker_entity_t) : Bool :=
  decide (entity.kind = .ENTITY_FUNCTION) &&
    (match skip_typeref entity.type with
     | some (.function _ _ _ _ _ _ linkage _ _) => decide (linkage = .LINKAGE_CXX)
     | _ => false)

/-- Is the character a decimal digit. -/
def is_digit_char (ch : Char) : Bool := decide (48 ≤ ch.toNat) && decide (ch.toNat ≤ 57)

/-- A name that can be told from what follows it in a mangled name: not
empty, not starting with a digit, shorter than 2^32. -/
def is_identifier (name : String) : Bool :=
  (match name.toList with
   | [] => false
   | ch :: _ => !is_digit_char ch) && decide (name.length < 4294967296)

/-- The list starts with the unqualified type `void`; the mangler prints a
lone `v` for the empty list too. -/
def signature_list_t.head_is_void : signature_list_t → Bool
  | .cons (.atomic false false .ATOMIC_TYPE_VOID) _ => true
  | _ => false

/-- The list starts with an unqualified struct, union or enum type, whose
mangling starts like a name. -/
def signature_list_t.head_is_tag : signature_list_t → Bool
  | .cons (.tag false false _) _ => true
  | _ => false

/-- The list is empty. -/
def signature_list_t.is_nil : signature_list_t → Bool
  | .nil => true
  | .cons _ _ => false

mutual
/-- The mangling of the signature can be read back: tag names are
identifiers, atomic kinds are valid, array sizes are below 2^32, and no
function type in it has a variadic empty parameter list or a first
parameter of type `void`. -/
def signature_t.unambiguous : signature_t → Bool
  | .atomic _ _ akind => decide (akind ≠ .ATOMIC_TYPE_INVALID)
  | .complex _ _ akind => decide (akind ≠ .ATOMIC_TYPE_INVALID)
  | .imaginary _ _ akind => decide (akind ≠ .ATOMIC_TYPE_INVALID)
  | .pointer _ _ points_to => points_to.unambiguous
  | .reference _ _ refers_to => refers_to.unambiguous
  | .array _ _ size element_type =>
      (match size with
       | none => true
       | some n => decide (n < 4294967296)) && element_type.unambiguous
  | .tag _ _ name => is_identifier name
  | .function _ _ _ return_type parameters variadic =>
      return_type.unambiguous && parameters.unambiguous &&
        !(parameters.is_nil && variadic) && !parameters.head_is_void
/-- Every signature of the list can be read back. -/
def signature_list_t.unambiguous : signature_list_t → Bool
  | .nil => true
  | .cons head tail => head.unambiguous && tail.unambiguous
end

/-- The mangled name of the function can be read back: the names are
identifiers, the parameter signatures can be read back, the parameter list
is not both empty and variadic and does not start with `void`, and below a
parent entity the first parameter is no unqualified struct, union or enum
type. -/
def entity_signature_t.unambiguous (k : entity_signature_t) : Bool :=
  k.namespaces.all is_identifier && is_identifier k.name && k.parameters.unambiguous &&
    !(k.parameters.is_nil && k.variadic) && !k.parameters.head_is_void &&
    !(k.nested && k.parameters.head_is_tag)

/-- The letter of an atomic kind. -/
def atomic_letter (akind : atomic_type_kind_t) : Char :=
  (get_atomic_type_mangle akind).getD '?'

/-- The qualifier letters. -/
def print_qualifiers (is_volatile is_const : Bool) : List Char :=
  (if is_volatile then ['V'] else []) ++ (if is_const then ['K'] else [])

mutual
/-- The mangling of a signature. -/
def print_signature : signature_t → List Char
  | .atomic v c akind => print_qualifiers v c ++ [atomic_letter akind]
  | .complex v c akind => print_qualifiers v c ++ ['C', atomic_letter akind]
  | .imaginary v c akind => print_qualifiers v c ++ ['G', atomic_letter akind]
  | .pointer v c points_to => print_qualifiers v c ++ 'P' :: print_signature points_to
  | .reference v c refers_to => print_qualifiers v c ++ 'R' :: print_signature refers_to
  | .array v c size element_type =>
      print_qualifiers v c ++ 'A' ::
        ((match size with
          | none => []
          | some n => print_unsigned n) ++ '_' :: print_signature element_type)
  | .tag v c name => print_qualifiers v c ++ print_name name
  | .function v c c_linkage return_type parameters variadic =>
      print_qualifiers v c ++ 'F' ::
        ((if c_linkage then ['Y'] else []) ++ print_signature return_type ++
          print_parameters parameters variadic ++ ['E'])
/-- The manglings of the signatures of a list, one after the other. -/
def print_signature_list : signature_list_t → List Char
  | .nil => []
  | .cons head tail => print_signature head ++ print_signature_list tail
/-- The mangling of a parameter list: `v` for the empty list, else the
parameters and `z` when variadic. -/
def print_parameters : signature_list_t → Bool → List Char
  | .nil, _ => ['v']
  | .cons head tail, variadic =>
      print_signature head ++ print_signature_list tail ++ (if variadic then ['z'] else [])
end

/-- The names of a list, each as `print_name` prints it. -/
def print_names : List String → List Char
  | [] => []
  | name :: rest => print_name name ++ print_names rest

/-- The mangled name of a function signature. -/
def print_entity (k : entity_signature_t) : List Char :=
  '_' :: 'Z' :: ((if k.nested then 'N' :: print_names k.namespaces else []) ++
    print_name k.name ++ print_parameters k.parameters k.variadic)

/-! ### Reading a mangled name back

A decoder of the manglings above; it serves to show that equal manglings
come from equal signatures. -/

mutual
/-- The number of nodes of a signature. -/
def signature_t.size : signature_t → Nat
  | .atomic _ _ _ => 1
  | .complex _ _ _ => 1
  | .imaginary _ _ _ => 1
  | .pointer _ _ points_to => 1 + points_to.size
  | .reference _ _ refers_to => 1 + refers_to.size
  | .array _ _ _ element_type => 1 + element_type.size
  | .tag _ _ _ => 1
  | .function _ _ _ return_type parameters _ => 1 + return_type.size + parameters.size
/-- The number of nodes of a list of signatures. -/
def signature_list_t.size : signature_list_t → Nat
  | .nil => 1
  | .cons head tail => 1 + head.size + tail.size
end

/-- The value of the leading decimal digits, after the digits in `acc`, and
the rest of the input. -/
def parse_number : List Char → Nat → Nat × List Char
  | [], acc => (acc, [])
  | ch :: rest, acc =>
      if is_digit_char ch then parse_number rest (acc * 10 + (ch.toNat - 48))
      else (acc, ch :: rest)

/-- A length in decimal and as many characters. -/
def parse_name (input : List Char) : Option (String × List Char) :=
  match parse_number input 0 with
  | (n, rest) => if n ≤ rest.length then some (String.mk (rest.take n), rest.drop n) else none

/-- The atomic kind of a letter. -/
def letter_kind (ch : Char) : Option atomic_type_kind_t :=
  if ch = 'v' then some .ATOMIC_TYPE_VOID
  else if ch = 'w' then some .ATOMIC_TYPE_WCHAR_T
  else if ch = 'b' then some .ATOMIC_TYPE_BOOL
  else if ch = 'c' then some .ATOMIC_TYPE_CHAR
  else if ch = 'a' then some .ATOMIC_TYPE_SCHAR
  else if ch = 'h' then some .ATOMIC_TYPE_UCHAR
  else if ch = 'i' then some .ATOMIC_TYPE_INT
  else if ch = 'j' then some .ATOMIC_TYPE_UINT
  else if ch = 's' then some .ATOMIC_TYPE_SHORT
  else if ch = 't' then some .ATOMIC_TYPE_USHORT
  else if ch = 'l' then some .ATOMIC_TYPE_LONG
  else if ch = 'm' then some .ATOMIC_TYPE_ULONG
  else if ch = 'x' then some .ATOMIC_TYPE_LONGLONG
  else if ch = 'y' then some .ATOMIC_TYPE_ULONGLONG
  else if ch = 'e' then some .ATOMIC_TYPE_LONG_DOUBLE
  else if ch = 'f' then some .ATOMIC_TYPE_FLOAT
  else if ch = 'd' then some .ATOMIC_TYPE_DOUBLE
  else none

/-- The characters with which the mangling of a type starts. -/
def type_start_char (ch : Char) : Bool :=
  decide (ch = 'V') || decide (ch = 'K') || decide (ch = 'P') || decide (ch = 'R') ||
    decide (ch = 'A') || decide (ch = 'F') || decide (ch = 'C') || decide (ch = 'G') ||
    is_digit_char ch || (letter_kind ch).isSome

/-- Strip the character from the front of the input, if it is there. -/
def strip_char (ch : Char) : List Char → Bool × List Char
  | [] => (false, [])
  | c :: rest => if c = ch then (true, rest) else (false, c :: rest)

/-- The qualifier letters at the front of the input. -/
def parse_qualifiers (input : List Char) : Bool × Bool × List Char :=
  match strip_char 'V' input with
  | (v, input) =>
      match strip_char 'K' input with
      | (c, input) => (v, c, input)

/-- Types are read as long as the input starts like one. -/
def parse_signature_list_with (parse : List Char → Option (signature_t × List Char)) :
    Nat → List Char → Option (signature_list_t × List Char)
  | 0, _ => none
  | _ + 1, [] => some (.nil, [])
  | n + 1, ch :: rest =>
      if type_start_char ch then
        match parse (ch :: rest) with
        | none => none
        | some (head, rest) =>
            match parse_signature_list_with parse n rest with
            | none => none
            | some (tail, rest) => some (.cons head tail, rest)
      else some (.nil, ch :: rest)

/-- A parameter list: a lone `v`, or types and an optional `z`. -/
def parse_parameters_with (parse : List Char → Option (signature_t × List Char)) (n : Nat)
    (input : List Char) : Option (signature_list_t × Bool × List Char) :=
  match strip_char 'v' input with
  | (true, rest) => some (.nil, false, rest)
  | (false, input) =>
      match parse_signature_list_with parse n input with
      | none => none
      | some (parameters, rest) =>
          match strip_char 'z' rest with
          | (variadic, rest) => some (parameters, variadic, rest)

/-- What follows the qualifier letters. -/
def parse_body (parse : List Char → Option (signature_t × List Char)) (n : Nat)
    (v c : Bool) : List Char → Option (signature_t × List Char)
  | [] => none
  | ch :: rest =>
      if is_digit_char ch then
        match parse_name (ch :: rest) with
        | none => none
        | some (name, rest) => some (.tag v c name, rest)
      else if ch = 'P' then
        match parse rest with
        | none => none
        | some (s, rest) => some (.pointer v c s, rest)
      else if ch = 'R' then
        match parse rest with
        | none => none
        | some (s, rest) => some (.reference v c s, rest)
      else if ch = 'C' then
        match rest with
        | [] => none
        | l :: rest =>
            match letter_kind l with
            | none => none
            | some akind => some (.complex v c akind, rest)
      else if ch = 'G' then
        match rest with
        | [] => none
        | l :: rest =>
            match letter_kind l with
            | none => none
            | some akind => some (.imaginary v c akind, rest)
      else if ch = 'A' then
        match strip_char '_' rest with
        | (true, rest) =>
            match parse rest with
            | none => none
            | some (s, rest) => some (.array v c none s, rest)
        | (false, rest) =>
            match parse_number rest 0 with
            | (size, rest) =>
                match strip_char '_' rest with
                | (false, _) => none
                | (true, rest) =>
                    match parse rest with
                    | none => none
                    | some (s, rest) => some (.array v c (some size) s, rest)
      else if ch = 'F' then
        match strip_char 'Y' rest with
        | (c_linkage, rest) =>
            match parse rest with
            | none => none
            | some (return_type, rest) =>
                match parse_parameters_with parse n rest with
                | none => none
                | some (parameters, variadic, rest) =>
                    match strip_char 'E' rest with
                    | (false, _) => none
                    | (true, rest) =>
                        some (.function v c c_linkage return_type parameters variadic, rest)
      else
        match letter_kind ch with
        | none => none
        | some akind => some (.atomic v c akind, rest)

/-- The signature at the front of a mangling and the rest of the input;
the fuel bounds the depth of the signature. -/
def parse_signature : Nat → List Char → Option (signature_t × List Char)
  | 0, _ => none
  | fuel + 1, input =>
      match parse_qualifiers input with
      | (v, c, body) => parse_body (parse_signature fuel) fuel v c body

/-- Names are read as long as the input starts with a digit. -/
def parse_names : Nat → List Char → Option (List String × List Char)
  | 0, _ => none
  | _ + 1, [] => some ([], [])
  | n + 1, ch :: rest =>
      if is_digit_char ch then
        match parse_name (ch :: rest) with
        | none => none
        | some (name, rest) =>
            match parse_names n rest with
            | none => none
            | some (names, rest) => some (name :: names, rest)
      else some ([], ch :: rest)

/-- The function signature of a mangled name. -/
def parse_entity (fuel : Nat) (input : List Char) : Option entity_signature_t :=
  match input with
  | '_' :: 'Z' :: rest =>
      match strip_char 'N' rest with
      | (true, rest) =>
          match parse_names fuel rest with
          | none => none
          | some (names, rest) =>
              match names.getLast? with
              | none => none
              | some name =>
                  match parse_parameters_with (parse_signature fuel) fuel rest with
                  | some (parameters, variadic, []) =>
                      some { nested := true, namespaces := names.dropLast, name := name,
                             parameters := parameters, variadic := variadic }
                  | _ => none
      | (false, rest) =>
          match parse_name rest with
          | none => none
          | some (name, rest) =>
              match parse_parameters_with (parse_signature fuel) fuel rest with
              | some (parameters, variadic, []) =>
                  some { nested := false, namespaces := [], name := name,
                         parameters := parameters, variadic := variadic }
              | _ => none
  | _ => none

/-- What may follow a parameter list: the end of the name, or the `E` of a
function type. -/
def follows_parameters (r : List Char) : Prop := r = [] ∨ ∃ rest, r = 'E' :: rest

/-! ### Example functions -/

/-- The function `void f(int *)` of C++ linkage at file scope, the pointer
with the given qualifiers. -/
def example_pointer_function (qualifiers : Nat) : linker_entity_t :=
  { kind := .ENTITY_FUNCTION, symbol := some "f", parent_entity := .null,
    type := .function TYPE_QUALIFIER_NONE (.atomic TYPE_QUALIFIER_NONE .ATOMIC_TYPE_VOID)
      (.param (.pointer qualifiers example_int none) .null)
      false false false .LINKAGE_CXX .CC_DEFAULT 0,
    actual_name := none, type_function := example_function_fields }

/-- The function `void ns::f(I, const char *restrict)` of C++ linkage with
`typedef int I`. -/
def example_namespace_function_typedef : linker_entity_t :=
  { kind := .ENTITY_FUNCTION, symbol := some "f", parent_entity := example_namespace,
    type := .function TYPE_QUALIFIER_NONE (.atomic TYPE_QUALIFIER_NONE .ATOMIC_TYPE_VOID)
      (.param (.typedeft TYPE_QUALIFIER_NONE example_int 4 .null)
        (.param (.pointer TYPE_QUALIFIER_RESTRICT
          (.atomic TYPE_QUALIFIER_CONST .ATOMIC_TYPE_CHAR) none) .null))
      false false false .LINKAGE_CXX .CC_DEFAULT 0,
    actual_name := none, type_function := example_function_fields }

/-- The signature of `void ns::f(int, const char *)`. -/
def example_namespace_signature : entity_signature_t :=
  { nested := true, namespaces := ["ns"], name := "f",
    parameters := .cons (.atomic false false .ATOMIC_TYPE_INT)
      (.cons (.pointer false false (.atomic false true .ATOMIC_TYPE_CHAR)) .nil),
    variadic := false }

/-- The function `void f(void (*)())` of C++ linkage at file scope, the
function type of the parameter with the given calling convention. -/
def example_callback_function (calling_convention : cc_kind_t) : linker_entity_t :=
  { kind := .ENTITY_FUNCTION, symbol := some "f", parent_entity := .null,
    type := .function TYPE_QUALIFIER_NONE (.atomic TYPE_QUALIFIER_NONE .ATOMIC_TYPE_VOID)
      (.param (.pointer TYPE_QUALIFIER_NONE
        (.function TYPE_QUALIFIER_NONE (.atomic TYPE_QUALIFIER_NONE .ATOMIC_TYPE_VOID)
          .null false false false .LINKAGE_CXX calling_convention 0) none) .null)
      false false false .LINKAGE_CXX .CC_DEFAULT 0,
    actual_name := none, type_function := example_function_fields }

/-- The function `void f(int (*)[n])` of C++ linkage at file scope, for an
array of `n` elements. -/
def example_array_function (n : Nat) : linker_entity_t :=
  { kind := .ENTITY_FUNCTION, symbol := some "f", parent_entity := .null,
    type := .function TYPE_QUALIFIER_NONE (.atomic TYPE_QUALIFIER_NONE .ATOMIC_TYPE_VOID)
      (.param (.pointer TYPE_QUALIFIER_NONE
        (.array TYPE_QUALIFIER_NONE example_int n true none false) none) .null)
      false false false .LINKAGE_CXX .CC_DEFAULT 0,
    actual_name := none, type_function := example_function_fields }

/-! ## Attributes (`src/attribute.c`)

The handlers change types, entities and compound entities and emit
diagnostics.  The model passes the changed objects and the list of the
diagnostics along; `none` is a read through a `NULL` pointer, a failed
assertion or the read of a union member that was not written. -/

/-- Modelled from the spec: the attribute kinds (`attribute_kind_t`) of the
header `attribute_t.h`, which is not among the sources; these are the kinds
that `attribute.c` names. -/
inductive attribute_kind_t
  | ATTRIBUTE_GNU_CONST
  | ATTRIBUTE_GNU_VOLATILE
  | ATTRIBUTE_GNU_CDECL
  | ATTRIBUTE_GNU_STDCALL
  | ATTRIBUTE_GNU_FASTCALL
  | ATTRIBUTE_GNU_DEPRECATED
  | ATTRIBUTE_GNU_NOINLINE
  | ATTRIBUTE_GNU_RETURNS_TWICE
  | ATTRIBUTE_GNU_NORETURN
  | ATTRIBUTE_GNU_NAKED
  | ATTRIBUTE_GNU_PURE
  | ATTRIBUTE_GNU_ALWAYS_INLINE
  | ATTRIBUTE_GNU_MALLOC
  | ATTRIBUTE_GNU_WEAK
  | ATTRIBUTE_GNU_CONSTRUCTOR
  | ATTRIBUTE_GNU_DESTRUCTOR
  | ATTRIBUTE_GNU_NOTHROW
  | ATTRIBUTE_GNU_TRANSPARENT_UNION
  | ATTRIBUTE_GNU_COMMON
  | ATTRIBUTE_GNU_NOCOMMON
  | ATTRIBUTE_GNU_PACKED
  | ATTRIBUTE_GNU_SHARED
  | ATTRIBUTE_GNU_NOTSHARED
  | ATTRIBUTE_GNU_USED
  | ATTRIBUTE_GNU_UNUSED
  | ATTRIBUTE_GNU_NO_INSTRUMENT_FUNCTION
  | ATTRIBUTE_GNU_WARN_UNUSED_RESULT
  | ATTRIBUTE_GNU_LONGCALL
  | ATTRIBUTE_GNU_SHORTCALL
  | ATTRIBUTE_GNU_LONG_CALL
  | ATTRIBUTE_GNU_SHORT_CALL
  | ATTRIBUTE_GNU_FUNCTION_VECTOR
  | ATTRIBUTE_GNU_INTERRUPT
  | ATTRIBUTE_GNU_INTERRUPT_HANDLER
  | ATTRIBUTE_GNU_NMI_HANDLER
  | ATTRIBUTE_GNU_NESTING
  | ATTRIBUTE_GNU_NEAR
  | ATTRIBUTE_GNU_FAR
  | ATTRIBUTE_GNU_SIGNAL
  | ATTRIBUTE_GNU_EIGTHBIT_DATA
  | ATTRIBUTE_GNU_TINY_DATA
  | ATTRIBUTE_GNU_SAVEALL
  | ATTRIBUTE_GNU_FLATTEN
  | ATTRIBUTE_GNU_SSEREGPARM
  | ATTRIBUTE_GNU_EXTERNALLY_VISIBLE
  | ATTRIBUTE_GNU_MAY_ALIAS
  | ATTRIBUTE_GNU_MS_STRUCT
  | ATTRIBUTE_GNU_GCC_STRUCT
  | ATTRIBUTE_GNU_DLLIMPORT
  | ATTRIBUTE_GNU_DLLEXPORT
  | ATTRIBUTE_GNU_ALIGNED
  | ATTRIBUTE_GNU_ALIAS
  | ATTRIBUTE_GNU_SECTION
  | ATTRIBUTE_GNU_FORMAT
  | ATTRIBUTE_GNU_FORMAT_ARG
  | ATTRIBUTE_GNU_WEAKREF
  | ATTRIBUTE_GNU_NONNULL
  | ATTRIBUTE_GNU_TLS_MODEL
  | ATTRIBUTE_GNU_VISIBILITY
  | ATTRIBUTE_GNU_REGPARM
  | ATTRIBUTE_GNU_MODE
  | ATTRIBUTE_GNU_MODEL
  | ATTRIBUTE_GNU_TRAP_EXIT
  | ATTRIBUTE_GNU_SP_SWITCH
  | ATTRIBUTE_GNU_SENTINEL
  | ATTRIBUTE_MS_ALIGN
  | ATTRIBUTE_MS_ALLOCATE
  | ATTRIBUTE_MS_DLLIMPORT
  | ATTRIBUTE_MS_DLLEXPORT
  | ATTRIBUTE_MS_NAKED
  | ATTRIBUTE_MS_NOINLINE
  | ATTRIBUTE_MS_RETURNS_TWICE
  | ATTRIBUTE_MS_NORETURN
  | ATTRIBUTE_MS_NOTHROW
  | ATTRIBUTE_MS_NOVTABLE
  | ATTRIBUTE_MS_PROPERTY
  | ATTRIBUTE_MS_SELECTANY
  | ATTRIBUTE_MS_THREAD
  | ATTRIBUTE_MS_UUID
  | ATTRIBUTE_MS_DEPRECATED
  | ATTRIBUTE_MS_RESTRICT
  | ATTRIBUTE_MS_NOALIAS
  | ATTRIBUTE_MS_CDECL
  | ATTRIBUTE_MS_STDCALL
  | ATTRIBUTE_MS_FASTCALL
  | ATTRIBUTE_MS_THISCALL
  deriving DecidableEq, Repr

/-- The name of an attribute kind (`get_attribute_name`, the table
`attribute_names`); the four Microsoft calling conventions have no entry. -/
def get_attribute_name : attribute_kind_t → Option String
  | .ATTRIBUTE_GNU_CONST => some "const"
  | .ATTRIBUTE_GNU_VOLATILE => some "volatile"
  | .ATTRIBUTE_GNU_CDECL => some "cdecl"
  | .ATTRIBUTE_GNU_STDCALL => some "stdcall"
  | .ATTRIBUTE_GNU_FASTCALL => some "fastcall"
  | .ATTRIBUTE_GNU_DEPRECATED => some "deprecated"
  | .ATTRIBUTE_GNU_NOINLINE => some "noinline"
  | .ATTRIBUTE_GNU_RETURNS_TWICE => some "returns_twice"
  | .ATTRIBUTE_GNU_NORETURN => some "noreturn"
  | .ATTRIBUTE_GNU_NAKED => some "naked"
  | .ATTRIBUTE_GNU_PURE => some "pure"
  | .ATTRIBUTE_GNU_ALWAYS_INLINE => some "always_inline"
  | .ATTRIBUTE_GNU_MALLOC => some "malloc"
  | .ATTRIBUTE_GNU_WEAK => some "weak"
  | .ATTRIBUTE_GNU_CONSTRUCTOR => some "constructor"
  | .ATTRIBUTE_GNU_DESTRUCTOR => some "destructor"
  | .ATTRIBUTE_GNU_NOTHROW => some "nothrow"
  | .ATTRIBUTE_GNU_TRANSPARENT_UNION => some "transparent_union"
  | .ATTRIBUTE_GNU_COMMON => some "common"
  | .ATTRIBUTE_GNU_NOCOMMON => some "nocommon"
  | .ATTRIBUTE_GNU_PACKED => some "packed"
  | .ATTRIBUTE_GNU_SHARED => some "shared"
  | .ATTRIBUTE_GNU_NOTSHARED => some "notshared"
  | .ATTRIBUTE_GNU_USED => some "used"
  | .ATTRIBUTE_GNU_UNUSED => some "unused"
  | .ATTRIBUTE_GNU_NO_INSTRUMENT_FUNCTION => some "no_instrument_function"
  | .ATTRIBUTE_GNU_WARN_UNUSED_RESULT => some "warn_unused_result"
  | .ATTRIBUTE_GNU_LONGCALL => some "longcall"
  | .ATTRIBUTE_GNU_SHORTCALL => some "shortcall"
  | .ATTRIBUTE_GNU_LONG_CALL => some "long_call"
  | .ATTRIBUTE_GNU_SHORT_CALL => some "short_call"
  | .ATTRIBUTE_GNU_FUNCTION_VECTOR => some "function_vector"
  | .ATTRIBUTE_GNU_INTERRUPT => some "interrupt"
  | .ATTRIBUTE_GNU_INTERRUPT_HANDLER => some "interrupt_handler"
  | .ATTRIBUTE_GNU_NMI_HANDLER => some "nmi_handler"
  | .ATTRIBUTE_GNU_NESTING => some "nesting"
  | .ATTRIBUTE_GNU_NEAR => some "near"
  | .ATTRIBUTE_GNU_FAR => some "far"
  | .ATTRIBUTE_GNU_SIGNAL => some "signal"
  | .ATTRIBUTE_GNU_EIGTHBIT_DATA => some "eightbit_data"
  | .ATTRIBUTE_GNU_TINY_DATA => some "tiny_data"
  | .ATTRIBUTE_GNU_SAVEALL => some "saveall"
  | .ATTRIBUTE_GNU_FLATTEN => some "flatten"
  | .ATTRIBUTE_GNU_SSEREGPARM => some "sseregparm"
  | .ATTRIBUTE_GNU_EXTERNALLY_VISIBLE => some "externally_visible"
  | .ATTRIBUTE_GNU_MAY_ALIAS => some "may_alias"
  | .ATTRIBUTE_GNU_MS_STRUCT => some "ms_struct"
  | .ATTRIBUTE_GNU_GCC_STRUCT => some "gcc_struct"
  | .ATTRIBUTE_GNU_DLLIMPORT => some "dllimport"
  | .ATTRIBUTE_GNU_DLLEXPORT => some "dllexport"
  | .ATTRIBUTE_GNU_ALIGNED => some "aligned"
  | .ATTRIBUTE_GNU_ALIAS => some "alias"
  | .ATTRIBUTE_GNU_SECTION => some "section"
  | .ATTRIBUTE_GNU_FORMAT => some "format"
  | .ATTRIBUTE_GNU_FORMAT_ARG => some "format_arg"
  | .ATTRIBUTE_GNU_WEAKREF => some "weakref"
  | .ATTRIBUTE_GNU_NONNULL => some "nonnull"
  | .ATTRIBUTE_GNU_TLS_MODEL => some "tls_model"
  | .ATTRIBUTE_GNU_VISIBILITY => some "visibility"
  | .ATTRIBUTE_GNU_REGPARM => some "regparm"
  | .ATTRIBUTE_GNU_MODE => some "mode"
  | .ATTRIBUTE_GNU_MODEL => some "model"
  | .ATTRIBUTE_GNU_TRAP_EXIT => some "trap_exit"
  | .ATTRIBUTE_GNU_SP_SWITCH => some "sp_switch"
  | .ATTRIBUTE_GNU_SENTINEL => some "sentinel"
  | .ATTRIBUTE_MS_ALIGN => some "align"
  | .ATTRIBUTE_MS_ALLOCATE => some "allocate"
  | .ATTRIBUTE_MS_DLLIMPORT => some "dllimport"
  | .ATTRIBUTE_MS_DLLEXPORT => some "dllexport"
  | .ATTRIBUTE_MS_NAKED => some "naked"
  | .ATTRIBUTE_MS_NOINLINE => some "noinline"
  | .ATTRIBUTE_MS_RETURNS_TWICE => some "returns_twice"
  | .ATTRIBUTE_MS_NORETURN => some "noreturn"
  | .ATTRIBUTE_MS_NOTHROW => some "nothrow"
  | .ATTRIBUTE_MS_NOVTABLE => some "novtable"
  | .ATTRIBUTE_MS_PROPERTY => some "property"
  | .ATTRIBUTE_MS_SELECTANY => some "selectany"
  | .ATTRIBUTE_MS_THREAD => some "thread"
  | .ATTRIBUTE_MS_UUID => some "uuid"
  | .ATTRIBUTE_MS_DEPRECATED => some "deprecated"
  | .ATTRIBUTE_MS_RESTRICT => some "restrict"
  | .ATTRIBUTE_MS_NOALIAS => some "noalias"
  | .ATTRIBUTE_MS_CDECL => none
  | .ATTRIBUTE_MS_STDCALL => none
  | .ATTRIBUTE_MS_FASTCALL => none
  | .ATTRIBUTE_MS_THISCALL => none

/-- An argument of an attribute (`attribute_argument_t`): a symbol or an
expression. -/
inductive attribute_argument_t
  | ATTRIBUTE_ARGUMENT_SYMBOL (symbol : String)
  | ATTRIBUTE_ARGUMENT_EXPRESSION (expression : expression_t)

/-- An attribute (`attribute_t`): its kind and `a.arguments`, the list
linked through `next`. -/
structure attribute_t where
  kind : attribute_kind_t
  arguments : List attribute_argument_t

/-- What the handlers read from outside `attribute.c`: the flag
`warning.other` and `fold_constant_to_int` of the parser. -/
structure attribute_env_t where
  warning_other : Bool
  fold_constant_to_int : expression_t → Int

/-- The diagnostics of the handlers, one constructor per message. -/
inductive attribute_diagnostic_t
  /-- Warning `ignoring unknown mode '%s'`. -/
  | unknown_mode (symbol : String)
  /-- Warning `__attribute__((mode)) on pointers not implemented yet
  (ignored)`. -/
  | mode_on_pointer
  /-- Error `__attribute__((mode)) only allowed on integer, enum or pointer
  type`. -/
  | mode_not_allowed
  /-- Error `alignment must be a power of 2 but is %d`. -/
  | alignment_not_power_of_two (alignment : Int)
  /-- Error `alignment must be bigger than 0 but is %d`. -/
  | alignment_not_positive (alignment : Int)
  /-- Warning `alignment attribute specification on '%S' ignored`. -/
  | alignment_ignored
  /-- Warning `attribute '%s' needs no attributes`. -/
  | needs_no_arguments (kind : attribute_kind_t)
  /-- Warning `packed attribute on type '%T' ignored`. -/
  | packed_ignored (type : type_t)
  deriving DecidableEq, Repr

/-- Is the diagnostic an error (emitted through `errorf`). -/
def attribute_diagnostic_t.is_error : attribute_diagnostic_t → Bool
  | .mode_not_allowed => true
  | .alignment_not_power_of_two _ => true
  | .alignment_not_positive _ => true
  | _ => false

/-- Returns true if the given type is a signed type (`is_type_signed`); the
function asserts that its argument is no typeref, that is no typedef and no
typeof node.  Every kind other than enum, bit-field and atomic is unsigned. -/
def is_type_signed (cfg : config_t) : type_t → Option Bool
  | .enumt _ _ _ => some true
  | .bitfield _ base_type _ => is_type_signed cfg base_type
  | .atomic _ akind => some (test_atomic_type_flag cfg akind ATOMIC_TYPE_FLAG_SIGNED)
  | .typedeft _ _ _ _ => none
  | .typeoft _ _ _ => none
  | _ => some false

/-- Does `strcmp_underscore(s1, s2)` return 0: the strings are equal, or
`s2` is `s1` between two pairs of underscores. -/
def strcmp_underscore (s1 s2 : String) : Bool :=
  let l1 := s1.toList
  let l2 := s2.toList
  if l2.take 2 = ['_', '_'] ∧ l1.length + 4 = l2.length ∧
      (l2.drop (l2.length - 2)) = ['_', '_'] then
    decide (l1 = (l2.drop 2).take (l2.length - 4))
  else decide (l1 = l2)

/-- The atomic kind of a mode symbol for a type of the given sign, the
`if` chain of `handle_attribute_mode`; `none` for an unknown mode. -/
def mode_atomic_kind (sign : Bool) (symbol_str : String) : Option atomic_type_kind_t :=
  if strcmp_underscore "QI" symbol_str || strcmp_underscore "byte" symbol_str then
    some (if sign then .ATOMIC_TYPE_CHAR else .ATOMIC_TYPE_UCHAR)
  else if strcmp_underscore "HI" symbol_str then
    some (if sign then .ATOMIC_TYPE_SHORT else .ATOMIC_TYPE_USHORT)
  else if strcmp_underscore "SI" symbol_str || strcmp_underscore "word" symbol_str ||
      strcmp_underscore "pointer" symbol_str then
    some (if sign then .ATOMIC_TYPE_INT else .ATOMIC_TYPE_UINT)
  else if strcmp_underscore "DI" symbol_str then
    some (if sign then .ATOMIC_TYPE_LONGLONG else .ATOMIC_TYPE_ULONGLONG)
  else none

/-- `handle_attribute_mode`: the type with the atomic kind of the mode and
the diagnostics.  The symbol is read from the first argument without a test
of the argument. -/
def handle_attribute_mode (cfg : config_t) (env : attribute_env_t) (attr : attribute_t)
    (orig_type : type_t) : Option (type_t × List attribute_diagnostic_t) :=
  match skip_typeref orig_type with
  | none => none
  | some type =>
      match attr.arguments with
      | .ATTRIBUTE_ARGUMENT_SYMBOL symbol_str :: _ =>
          match is_type_signed cfg type with
          | none => none
          | some sign =>
              match mode_atomic_kind sign symbol_str with
              | none =>
                  some (orig_type, if env.warning_other then [.unknown_mode symbol_str] else [])
              | some akind =>
                  match type with
                  | .atomic _ _ =>
                      match duplicate_type type with
                      | none => none
                      | some copy =>
                          match copy with
                          | .atomic qualifiers _ => some (.atomic qualifiers akind, [])
                          | _ => none
                  | .enumt _ _ _ =>
                      match duplicate_type type with
                      | none => none
                      | some copy =>
                          match copy with
                          | .enumt qualifiers enume _ => some (.enumt qualifiers enume akind, [])
                          | _ => none
                  | _ =>
                      if is_type_pointer type then some (type, [.mode_on_pointer])
                      else some (orig_type, [.mode_not_allowed])
      | _ => none

/-- The conversion of an `int` to `unsigned` (32 bits). -/
def int_to_unsigned (x : Int) : Nat := (x % 4294967296).toNat

/-- `is_po2` on an `unsigned`: `(x & (x-1)) == 0`, the subtraction modulo
2^32. -/
def is_po2 (x : Nat) : Bool := x &&& ((x + 4294967295) % 4294967296) == 0

/-- An entity as the attribute handlers read and write it (`entity_t`).
The C type is a union; its members are modelled as separate fields:
`typedefe.type`, `declaration.type`, the modifiers and the alignment of
`typedefe`, `compound` and `declaration`, and `compound.packed`.  A write
through a member that does not belong to the kind of the entity lands in
the field of that member. -/
structure attributed_entity_t where
  kind : entity_kind_t
  typedefe_type : type_t
  declaration_type : type_t
  typedefe_modifiers : Nat
  compound_modifiers : Nat
  declaration_modifiers : Nat
  typedefe_alignment : Nat
  compound_alignment : Nat
  declaration_alignment : Nat
  compound_packed : Bool
  deriving DecidableEq, Repr

/-- Is the entity a declaration (`is_declaration`, the macro
`DECLARATION_KIND_CASES`). -/
def is_declaration_kind (kind : entity_kind_t) : Bool :=
  match kind with
  | .ENTITY_FUNCTION => true
  | .ENTITY_VARIABLE => true
  | .ENTITY_PARAMETER => true
  | .ENTITY_COMPOUND_MEMBER => true
  | _ => false

/-- `handle_attribute_aligned`: the alignment is the folded argument, or 32
without an argument; it is stored after the two tests.  In the `switch` the
declaration case has no `break` and runs on into the typedef case.  The
alignment fields have the type `il_alignment_t`. -/
def handle_attribute_aligned (cfg : config_t) (env : attribute_env_t) (attr : attribute_t)
    (entity : attributed_entity_t) :
    Option (attributed_entity_t × List attribute_diagnostic_t) :=
  match
    (match attr.arguments with
     | [] => some (32 : Int)
     | .ATTRIBUTE_ARGUMENT_EXPRESSION expression :: _ =>
         some (env.fold_constant_to_int expression)
     | .ATTRIBUTE_ARGUMENT_SYMBOL _ :: _ => none) with
  | none => none
  | some alignment =>
      if !is_po2 (int_to_unsigned alignment) then
        some (entity, [.alignment_not_power_of_two alignment])
      else if alignment ≤ 0 then
        some (entity, [.alignment_not_positive alignment])
      else if is_declaration_kind entity.kind then
        some ({ entity with
                declaration_alignment := to_il_alignment cfg alignment.toNat,
                typedefe_alignment := to_il_alignment cfg alignment.toNat }, [])
      else if entity.kind = .ENTITY_TYPEDEF then
        some ({ entity with typedefe_alignment := to_il_alignment cfg alignment.toNat }, [])
      else if entity.kind = .ENTITY_STRUCT ∨ entity.kind = .ENTITY_UNION then
        if alignment > (entity.compound_alignment : Int) then
          some ({ entity with compound_alignment := to_il_alignment cfg alignment.toNat }, [])
        else some (entity, [])
      else some (entity, if env.warning_other then [.alignment_ignored] else [])

/-- `warn_arguments`. -/
def warn_arguments (env : attribute_env_t) (attr : attribute_t) :
    List attribute_diagnostic_t :=
  match attr.arguments with
  | [] => []
  | _ :: _ => if env.warning_other then [.needs_no_arguments attr.kind] else []

/-- The compound entities that the type nodes point to, with the update of
one of them. -/
def set_compound (compounds : Nat → compound_t) (index : Nat) (compound : compound_t) :
    Nat → compound_t :=
  fun i => if i = index then compound else compounds i

/-- `handle_attribute_packed`: the compound entity of a struct type is
marked packed (through `handle_attribute_packed_e`); on any other type the
attribute is ignored with a warning. -/
def handle_attribute_packed (env : attribute_env_t) (attr : attribute_t)
    (compounds : Nat → compound_t) (type : type_t) :
    (Nat → compound_t) × List attribute_diagnostic_t :=
  match type with
  | .compound_struct _ compound =>
      (set_compound compounds compound { compounds compound with packed := true },
        warn_arguments env attr)
  | _ => (compounds, [.packed_ignored type])

/-- `change_calling_convention`. -/
def change_calling_convention (type : type_t) (cconv : cc_kind_t) : Option type_t :=
  if is_typeref type || !is_type_function type then some type
  else
    match type with
    | .function q r p v u k l calling_convention m =>
        if calling_convention = cconv then some type
        else
          match duplicate_type type with
          | none => none
          | some _ => some (.function q r p v u k l cconv m)
    | _ => none

/-- The `switch` of `handle_type_attributes` on one attribute of the list. -/
def handle_type_attribute (cfg : config_t) (env : attribute_env_t) (attr : attribute_t)
    (compounds : Nat → compound_t) (type : type_t) :
    Option (type_t × (Nat → compound_t) × List attribute_diagnostic_t) :=
  match attr.kind with
  | .ATTRIBUTE_GNU_PACKED =>
      match handle_attribute_packed env attr compounds type with
      | (compounds, diagnostics) => some (type, compounds, diagnostics)
  | .ATTRIBUTE_GNU_CDECL =>
      (change_calling_convention type .CC_CDECL).map (fun t => (t, compounds, []))
  | .ATTRIBUTE_MS_CDECL =>
      (change_calling_convention type .CC_CDECL).map (fun t => (t, compounds, []))
  | .ATTRIBUTE_MS_STDCALL =>
      (change_calling_convention type .CC_STDCALL).map (fun t => (t, compounds, []))
  | .ATTRIBUTE_GNU_STDCALL =>
      (change_calling_convention type .CC_STDCALL).map (fun t => (t, compounds, []))
  | .ATTRIBUTE_MS_FASTCALL =>
      (change_calling_convention type .CC_FASTCALL).map (fun t => (t, compounds, []))
  | .ATTRIBUTE_GNU_FASTCALL =>
      (change_calling_convention type .CC_FASTCALL).map (fun t => (t, compounds, []))
  | .ATTRIBUTE_MS_THISCALL =>
      (change_calling_convention type .CC_THISCALL).map (fun t => (t, compounds, []))
  | .ATTRIBUTE_GNU_MODE =>
      (handle_attribute_mode cfg env attr type).map (fun r => (r.1, compounds, r.2))
  | _ => some (type, compounds, [])

/-- `handle_type_attributes`: the loop over the attribute list, with the
compound entities and the diagnostics passed along. -/
def handle_type_attributes (cfg : config_t) (env : attribute_env_t) :
    List attribute_t → (Nat → compound_t) → type_t →
      Option (type_t × (Nat → compound_t) × List attribute_diagnostic_t)
  | [], compounds, type => some (type, compounds, [])
  | attr :: next, compounds, type =>
      match handle_type_attribute cfg env attr compounds type with
      | none => none
      | some (type, compounds, diagnostics) =>
          match handle_type_attributes cfg env next compounds type with
          | none => none
          | some (type, compounds, rest) => some (type, compounds, diagnostics ++ rest)

/-! ### Declaration modifiers (`decl_modifier_t`) -/

/-- `DM_MICROSOFT_INLINE`. -/
def DM_MICROSOFT_INLINE : Nat := 16
/-- `DM_SELECTANY`. -/
def DM_SELECTANY : Nat := 64
/-- `DM_NOVTABLE`. -/
def DM_NOVTABLE : Nat := 256
/-- `DM_CDECL`. -/
def DM_CDECL : Nat := 1048576
/-- `DM_FASTCALL`. -/
def DM_FASTCALL : Nat := 2097152
/-- `DM_STDCALL`. -/
def DM_STDCALL : Nat := 4194304
/-- `DM_THISCALL`. -/
def DM_THISCALL : Nat := 8388608
/-- The modifier of an entity of the given kind, the member that the final
`switch` of `handle_entity_attributes` names for the kind. -/
def attributed_entity_t.modifiers (entity : attributed_entity_t) : Nat :=
  match entity.kind with
  | .ENTITY_TYPEDEF => entity.typedefe_modifiers
  | .ENTITY_UNION => entity.compound_modifiers
  | .ENTITY_STRUCT => entity.compound_modifiers
  | _ => entity.declaration_modifiers

/-! ### Example attributes -/

/-- The environment of the examples: `warning.other` is on, every
expression folds to 0. -/
def example_attribute_env : attribute_env_t :=
  { warning_other := true, fold_constant_to_int := fun _ => 0 }

/-- The attribute `mode(symbol)`. -/
def example_mode (symbol : String) : attribute_t :=
  { kind := .ATTRIBUTE_GNU_MODE, arguments := [.ATTRIBUTE_ARGUMENT_SYMBOL symbol] }

/-- An attribute without arguments. -/
def example_attribute (kind : attribute_kind_t) : attribute_t :=
  { kind := kind, arguments := [] }

/-- An entity of the given kind and type without modifiers. -/
def example_attributed_entity (kind : entity_kind_t) (type : type_t) : attributed_entity_t :=
  { kind := kind, typedefe_type := type, declaration_type := type, typedefe_modifiers := 0,
    compound_modifiers := 0, declaration_modifiers := 0, typedefe_alignment := 0,
    compound_alignment := 0, declaration_alignment := 0, compound_packed := false }

/-- An environment in which every expression folds to the given value. -/
def example_fold_env (n : Int) : attribute_env_t :=
  { warning_other := true, fold_constant_to_int := fun _ => n }

/-- The attribute `aligned(e)` for an expression `e`. -/
def example_aligned : attribute_t :=
  { kind := .ATTRIBUTE_GNU_ALIGNED, arguments := [.ATTRIBUTE_ARGUMENT_EXPRESSION example_zero] }

/-- A configuration in which `char` is unsigned. -/
def example_config_unsigned_char : config_t := { example_config with char_is_signed := false }

/-- The arguments of the attributes of the list can be read the way the
handlers read them: a `mode` starts with a symbol, an `aligned` or `align`
has no argument or starts with an expression. -/
def attribute_arguments_readable : List attribute_t → Bool
  | [] => true
  | attr :: next =>
      (match attr.kind, attr.arguments with
       | .ATTRIBUTE_GNU_MODE, .ATTRIBUTE_ARGUMENT_SYMBOL _ :: _ => true
       | .ATTRIBUTE_GNU_MODE, _ => false
       | .ATTRIBUTE_GNU_ALIGNED, .ATTRIBUTE_ARGUMENT_SYMBOL _ :: _ => false
       | .ATTRIBUTE_MS_ALIGN, .ATTRIBUTE_ARGUMENT_SYMBOL _ :: _ => false
       | _, _ => true) && attribute_arguments_readable next

/-- Does the attribute list hold the attribute `packed`. -/
def contains_packed : List attribute_t → Bool
  | [] => false
  | attr :: next => decide (attr.kind = .ATTRIBUTE_GNU_PACKED) || contains_packed next

/-- Does the attribute list hold the attribute `mode`. -/
def contains_mode : List attribute_t → Bool
  | [] => false
  | attr :: next => decide (attr.kind = .ATTRIBUTE_GNU_MODE) || contains_mode next

/-- The type is one on which `handle_attribute_mode` passes its first two
calls: `skip_typeref` returns, and `is_type_signed` finds no typeref where
it asserts that there is none. -/
def mode_applicable (cfg : config_t) (type : type_t) : Bool :=
  match skip_typeref type with
  | none => false
  | some skipped => (is_type_signed cfg skipped).isSome

/-- The type `__builtin_va_list`, a builtin type with the real type
`char *`. -/
def example_builtin : type_t :=
  .builtin TYPE_QUALIFIER_NONE 0 example_char_pointer

/-! ## The expression printer (`ast.c`)

The printer writes to the output stream with `print_string`, `print_char`
and `print_format`.  The model returns the text written, a list of
characters; `none` is a `panic`, a failed `assert` or a read through a NULL
pointer.  The functions that print the operands take the recursive callee
`print_expression_prec` as a parameter. -/

/-- Modelled from the spec: the precedence levels `precedence_t` of the
header `ast_t.h`, which is not among the sources, in the order of the
precedence table of the specification between the two sentinels:
`PREC_BOTTOM`. -/
def PREC_BOTTOM : Nat := 0
/-- `PREC_EXPRESSION`: the comma operator. -/
def PREC_EXPRESSION : Nat := 1
/-- `PREC_ASSIGNMENT`. -/
def PREC_ASSIGNMENT : Nat := 2
/-- `PREC_CONDITIONAL`. -/
def PREC_CONDITIONAL : Nat := 3
/-- `PREC_LOGICAL_OR`. -/
def PREC_LOGICAL_OR : Nat := 4
/-- `PREC_LOGICAL_AND`. -/
def PREC_LOGICAL_AND : Nat := 5
/-- `PREC_OR`. -/
def PREC_OR : Nat := 6
/-- `PREC_XOR`. -/
def PREC_XOR : Nat := 7
/-- `PREC_AND`. -/
def PREC_AND : Nat := 8
/-- `PREC_EQUALITY`. -/
def PREC_EQUALITY : Nat := 9
/-- `PREC_RELATIONAL`. -/
def PREC_RELATIONAL : Nat := 10
/-- `PREC_SHIFT`. -/
def PREC_SHIFT : Nat := 11
/-- `PREC_ADDITIVE`. -/
def PREC_ADDITIVE : Nat := 12
/-- `PREC_MULTIPLICATIVE`. -/
def PREC_MULTIPLICATIVE : Nat := 13
/-- `PREC_UNARY`. -/
def PREC_UNARY : Nat := 14
/-- `PREC_POSTFIX`. -/
def PREC_POSTFIX : Nat := 15
/-- `PREC_PRIMARY`. -/
def PREC_PRIMARY : Nat := 16
/-- `PREC_TOP`. -/
def PREC_TOP : Nat := 17

/-- Returns 1 if a given precedence level has right-to-left associativity,
else 0 (`right_to_left`). -/
def right_to_left (precedence : Nat) : Nat :=
  if precedence = PREC_ASSIGNMENT ∨ precedence = PREC_CONDITIONAL ∨ precedence = PREC_UNARY
  then 1 else 0

/-- The entries of the table `prec` of `get_expression_precedence` for the
unary kinds. -/
def get_unary_precedence : unary_kind_t → Nat
  | .EXPR_UNARY_NEGATE => PREC_UNARY
  | .EXPR_UNARY_PLUS => PREC_UNARY
  | .EXPR_UNARY_BITWISE_NEGATE => PREC_UNARY
  | .EXPR_UNARY_NOT => PREC_UNARY
  | .EXPR_UNARY_DEREFERENCE => PREC_UNARY
  | .EXPR_UNARY_TAKE_ADDRESS => PREC_UNARY
  | .EXPR_UNARY_POSTFIX_INCREMENT => PREC_POSTFIX
  | .EXPR_UNARY_POSTFIX_DECREMENT => PREC_POSTFIX
  | .EXPR_UNARY_PREFIX_INCREMENT => PREC_UNARY
  | .EXPR_UNARY_PREFIX_DECREMENT => PREC_UNARY
  | .EXPR_UNARY_CAST => PREC_UNARY
  | .EXPR_UNARY_CAST_IMPLICIT => PREC_UNARY
  | .EXPR_UNARY_ASSUME => PREC_PRIMARY
  | .EXPR_UNARY_DELETE => PREC_UNARY
  | .EXPR_UNARY_DELETE_ARRAY => PREC_UNARY
  | .EXPR_UNARY_THROW => PREC_ASSIGNMENT

/-- The entries of the table `prec` of `get_expression_precedence` for the
binary kinds. -/
def get_binary_precedence : binary_kind_t → Nat
  | .EXPR_BINARY_ADD => PREC_ADDITIVE
  | .EXPR_BINARY_SUB => PREC_ADDITIVE
  | .EXPR_BINARY_MUL => PREC_MULTIPLICATIVE
  | .EXPR_BINARY_DIV => PREC_MULTIPLICATIVE
  | .EXPR_BINARY_MOD => PREC_MULTIPLICATIVE
  | .EXPR_BINARY_EQUAL => PREC_EQUALITY
  | .EXPR_BINARY_NOTEQUAL => PREC_EQUALITY
  | .EXPR_BINARY_LESS => PREC_RELATIONAL
  | .EXPR_BINARY_LESSEQUAL => PREC_RELATIONAL
  | .EXPR_BINARY_GREATER => PREC_RELATIONAL
  | .EXPR_BINARY_GREATEREQUAL => PREC_RELATIONAL
  | .EXPR_BINARY_BITWISE_AND => PREC_AND
  | .EXPR_BINARY_BITWISE_OR => PREC_OR
  | .EXPR_BINARY_BITWISE_XOR => PREC_XOR
  | .EXPR_BINARY_LOGICAL_AND => PREC_LOGICAL_AND
  | .EXPR_BINARY_LOGICAL_OR => PREC_LOGICAL_OR
  | .EXPR_BINARY_SHIFTLEFT => PREC_SHIFT
  | .EXPR_BINARY_SHIFTRIGHT => PREC_SHIFT
  | .EXPR_BINARY_ASSIGN => PREC_ASSIGNMENT
  | .EXPR_BINARY_MUL_ASSIGN => PREC_ASSIGNMENT
  | .EXPR_BINARY_DIV_ASSIGN => PREC_ASSIGNMENT
  | .EXPR_BINARY_MOD_ASSIGN => PREC_ASSIGNMENT
  | .EXPR_BINARY_ADD_ASSIGN => PREC_ASSIGNMENT
  | .EXPR_BINARY_SUB_ASSIGN => PREC_ASSIGNMENT
  | .EXPR_BINARY_SHIFTLEFT_ASSIGN => PREC_ASSIGNMENT
  | .EXPR_BINARY_SHIFTRIGHT_ASSIGN => PREC_ASSIGNMENT
  | .EXPR_BINARY_BITWISE_AND_ASSIGN => PREC_ASSIGNMENT
  | .EXPR_BINARY_BITWISE_XOR_ASSIGN => PREC_ASSIGNMENT
  | .EXPR_BINARY_BITWISE_OR_ASSIGN => PREC_ASSIGNMENT
  | .EXPR_BINARY_COMMA => PREC_EXPRESSION
  | .EXPR_BINARY_ISGREATER => PREC_PRIMARY
  | .EXPR_BINARY_ISGREATEREQUAL => PREC_PRIMARY
  | .EXPR_BINARY_ISLESS => PREC_PRIMARY
  | .EXPR_BINARY_ISLESSEQUAL => PREC_PRIMARY
  | .EXPR_BINARY_ISLESSGREATER => PREC_PRIMARY
  | .EXPR_BINARY_ISUNORDERED => PREC_PRIMARY

/-- Return the precedence of an expression given by its kind
(`get_expression_precedence`); the kind is that of the node.  The table has
no entry for `EXPR_LITERAL_BOOLEAN`: the `assert` on the result fails. -/
def get_expression_precedence : expression_t → Option Nat
  | .literal .EXPR_LITERAL_BOOLEAN _ _ => none
  | .compound_literal _ _ _ => some PREC_UNARY
  | .call _ _ _ => some PREC_POSTFIX
  | .conditional _ _ _ _ => some PREC_CONDITIONAL
  | .select _ _ _ => some PREC_POSTFIX
  | .array_access _ _ _ => some PREC_POSTFIX
  | .sizeof _ _ _ => some PREC_UNARY
  | .classify_type _ _ => some PREC_UNARY
  | .alignof _ _ _ => some PREC_UNARY
  | .unary kind _ _ => some (get_unary_precedence kind)
  | .binary kind _ _ _ => some (get_binary_precedence kind)
  | _ => some PREC_PRIMARY

/-- The kinds of `__func__` names (`funcname_kind_t`). -/
inductive funcname_kind_t
  | FUNCNAME_FUNCTION
  | FUNCNAME_PRETTY_FUNCTION
  | FUNCNAME_FUNCSIG
  | FUNCNAME_FUNCDNAME
  deriving DecidableEq, Repr

/-- The two flags of the printer, the bits of `c_mode` that it tests, the
printers of the other syntax classes (`print_type` of `type.c`,
`print_initializer`, `print_statement` and `print_designator`), and the
fields of the nodes that the model of the expressions leaves out: the
suffix of a literal, the kind of a `funcname`, the flag `flipped` of an
array access, the symbols of the label of a label address, of the parameter
of a `va_start` and of the entry of a select. -/
structure print_env_t where
  print_implicit_casts : Bool
  print_parenthesis : Bool
  c_mode_gnuc : Bool
  c_mode_c99 : Bool
  c_mode_cxx : Bool
  print_type : type_t → List Char
  print_initializer : initializer_t → List Char
  print_statement : expression_t → List Char
  print_designator : expression_t → List Char
  literal_suffix : expression_t → Option String
  funcname_kind : expression_t → funcname_kind_t
  flipped : expression_t → Bool
  label_symbol : expression_t → Option String
  parameter_symbol : expression_t → Option String
  compound_entry_symbol : Nat → Option String

/-- The type of `print_expression_prec`: the expression and the precedence
of its user. -/
abbrev expression_printer_t := expression_t → Nat → Option (List Char)

/-- The three octal digits of `print_format("\\%03o", tc)` for a character
below 0x80. -/
def octal_digits (tc : Nat) : List Char :=
  [Char.ofNat (48 + tc / 64 % 8), Char.ofNat (48 + tc / 8 % 8), Char.ofNat (48 + tc % 8)]

/-- The text that the loop of `print_quoted_string` prints for one
character. -/
def print_quoted_char (env : print_env_t) (border : Nat) (tc : Nat) : List Char :=
  (if tc = border then [Char.ofNat 92] else []) ++
    (if tc = 92 then [Char.ofNat 92, Char.ofNat 92]
     else if tc = 7 then [Char.ofNat 92, 'a']
     else if tc = 8 then [Char.ofNat 92, 'b']
     else if tc = 12 then [Char.ofNat 92, 'f']
     else if tc = 10 then [Char.ofNat 92, 'n']
     else if tc = 13 then [Char.ofNat 92, 'r']
     else if tc = 9 then [Char.ofNat 92, 't']
     else if tc = 11 then [Char.ofNat 92, 'v']
     else if tc = 63 then [Char.ofNat 92, '?']
     else if tc = 27 ∧ env.c_mode_gnuc = true then [Char.ofNat 92, 'e']
     else if tc < 128 ∧ ¬ (32 ≤ tc ∧ tc < 127) then Char.ofNat 92 :: octal_digits tc
     else [Char.ofNat tc])

/-- Print a quoted string constant (`print_quoted_string`): the characters
up to `size - skip` between two border characters.  The loop runs until the
pointer is `begin + size - skip`; it does not end when `skip` is larger than
the size, and it reads past the array when the array is shorter. -/
def print_quoted_string (env : print_env_t) (string : string_t) (border : Nat) (skip : Nat) :
    Option (List Char) :=
  if string.size < skip ∨ string.begin_chars.length < string.size - skip then none
  else
    some (Char.ofNat border ::
      ((string.begin_chars.take (string.size - skip)).map (print_quoted_char env border)).flatten
        ++ [Char.ofNat border])

/-- `print_string_literal`. -/
def print_string_literal (env : print_env_t) (wide : Bool) (value : string_t) :
    Option (List Char) :=
  (print_quoted_string env value 34 1).map (fun text => if wide then 'L' :: text else text)

/-- `print_stringrep` and `print_symbol` of the suffix, the common part of
the numeric cases of `print_literal`. -/
def print_literal_value (value : List Nat) (suffix : Option String) : List Char :=
  value.map Char.ofNat ++ (match suffix with | none => [] | some s => s.toList)

/-- `print_literal`. -/
def print_literal (env : print_env_t) (kind : literal_kind_t) (value : List Nat)
    (suffix : Option String) : Option (List Char) :=
  match kind with
  | .EXPR_LITERAL_MS_NOOP => some "__noop".toList
  | .EXPR_LITERAL_INTEGER_HEXADECIMAL => some ("0x".toList ++ print_literal_value value suffix)
  | .EXPR_LITERAL_FLOATINGPOINT_HEXADECIMAL =>
      some ("0x".toList ++ print_literal_value value suffix)
  | .EXPR_LITERAL_BOOLEAN => some (print_literal_value value suffix)
  | .EXPR_LITERAL_INTEGER => some (print_literal_value value suffix)
  | .EXPR_LITERAL_INTEGER_OCTAL => some (print_literal_value value suffix)
  | .EXPR_LITERAL_FLOATINGPOINT => some (print_literal_value value suffix)
  | .EXPR_LITERAL_WIDE_CHARACTER =>
      (print_quoted_string env ⟨value, value.length⟩ 39 0).map (fun text => 'L' :: text)
  | .EXPR_LITERAL_CHARACTER => print_quoted_string env ⟨value, value.length⟩ 39 0

/-- Prints a predefined symbol (`print_funcname`). -/
def print_funcname (env : print_env_t) (kind : funcname_kind_t) : List Char :=
  match kind with
  | .FUNCNAME_FUNCTION => if env.c_mode_c99 then "__func__".toList else "__FUNCTION__".toList
  | .FUNCNAME_PRETTY_FUNCTION => "__PRETTY_FUNCTION__".toList
  | .FUNCNAME_FUNCSIG => "__FUNCSIG__".toList
  | .FUNCNAME_FUNCDNAME => "__FUNCDNAME__".toList

/-- `print_compound_literal`. -/
def print_compound_literal (env : print_env_t) (type : type_t)
    (initializer_value : initializer_t) : List Char :=
  '(' :: env.print_type type ++ [')'] ++ env.print_initializer initializer_value

/-- `print_assignment_expression`. -/
def print_assignment_expression (print_expression_prec : expression_printer_t)
    (expr : expression_t) : Option (List Char) :=
  print_expression_prec expr PREC_ASSIGNMENT

/-- The loop of `print_call_expression` over the arguments; `first` is the
flag of the loop. -/
def print_call_arguments (print_expression_prec : expression_printer_t) :
    call_argument_t → Bool → Option (List Char)
  | .null, _ => some []
  | .argument expression next, first =>
      match print_assignment_expression print_expression_prec expression with
      | none => none
      | some text =>
          match print_call_arguments print_expression_prec next false with
          | none => none
          | some rest => some ((if first then [] else ", ".toList) ++ text ++ rest)

/-- Prints a call expression (`print_call_expression`). -/
def print_call_expression (print_expression_prec : expression_printer_t)
    (function : expression_t) (arguments : call_argument_t) : Option (List Char) :=
  match print_expression_prec function PREC_POSTFIX with
  | none => none
  | some text =>
      match print_call_arguments print_expression_prec arguments true with
      | none => none
      | some rest => some (text ++ '(' :: rest ++ [')'])

/-- The operator text of the `switch` of `print_binary_expression`; `none`
is the `panic` of the `default` case. -/
def binary_operator : binary_kind_t → Option String
  | .EXPR_BINARY_COMMA => some ", "
  | .EXPR_BINARY_ASSIGN => some " = "
  | .EXPR_BINARY_ADD => some " + "
  | .EXPR_BINARY_SUB => some " - "
  | .EXPR_BINARY_MUL => some " * "
  | .EXPR_BINARY_MOD => some " % "
  | .EXPR_BINARY_DIV => some " / "
  | .EXPR_BINARY_BITWISE_OR => some " | "
  | .EXPR_BINARY_BITWISE_AND => some " & "
  | .EXPR_BINARY_BITWISE_XOR => some " ^ "
  | .EXPR_BINARY_LOGICAL_OR => some " || "
  | .EXPR_BINARY_LOGICAL_AND => some " && "
  | .EXPR_BINARY_NOTEQUAL => some " != "
  | .EXPR_BINARY_EQUAL => some " == "
  | .EXPR_BINARY_LESS => some " < "
  | .EXPR_BINARY_LESSEQUAL => some " <= "
  | .EXPR_BINARY_GREATER => some " > "
  | .EXPR_BINARY_GREATEREQUAL => some " >= "
  | .EXPR_BINARY_SHIFTLEFT => some " << "
  | .EXPR_BINARY_SHIFTRIGHT => some " >> "
  | .EXPR_BINARY_ADD_ASSIGN => some " += "
  | .EXPR_BINARY_SUB_ASSIGN => some " -= "
  | .EXPR_BINARY_MUL_ASSIGN => some " *= "
  | .EXPR_BINARY_MOD_ASSIGN => some " %= "
  | .EXPR_BINARY_DIV_ASSIGN => some " /= "
  | .EXPR_BINARY_BITWISE_OR_ASSIGN => some " |= "
  | .EXPR_BINARY_BITWISE_AND_ASSIGN => some " &= "
  | .EXPR_BINARY_BITWISE_XOR_ASSIGN => some " ^= "
  | .EXPR_BINARY_SHIFTLEFT_ASSIGN => some " <<= "
  | .EXPR_BINARY_SHIFTRIGHT_ASSIGN => some " >>= "
  | _ => none

/-- Prints a binary expression (`print_binary_expression`): the left
operand at the precedence `prec + r2l`, the operator, the right operand at
`prec + 1 - r2l`. -/
def print_binary_expression (print_expression_prec : expression_printer_t)
    (kind : binary_kind_t) (left right : expression_t) : Option (List Char) :=
  let prec := get_binary_precedence kind
  let r2l := right_to_left prec
  match print_expression_prec left (prec + r2l) with
  | none => none
  | some left_text =>
      match binary_operator kind with
      | none => none
      | some op =>
          match print_expression_prec right (prec + 1 - r2l) with
          | none => none
          | some right_text => some (left_text ++ op.toList ++ right_text)

/-- Prints an unary expression (`print_unary_expression`).  A `throw`
without operand has no node in the model. -/
def print_unary_expression (env : print_env_t) (print_expression_prec : expression_printer_t)
    (kind : unary_kind_t) (base : expression_base_t) (value : expression_t) :
    Option (List Char) :=
  let prec := get_unary_precedence kind
  let before (text : List Char) : Option (List Char) :=
    (print_expression_prec value prec).map (fun operand => text ++ operand)
  match kind with
  | .EXPR_UNARY_NEGATE => before "-".toList
  | .EXPR_UNARY_PLUS => before "+".toList
  | .EXPR_UNARY_NOT => before "!".toList
  | .EXPR_UNARY_BITWISE_NEGATE => before "~".toList
  | .EXPR_UNARY_PREFIX_INCREMENT => before "++".toList
  | .EXPR_UNARY_PREFIX_DECREMENT => before "--".toList
  | .EXPR_UNARY_DEREFERENCE => before "*".toList
  | .EXPR_UNARY_TAKE_ADDRESS => before "&".toList
  | .EXPR_UNARY_DELETE => before "delete ".toList
  | .EXPR_UNARY_DELETE_ARRAY => before "delete [] ".toList
  | .EXPR_UNARY_POSTFIX_INCREMENT =>
      (print_expression_prec value prec).map (fun operand => operand ++ "++".toList)
  | .EXPR_UNARY_POSTFIX_DECREMENT =>
      (print_expression_prec value prec).map (fun operand => operand ++ "--".toList)
  | .EXPR_UNARY_CAST_IMPLICIT => before ('(' :: env.print_type base.type ++ [')'])
  | .EXPR_UNARY_CAST => before ('(' :: env.print_type base.type ++ [')'])
  | .EXPR_UNARY_ASSUME =>
      (print_assignment_expression print_expression_prec value).map
        (fun operand => "__assume(".toList ++ operand ++ [')'])
  | .EXPR_UNARY_THROW => before "throw ".toList

/-- Prints a reference expression (`print_reference_expression`). -/
def print_reference_expression (entity : declaration_t) : Option (List Char) :=
  entity.symbol.map String.toList

/-- Prints a label address expression (`print_label_address_expression`). -/
def print_label_address_expression (env : print_env_t) (expression : expression_t) :
    Option (List Char) :=
  (env.label_symbol expression).map (fun symbol => "&&".toList ++ symbol.toList)

/-- Prints an array expression (`print_array_expression`). -/
def print_array_expression (env : print_env_t) (print_expression_prec : expression_printer_t)
    (expression array_ref index : expression_t) : Option (List Char) :=
  let outer := if env.flipped expression then index else array_ref
  let inner := if env.flipped expression then array_ref else index
  match print_expression_prec outer PREC_POSTFIX with
  | none => none
  | some text =>
      match print_expression_prec inner PREC_BOTTOM with
      | none => none
      | some rest => some (text ++ '[' :: rest ++ [']'])

/-- Prints a typeproperty expression, sizeof or `__alignof__`
(`print_typeprop_expression`). -/
def print_typeprop_expression (env : print_env_t)
    (print_expression_prec : expression_printer_t) (is_sizeof : Bool) (type : type_t)
    (tp_expression : expression_ptr) : Option (List Char) :=
  let name := if is_sizeof then "sizeof".toList else "__alignof__".toList
  match tp_expression with
  | .ptr expression =>
      (print_expression_prec expression PREC_TOP).map (fun text => name ++ text)
  | .null => some (name ++ '(' :: env.print_type type ++ [')'])

/-- Prints a builtin constant expression (`print_builtin_constant`). -/
def print_builtin_constant (print_expression_prec : expression_printer_t)
    (value : expression_t) : Option (List Char) :=
  (print_assignment_expression print_expression_prec value).map
    (fun text => "__builtin_constant_p(".toList ++ text ++ [')'])

/-- Prints a builtin types compatible expression
(`print_builtin_types_compatible`). -/
def print_builtin_types_compatible (env : print_env_t) (left right : type_t) : List Char :=
  "__builtin_types_compatible_p(".toList ++ env.print_type left ++ ", ".toList ++
    env.print_type right ++ [')']

/-- Prints a conditional expression (`print_conditional`). -/
def print_conditional (env : print_env_t) (print_expression_prec : expression_printer_t)
    (condition : expression_t) (true_expression : expression_ptr)
    (false_expression : expression_t) : Option (List Char) :=
  match print_expression_prec condition PREC_LOGICAL_OR with
  | none => none
  | some condition_text =>
      match
        (match true_expression with
         | .ptr expression =>
             (print_expression_prec expression PREC_EXPRESSION).map
               (fun text => " ? ".toList ++ text ++ " : ".toList)
         | .null => some " ?: ".toList) with
      | none => none
      | some middle =>
          let prec := if env.c_mode_cxx then PREC_ASSIGNMENT else PREC_CONDITIONAL
          match print_expression_prec false_expression prec with
          | none => none
          | some false_text => some (condition_text ++ middle ++ false_text)

/-- Prints a va_start expression (`print_va_start`). -/
def print_va_start (env : print_env_t) (print_expression_prec : expression_printer_t)
    (expression ap : expression_t) : Option (List Char) :=
  match print_assignment_expression print_expression_prec ap with
  | none => none
  | some text =>
      (env.parameter_symbol expression).map
        (fun symbol => "__builtin_va_start(".toList ++ text ++ ", ".toList ++ symbol.toList ++
          [')'])

/-- Prints a va_arg expression (`print_va_arg`). -/
def print_va_arg (env : print_env_t) (print_expression_prec : expression_printer_t)
    (base : expression_base_t) (ap : expression_t) : Option (List Char) :=
  (print_assignment_expression print_expression_prec ap).map
    (fun text => "__builtin_va_arg(".toList ++ text ++ ", ".toList ++ env.print_type base.type ++
      [')'])

/-- Prints a va_copy expression (`print_va_copy`). -/
def print_va_copy (print_expression_prec : expression_printer_t) (dst src : expression_t) :
    Option (List Char) :=
  match print_assignment_expression print_expression_prec dst with
  | none => none
  | some dst_text =>
      (print_assignment_expression print_expression_prec src).map
        (fun src_text => "__builtin_va_copy(".toList ++ dst_text ++ ", ".toList ++ src_text ++
          [')'])

/-- Prints a select expression, `.` or `->` (`print_select`). -/
def print_select (env : print_env_t) (print_expression_prec : expression_printer_t)
    (compound : expression_t) (compound_entry : Nat) : Option (List Char) :=
  match print_expression_prec compound PREC_POSTFIX with
  | none => none
  | some text =>
      match skip_typeref compound.base.type with
      | none => none
      | some type =>
          (env.compound_entry_symbol compound_entry).map
            (fun symbol =>
              text ++ (if is_type_pointer type then "->".toList else ".".toList) ++
                symbol.toList)

/-- Prints a type classify expression (`print_classify_type_expression`). -/
def print_classify_type_expression (print_expression_prec : expression_printer_t)
    (type_expression : expression_t) : Option (List Char) :=
  (print_assignment_expression print_expression_prec type_expression).map
    (fun text => "__builtin_classify_type(".toList ++ text ++ [')'])

/-- Prints an offsetof expression (`print_offsetof_expression`). -/
def print_offsetof_expression (env : print_env_t) (expression : expression_t) (type : type_t) :
    List Char :=
  "__builtin_offsetof(".toList ++ env.print_type type ++ [','] ++
    env.print_designator expression ++ [')']

/-- Prints a statement expression (`print_statement_expression`). -/
def print_statement_expression (env : print_env_t) (expression : expression_t) : List Char :=
  '(' :: env.print_statement expression ++ [')']

/-- The `switch` of `print_expression_prec` on the kind of the expression. -/
def print_expression_kind (env : print_env_t) (print_expression_prec : expression_printer_t)
    (expression : expression_t) : Option (List Char) :=
  match expression with
  | .unknown _ => some "$invalid expression$".toList
  | .invalid _ => some "$invalid expression$".toList
  | .wide_string_literal _ value => print_string_literal env true value
  | .string_literal _ value => print_string_literal env false value
  | .literal kind _ value => print_literal env kind value (env.literal_suffix expression)
  | .funcname _ => some (print_funcname env (env.funcname_kind expression))
  | .compound_literal _ type initializer_value =>
      some (print_compound_literal env type initializer_value)
  | .call _ function arguments => print_call_expression print_expression_prec function arguments
  | .binary kind _ left right => print_binary_expression print_expression_prec kind left right
  | .reference _ entity => print_reference_expression entity
  | .reference_enum_value _ entity => print_reference_expression entity
  | .array_access _ array_ref index =>
      print_array_expression env print_expression_prec expression array_ref index
  | .label_address _ => print_label_address_expression env expression
  | .unary kind base value => print_unary_expression env print_expression_prec kind base value
  | .sizeof _ type tp_expression =>
      print_typeprop_expression env print_expression_prec true type tp_expression
  | .alignof _ type tp_expression =>
      print_typeprop_expression env print_expression_prec false type tp_expression
  | .builtin_constant_p _ value => print_builtin_constant print_expression_prec value
  | .builtin_types_compatible_p _ left right =>
      some (print_builtin_types_compatible env left right)
  | .conditional _ condition true_expression false_expression =>
      print_conditional env print_expression_prec condition true_expression false_expression
  | .va_start _ ap => print_va_start env print_expression_prec expression ap
  | .va_arg base ap => print_va_arg env print_expression_prec base ap
  | .va_copy _ dst src => print_va_copy print_expression_prec dst src
  | .select _ compound compound_entry =>
      print_select env print_expression_prec compound compound_entry
  | .classify_type _ type_expression =>
      print_classify_type_expression print_expression_prec type_expression
  | .offsetof _ type => some (print_offsetof_expression env expression type)
  | .statement _ => some (print_statement_expression env expression)

/-- The first statement of `print_expression_prec`: an implicit cast is
replaced by its operand when implicit casts are not printed. -/
def skip_implicit_cast (env : print_env_t) (expression : expression_t) : expression_t :=
  match expression with
  | .unary .EXPR_UNARY_CAST_IMPLICIT _ value =>
      if !env.print_implicit_casts then value else expression
  | _ => expression

/-- The value of `parenthesized` in `print_expression_prec`; the precedence
of the expression is looked up only when the two tests before it fail. -/
def is_parenthesized (env : print_env_t) (expression : expression_t) (top_prec : Nat) :
    Option Bool :=
  if expression.base.parenthesized || (env.print_parenthesis && top_prec != PREC_BOTTOM) then
    some true
  else (get_expression_precedence expression).map (fun prec => decide (top_prec > prec))

/-- Prints an expression with parenthesis if needed
(`print_expression_prec`); the fuel bounds the depth of the recursion. -/
def print_expression_prec (env : print_env_t) : Nat → expression_t → Nat → Option (List Char)
  | 0, _, _ => none
  | fuel + 1, expression, top_prec =>
      let expression := skip_implicit_cast env expression
      match is_parenthesized env expression top_prec with
      | none => none
      | some parenthesized =>
          match print_expression_kind env (print_expression_prec env fuel) expression with
          | none => none
          | some text => some (if parenthesized then '(' :: text ++ [')'] else text)

/-- `print_expression`. -/
def print_expression (env : print_env_t) (fuel : Nat) (expression : expression_t) :
    Option (List Char) :=
  print_expression_prec env fuel expression PREC_BOTTOM

/-! ### Example expressions for the printer -/

/-- The printer of the examples: the two flags are off, the mode is C89,
every type prints as `int`, the other printers print nothing, literals have
no suffix and the nodes carry no symbols besides those of the references. -/
def example_print_env : print_env_t :=
  { print_implicit_casts := false, print_parenthesis := false, c_mode_gnuc := false,
    c_mode_c99 := false, c_mode_cxx := false, print_type := fun _ => "int".toList,
    print_initializer := fun _ => [], print_statement := fun _ => [],
    print_designator := fun _ => [], literal_suffix := fun _ => none,
    funcname_kind := fun _ => .FUNCNAME_FUNCTION, flipped := fun _ => false,
    label_symbol := fun _ => none, parameter_symbol := fun _ => none,
    compound_entry_symbol := fun _ => none }

/-- A reference to the variable of the given name, of type `int`. -/
def example_reference (name : String) : expression_t :=
  .reference { type := example_int }
    { kind := .ENTITY_VARIABLE, type := example_int, symbol := some name }

/-- A unary expression of type `int`. -/
def example_unary (kind : unary_kind_t) (value : expression_t) : expression_t :=
  .unary kind { type := example_int } value

/-- A binary expression of type `int`. -/
def example_binary (kind : binary_kind_t) (left right : expression_t) : expression_t :=
  .binary kind { type := example_int } left right

/-! ### The parentheses of the operands of a binary operator -/

/-- A text, in parentheses or not. -/
def parenthesize (parenthesized : Bool) (text : List Char) : List Char :=
  if parenthesized then '(' :: text ++ [')'] else text

/-- The assignment operators, the binary operators that associate from
right to left. -/
def is_assignment_operator : binary_kind_t → Bool
  | .EXPR_BINARY_ASSIGN => true
  | .EXPR_BINARY_MUL_ASSIGN => true
  | .EXPR_BINARY_DIV_ASSIGN => true
  | .EXPR_BINARY_MOD_ASSIGN => true
  | .EXPR_BINARY_ADD_ASSIGN => true
  | .EXPR_BINARY_SUB_ASSIGN => true
  | .EXPR_BINARY_SHIFTLEFT_ASSIGN => true
  | .EXPR_BINARY_SHIFTRIGHT_ASSIGN => true
  | .EXPR_BINARY_BITWISE_AND_ASSIGN => true
  | .EXPR_BINARY_BITWISE_XOR_ASSIGN => true
  | .EXPR_BINARY_BITWISE_OR_ASSIGN => true
  | _ => false

/-- The rule of the specification for an operand of precedence `c` of an
operator of precedence `p`: parentheses when `c < p`, or when `c = p` and
the operand is on the side opposite to the associativity of the operator. -/
def operand_parenthesized (p c : Nat) (opposite : Bool) : Bool :=
  decide (c < p) || (decide (c = p) && opposite)

/-- The expressions built from references to named entities with the
binary operators that `print_binary_expression` prints. -/
def operator_tree : Nat → expression_t → Bool
  | 0, _ => false
  | fuel + 1, expression =>
      match expression with
      | .reference _ entity => entity.symbol.isSome
      | .binary kind _ left right =>
          (binary_operator kind).isSome && operator_tree fuel left && operator_tree fuel right
      | _ => false

/-! ### Format strings of valid conversion specifications

The format strings that the printf checker accepts without complaint about
their form, described the way C99 describes them: a sequence of ordinary characters, `%%` and conversion
specifications. -/

/-- A conversion specification without `*`: the flags, the digits of the
field width, the digits of the precision after a `.` if there is one, the
length modifier and the conversion specifier. -/
structure conversion_spec_t where
  flags : List Nat
  width : List Nat
  precision : Option (List Nat)
  length_modifier : format_length_modifier_t
  conversion : Nat
  deriving DecidableEq, Repr

/-- An item of a format string. -/
inductive format_item_t
  | ordinary (c : Nat)
  | percent
  | conversion (spec : conversion_spec_t)
  deriving DecidableEq, Repr

/-- The characters of a length modifier. -/
def length_modifier_chars : format_length_modifier_t → List Nat
  | .FMT_MOD_NONE => []
  | .FMT_MOD_L => ['L'.toNat]
  | .FMT_MOD_hh => ['h'.toNat, 'h'.toNat]
  | .FMT_MOD_h => ['h'.toNat]
  | .FMT_MOD_l => ['l'.toNat]
  | .FMT_MOD_ll => ['l'.toNat, 'l'.toNat]
  | .FMT_MOD_j => ['j'.toNat]
  | .FMT_MOD_t => ['t'.toNat]
  | .FMT_MOD_z => ['z'.toNat]
  | .FMT_MOD_q => ['q'.toNat]
  | .FMT_MOD_w => ['w'.toNat]
  | .FMT_MOD_I => ['I'.toNat]
  | .FMT_MOD_I32 => ['I'.toNat, '3'.toNat, '2'.toNat]
  | .FMT_MOD_I64 => ['I'.toNat, '6'.toNat, '4'.toNat]

/-- The characters of a precision. -/
def precision_chars : Option (List Nat) → List Nat
  | none => []
  | some digits => '.'.toNat :: digits

/-- The characters of a conversion specification after the `%`. -/
def conversion_spec_t.chars (spec : conversion_spec_t) : List Nat :=
  spec.flags ++ (spec.width ++ (precision_chars spec.precision ++
    (length_modifier_chars spec.length_modifier ++ [spec.conversion])))

/-- The characters of a sequence of items. -/
def format_chars : List format_item_t → List Nat
  | [] => []
  | .ordinary c :: rest => c :: format_chars rest
  | .percent :: rest => '%'.toNat :: '%'.toNat :: format_chars rest
  | .conversion spec :: rest => '%'.toNat :: (spec.chars ++ format_chars rest)

/-- The string literal of a sequence of items: its characters and the
terminating NUL. -/
def format_string (items : List format_item_t) : string_t :=
  ⟨format_chars items ++ [0], (format_chars items).length + 1⟩

/-- The flag characters of C99 and the `'` of POSIX. -/
def is_flag_char (c : Nat) : Bool :=
  c = '#'.toNat || c = '0'.toNat || c = '-'.toNat || c = 39 || c = 32 || c = '+'.toNat

/-- The conversion specifiers of printf. -/
def conversion_chars : List Nat :=
  ['d'.toNat, 'i'.toNat, 'o'.toNat, 'u'.toNat, 'x'.toNat, 'X'.toNat, 'a'.toNat, 'A'.toNat,
    'e'.toNat, 'E'.toNat, 'f'.toNat, 'F'.toNat, 'g'.toNat, 'G'.toNat, 'c'.toNat, 'C'.toNat,
    's'.toNat, 'S'.toNat, 'p'.toNat, 'n'.toNat]

/-- Is the length modifier one of the mode: `w`, `I`, `I32` and `I64` are
length modifiers in Microsoft mode only. -/
def length_modifier_known (env : format_env_t) : format_length_modifier_t → Bool
  | .FMT_MOD_w => env.c_mode_ms
  | .FMT_MOD_I => env.c_mode_ms
  | .FMT_MOD_I32 => env.c_mode_ms
  | .FMT_MOD_I64 => env.c_mode_ms
  | _ => true

/-- A valid conversion specification: flag characters, each at most once; a
field width of digits that does not start with the flag `0`; a precision of
digits; a length modifier of the mode and a conversion specifier for which
the checker has an expected type. -/
def conversion_spec_t.valid (env : format_env_t) (spec : conversion_spec_t) : Bool :=
  spec.flags.all is_flag_char && decide spec.flags.Nodup &&
  spec.width.all vchar_is_digit && decide (spec.width.head? ≠ some '0'.toNat) &&
  (match spec.precision with
   | none => true
   | some digits => digits.all vchar_is_digit) &&
  length_modifier_known env spec.length_modifier &&
  decide (spec.conversion ∈ conversion_chars) &&
  (match printf_expected env.types spec.conversion spec.length_modifier with
   | .expected _ _ _ => true
   | _ => false)

/-- A valid item: an ordinary character is neither NUL nor `%`. -/
def format_item_t.valid (env : format_env_t) : format_item_t → Bool
  | .ordinary c => decide (c ≠ 0) && decide (c ≠ '%'.toNat)
  | .percent => true
  | .conversion spec => spec.valid env

/-- The number of conversion specifications of a sequence of items. -/
def count_conversions : List format_item_t → Nat
  | [] => 0
  | .conversion _ :: rest => count_conversions rest + 1
  | _ :: rest => count_conversions rest

/-- A type with its type references resolved: the result of `skip_typeref`
where it is no type reference and a type of one of the kinds of the table
of `get_type_struct_size`. -/
def resolved_type (type : type_t) : Option type_t :=
  match skip_typeref type with
  | none => none
  | some resolved =>
      if is_typeref resolved || !get_type_struct_size_known resolved.kind then none
      else some resolved

/-- The comparison of an argument type with the type that a conversion
specification expects, by the rules of the specification: `%p` accepts any
pointer type; where a pointer is expected, the argument is a pointer, the
type it points to has no qualifier but those that the conversion implies
and is, without its qualifiers, the type that the expected type points to;
otherwise the argument type without its qualifiers is the expected type.
The result is `none` where a type does not resolve. -/
def argument_type_matches (types : types_t) (spec : conversion_spec_t) (arg_type : type_t) :
    Option Bool :=
  match printf_expected types spec.conversion spec.length_modifier with
  | .expected expected_type expected_qual _ =>
      match resolved_type arg_type, resolved_type expected_type with
      | some argument, some expected =>
          if spec.conversion = 'p'.toNat ∧ is_type_pointer argument = true then some true
          else
            match expected with
            | .pointer _ expected_to _ =>
                match argument with
                | .pointer _ argument_to _ =>
                    match resolved_type expected_to, resolved_type argument_to with
                    | some expected_to, some argument_to =>
                        some (decide (and_not argument_to.qualifiers expected_qual = 0) &&
                          decide (argument_to.set_qualifiers TYPE_QUALIFIER_NONE = expected_to))
                    | _, _ => none
                | _ => some false
            | _ => some (decide (argument.set_qualifiers TYPE_QUALIFIER_NONE = expected))
      | _, _ => none
  | _ => none

/-- The arguments of the conversion specifications of the items are there
and their types can be compared with the expected types. -/
def arguments_comparable (types : types_t) : List format_item_t → List expression_t → Bool
  | [], _ => true
  | .conversion _ :: _, [] => false
  | .conversion spec :: rest, argument :: arguments =>
      (argument_type_matches types spec argument.base.type).isSome &&
        arguments_comparable types rest arguments
  | _ :: rest, arguments => arguments_comparable types rest arguments

/-- The warnings `argument type does not match conversion specifier` of a
call: one for each argument whose type does not match, with the position of
its conversion specification, `num_fmt` being the number of conversion
specifications before the items. -/
def mismatch_warnings (types : types_t) :
    List format_item_t → Nat → List expression_t → List format_warning_t
  | [], _, _ => []
  | .conversion _ :: _, _, [] => []
  | .conversion spec :: rest, num_fmt, argument :: arguments =>
      (if argument_type_matches types spec argument.base.type = some false then
        [.argument_type_mismatch argument.base.type spec.length_modifier spec.conversion
          (num_fmt + 1)]
       else []) ++ mismatch_warnings types rest (num_fmt + 1) arguments
  | _ :: rest, num_fmt, arguments => mismatch_warnings types rest num_fmt arguments

/-- The two warnings of the discrepancies: the mismatch of an argument type and
the surplus of arguments. -/
def format_warning_t.counted : format_warning_t → Bool
  | .argument_type_mismatch _ _ _ _ => true
  | .too_many_arguments _ _ => true
  | _ => false

/-! ## Further functions of `type.c` and `attribute.c` -/

/-- Returns true if the given type is a complex type (`is_type_complex`);
the function asserts that its argument is no typeref. -/
def is_type_complex (cfg : config_t) (type : type_t) : Option Bool :=
  if is_typeref type then none
  else
    match type with
    | .atomic _ akind => some (test_atomic_type_flag cfg akind ATOMIC_TYPE_FLAG_COMPLEX)
    | _ => some false

/-- The loop over `possible_kinds` in `find_signed_int_atomic_type_kind_for_size`
and its unsigned counterpart: the first kind of the given size, else the
value `ATOMIC_TYPE_INVALID` that `kind` has before the loop. -/
def find_possible_kind (cfg : config_t) : List atomic_type_kind_t → Nat → atomic_type_kind_t
  | [], _ => .ATOMIC_TYPE_INVALID
  | kind :: rest, size =>
      if get_atomic_type_size cfg kind = size then kind else find_possible_kind cfg rest size

/-- The array `possible_kinds` of `find_signed_int_atomic_type_kind_for_size`. -/
def possible_signed_kinds : List atomic_type_kind_t :=
  [.ATOMIC_TYPE_SCHAR, .ATOMIC_TYPE_SHORT, .ATOMIC_TYPE_INT, .ATOMIC_TYPE_LONG,
    .ATOMIC_TYPE_LONGLONG]

/-- The array `possible_kinds` of `find_unsigned_int_atomic_type_kind_for_size`. -/
def possible_unsigned_kinds : List atomic_type_kind_t :=
  [.ATOMIC_TYPE_UCHAR, .ATOMIC_TYPE_USHORT, .ATOMIC_TYPE_UINT, .ATOMIC_TYPE_ULONG,
    .ATOMIC_TYPE_ULONGLONG]

/-- The static array `kinds` of one of the two functions as the program
starts: every entry is `ATOMIC_TYPE_INVALID`, the value 0. -/
def kinds_initial : Nat → atomic_type_kind_t := fun _ => .ATOMIC_TYPE_INVALID

/-- The body that the two functions share: the static array `kinds` is
passed in and handed back with the result; `none` is the failed
`assert(size < 32)`. -/
def find_int_atomic_type_kind_for_size (cfg : config_t)
    (possible_kinds : List atomic_type_kind_t) (kinds : Nat → atomic_type_kind_t)
    (size : Nat) : Option (atomic_type_kind_t × (Nat → atomic_type_kind_t)) :=
  if ¬ size < 32 then none
  else if kinds size = .ATOMIC_TYPE_INVALID then
    let kind := find_possible_kind cfg possible_kinds size
    some (kind, fun i => if i = size then kind else kinds i)
  else some (kinds size, kinds)

/-- Find the atomic type kind representing a given size, signed
(`find_signed_int_atomic_type_kind_for_size`). -/
def find_signed_int_atomic_type_kind_for_size (cfg : config_t)
    (kinds : Nat → atomic_type_kind_t) (size : Nat) :
    Option (atomic_type_kind_t × (Nat → atomic_type_kind_t)) :=
  find_int_atomic_type_kind_for_size cfg possible_signed_kinds kinds size

/-- Find the atomic type kind representing a given size, unsigned
(`find_unsigned_int_atomic_type_kind_for_size`). -/
def find_unsigned_int_atomic_type_kind_for_size (cfg : config_t)
    (kinds : Nat → atomic_type_kind_t) (size : Nat) :
    Option (atomic_type_kind_t × (Nat → atomic_type_kind_t)) :=
  find_int_atomic_type_kind_for_size cfg possible_unsigned_kinds kinds size

/-- The first kind of a list whose size is exactly `n` bytes, the invalid
kind if there is none. -/
def first_kind_of_size (cfg : config_t) (order : List atomic_type_kind_t) (n : Nat) :
    atomic_type_kind_t :=
  (order.find? (fun kind => decide (get_atomic_type_size cfg kind = n))).getD
    .ATOMIC_TYPE_INVALID

/-- A state of the static array `kinds` that calls under the configuration
can lead to: every entry is still invalid or holds the kind of its size. -/
def kinds_consistent (cfg : config_t) (order : List atomic_type_kind_t)
    (kinds : Nat → atomic_type_kind_t) : Prop :=
  ∀ n, kinds n = .ATOMIC_TYPE_INVALID ∨ kinds n = first_kind_of_size cfg order n

/-- The argument of the MS attribute `property`
(`attribute_property_argument_t`): the two symbols, possibly `NULL`. -/
structure attribute_property_argument_t where
  put_symbol : Option String
  get_symbol : Option String
  deriving DecidableEq, Repr

/-- `property_attribute_equal`. -/
def property_attribute_equal (prop1 prop2 : attribute_property_argument_t) : Bool :=
  decide (prop1.put_symbol = prop2.put_symbol) && decide (prop1.get_symbol = prop2.get_symbol)

/-- `attribute_argument_equal`: arguments of different kinds are unequal,
symbols are compared, expressions are never equal (`TODO` in the source). -/
def attribute_argument_equal (arg1 arg2 : attribute_argument_t) : Bool :=
  match arg1, arg2 with
  | .ATTRIBUTE_ARGUMENT_SYMBOL symbol1, .ATTRIBUTE_ARGUMENT_SYMBOL symbol2 =>
      decide (symbol1 = symbol2)
  | .ATTRIBUTE_ARGUMENT_EXPRESSION _, .ATTRIBUTE_ARGUMENT_EXPRESSION _ => false
  | _, _ => false

/-- `attribute_arguments_equal`: the loop runs while both lists have an
argument; after it both lists have to be at their end. -/
def attribute_arguments_equal : List attribute_argument_t → List attribute_argument_t → Bool
  | arg1 :: args1, arg2 :: args2 =>
      if !attribute_argument_equal arg1 arg2 then false
      else attribute_arguments_equal args1 args2
  | [], [] => true
  | _, _ => false

/-- `attributes_equal`.  The member `a.property` of an attribute of the kind
MS `property`, which the model of the attributes leaves out, is read through
the function `property`. -/
def attributes_equal (property : attribute_t → attribute_property_argument_t)
    (attr1 attr2 : attribute_t) : Bool :=
  if attr1.kind ≠ attr2.kind then false
  else
    match attr1.kind with
    | .ATTRIBUTE_MS_PROPERTY => property_attribute_equal (property attr1) (property attr2)
    | _ => attribute_arguments_equal attr1.arguments attr2.arguments

/-- The attribute `aligned(4)`: its argument is the expression `4`. -/
def example_aligned_4 : attribute_t :=
  { kind := .ATTRIBUTE_GNU_ALIGNED,
    arguments :=
      [.ATTRIBUTE_ARGUMENT_EXPRESSION (.literal .EXPR_LITERAL_INTEGER { type := example_int }
        [52])] }

/-- No attribute of the examples has a `property` argument. -/
def example_property : attribute_t → attribute_property_argument_t :=
  fun _ => { put_symbol := none, get_symbol := none }

/-! ## The initializer printer (`ast.c`) -/

mutual
/-- Print an initializer (`print_initializer`).  The model of the
initializers has no `NULL` initializer, for which the function prints `{}`,
and no field for the designator of a designator initializer: `designator` is
the text that `print_designator` prints for it. -/
def print_initializer (env : print_env_t) (print_expression_prec : expression_printer_t)
    (designator : List Char) : initializer_t → Option (List Char)
  | .INITIALIZER_VALUE value => print_assignment_expression print_expression_prec value
  | .INITIALIZER_LIST list =>
      match print_initializer_list env print_expression_prec designator list with
      | none => none
      | some text => some ("\x7b ".toList ++ text ++ " \x7d".toList)
  | .INITIALIZER_STRING string => print_quoted_string env string 34 1
  | .INITIALIZER_WIDE_STRING string => print_quoted_string env string 34 1
  | .INITIALIZER_DESIGNATOR => some (designator ++ " = ".toList)
/-- The `for` loop of `print_initializer` over the initializers of a list
from index `i` on: `", "` follows an initializer that is not the last one
and no designator. -/
def print_initializer_list (env : print_env_t) (print_expression_prec : expression_printer_t)
    (designator : List Char) : initializer_list_t → Option (List Char)
  | .nil => some []
  | .cons sub_init rest =>
      match print_initializer env print_expression_prec designator sub_init with
      | none => none
      | some text =>
          let separator :=
            match rest, sub_init with
            | .nil, _ => []
            | _, .INITIALIZER_DESIGNATOR => []
            | _, _ => ", ".toList
          match print_initializer_list env print_expression_prec designator rest with
          | none => none
          | some rest_text => some (text ++ separator ++ rest_text)
end

/-- The string `ab` with its terminating NUL. -/
def example_string_ab : string_t := ⟨[97, 98, 0], 3⟩

/-! ## The escape rules of C, to state the properties of `print_quoted_string` -/

/-- An octal digit. -/
def is_octal_digit (c : Char) : Bool := decide (48 ≤ c.toNat ∧ c.toNat < 56)

/-- The number that a list of octal digits encodes. -/
def octal_value (digits : List Char) : Nat :=
  digits.foldl (fun value c => value * 8 + (c.toNat - 48)) 0

/-- The character that a named escape stands for, by the character after the
backslash: the backslash, `a b f n r t v`, the question mark, the two
quotes, and `e` for ESC. -/
def named_escape (c : Nat) : Option Nat :=
  if c = 92 then some 92
  else if c = 97 then some 7
  else if c = 98 then some 8
  else if c = 102 then some 12
  else if c = 110 then some 10
  else if c = 114 then some 13
  else if c = 116 then some 9
  else if c = 118 then some 11
  else if c = 63 then some 63
  else if c = 34 then some 34
  else if c = 39 then some 39
  else if c = 101 then some 27
  else none

/-- Decode the character or escape sequence at the head of a text between
two border characters: the decoded character and the rest of the text.  An
octal escape takes the longest run of one to three octal digits.  There is
no result for the empty text, a backslash that starts no escape, an octal
escape above 255, and a border character without a backslash. -/
def decode_escape (border : Nat) : List Char → Option (Nat × List Char)
  | [] => none
  | c :: rest =>
      if c.toNat = 92 then
        match rest with
        | [] => none
        | e :: rest1 =>
            if is_octal_digit e then
              let digits := e :: (rest1.take 2).takeWhile is_octal_digit
              if octal_value digits < 256 then
                some (octal_value digits, rest1.drop (digits.length - 1))
              else none
            else (named_escape e.toNat).map (fun value => (value, rest1))
      else if c.toNat = border then none
      else some (c.toNat, rest)

/-- Decode a text, one character or escape sequence after the other; the
first argument bounds the number of characters decoded. -/
def decode_escapes_loop (border : Nat) : Nat → List Char → Option (List Nat)
  | _, [] => some []
  | 0, _ :: _ => none
  | fuel + 1, c :: rest =>
      match decode_escape border (c :: rest) with
      | none => none
      | some (value, rest1) =>
          (decode_escapes_loop border fuel rest1).map (fun values => value :: values)

/-- Decode the text between two border characters by the escape rules of
C. -/
def decode_escapes (border : Nat) (text : List Char) : Option (List Nat) :=
  decode_escapes_loop border text.length text

/-! ## Room of a struct without bit-fields -/

/-- The sum of the sizes and alignments of the members. -/
def struct_members_room (size_of alignment_of : type_t → Nat) : List entity_t → Nat
  | [] => 0
  | m :: rest =>
      if m.kind = .ENTITY_COMPOUND_MEMBER then
        size_of m.type + alignment_of m.type + struct_members_room size_of alignment_of rest
      else struct_members_room size_of alignment_of rest

/-- The struct `struct { char a[65536]; char b; }`. -/
def example_struct_large : compound_t :=
  example_compound
    [example_member (.array TYPE_QUALIFIER_NONE example_char 65536 true none false),
      example_member example_char] false

/-! ## Offsets of a packed struct -/

/-- The members of a packed struct with the offsets the claim describes:
each member lies directly behind the previous one, at the sum `e` of the
sizes of the preceding members.  Entities that are no compound members are
passed over. -/
def packed_member_sums (size_of : type_t → Nat) : Nat → List entity_t → List entity_t
  | _, [] => []
  | e, m :: rest =>
      if m.kind = .ENTITY_COMPOUND_MEMBER then
        { m with offset := e } :: packed_member_sums size_of (e + size_of m.type) rest
      else m :: packed_member_sums size_of e rest

/-- The struct `struct __attribute__((packed)) { char a[65536]; char b; }`. -/
def example_struct_large_packed : compound_t :=
  example_compound
    [example_member (.array TYPE_QUALIFIER_NONE example_char 65536 true none false),
      example_member example_char] true

/-! # Theorems -/

/-! ## Arithmetic of the layout engine -/

theorem testBit_of_lt_two_pow {y w i : Nat} (hy : y < 2 ^ w) (hi : w ≤ i) :
    y.testBit i = false :=
  Nat.testBit_lt_two_pow (Nat.lt_of_lt_of_le hy (Nat.pow_le_pow_right (by decide) hi))

theorem and_two_pow_sub_two_pow (w k y : Nat) (hk : k < w) (hy : y < 2 ^ w) :
    y &&& (2 ^ w - 2 ^ k) = 2 ^ k * (y / 2 ^ k) := by
  apply Nat.eq_of_testBit_eq
  intro i
  have hlt : 2 ^ k - 1 < 2 ^ w :=
    Nat.lt_of_le_of_lt (Nat.sub_le _ _) (Nat.pow_lt_pow_right (by decide) hk)
  have hpos : 0 < 2 ^ k := Nat.two_pow_pos _
  have hsub : 2 ^ w - 2 ^ k = 2 ^ w - ((2 ^ k - 1) + 1) := by
    rw [Nat.sub_add_cancel hpos]
  rw [Nat.testBit_and, hsub, Nat.testBit_two_pow_sub_succ hlt, Nat.testBit_two_pow_sub_one,
    Nat.testBit_mul_pow_two, ← Nat.shiftRight_eq_div_pow, Nat.testBit_shiftRight]
  by_cases h1 : i < k
  · have h2 : ¬ i ≥ k := Nat.not_le.mpr h1
    simp [h1, h2]
  · have h2 : i ≥ k := Nat.not_lt.mp h1
    have h3 : k + (i - k) = i := Nat.add_sub_cancel' h2
    by_cases h4 : i < w
    · simp [h1, h2, h3, h4]
    · have h5 := testBit_of_lt_two_pow hy (Nat.not_lt.mp h4)
      simp [h1, h2, h3, h4, h5]

theorem round_up_two_pow (n k : Nat) : round_up n (2 ^ k) = 2 ^ k * ((n + 2 ^ k - 1) / 2 ^ k) := by
  have hpos : 0 < 2 ^ k := Nat.two_pow_pos _
  simp only [round_up, Nat.ne_of_gt hpos, if_false]
  exact Nat.mul_comm _ _

theorem le_round_up (n a : Nat) : n ≤ round_up n a := by
  unfold round_up
  by_cases ha : a = 0
  · simp [ha]
  · simp only [ha, if_false]
    have hpos : 0 < a := Nat.pos_of_ne_zero ha
    have h1 := Nat.div_add_mod (n + a - 1) a
    have h2 := Nat.mod_lt (n + a - 1) hpos
    have h3 : (n + a - 1) / a * a = a * ((n + a - 1) / a) := Nat.mul_comm _ _
    omega

theorem round_up_dvd (n a : Nat) (ha : 0 < a) : a ∣ round_up n a := by
  unfold round_up
  simp only [Nat.ne_of_gt ha, if_false]
  exact Nat.dvd_mul_left _ _

theorem round_up_least (n a k : Nat) (ha : 0 < a) (hk : a ∣ k) (hn : n ≤ k) :
    round_up n a ≤ k := by
  unfold round_up
  simp only [Nat.ne_of_gt ha, if_false]
  obtain ⟨c, rfl⟩ := hk
  rw [Nat.mul_comm]
  apply Nat.mul_le_mul_left
  apply Nat.lt_succ_iff.mp
  apply (Nat.div_lt_iff_lt_mul ha).mpr
  have : n + a - 1 < a * c + a := by omega
  calc n + a - 1 < a * c + a := this
    _ = (c + 1) * a := by ring

theorem round_up_lt_add (n a : Nat) (ha : 0 < a) : round_up n a < n + a := by
  unfold round_up
  simp only [Nat.ne_of_gt ha, if_false]
  have h1 := Nat.div_add_mod (n + a - 1) a
  have h3 : (n + a - 1) / a * a = a * ((n + a - 1) / a) := Nat.mul_comm _ _
  omega

/-- The padding step of the struct loop computes `round_up`: for an
alignment that is zero or a power of two and without overflow of
`il_size_t`, the offset after `new_offset = (offset + a-1) & -a;
if (new_offset > offset) offset = new_offset` is the smallest multiple of
`a` not below `offset`. -/
theorem align_expr_round_up (cfg : config_t) (x a : Nat)
    (ha : a = 0 ∨ ∃ k, a = 2 ^ k) (hr : round_up x a < 2 ^ cfg.il_size_bits) :
    (if align_expr cfg x a > x then align_expr cfg x a else x) = round_up x a ∧
    (align_expr cfg x a > x ↔ round_up x a > x) := by
  have hx : x < 2 ^ cfg.il_size_bits := Nat.lt_of_le_of_lt (le_round_up x a) hr
  rcases ha with ha | ⟨k, ha⟩
  · subst ha
    have h0 : align_expr cfg x 0 = 0 := by
      simp [align_expr, to_il_size]
    simp [h0, round_up]
  · subst ha
    have hpos : 0 < 2 ^ k := Nat.two_pow_pos _
    have hW : 0 < 2 ^ cfg.il_size_bits := Nat.two_pow_pos _
    have hge := le_round_up x (2 ^ k)
    by_cases hk : k < cfg.il_size_bits
    · have hdvd : 2 ^ k ∣ 2 ^ cfg.il_size_bits := Nat.pow_dvd_pow 2 (Nat.le_of_lt hk)
      have hlt : 2 ^ k < 2 ^ cfg.il_size_bits := Nat.pow_lt_pow_right (by decide) hk
      have hrd := round_up_dvd x (2 ^ k) hpos
      have hra := round_up_lt_add x (2 ^ k) hpos
      -- round_up + 2^k ≤ 2^w
      have hroom : round_up x (2 ^ k) + 2 ^ k ≤ 2 ^ cfg.il_size_bits := by
        obtain ⟨c, hc⟩ := hrd
        obtain ⟨d, hd⟩ := hdvd
        rw [hc, hd] at hr ⊢
        have hcd : c < d := Nat.lt_of_mul_lt_mul_left hr
        calc 2 ^ k * c + 2 ^ k = 2 ^ k * (c + 1) := by ring
          _ ≤ 2 ^ k * d := Nat.mul_le_mul_left _ hcd
      have hy : x + 2 ^ k - 1 < 2 ^ cfg.il_size_bits := by omega
      have h1 : to_il_size cfg (x + 2 ^ k + (2 ^ cfg.il_size_bits - 1)) = x + 2 ^ k - 1 := by
        unfold to_il_size
        have : x + 2 ^ k + (2 ^ cfg.il_size_bits - 1) = (x + 2 ^ k - 1) + 2 ^ cfg.il_size_bits := by
          omega
        rw [this, Nat.add_mod_right, Nat.mod_eq_of_lt hy]
      have h2 : to_il_size cfg (2 ^ cfg.il_size_bits - 2 ^ k % 2 ^ cfg.il_size_bits)
          = 2 ^ cfg.il_size_bits - 2 ^ k := by
        unfold to_il_size
        rw [Nat.mod_eq_of_lt hlt, Nat.mod_eq_of_lt (by omega)]
      have h3 : align_expr cfg x (2 ^ k) = round_up x (2 ^ k) := by
        unfold align_expr
        rw [h1, h2, and_two_pow_sub_two_pow _ _ _ hk hy, round_up_two_pow]
      rw [h3]
      constructor
      · by_cases hgt : round_up x (2 ^ k) > x
        · simp [hgt]
        · have : round_up x (2 ^ k) = x := by omega
          simp [this]
      · exact Iff.rfl
    · -- the alignment does not fit il_size_t: only x = 0 is possible
      have hkw : cfg.il_size_bits ≤ k := Nat.not_lt.mp hk
      have hle : 2 ^ cfg.il_size_bits ≤ 2 ^ k := Nat.pow_le_pow_right (by decide) hkw
      have hrd := round_up_dvd x (2 ^ k) hpos
      have hr0 : round_up x (2 ^ k) = 0 := by
        obtain ⟨c, hc⟩ := hrd
        rcases Nat.eq_zero_or_pos c with h | h
        · rw [hc, h]; rfl
        · have : 2 ^ k ≤ 2 ^ k * c := Nat.le_mul_of_pos_right _ h
          omega
      have hx0 : x = 0 := by omega
      subst hx0
      have hmod : 2 ^ k % 2 ^ cfg.il_size_bits = 0 :=
        Nat.mod_eq_zero_of_dvd (Nat.pow_dvd_pow 2 hkw)
      have h0 : align_expr cfg 0 (2 ^ k) = 0 := by
        unfold align_expr to_il_size
        rw [hmod]
        simp
      simp [h0, hr0]


theorem le_struct_members_end (size_of alignment_of : type_t → Nat) :
    ∀ (members : List entity_t) (e : Nat),
      e + struct_members_size size_of members ≤ struct_members_end size_of alignment_of e members := by
  intro members
  induction members with
  | nil => intro e; simp [struct_members_end, struct_members_size]
  | cons m rest ih =>
    intro e
    simp only [struct_members_end, struct_members_size]
    by_cases hk : m.kind = .ENTITY_COMPOUND_MEMBER
    · simp only [hk, if_true]
      have h1 := ih (round_up e (alignment_of m.type) + size_of m.type)
      have h2 := le_round_up e (alignment_of m.type)
      omega
    · simp only [hk, if_false]
      exact ih e

theorem to_ushort_of_lt {x : Nat} (h : x < 65536) : to_ushort x = x := Nat.mod_eq_of_lt h

theorem to_il_size_of_lt {cfg : config_t} {x : Nat} (h : x < 2 ^ cfg.il_size_bits) :
    to_il_size cfg x = x := Nat.mod_eq_of_lt h

theorem to_il_alignment_of_lt {cfg : config_t} {x : Nat} (h : x < 2 ^ cfg.il_alignment_bits) :
    to_il_alignment cfg x = x := Nat.mod_eq_of_lt h

theorem layout_struct_loop_plain (cfg : config_t)
    (get_type_size get_type_alignment : type_t → Option Nat)
    (size_of alignment_of : type_t → Nat) :
    ∀ (members : List entity_t) (fuel offset alignment : Nat) (need_pad : Bool),
      members.length < fuel →
      (∀ m ∈ members, m.kind = .ENTITY_COMPOUND_MEMBER →
        plain_member get_type_size get_type_alignment size_of alignment_of m ∧
        (∃ k, alignment_of m.type = 2 ^ k) ∧
        alignment_of m.type < 2 ^ cfg.il_alignment_bits) →
      struct_members_end size_of alignment_of offset members < 2 ^ cfg.il_size_bits →
      (∀ m ∈ struct_member_offsets size_of alignment_of offset members,
        m.kind = .ENTITY_COMPOUND_MEMBER → m.offset < 65536) →
      layout_struct_loop cfg get_type_size get_type_alignment false fuel members
          offset alignment need_pad =
        some (struct_member_offsets size_of alignment_of offset members,
          struct_members_end size_of alignment_of offset members,
          struct_members_alignment alignment_of alignment members,
          need_pad || decide (offset + struct_members_size size_of members <
            struct_members_end size_of alignment_of offset members)) := by
  intro members
  induction members with
  | nil =>
    intro fuel offset alignment need_pad hf _ _ _
    cases fuel with
    | zero => exact absurd hf (Nat.not_lt_zero _)
    | succ n =>
      simp [layout_struct_loop, struct_member_offsets, struct_members_end,
        struct_members_alignment, struct_members_size]
  | cons m rest ih =>
    intro fuel offset alignment need_pad hf hm hw h16
    cases fuel with
    | zero => exact absurd hf (Nat.not_lt_zero _)
    | succ n =>
      have hf' : rest.length < n := by
        simp only [List.length_cons] at hf; omega
      have hrest : ∀ m' ∈ rest, m'.kind = .ENTITY_COMPOUND_MEMBER →
          plain_member get_type_size get_type_alignment size_of alignment_of m' ∧
          (∃ k, alignment_of m'.type = 2 ^ k) ∧
          alignment_of m'.type < 2 ^ cfg.il_alignment_bits :=
        fun m' hm' => hm m' (List.mem_cons_of_mem _ hm')
      by_cases hk : m.kind = .ENTITY_COMPOUND_MEMBER
      · obtain ⟨⟨⟨skipped, hs1, hs2, hs3⟩, hgs, hga⟩, hpow, halign⟩ :=
          hm m (List.mem_cons_self _ _) hk
        simp only [struct_members_end, hk, if_true] at hw
        simp only [struct_member_offsets, hk, if_true, List.mem_cons, forall_eq_or_imp] at h16
        obtain ⟨h16a, h16⟩ := h16
        have h16b : round_up offset (alignment_of m.type) < 65536 := h16a trivial
        have hle := le_struct_members_end size_of alignment_of rest
          (round_up offset (alignment_of m.type) + size_of m.type)
        have hru : round_up offset (alignment_of m.type) < 2 ^ cfg.il_size_bits := by omega
        obtain ⟨hstep, hpad⟩ := align_expr_round_up cfg offset (alignment_of m.type)
          (Or.inr hpow) hru
        have hge := le_round_up offset (alignment_of m.type)
        have hstep' : (if (decide (align_expr cfg offset (alignment_of m.type) > offset)) = true
            then align_expr cfg offset (alignment_of m.type) else offset)
            = round_up offset (alignment_of m.type) := by
          simpa using hstep
        have hih := ih n (round_up offset (alignment_of m.type) + size_of m.type)
          (max alignment (alignment_of m.type))
          (if decide (align_expr cfg offset (alignment_of m.type) > offset) = true then true
            else need_pad) hf' hrest hw h16
        have hmax : (if alignment_of m.type > alignment then alignment_of m.type else alignment)
            = max alignment (alignment_of m.type) := by
          by_cases h : alignment_of m.type > alignment
          · simp only [h, if_true]; omega
          · simp only [h, if_false]; omega
        rw [layout_struct_loop]
        simp only [hk, ne_eq, not_true_eq_false, if_false, hs1, hs2, Bool.not_true,
          Bool.false_eq_true, hs3, hga, hgs, to_il_alignment_of_lt halign, hmax,
          Bool.not_false, Bool.true_and, hstep']
        rw [to_il_size_of_lt (by omega), hih]
        simp only [Option.map_some', struct_member_offsets, struct_members_end,
          struct_members_alignment, struct_members_size, hk, if_true,
          to_ushort_of_lt h16b]
        have hb : ((if decide (align_expr cfg offset (alignment_of m.type) > offset) = true
              then true else need_pad) ||
            decide (round_up offset (alignment_of m.type) + size_of m.type +
              struct_members_size size_of rest <
              struct_members_end size_of alignment_of
                (round_up offset (alignment_of m.type) + size_of m.type) rest)) =
            (need_pad ||
            decide (offset + (size_of m.type + struct_members_size size_of rest) <
              struct_members_end size_of alignment_of
                (round_up offset (alignment_of m.type) + size_of m.type) rest)) := by
          by_cases hp : align_expr cfg offset (alignment_of m.type) > offset
          · have hp' := hpad.mp hp
            have hd : decide (offset + (size_of m.type + struct_members_size size_of rest) <
                struct_members_end size_of alignment_of
                  (round_up offset (alignment_of m.type) + size_of m.type) rest) = true := by
              rw [decide_eq_true_eq]; omega
            rw [hd]
            simp only [hp, decide_True, if_true, Bool.true_or, Bool.or_true]
          · have hp' : ¬ round_up offset (alignment_of m.type) > offset :=
              fun h => hp (hpad.mpr h)
            have heq : round_up offset (alignment_of m.type) = offset := by omega
            simp only [hp, decide_False, Bool.false_eq_true, if_false, heq, Nat.add_assoc]
        rw [hb]
      · simp only [struct_members_end, hk, if_false] at hw
        simp only [struct_member_offsets, hk, if_false, List.mem_cons, forall_eq_or_imp] at h16
        have h16 := h16.2
        have hih := ih n offset alignment need_pad hf' hrest hw h16
        rw [layout_struct_loop]
        simp only [ne_eq, hk, not_false_eq_true, if_true, hih, Option.map_some',
          struct_member_offsets, struct_members_end, struct_members_alignment,
          struct_members_size, if_false]


theorem struct_members_alignment_pow (alignment_of : type_t → Nat) :
    ∀ (members : List entity_t) (a : Nat),
      (a = 0 ∨ ∃ k, a = 2 ^ k) →
      (∀ m ∈ members, m.kind = .ENTITY_COMPOUND_MEMBER → ∃ k, alignment_of m.type = 2 ^ k) →
      (struct_members_alignment alignment_of a members = 0 ∨
        ∃ k, struct_members_alignment alignment_of a members = 2 ^ k) := by
  intro members
  induction members with
  | nil => intro a ha _; exact ha
  | cons m rest ih =>
    intro a ha hm
    have hrest : ∀ m' ∈ rest, m'.kind = .ENTITY_COMPOUND_MEMBER →
        ∃ k, alignment_of m'.type = 2 ^ k := fun m' hm' => hm m' (List.mem_cons_of_mem _ hm')
    simp only [struct_members_alignment]
    by_cases hk : m.kind = .ENTITY_COMPOUND_MEMBER
    · simp only [hk, if_true]
      apply ih _ _ hrest
      have hp := hm m (List.mem_cons_self _ _) hk
      rcases Nat.le_total a (alignment_of m.type) with h | h
      · rw [Nat.max_eq_right h]; exact Or.inr hp
      · rw [Nat.max_eq_left h]; exact ha
    · simp only [hk, if_false]
      exact ih a ha hrest

/-- Claim C1: a complete, not yet layouted, non-packed struct whose members
are ordinary (non-bit-field, valid) members with power-of-two alignments,
whose initial alignment is zero or a power of two, whose offsets stay below
65536 (the `unsigned short` offset field) and whose size fits `il_size_t`:
`layout_struct_type` gives
every member the smallest multiple of its alignment not below the end of the
previous member (the first member offset 0), sets the alignment to the
maximum of the initial alignment and the member alignments, the size to the
smallest multiple of the alignment not below the end of the last member, and
reports padding exactly when the size exceeds the sum of the member sizes. -/
theorem layout_struct_type_unpacked (cfg : config_t)
    (get_type_size get_type_alignment : type_t → Option Nat)
    (size_of alignment_of : type_t → Nat) (compound : compound_t)
    (hcomplete : compound.complete = true) (hlayouted : compound.layouted = false)
    (hpacked : compound.packed = false)
    (hmembers : ∀ m ∈ compound.members, m.kind = .ENTITY_COMPOUND_MEMBER →
      plain_member get_type_size get_type_alignment size_of alignment_of m ∧
      (∃ k, alignment_of m.type = 2 ^ k) ∧
      alignment_of m.type < 2 ^ cfg.il_alignment_bits)
    (hinit : compound.alignment = 0 ∨ ∃ k, compound.alignment = 2 ^ k)
    (hsize : round_up (struct_members_end size_of alignment_of 0 compound.members)
      (struct_members_alignment alignment_of compound.alignment compound.members)
        < 2 ^ cfg.il_size_bits)
    (hoffsets : ∀ m ∈ struct_member_offsets size_of alignment_of 0 compound.members,
      m.kind = .ENTITY_COMPOUND_MEMBER → m.offset < 65536) :
    layout_struct_type cfg get_type_size get_type_alignment compound =
      some ({ compound with
              members := struct_member_offsets size_of alignment_of 0 compound.members,
              size := round_up (struct_members_end size_of alignment_of 0 compound.members)
                (struct_members_alignment alignment_of compound.alignment compound.members),
              alignment :=
                struct_members_alignment alignment_of compound.alignment compound.members,
              layouted := true },
            if cfg.warning_padded = true ∧
                struct_members_size size_of compound.members <
                  round_up (struct_members_end size_of alignment_of 0 compound.members)
                    (struct_members_alignment alignment_of compound.alignment
                      compound.members)
            then [warning_t.needs_padding] else []) := by
  have hge := le_round_up (struct_members_end size_of alignment_of 0 compound.members)
    (struct_members_alignment alignment_of compound.alignment compound.members)
  have hsum := le_struct_members_end size_of alignment_of compound.members 0
  have hloop := layout_struct_loop_plain cfg get_type_size get_type_alignment size_of
    alignment_of compound.members (compound.members.length + 1) 0 compound.alignment false
    (Nat.lt_succ_self _) hmembers (by omega) hoffsets
  have hpow := struct_members_alignment_pow alignment_of compound.members compound.alignment
    hinit (fun m hm hk => (hmembers m hm hk).2.1)
  obtain ⟨hstep, hpad⟩ := align_expr_round_up cfg
    (struct_members_end size_of alignment_of 0 compound.members)
    (struct_members_alignment alignment_of compound.alignment compound.members) hpow hsize
  have hstep' : (if (decide (align_expr cfg
        (struct_members_end size_of alignment_of 0 compound.members)
        (struct_members_alignment alignment_of compound.alignment compound.members) >
        struct_members_end size_of alignment_of 0 compound.members)) = true
      then align_expr cfg (struct_members_end size_of alignment_of 0 compound.members)
        (struct_members_alignment alignment_of compound.alignment compound.members)
      else struct_members_end size_of alignment_of 0 compound.members)
      = round_up (struct_members_end size_of alignment_of 0 compound.members)
        (struct_members_alignment alignment_of compound.alignment compound.members) := by
    simpa using hstep
  unfold layout_struct_type
  simp only [hcomplete, hlayouted, hpacked, hloop, Bool.not_true, Bool.false_eq_true, if_false,
    Bool.not_false, Bool.true_and, hstep', Bool.false_and, Bool.false_or, Nat.zero_add]
  congr 2
  by_cases hp : align_expr cfg (struct_members_end size_of alignment_of 0 compound.members)
      (struct_members_alignment alignment_of compound.alignment compound.members) >
      struct_members_end size_of alignment_of 0 compound.members
  · have hp' := hpad.mp hp
    have hlt : struct_members_size size_of compound.members <
        round_up (struct_members_end size_of alignment_of 0 compound.members)
          (struct_members_alignment alignment_of compound.alignment compound.members) := by
      omega
    simp only [hp, decide_True, if_true, hlt, and_true]
  · have hp' : ¬ round_up (struct_members_end size_of alignment_of 0 compound.members)
        (struct_members_alignment alignment_of compound.alignment compound.members) >
        struct_members_end size_of alignment_of 0 compound.members := fun h => hp (hpad.mpr h)
    have heq : round_up (struct_members_end size_of alignment_of 0 compound.members)
        (struct_members_alignment alignment_of compound.alignment compound.members) =
        struct_members_end size_of alignment_of 0 compound.members := by omega
    simp only [hp, decide_False, Bool.false_eq_true, if_false, heq]
    by_cases hlt : struct_members_size size_of compound.members <
        struct_members_end size_of alignment_of 0 compound.members
    · by_cases hwp : cfg.warning_padded = true
      · simp [hwp, hlt]
      · simp [hwp, hlt]
    · simp [hlt]

theorem to_il_size_add (cfg : config_t) (e s : Nat) :
    to_il_size cfg (to_il_size cfg e + s) = to_il_size cfg (e + s) := by
  unfold to_il_size
  rw [Nat.add_mod, Nat.mod_mod, ← Nat.add_mod]

theorem layout_struct_loop_packed (cfg : config_t)
    (get_type_size get_type_alignment : type_t → Option Nat)
    (size_of alignment_of : type_t → Nat) :
    ∀ (members : List entity_t) (fuel e alignment : Nat) (need_pad : Bool),
      members.length < fuel →
      (∀ m ∈ members, m.kind = .ENTITY_COMPOUND_MEMBER →
        plain_member get_type_size get_type_alignment size_of alignment_of m) →
      layout_struct_loop cfg get_type_size get_type_alignment true fuel members
          (to_il_size cfg e) alignment need_pad =
        some (packed_member_offsets cfg size_of e members,
          to_il_size cfg (e + struct_members_size size_of members),
          packed_members_alignment cfg alignment_of alignment members,
          need_pad) := by
  intro members
  induction members with
  | nil =>
    intro fuel e alignment need_pad hf _
    cases fuel with
    | zero => exact absurd hf (Nat.not_lt_zero _)
    | succ n =>
      simp [layout_struct_loop, packed_member_offsets, packed_members_alignment,
        struct_members_size]
  | cons m rest ih =>
    intro fuel e alignment need_pad hf hm
    cases fuel with
    | zero => exact absurd hf (Nat.not_lt_zero _)
    | succ n =>
      have hf' : rest.length < n := by
        simp only [List.length_cons] at hf; omega
      have hrest : ∀ m' ∈ rest, m'.kind = .ENTITY_COMPOUND_MEMBER →
          plain_member get_type_size get_type_alignment size_of alignment_of m' :=
        fun m' hm' => hm m' (List.mem_cons_of_mem _ hm')
      by_cases hk : m.kind = .ENTITY_COMPOUND_MEMBER
      · obtain ⟨⟨skipped, hs1, hs2, hs3⟩, hgs, hga⟩ := hm m (List.mem_cons_self _ _) hk
        have hih := ih n (e + size_of m.type)
          (max alignment (to_il_alignment cfg (alignment_of m.type))) need_pad hf' hrest
        have hmax : (if to_il_alignment cfg (alignment_of m.type) > alignment
            then to_il_alignment cfg (alignment_of m.type) else alignment)
            = max alignment (to_il_alignment cfg (alignment_of m.type)) := by
          by_cases h : to_il_alignment cfg (alignment_of m.type) > alignment
          · simp only [h, if_true]; omega
          · simp only [h, if_false]; omega
        rw [layout_struct_loop]
        simp only [hk, ne_eq, not_true_eq_false, if_false, hs1, hs2, Bool.not_true,
          Bool.false_eq_true, hs3, hga, hgs, hmax, Bool.false_and, to_il_size_add, hih]
        simp only [Option.map_some', packed_member_offsets, packed_members_alignment,
          struct_members_size, hk, if_true, Nat.add_assoc]
      · have hih := ih n e alignment need_pad hf' hrest
        rw [layout_struct_loop]
        simp only [ne_eq, hk, not_false_eq_true, if_true, hih, Option.map_some',
          packed_member_offsets, packed_members_alignment, struct_members_size, if_false]

theorem layout_struct_type_packed_truncated (cfg : config_t)
    (get_type_size get_type_alignment : type_t → Option Nat)
    (size_of alignment_of : type_t → Nat) (compound : compound_t)
    (hcomplete : compound.complete = true) (hlayouted : compound.layouted = false)
    (hpacked : compound.packed = true)
    (hmembers : ∀ m ∈ compound.members, m.kind = .ENTITY_COMPOUND_MEMBER →
      plain_member get_type_size get_type_alignment size_of alignment_of m) :
    layout_struct_type cfg get_type_size get_type_alignment compound =
      some ({ compound with
              members := packed_member_offsets cfg size_of 0 compound.members,
              size := to_il_size cfg (struct_members_size size_of compound.members),
              alignment :=
                packed_members_alignment cfg alignment_of compound.alignment compound.members,
              layouted := true },
            if cfg.warning_packed = true then [warning_t.superfluous_packed] else []) := by
  have hloop := layout_struct_loop_packed cfg get_type_size get_type_alignment size_of
    alignment_of compound.members (compound.members.length + 1) 0 compound.alignment false
    (Nat.lt_succ_self _) hmembers
  have h0 : to_il_size cfg 0 = 0 := by simp [to_il_size]
  rw [h0] at hloop
  unfold layout_struct_type
  simp only [hcomplete, hlayouted, hpacked, hloop, Bool.not_true, Bool.false_eq_true, if_false,
    Bool.false_and, Bool.true_and, Nat.zero_add]

theorem packed_member_offsets_sums (cfg : config_t) (size_of : type_t → Nat) :
    ∀ (members : List entity_t) (e : Nat),
      e + struct_members_size size_of members < 2 ^ cfg.il_size_bits →
      (∀ m ∈ packed_member_sums size_of e members,
        m.kind = .ENTITY_COMPOUND_MEMBER → m.offset < 65536) →
      packed_member_offsets cfg size_of e members = packed_member_sums size_of e members := by
  intro members
  induction members with
  | nil => intro e _ _; rfl
  | cons m rest ih =>
    intro e hsize hoffsets
    by_cases hk : m.kind = .ENTITY_COMPOUND_MEMBER
    · simp only [struct_members_size, hk, if_true] at hsize
      simp only [packed_member_sums, hk, if_true, List.mem_cons, forall_eq_or_imp] at hoffsets
      obtain ⟨h16, hrest⟩ := hoffsets
      have h16 : e < 65536 := h16 trivial
      simp only [packed_member_offsets, packed_member_sums, hk, if_true]
      rw [to_il_size_of_lt (by omega), to_ushort_of_lt h16, ih (e + size_of m.type)
        (by omega) hrest]
    · simp only [struct_members_size, hk, if_false] at hsize
      simp only [packed_member_sums, hk, if_false, List.mem_cons, forall_eq_or_imp] at hoffsets
      simp only [packed_member_offsets, packed_member_sums, hk, if_false]
      rw [ih e hsize hoffsets.2]

theorem packed_members_alignment_max (cfg : config_t) (alignment_of : type_t → Nat) :
    ∀ (members : List entity_t) (a : Nat),
      (∀ m ∈ members, m.kind = .ENTITY_COMPOUND_MEMBER →
        alignment_of m.type < 2 ^ cfg.il_alignment_bits) →
      packed_members_alignment cfg alignment_of a members
        = struct_members_alignment alignment_of a members := by
  intro members
  induction members with
  | nil => intro a _; rfl
  | cons m rest ih =>
    intro a halign
    have hrest : ∀ m' ∈ rest, m'.kind = .ENTITY_COMPOUND_MEMBER →
        alignment_of m'.type < 2 ^ cfg.il_alignment_bits :=
      fun m' hm' => halign m' (List.mem_cons_of_mem _ hm')
    by_cases hk : m.kind = .ENTITY_COMPOUND_MEMBER
    · simp only [packed_members_alignment, struct_members_alignment, hk, if_true]
      rw [to_il_alignment_of_lt (halign m (List.mem_cons_self _ _) hk), ih _ hrest]
    · simp only [packed_members_alignment, struct_members_alignment, hk, if_false]
      exact ih a hrest

/-- Claim C3, amended: a complete, not yet layouted, packed struct without
bit-fields whose member offsets stay below 65536 (the `unsigned short`
offset field), whose size fits `il_size_t` and whose member alignments fit
`il_alignment_t`.  `layout_struct_type` places each member directly behind
the previous one (the offset is the sum of the sizes of the preceding
members), sets the size to the sum of the member sizes, sets the alignment
to the maximum of the initial alignment and the member alignments, and
emits no padding warning: the only warning is that of the superfluous
`packed`, when that warning is on. -/
theorem layout_struct_type_packed (cfg : config_t)
    (get_type_size get_type_alignment : type_t → Option Nat)
    (size_of alignment_of : type_t → Nat) (compound : compound_t)
    (hcomplete : compound.complete = true) (hlayouted : compound.layouted = false)
    (hpacked : compound.packed = true)
    (hmembers : ∀ m ∈ compound.members, m.kind = .ENTITY_COMPOUND_MEMBER →
      plain_member get_type_size get_type_alignment size_of alignment_of m ∧
      alignment_of m.type < 2 ^ cfg.il_alignment_bits)
    (hsize : struct_members_size size_of compound.members < 2 ^ cfg.il_size_bits)
    (hoffsets : ∀ m ∈ packed_member_sums size_of 0 compound.members,
      m.kind = .ENTITY_COMPOUND_MEMBER → m.offset < 65536) :
    layout_struct_type cfg get_type_size get_type_alignment compound =
      some ({ compound with
              members := packed_member_sums size_of 0 compound.members,
              size := struct_members_size size_of compound.members,
              alignment :=
                struct_members_alignment alignment_of compound.alignment compound.members,
              layouted := true },
            if cfg.warning_packed = true then [warning_t.superfluous_packed] else []) := by
  rw [layout_struct_type_packed_truncated cfg get_type_size get_type_alignment size_of
    alignment_of compound hcomplete hlayouted hpacked (fun m hm hk => (hmembers m hm hk).1),
    packed_member_offsets_sums cfg size_of compound.members 0 (by omega) hoffsets,
    packed_members_alignment_max cfg alignment_of compound.members compound.alignment
      (fun m hm hk => (hmembers m hm hk).2),
    to_il_size_of_lt hsize]

/-- Witness of C1: `struct S { char a; int b; char c; }` with a 4 byte `int`
gets the offsets 0, 4 and 8, size 12 and alignment 4, and the padding warning
is emitted. -/
theorem layout_struct_type_unpacked_witness :
    example_struct_S.complete = true ∧ example_struct_S.layouted = false ∧
    example_struct_S.packed = false ∧
    layout_struct_type example_config example_get_type_size example_get_type_alignment
        example_struct_S =
      some ({ example_struct_S with
              members := [{ example_member example_char with offset := 0 },
                { example_member example_int with offset := 4 },
                { example_member example_char with offset := 8 }],
              size := 12, alignment := 4, layouted := true },
            [warning_t.needs_padding]) :=
  ⟨rfl, rfl, rfl,
    (layout_struct_type_unpacked example_config example_get_type_size
      example_get_type_alignment example_size_of example_alignment_of example_struct_S
      rfl rfl rfl
      (by
        intro m hm _
        simp only [example_struct_S, example_compound, List.mem_cons, List.mem_singleton,
          List.mem_nil_iff, or_false] at hm
        rcases hm with h | h | h <;> subst h
        · exact ⟨⟨⟨_, rfl, by decide, by decide⟩, rfl, rfl⟩, ⟨0, by decide⟩, by decide⟩
        · exact ⟨⟨⟨_, rfl, by decide, by decide⟩, rfl, rfl⟩, ⟨2, by decide⟩, by decide⟩
        · exact ⟨⟨⟨_, rfl, by decide, by decide⟩, rfl, rfl⟩, ⟨0, by decide⟩, by decide⟩)
      (Or.inl rfl) (by decide) (by decide)).trans (by decide)⟩

/-- Witness of C3, amended: `struct __attribute__((packed)) P { char a; int b; }`
gets the offsets 0 and 1, size 5 and alignment 4, without a padding warning. -/
theorem layout_struct_type_packed_witness :
    example_struct_P.complete = true ∧ example_struct_P.layouted = false ∧
    example_struct_P.packed = true ∧
    layout_struct_type example_config example_get_type_size example_get_type_alignment
        example_struct_P =
      some ({ example_struct_P with
              members := [{ example_member example_char with offset := 0 },
                { example_member example_int with offset := 1 }],
              size := 5, alignment := 4, layouted := true },
            [warning_t.superfluous_packed]) :=
  ⟨rfl, rfl, rfl,
    (layout_struct_type_packed example_config example_get_type_size
      example_get_type_alignment example_size_of example_alignment_of example_struct_P
      rfl rfl rfl
      (by
        intro m hm _
        simp only [example_struct_P, example_compound, List.mem_cons, List.mem_singleton,
          List.mem_nil_iff, or_false] at hm
        rcases hm with h | h <;> subst h
        · exact ⟨⟨⟨_, rfl, by decide, by decide⟩, rfl, rfl⟩, by decide⟩
        · exact ⟨⟨⟨_, rfl, by decide, by decide⟩, rfl, rfl⟩, by decide⟩)
      (by decide) (by decide)).trans (by decide)⟩

/-- Claim C3 fails on `struct __attribute__((packed)) P { char a; int b; }`:
the members raise the alignment of the struct to 4, the alignment of `int`,
where the claim has 1, and a warning is emitted where the claim has none.
It fails too on `struct __attribute__((packed)) { char a[65536]; char b; }`:
the offset of a member is stored in an `unsigned short`, so the offset of
`b`, the sum 65536 of the sizes before it, is recorded as 0. -/
theorem layout_struct_type_packed_counterexample :
    example_struct_P.complete = true ∧ example_struct_P.packed = true ∧
    example_struct_P.alignment = 0 ∧
    (layout_struct_type example_config example_get_type_size example_get_type_alignment
        example_struct_P).map (fun r => (r.1.size, r.1.alignment, r.2)) =
      some (5, 4, [warning_t.superfluous_packed]) ∧
    example_struct_large_packed.complete = true ∧
    example_struct_large_packed.packed = true ∧
    example_size_of (.array TYPE_QUALIFIER_NONE example_char 65536 true none false)
      = 65536 ∧
    (layout_struct_type example_config example_get_type_size example_get_type_alignment
        example_struct_large_packed).map
        (fun r => (r.1.members.map (fun m => m.offset), r.1.size))
      = some ([0, 0], 65537) := by
  decide

/-! ## Little-endian bit-field runs -/

theorem unit_of_free_bit (s offset bo : Nat) (hs : 0 < s) (hbo : bo < 8) :
    (8 * offset + bo) / (8 * s) * s = offset / s * s ∧
    (8 * offset + bo) % (8 * s) = 8 * (offset % s) + bo := by
  have h1 := Nat.div_add_mod offset s
  have h2 := Nat.mod_lt offset hs
  have hlt : 8 * (offset % s) + bo < 8 * s := by omega
  have heq : 8 * offset + bo = (8 * (offset % s) + bo) + (8 * s) * (offset / s) := by
    have : 8 * offset = 8 * (s * (offset / s) + offset % s) := by rw [h1]
    rw [this]; ring
  have h8s : 0 < 8 * s := by omega
  constructor
  · rw [heq, Nat.add_mul_div_left _ _ h8s, Nat.div_eq_of_lt hlt, Nat.zero_add]
  · rw [heq, Nat.add_mul_mod_self_left, Nat.mod_eq_of_lt hlt]

theorem next_unit (s offset c : Nat) (hs : 0 < s) (hc1 : 1 ≤ c) (hc2 : c ≤ s) :
    (offset / s * s + c + s - 1) - (offset / s * s + c + s - 1) % s = offset / s * s + s := by
  have heq : offset / s * s + c + s - 1 = (c - 1) + s * (offset / s + 1) := by
    have : offset / s * s = s * (offset / s) := Nat.mul_comm _ _
    rw [this, Nat.mul_add, Nat.mul_one]; omega
  have hlt : c - 1 < s := by omega
  rw [heq, Nat.add_mul_mod_self_left, Nat.mod_eq_of_lt hlt]
  have : offset / s * s = s * (offset / s) := Nat.mul_comm _ _
  rw [this, Nat.mul_add, Nat.mul_one]; omega

theorem alignment_mask_of_pos (cfg : config_t) (s : Nat) (hs : 0 < s)
    (hfit : s < 2 ^ cfg.il_alignment_bits) : alignment_mask_of cfg s = s - 1 := by
  unfold alignment_mask_of to_il_alignment
  have : s + (2 ^ cfg.il_alignment_bits - 1) = (s - 1) + 2 ^ cfg.il_alignment_bits := by omega
  rw [this, Nat.add_mod_right, Nat.mod_eq_of_lt (by omega)]

theorem pack_bitfield_member_place (cfg : config_t)
    (get_type_size get_type_alignment : type_t → Option Nat)
    (member : entity_t) (base_type base : type_t) (w s k offset alignment bo : Nat)
    (hbase : skip_typeref base_type = some base)
    (hsize : get_type_size base = some s) (halign : get_type_alignment base = some s)
    (hs : s = 2 ^ k) (hk : k ≤ 5) (hw0 : 0 < w) (hw : w ≤ 8 * s)
    (hbo : bo < 8)
    (hfit : s < 2 ^ cfg.il_alignment_bits)
    (hroom : (8 * offset + bo) / 8 + 2 * s < 2 ^ cfg.il_size_bits)
    (hshort : bitfield_after s w (8 * offset + bo) ≤ 8 * 65536) :
    pack_bitfield_member cfg get_type_size get_type_alignment false member base_type w
        offset alignment bo =
      some ({ member with
              offset := (bitfield_place s w (8 * offset + bo)).1,
              bit_offset := (bitfield_place s w (8 * offset + bo)).2 },
            bitfield_after s w (8 * offset + bo) / 8,
            max alignment s,
            bitfield_after s w (8 * offset + bo) % 8) := by
  have hspos : 0 < s := by rw [hs]; exact Nat.two_pow_pos _
  have hs32 : s ≤ 32 := by
    rw [hs]
    calc 2 ^ k ≤ 2 ^ 5 := Nat.pow_le_pow_right (by decide) hk
      _ = 32 := by decide
  obtain ⟨hu1, hu2⟩ := unit_of_free_bit s offset bo hspos hbo
  have hmask : alignment_mask_of cfg s = s - 1 := alignment_mask_of_pos cfg s hspos hfit
  have hand : offset &&& (2 ^ k - 1) = offset % 2 ^ k := Nat.and_pow_two_sub_one_eq_mod offset k
  have hmodlt := Nat.mod_lt offset hspos
  have hdm := Nat.div_add_mod offset s
  have hU : offset / s * s = offset - offset % s := by
    have : offset / s * s = s * (offset / s) := Nat.mul_comm _ _
    omega
  have hUle : offset / s * s ≤ offset := by omega
  have hoff : offset + 2 * s < 2 ^ cfg.il_size_bits := by omega
  have hmax : (if s > alignment then s else alignment) = max alignment s := by
    by_cases h : s > alignment
    · simp only [h, if_true]; omega
    · simp only [h, if_false]; omega
  have hun : to_unsigned (s * BITS_PER_BYTE) = 8 * s := by
    unfold to_unsigned BITS_PER_BYTE
    rw [Nat.mod_eq_of_lt (by omega)]; omega
  unfold pack_bitfield_member
  simp only [hbase, halign, hsize, to_il_alignment_of_lt hfit, hmask, Bool.not_false, if_true,
    hmax, hun, and_not]
  subst hs
  rw [hand]
  simp only [BITS_PER_BYTE]
  unfold bitfield_after bitfield_place
  rw [hu1, hu2]
  by_cases hfits : 8 * (offset % 2 ^ k) + bo + w ≤ 8 * 2 ^ k
  · have hc : ¬ ((decide (bo + offset % 2 ^ k * 8 + w > 8 * 2 ^ k) || decide (w = 0)) = true) := by
      simp only [Bool.or_eq_true, decide_eq_true_eq, not_or, not_lt]
      omega
    simp only [hc, hfits, if_true, if_false, Bool.false_eq_true]
    have h16 : offset / 2 ^ k * 2 ^ k < 65536 := by
      unfold bitfield_after bitfield_place at hshort
      rw [hu1, hu2] at hshort
      simp only [hfits, if_true] at hshort
      omega
    have hbit : bo + offset % 2 ^ k * 8 < 256 := by omega
    rw [← hU, to_ushort_of_lt h16]
    have hub : to_uchar (bo + offset % 2 ^ k * 8) = 8 * (offset % 2 ^ k) + bo := by
      unfold to_uchar
      rw [Nat.mod_eq_of_lt hbit]; omega
    rw [hub]
    have hsz : offset / 2 ^ k * 2 ^ k + (bo + offset % 2 ^ k * 8 + w) / 8 < 2 ^ cfg.il_size_bits := by
      omega
    rw [to_il_size_of_lt hsz]
    congr 2
    · congr 1
      · omega
      · congr 1
        omega
  · have hc : (decide (bo + offset % 2 ^ k * 8 + w > 8 * 2 ^ k) || decide (w = 0)) = true := by
      simp only [Bool.or_eq_true, decide_eq_true_eq]
      left; omega
    simp only [hc, hfits, if_true, if_false]
    have hc1 : 1 ≤ (bo + offset % 2 ^ k * 8 + 8 - 1) / 8 := by omega
    have hc2 : (bo + offset % 2 ^ k * 8 + 8 - 1) / 8 ≤ 2 ^ k := by omega
    have hnu := next_unit (2 ^ k) offset ((bo + offset % 2 ^ k * 8 + 8 - 1) / 8) hspos hc1 hc2
    have ho2 : offset - offset % 2 ^ k + (bo + offset % 2 ^ k * 8 + 8 - 1) / 8
        < 2 ^ cfg.il_size_bits := by omega
    rw [to_il_size_of_lt ho2]
    have ho3 : align_mask_expr cfg
        (offset - offset % 2 ^ k + (bo + offset % 2 ^ k * 8 + 8 - 1) / 8) (2 ^ k) (2 ^ k - 1)
        = offset / 2 ^ k * 2 ^ k + 2 ^ k := by
      unfold align_mask_expr and_not to_il_size
      have hW : 0 < 2 ^ cfg.il_size_bits := Nat.two_pow_pos _
      have hy : offset - offset % 2 ^ k + (bo + offset % 2 ^ k * 8 + 8 - 1) / 8 + 2 ^ k +
          (2 ^ cfg.il_size_bits - 1) =
          (offset / 2 ^ k * 2 ^ k + (bo + offset % 2 ^ k * 8 + 8 - 1) / 8 + 2 ^ k - 1)
            + 2 ^ cfg.il_size_bits := by omega
      rw [hy, Nat.add_mod_right, Nat.mod_eq_of_lt (by omega),
        Nat.and_pow_two_sub_one_eq_mod, hnu]
    rw [ho3]
    have h16 : offset / 2 ^ k * 2 ^ k + 2 ^ k < 65536 := by
      unfold bitfield_after bitfield_place at hshort
      rw [hu1, hu2] at hshort
      simp only [hfits, if_false] at hshort
      omega
    rw [to_ushort_of_lt h16]
    have hsz : offset / 2 ^ k * 2 ^ k + 2 ^ k + (0 + w) / 8 < 2 ^ cfg.il_size_bits := by
      omega
    rw [to_il_size_of_lt hsz]
    simp only [to_uchar, Nat.zero_mod, Nat.zero_add, Nat.add_zero]
    congr 2
    congr 1
    · omega
    · congr 1
      omega

theorem le_bitfield_after (s w p : Nat) (hs : 0 < s) : p ≤ bitfield_after s w p := by
  unfold bitfield_after bitfield_place
  have h1 := Nat.div_add_mod p (8 * s)
  have h2 := Nat.mod_lt p (show 0 < 8 * s by omega)
  have h3 : 8 * (p / (8 * s) * s) = 8 * s * (p / (8 * s)) := by ring
  by_cases hf : p % (8 * s) + w ≤ 8 * s
  · simp only [hf, if_true]; omega
  · simp only [hf, if_false]
    have h4 : 8 * (p / (8 * s) * s + s) = 8 * s * (p / (8 * s)) + 8 * s := by ring
    omega

theorem le_bitfield_run_end (s : Nat) (hs : 0 < s) :
    ∀ (run : List entity_t) (p : Nat), p ≤ bitfield_run_end s p run := by
  intro run
  induction run with
  | nil => intro p; exact Nat.le_refl _
  | cons m rest ih =>
    intro p
    unfold bitfield_run_end
    cases hty : m.type with
    | bitfield q b w =>
      simp only []
      exact Nat.le_trans (le_bitfield_after s w p hs) (ih _)
    | _ => exact ih p

theorem pack_bitfield_members_loop_run (cfg : config_t)
    (get_type_size get_type_alignment : type_t → Option Nat) (s k : Nat)
    (hs : s = 2 ^ k) (hk : k ≤ 5) (hfit : s < 2 ^ cfg.il_alignment_bits) :
    ∀ (run tail : List entity_t) (offset alignment bo : Nat),
      bo < 8 →
      (∀ m ∈ run, run_member get_type_size get_type_alignment s m) →
      run_tail tail →
      bitfield_run_end s (8 * offset + bo) run / 8 + 2 * s < 2 ^ cfg.il_size_bits →
      bitfield_run_end s (8 * offset + bo) run ≤ 8 * 65536 →
      pack_bitfield_members_loop cfg get_type_size get_type_alignment false (run ++ tail)
          offset alignment bo =
        some ⟨(bitfield_run_end s (8 * offset + bo) run + 7) / 8,
          if run = [] then alignment else max alignment s,
          bitfield_run_offsets s (8 * offset + bo) run, tail⟩ := by
  have hspos : 0 < s := by rw [hs]; exact Nat.two_pow_pos _
  intro run
  induction run with
  | nil =>
    intro tail offset alignment bo hbo _ htail hroom _
    simp only [bitfield_run_end] at hroom
    have hep : (if bo > 0 then to_il_size cfg (offset + 1) else offset)
        = (8 * offset + bo + 7) / 8 := by
      by_cases h : bo > 0
      · simp only [h, if_true]
        rw [to_il_size_of_lt (by omega)]; omega
      · simp only [h, if_false]; omega
    simp only [List.nil_append, bitfield_run_end, bitfield_run_offsets, if_true]
    rcases htail with htail | ⟨t, rest, htail, htk, htt⟩
    · subst htail
      simp only [pack_bitfield_members_loop, hep]
    · subst htail
      rw [pack_bitfield_members_loop]
      simp only [htk, ne_eq, not_true_eq_false, if_false]
      cases hty : t.type with
      | bitfield q b w => exact absurd hty (htt q b w)
      | _ => simp only [hep]
  | cons m rest ih =>
    intro tail offset alignment bo hbo hrun htail hroom hshort
    obtain ⟨hmk, q, base_type, w, base, hty, hw0, hw, hbase, hsize, halign⟩ :=
      hrun m (List.mem_cons_self _ _)
    have hrest : ∀ m' ∈ rest, run_member get_type_size get_type_alignment s m' :=
      fun m' hm' => hrun m' (List.mem_cons_of_mem _ hm')
    simp only [bitfield_run_end, hty] at hroom hshort
    have hmono := le_bitfield_run_end s hspos rest (bitfield_after s w (8 * offset + bo))
    have hafter := le_bitfield_after s w (8 * offset + bo) hspos
    have hstep := pack_bitfield_member_place cfg get_type_size get_type_alignment m base_type
      base w s k offset alignment bo hbase hsize halign hs hk hw0 hw hbo hfit (by omega) (by omega)
    have hdm : 8 * (bitfield_after s w (8 * offset + bo) / 8) +
        bitfield_after s w (8 * offset + bo) % 8 = bitfield_after s w (8 * offset + bo) :=
      Nat.div_add_mod _ 8
    have hih := ih tail (bitfield_after s w (8 * offset + bo) / 8) (max alignment s)
      (bitfield_after s w (8 * offset + bo) % 8) (Nat.mod_lt _ (by decide)) hrest htail
      (by rw [hdm]; exact hroom) (by rw [hdm]; exact hshort)
    rw [hdm] at hih
    simp only [List.cons_append]
    rw [pack_bitfield_members_loop]
    simp only [hmk, ne_eq, not_true_eq_false, if_false, hty, hstep, hih, Option.map_some',
      pack_result.push, bitfield_run_end, bitfield_run_offsets, List.cons_ne_nil,
      Option.some.injEq, pack_result.mk.injEq, and_true, true_and]
    by_cases hr : rest = []
    · simp [hr]
    · simp only [hr, if_false]
      omega

/-- Claim C4, amended: little-endian packing of a run of bit-fields in a
struct that is not packed.  Every member of the run has a base type of size
and alignment `s` (a power of two, at most 32 bytes) and a width `w` with
`0 < w <= 8*s`; the run starts at the free byte `struct_offset` and stays
below 65536 bytes (and within `il_size_t`).  Then `pack_bitfield_members`
places each bit-field at the first free bit behind the previous member when
it fits into the current `s`-byte aligned unit and at bit 0 of the next unit
otherwise, records the byte offset of that unit and the bit position inside
it, raises the alignment to `s`, returns the first free byte behind the run
and hands back the entities behind the run. -/
theorem pack_bitfield_members_run (cfg : config_t)
    (get_type_size get_type_alignment : type_t → Option Nat) (s k : Nat)
    (run tail : List entity_t) (struct_offset struct_alignment : Nat)
    (hs : s = 2 ^ k) (hk : k ≤ 5) (hfit : s < 2 ^ cfg.il_alignment_bits)
    (hrun : ∀ m ∈ run, run_member get_type_size get_type_alignment s m)
    (htail : run_tail tail)
    (hroom : bitfield_run_end s (8 * struct_offset) run / 8 + 2 * s < 2 ^ cfg.il_size_bits)
    (hshort : bitfield_run_end s (8 * struct_offset) run ≤ 8 * 65536) :
    pack_bitfield_members cfg get_type_size get_type_alignment struct_offset struct_alignment
        false (run ++ tail) =
      some ⟨(bitfield_run_end s (8 * struct_offset) run + 7) / 8,
        if run = [] then struct_alignment else max struct_alignment s,
        bitfield_run_offsets s (8 * struct_offset) run, tail⟩ := by
  have h := pack_bitfield_members_loop_run cfg get_type_size get_type_alignment s k hs hk hfit
    run tail struct_offset struct_alignment 0 (by decide) hrun htail
    (by simpa using hroom) (by simpa using hshort)
  simpa [pack_bitfield_members] using h

/-- Witness of C4, amended: the run `unsigned x:3; unsigned y:5; unsigned z:9;`
with a 4 byte `unsigned` is placed at (offset 0, bit 0), (offset 0, bit 3)
and (offset 0, bit 8), and `struct B` gets size 4 and alignment 4. -/
theorem pack_bitfield_members_run_witness :
    example_config.byte_order_big_endian = false ∧
    pack_bitfield_members example_config example_get_type_size example_get_type_alignment
        0 0 false (example_bitfields ++ []) =
      some ⟨3, 4,
        [{ example_bitfield 3 with offset := 0, bit_offset := 0 },
          { example_bitfield 5 with offset := 0, bit_offset := 3 },
          { example_bitfield 9 with offset := 0, bit_offset := 8 }], []⟩ ∧
    (layout_struct_type example_config example_get_type_size example_get_type_alignment
        example_struct_B).map (fun r => (r.1.members, r.1.size, r.1.alignment)) =
      some ([{ example_bitfield 3 with offset := 0, bit_offset := 0 },
          { example_bitfield 5 with offset := 0, bit_offset := 3 },
          { example_bitfield 9 with offset := 0, bit_offset := 8 }], 4, 4) :=
  ⟨rfl,
    (pack_bitfield_members_run example_config example_get_type_size
      example_get_type_alignment 4 2 example_bitfields [] 0 0 (by decide) (by decide)
      (by decide)
      (by
        intro m hm
        simp only [example_bitfields, List.mem_cons, List.mem_singleton, List.mem_nil_iff,
          or_false] at hm
        rcases hm with h | h | h <;> subst h
        · exact ⟨rfl, _, _, _, _, rfl, by decide, by decide, rfl, rfl, rfl⟩
        · exact ⟨rfl, _, _, _, _, rfl, by decide, by decide, rfl, rfl, rfl⟩
        · exact ⟨rfl, _, _, _, _, rfl, by decide, by decide, rfl, rfl, rfl⟩)
      (Or.inl rfl) (by decide) (by decide)).trans (by decide),
    by decide⟩

/-- Claim C4 fails behind 65536 bytes: in `struct { char a[65536]; unsigned x:3; }`
the first free bit behind `a` is bit 0 of the unit at byte 65536, and the
offset recorded for `x` is 0, the value 65536 stored in the `unsigned short`
field. -/
theorem pack_bitfield_members_run_counterexample :
    example_config.byte_order_big_endian = false ∧ example_struct_far.packed = false ∧
    (layout_struct_type example_config example_get_type_size example_get_type_alignment
        example_struct_far).map
        (fun r => (r.1.members.map (fun m => (m.offset, m.bit_offset)), r.1.size)) =
      some ([(0, 0), (0, 0)], 65540) ∧
    (pack_bitfield_members example_config example_get_type_size example_get_type_alignment
        65536 1 false [example_bitfield 3]).map
        (fun r => r.members.map (fun m => (m.offset, m.bit_offset))) = some [(0, 0)] ∧
    bitfield_place 4 3 (8 * 65536) = (65536, 0) := by
  decide

/-! ## The layout invariant -/

theorem align_expr_two_pow (cfg : config_t) (x k : Nat)
    (hr : round_up x (2 ^ k) < 2 ^ cfg.il_size_bits) :
    align_expr cfg x (2 ^ k) = round_up x (2 ^ k) := by
  obtain ⟨h1, h2⟩ := align_expr_round_up cfg x (2 ^ k) (Or.inr ⟨k, rfl⟩) hr
  by_cases hgt : align_expr cfg x (2 ^ k) > x
  · simpa [hgt] using h1
  · have hle : ¬ round_up x (2 ^ k) > x := fun h => hgt (h2.mpr h)
    have hge := le_round_up x (2 ^ k)
    have hru : round_up x (2 ^ k) = x := by omega
    -- align_expr is a multiple of 2^k below or at x that is not below round_up
    have hx : x < 2 ^ cfg.il_size_bits := by omega
    by_cases hk : k < cfg.il_size_bits
    · have hpos : 0 < 2 ^ k := Nat.two_pow_pos _
      have hlt : 2 ^ k < 2 ^ cfg.il_size_bits := Nat.pow_lt_pow_right (by decide) hk
      have hdvd : 2 ^ k ∣ 2 ^ cfg.il_size_bits := Nat.pow_dvd_pow 2 (Nat.le_of_lt hk)
      have hrd := round_up_dvd x (2 ^ k) hpos
      have hroom : round_up x (2 ^ k) + 2 ^ k ≤ 2 ^ cfg.il_size_bits := by
        obtain ⟨c, hc⟩ := hrd
        obtain ⟨d, hd⟩ := hdvd
        rw [hc, hd] at hr ⊢
        have hcd : c < d := Nat.lt_of_mul_lt_mul_left hr
        calc 2 ^ k * c + 2 ^ k = 2 ^ k * (c + 1) := by ring
          _ ≤ 2 ^ k * d := Nat.mul_le_mul_left _ hcd
      have hy : x + 2 ^ k - 1 < 2 ^ cfg.il_size_bits := by omega
      have e1 : to_il_size cfg (x + 2 ^ k + (2 ^ cfg.il_size_bits - 1)) = x + 2 ^ k - 1 := by
        unfold to_il_size
        have : x + 2 ^ k + (2 ^ cfg.il_size_bits - 1) = (x + 2 ^ k - 1) + 2 ^ cfg.il_size_bits := by
          omega
        rw [this, Nat.add_mod_right, Nat.mod_eq_of_lt hy]
      have e2 : to_il_size cfg (2 ^ cfg.il_size_bits - 2 ^ k % 2 ^ cfg.il_size_bits)
          = 2 ^ cfg.il_size_bits - 2 ^ k := by
        unfold to_il_size
        rw [Nat.mod_eq_of_lt hlt, Nat.mod_eq_of_lt (by omega)]
      unfold align_expr
      rw [e1, e2, and_two_pow_sub_two_pow _ _ _ hk hy, round_up_two_pow]
    · have hkw : cfg.il_size_bits ≤ k := Nat.not_lt.mp hk
      have hmod : 2 ^ k % 2 ^ cfg.il_size_bits = 0 :=
        Nat.mod_eq_zero_of_dvd (Nat.pow_dvd_pow 2 hkw)
      have hpos : 0 < 2 ^ k := Nat.two_pow_pos _
      have hle2 : 2 ^ cfg.il_size_bits ≤ 2 ^ k := Nat.pow_le_pow_right (by decide) hkw
      have hrd := round_up_dvd x (2 ^ k) hpos
      have hr0 : round_up x (2 ^ k) = 0 := by
        obtain ⟨c, hc⟩ := hrd
        rcases Nat.eq_zero_or_pos c with h | h
        · rw [hc, h]; rfl
        · have : 2 ^ k ≤ 2 ^ k * c := Nat.le_mul_of_pos_right _ h
          omega
      rw [hr0]
      unfold align_expr to_il_size
      rw [hmod]
      simp

theorem struct_members_alignment_zero (alignment_of : type_t → Nat) :
    ∀ (members : List entity_t) (a : Nat),
      (∀ m ∈ members, m.kind = .ENTITY_COMPOUND_MEMBER → 0 < alignment_of m.type) →
      struct_members_alignment alignment_of a members = 0 →
      a = 0 ∧ ∀ m ∈ members, m.kind ≠ .ENTITY_COMPOUND_MEMBER := by
  intro members
  induction members with
  | nil => intro a _ h; exact ⟨h, fun m hm => by cases hm⟩
  | cons x rest ih =>
    intro a hpos h
    have hrest : ∀ m ∈ rest, m.kind = .ENTITY_COMPOUND_MEMBER → 0 < alignment_of m.type :=
      fun m hm => hpos m (List.mem_cons_of_mem _ hm)
    simp only [struct_members_alignment] at h
    by_cases hx : x.kind = .ENTITY_COMPOUND_MEMBER
    · simp only [hx, if_true] at h
      have h1 := (ih _ hrest h).1
      have h2 := hpos x (List.mem_cons_self _ _) hx
      omega
    · simp only [hx, if_false] at h
      obtain ⟨h1, h2⟩ := ih a hrest h
      refine ⟨h1, ?_⟩
      intro m hm
      rcases List.mem_cons.mp hm with hm | hm
      · rw [hm]; exact hx
      · exact h2 m hm

theorem union_members_size_no_member (size_of : type_t → Nat) :
    ∀ (members : List entity_t) (n : Nat),
      (∀ m ∈ members, m.kind ≠ .ENTITY_COMPOUND_MEMBER) →
      union_members_size size_of n members = n := by
  intro members
  induction members with
  | nil => intro n _; rfl
  | cons x rest ih =>
    intro n h
    simp only [union_members_size, h x (List.mem_cons_self _ _), if_false]
    exact ih n (fun m hm => h m (List.mem_cons_of_mem _ hm))

theorem le_union_members_size (size_of : type_t → Nat) :
    ∀ (members : List entity_t) (n : Nat),
      n ≤ union_members_size size_of n members ∧
      ∀ m ∈ members, m.kind = .ENTITY_COMPOUND_MEMBER →
        size_of m.type ≤ union_members_size size_of n members := by
  intro members
  induction members with
  | nil => intro n; exact ⟨Nat.le_refl _, fun m hm => by cases hm⟩
  | cons x rest ih =>
    intro n
    simp only [union_members_size]
    by_cases hx : x.kind = .ENTITY_COMPOUND_MEMBER
    · simp only [hx, if_true]
      obtain ⟨h1, h2⟩ := ih (max n (size_of x.type))
      refine ⟨by omega, ?_⟩
      intro m hm hk
      rcases List.mem_cons.mp hm with hm | hm
      · rw [hm]; omega
      · exact h2 m hm hk
    · simp only [hx, if_false]
      obtain ⟨h1, h2⟩ := ih n
      refine ⟨h1, ?_⟩
      intro m hm hk
      rcases List.mem_cons.mp hm with hm | hm
      · rw [hm] at hk; exact absurd hk hx
      · exact h2 m hm hk

theorem union_member_offsets_spec :
    ∀ (members : List entity_t), ∀ m ∈ union_member_offsets members,
      (m.kind = .ENTITY_COMPOUND_MEMBER → m.offset = 0) ∧
      ∃ m0 ∈ members, m0.kind = m.kind ∧ m0.type = m.type := by
  intro members
  induction members with
  | nil => intro m hm; simp [union_member_offsets] at hm
  | cons x rest ih =>
    intro m hm
    simp only [union_member_offsets] at hm
    by_cases hx : x.kind = .ENTITY_COMPOUND_MEMBER
    · simp only [hx, if_true, List.mem_cons] at hm
      rcases hm with hm | hm
      · subst hm
        exact ⟨fun _ => rfl, x, List.mem_cons_self _ _, hx, rfl⟩
      · obtain ⟨h1, m0, hm0, h2⟩ := ih m hm
        exact ⟨h1, m0, List.mem_cons_of_mem _ hm0, h2⟩
    · simp only [hx, if_false, List.mem_cons] at hm
      rcases hm with hm | hm
      · subst hm
        exact ⟨fun hk => absurd hk hx, m, List.mem_cons_self _ _, rfl, rfl⟩
      · obtain ⟨h1, m0, hm0, h2⟩ := ih m hm
        exact ⟨h1, m0, List.mem_cons_of_mem _ hm0, h2⟩

theorem layout_union_loop_spec (cfg : config_t)
    (get_type_size get_type_alignment : type_t → Option Nat)
    (size_of alignment_of : type_t → Nat) :
    ∀ (members : List entity_t) (size alignment : Nat),
      (∀ m ∈ members, m.kind = .ENTITY_COMPOUND_MEMBER →
        union_member get_type_size get_type_alignment size_of alignment_of m ∧
        size_of m.type < 2 ^ cfg.il_size_bits ∧
        alignment_of m.type < 2 ^ cfg.il_alignment_bits) →
      layout_union_loop cfg get_type_size get_type_alignment members size alignment =
        some (union_member_offsets members, union_members_size size_of size members,
          struct_members_alignment alignment_of alignment members) := by
  intro members
  induction members with
  | nil => intro size alignment _; rfl
  | cons x rest ih =>
    intro size alignment hm
    have hrest : ∀ m ∈ rest, m.kind = .ENTITY_COMPOUND_MEMBER →
        union_member get_type_size get_type_alignment size_of alignment_of m ∧
        size_of m.type < 2 ^ cfg.il_size_bits ∧
        alignment_of m.type < 2 ^ cfg.il_alignment_bits :=
      fun m hm' => hm m (List.mem_cons_of_mem _ hm')
    rw [layout_union_loop]
    by_cases hx : x.kind = .ENTITY_COMPOUND_MEMBER
    · obtain ⟨⟨⟨skipped, hs1, hs2⟩, hgs, hga⟩, hsz, hal⟩ := hm x (List.mem_cons_self _ _) hx
      have hmaxs : (if size_of x.type > size then size_of x.type else size)
          = max size (size_of x.type) := by
        by_cases h : size_of x.type > size
        · simp only [h, if_true]; omega
        · simp only [h, if_false]; omega
      have hmaxa : (if alignment_of x.type > alignment then alignment_of x.type else alignment)
          = max alignment (alignment_of x.type) := by
        by_cases h : alignment_of x.type > alignment
        · simp only [h, if_true]; omega
        · simp only [h, if_false]; omega
      simp only [hx, ne_eq, not_true_eq_false, if_false, hs1, hs2, Bool.not_true,
        Bool.false_eq_true, hgs, hga, to_il_size_of_lt hsz, to_il_alignment_of_lt hal, hmaxs,
        hmaxa, ih _ _ hrest, Option.map_some', union_member_offsets, union_members_size,
        struct_members_alignment, if_true]
    · simp only [ne_eq, hx, not_false_eq_true, if_true, ih _ _ hrest, Option.map_some',
        union_member_offsets, union_members_size, struct_members_alignment, if_false]

/-! ## Bounds of the layout of arbitrary members -/

theorem and_not_two_pow (x k : Nat) : and_not x (2 ^ k - 1) = x - x % 2 ^ k := by
  unfold and_not
  rw [Nat.and_pow_two_sub_one_eq_mod]

theorem align_mask_expr_two_pow (cfg : config_t) (x k : Nat)
    (hx : x + 2 ^ k ≤ 2 ^ cfg.il_size_bits) :
    align_mask_expr cfg x (2 ^ k) (2 ^ k - 1) = round_up x (2 ^ k) := by
  have hpos : 0 < 2 ^ k := Nat.two_pow_pos _
  unfold align_mask_expr to_il_size
  have hy : x + 2 ^ k + (2 ^ cfg.il_size_bits - 1) = (x + 2 ^ k - 1) + 2 ^ cfg.il_size_bits := by
    omega
  rw [hy, Nat.add_mod_right, Nat.mod_eq_of_lt (by omega), and_not_two_pow]
  unfold round_up
  rw [if_neg (by omega)]
  have := Nat.div_add_mod (x + 2 ^ k - 1) (2 ^ k)
  have hc : (x + 2 ^ k - 1) / 2 ^ k * 2 ^ k = 2 ^ k * ((x + 2 ^ k - 1) / 2 ^ k) := Nat.mul_comm _ _
  omega

theorem pack_bitfield_member_bound (cfg : config_t)
    (get_type_size get_type_alignment : type_t → Option Nat) (packed : Bool)
    (member : entity_t) (base_type base : type_t) (w s a k offset alignment bo : Nat)
    (hbase : skip_typeref base_type = some base)
    (hsize : get_type_size base = some s) (halign : get_type_alignment base = some a)
    (ha : a = 2 ^ k) (hafit : a < 2 ^ cfg.il_alignment_bits)
    (hw : w ≤ 8 * s) (hs32 : 8 * s < 4294967296) (hbo : bo < 8)
    (hroom : offset + (bo + 7) / 8 + s + a < 2 ^ cfg.il_size_bits) :
    ∃ m' offset' bo',
      pack_bitfield_member cfg get_type_size get_type_alignment packed member base_type w
        offset alignment bo = some (m', offset', max alignment a, bo') ∧
      bo' < 8 ∧ m'.kind = member.kind ∧ m'.type = member.type ∧
      m'.offset ≤ offset' ∧
      offset + (bo + 7) / 8 ≤ offset' + (bo' + 7) / 8 ∧
      offset' + (bo' + 7) / 8 + 1 ≤ offset + (bo + 7) / 8 + s + a := by
  have hapos : 0 < a := by rw [ha]; exact Nat.two_pow_pos _
  have hmask : alignment_mask_of cfg a = a - 1 := alignment_mask_of_pos cfg a hapos hafit
  have hmax : (if a > alignment then a else alignment) = max alignment a := by
    by_cases h : a > alignment
    · simp only [h, if_true]; omega
    · simp only [h, if_false]; omega
  have hun : to_unsigned (s * 8) = 8 * s := by
    unfold to_unsigned
    rw [Nat.mod_eq_of_lt (by omega)]; omega
  unfold pack_bitfield_member
  simp only [hbase, halign, to_il_alignment_of_lt hafit, hmask, hmax]
  cases packed with
  | true =>
    simp only [Bool.not_true, Bool.false_eq_true, if_false, BITS_PER_BYTE]
    have hsz : offset + (bo + w) / 8 < 2 ^ cfg.il_size_bits := by omega
    rw [to_il_size_of_lt hsz]
    refine ⟨_, _, _, rfl, ?_, rfl, rfl, ?_, ?_, ?_⟩
    · omega
    · show to_ushort offset ≤ _
      have := Nat.mod_le offset 65536
      unfold to_ushort
      omega
    · omega
    · omega
  | false =>
    simp only [Bool.not_false, if_true, hsize, BITS_PER_BYTE, hun]
    subst ha
    rw [Nat.and_pow_two_sub_one_eq_mod, and_not_two_pow]
    have hr := Nat.mod_le offset (2 ^ k)
    by_cases hc : (decide (bo + offset % 2 ^ k * 8 + w > 8 * s) || decide (w = 0)) = true
    · simp only [hc, if_true]
      have ho2 : offset - offset % 2 ^ k + (bo + offset % 2 ^ k * 8 + 8 - 1) / 8
          = offset + (bo + 7) / 8 := by omega
      rw [ho2, to_il_size_of_lt (by omega), align_mask_expr_two_pow cfg _ k (by omega)]
      have h1 := le_round_up (offset + (bo + 7) / 8) (2 ^ k)
      have h2 := round_up_lt_add (offset + (bo + 7) / 8) (2 ^ k) hapos
      have hsz : round_up (offset + (bo + 7) / 8) (2 ^ k) + (0 + w) / 8
          < 2 ^ cfg.il_size_bits := by omega
      rw [to_il_size_of_lt hsz]
      refine ⟨_, _, _, rfl, ?_, rfl, rfl, ?_, ?_, ?_⟩
      · omega
      · show to_ushort _ ≤ _
        have := Nat.mod_le (round_up (offset + (bo + 7) / 8) (2 ^ k)) 65536
        unfold to_ushort
        omega
      · omega
      · omega
    · simp only [hc, if_false, Bool.false_eq_true]
      simp only [Bool.or_eq_true, decide_eq_true_eq, not_or, not_lt] at hc
      have hsz : offset - offset % 2 ^ k + (bo + offset % 2 ^ k * 8 + w) / 8
          < 2 ^ cfg.il_size_bits := by omega
      rw [to_il_size_of_lt hsz]
      refine ⟨_, _, _, rfl, ?_, rfl, rfl, ?_, ?_, ?_⟩
      · omega
      · show to_ushort _ ≤ _
        have := Nat.mod_le (offset - offset % 2 ^ k) 65536
        unfold to_ushort
        omega
      · omega
      · omega

theorem layout_member_bitfield (get_type_size get_type_alignment : type_t → Option Nat)
    (size_of alignment_of : type_t → Nat) (m : entity_t) (q : Nat) (base_type : type_t)
    (w : Nat) (h : layout_member get_type_size get_type_alignment size_of alignment_of m)
    (hty : m.type = .bitfield q base_type w) :
    ∃ base, skip_typeref base_type = some base ∧ member_unit_type m = base ∧
      get_type_size base = some (size_of base) ∧
      get_type_alignment base = some (alignment_of base) ∧
      size_of m.type = 0 ∧ w ≤ 8 * size_of base ∧ 8 * size_of base < 4294967296 := by
  unfold layout_member at h
  obtain ⟨h1, h2, h3⟩ := h
  rw [hty] at h3
  simp only [] at h3
  obtain ⟨⟨base, hb⟩, h4, h5, h6⟩ := h3
  have hu : member_unit_type m = base := by
    unfold member_unit_type
    rw [hty]
    simp only [hb, Option.getD_some]
  rw [hu] at h1 h2 h5 h6
  rw [hty]
  exact ⟨base, hb, hu, h1, h2, h4, h5, h6⟩

theorem layout_member_plain (get_type_size get_type_alignment : type_t → Option Nat)
    (size_of alignment_of : type_t → Nat) (m : entity_t)
    (h : layout_member get_type_size get_type_alignment size_of alignment_of m)
    (hty : ∀ q base_type w, m.type ≠ .bitfield q base_type w) :
    member_unit_type m = m.type ∧
    get_type_size m.type = some (size_of m.type) ∧
    get_type_alignment m.type = some (alignment_of m.type) ∧
    ∃ skipped, skip_typeref m.type = some skipped ∧ is_type_valid skipped = true ∧
      skipped.kind ≠ .TYPE_BITFIELD := by
  have hu : member_unit_type m = m.type := by
    unfold member_unit_type
    cases hm : m.type with
    | bitfield q b w => exact absurd hm (hty q b w)
    | _ => rfl
  unfold layout_member at h
  rw [hu] at h
  obtain ⟨h1, h2, h3⟩ := h
  refine ⟨hu, h1, h2, ?_⟩
  cases hm : m.type with
  | bitfield q b w => exact absurd hm (hty q b w)
  | _ =>
    rw [hm] at h3
    exact h3

theorem pack_bitfield_members_loop_bound (cfg : config_t)
    (get_type_size get_type_alignment : type_t → Option Nat)
    (size_of alignment_of : type_t → Nat) (packed : Bool) (bound : Nat)
    (hbound : bound < 2 ^ cfg.il_size_bits) :
    ∀ (members : List entity_t) (offset alignment bo : Nat),
      bo < 8 →
      (∀ m ∈ members, m.kind = .ENTITY_COMPOUND_MEMBER →
        layout_member get_type_size get_type_alignment size_of alignment_of m ∧
        (∃ k, alignment_of (member_unit_type m) = 2 ^ k) ∧
        alignment_of (member_unit_type m) < 2 ^ cfg.il_alignment_bits) →
      (alignment = 0 ∨ ∃ k, alignment = 2 ^ k) →
      offset + (bo + 7) / 8 + struct_room size_of alignment_of alignment members ≤ bound →
      ∃ r, pack_bitfield_members_loop cfg get_type_size get_type_alignment packed members
          offset alignment bo = some r ∧
        offset + (bo + 7) / 8 ≤ r.offset ∧
        r.offset + struct_room size_of alignment_of r.alignment r.rest ≤
          offset + (bo + 7) / 8 + struct_room size_of alignment_of alignment members ∧
        (r.alignment = 0 ∨ ∃ k, r.alignment = 2 ^ k) ∧ alignment ≤ r.alignment ∧
        (∀ e rest, members = e :: rest → e.kind = .ENTITY_COMPOUND_MEMBER →
          (∃ q b w, e.type = .bitfield q b w) → 1 ≤ r.alignment) ∧
        (∀ m ∈ r.members, m.kind = .ENTITY_COMPOUND_MEMBER →
          m.offset + size_of m.type ≤ r.offset) ∧
        (∀ m ∈ r.rest, m ∈ members) ∧ r.rest.length ≤ members.length ∧
        (∀ e rest, members = e :: rest → e.kind = .ENTITY_COMPOUND_MEMBER →
          (∃ q b w, e.type = .bitfield q b w) → r.rest.length < members.length) := by
  intro members
  induction members with
  | nil =>
    intro offset alignment bo hbo _ hal hroom
    simp only [struct_room] at hroom
    have hep : (if bo > 0 then to_il_size cfg (offset + 1) else offset)
        = offset + (bo + 7) / 8 := by
      by_cases h : bo > 0
      · simp only [h, if_true]
        rw [to_il_size_of_lt (by omega)]; omega
      · simp only [h, if_false]; omega
    refine ⟨_, rfl, ?_, ?_, hal, Nat.le_refl _, ?_, ?_, ?_, ?_, ?_⟩
    · simp only [hep]; omega
    · simp only [hep]; exact Nat.le_refl _
    · intro e rest h; cases h
    · intro m hm; cases hm
    · intro m hm; cases hm
    · exact Nat.le_refl _
    · intro e rest h; cases h
  | cons e rest ih =>
    intro offset alignment bo hbo hm hal hroom
    have hrest : ∀ m ∈ rest, m.kind = .ENTITY_COMPOUND_MEMBER →
        layout_member get_type_size get_type_alignment size_of alignment_of m ∧
        (∃ k, alignment_of (member_unit_type m) = 2 ^ k) ∧
        alignment_of (member_unit_type m) < 2 ^ cfg.il_alignment_bits :=
      fun m hm' => hm m (List.mem_cons_of_mem _ hm')
    rw [pack_bitfield_members_loop]
    by_cases hk : e.kind = .ENTITY_COMPOUND_MEMBER
    · simp only [hk, ne_eq, not_true_eq_false, if_false]
      simp only [struct_room, hk, if_true] at hroom ⊢
      obtain ⟨hwf, ⟨k, hpow⟩, hfit⟩ := hm e (List.mem_cons_self _ _) hk
      have hep : (if bo > 0 then to_il_size cfg (offset + 1) else offset)
          = offset + (bo + 7) / 8 := by
        by_cases h : bo > 0
        · simp only [h, if_true]
          rw [to_il_size_of_lt (by omega)]; omega
        · simp only [h, if_false]; omega
      cases hty : e.type with
      | bitfield q b w =>
        obtain ⟨base, hb, hu, hgs, hga, hs0, hw, hs32⟩ :=
          layout_member_bitfield get_type_size get_type_alignment size_of alignment_of e q b w
            hwf hty
        rw [hu] at hroom hpow hfit ⊢
        obtain ⟨m', o', b', hstep, hb', hmk, hmt, hmo, hq1, hq2⟩ :=
          pack_bitfield_member_bound cfg get_type_size get_type_alignment packed e b base w
            (size_of base) (alignment_of base) k offset alignment bo hb hgs hga hpow hfit hw
            hs32 hbo (by omega)
        have hal' : max alignment (alignment_of base) = 0 ∨
            ∃ k, max alignment (alignment_of base) = 2 ^ k := by
          rcases Nat.le_total alignment (alignment_of base) with h | h
          · rw [Nat.max_eq_right h]; exact Or.inr ⟨k, hpow⟩
          · rw [Nat.max_eq_left h]; exact hal
        obtain ⟨r, hr, h1, h2, h3, h3a, _, h4, h5, h6, _⟩ :=
          ih o' (max alignment (alignment_of base)) b' hb' hrest hal' (by omega)
        have hapos : 0 < alignment_of base := by rw [hpow]; exact Nat.two_pow_pos _
        simp only [hstep, hr, Option.map_some']
        refine ⟨_, rfl, ?_, ?_, h3, ?_, ?_, ?_, ?_, ?_, ?_⟩
        · show offset + (bo + 7) / 8 ≤ r.offset
          omega
        · show r.offset + struct_room size_of alignment_of r.alignment r.rest ≤ _
          omega
        · show alignment ≤ r.alignment
          omega
        · intro _ _ _ _ _
          show 1 ≤ r.alignment
          omega
        · intro m hmem hmk'
          simp only [pack_result.push, List.mem_cons] at hmem
          rcases hmem with hmem | hmem
          · rw [hmem, hmt, hs0]
            show m'.offset + 0 ≤ r.offset
            omega
          · exact h4 m hmem hmk'
        · intro m hmem
          exact List.mem_cons_of_mem _ (h5 m hmem)
        · simp only [pack_result.push, List.length_cons]; omega
        · intro _ _ _ _ _
          simp only [pack_result.push, List.length_cons]; omega
      | _ =>
        simp only [hep]
        refine ⟨_, rfl, Nat.le_refl _, ?_, hal, Nat.le_refl _, ?_, ?_, ?_, Nat.le_refl _, ?_⟩
        · simp only [struct_room, hk, if_true]
          exact Nat.le_refl _
        · intro e' rest' heq _ hb
          simp only [List.cons.injEq] at heq
          obtain ⟨q, b, w, hb⟩ := hb
          rw [← heq.1, hty] at hb
          cases hb
        · intro m hmem; cases hmem
        · intro m hmem; exact hmem
        · intro e' rest' heq _ hb
          simp only [List.cons.injEq] at heq
          obtain ⟨q, b, w, hb⟩ := hb
          rw [← heq.1, hty] at hb
          cases hb
    · simp only [ne_eq, hk, not_false_eq_true, if_true]
      simp only [struct_room, hk, if_false] at hroom ⊢
      obtain ⟨r, hr, h1, h2, h3, h3a, _, h4, h5, h6, _⟩ :=
        ih offset alignment bo hbo hrest hal hroom
      simp only [hr, Option.map_some']
      refine ⟨_, rfl, h1, h2, h3, h3a, ?_, ?_, ?_, ?_, ?_⟩
      · intro e' rest' heq hk' _
        simp only [List.cons.injEq] at heq
        rw [← heq.1] at hk'
        exact absurd hk' hk
      · intro m hmem hmk'
        simp only [pack_result.push, List.mem_cons] at hmem
        rcases hmem with hmem | hmem
        · rw [hmem] at hmk'; exact absurd hmk' hk
        · exact h4 m hmem hmk'
      · intro m hmem
        exact List.mem_cons_of_mem _ (h5 m hmem)
      · simp only [pack_result.push, List.length_cons]; omega
      · intro e' rest' heq hk' _
        simp only [List.cons.injEq] at heq
        rw [← heq.1] at hk'
        exact absurd hk' hk

theorem struct_room_mono (size_of alignment_of : type_t → Nat) :
    ∀ (members : List entity_t) (a b : Nat), a ≤ b →
      struct_room size_of alignment_of a members ≤ struct_room size_of alignment_of b members := by
  intro members
  induction members with
  | nil => intro a b h; exact h
  | cons m rest ih =>
    intro a b h
    simp only [struct_room]
    by_cases hk : m.kind = .ENTITY_COMPOUND_MEMBER
    · simp only [hk, if_true]
      have := ih (max a (alignment_of (member_unit_type m)))
        (max b (alignment_of (member_unit_type m))) (by omega)
      omega
    · simp only [hk, if_false]
      exact ih a b h

theorem pack_big_endian_close_bound (cfg : config_t) (get_type_size : type_t → Option Nat)
    (current : Option type_t) (p offset alignment : Nat)
    (hcur : (current = none ∧ p = 0) ∨
      (∃ c, current = some c ∧ get_type_size c = some p ∧ 1 ≤ alignment))
    (hroom : offset + p < 2 ^ cfg.il_size_bits) :
    pack_big_endian_close cfg get_type_size current offset = some (offset + p) := by
  rcases hcur with ⟨hc, hp⟩ | ⟨c, hc, hg, _⟩
  · subst hc; subst hp
    rfl
  · subst hc
    simp only [pack_big_endian_close, hg, to_il_size_of_lt hroom]

theorem pack_bitfield_member_big_endian_bound (cfg : config_t)
    (get_type_size get_type_alignment : type_t → Option Nat)
    (member : entity_t) (base_type base : type_t) (w s a k : Nat)
    (current : Option type_t) (p offset alignment bit_offset : Nat)
    (hbase : skip_typeref base_type = some base)
    (hsize : get_type_size base = some s) (halign : get_type_alignment base = some a)
    (ha : a = 2 ^ k) (hafit : a < 2 ^ cfg.il_alignment_bits)
    (hw : w ≤ 8 * s) (hs32 : 8 * s < 4294967296)
    (hcur : (current = none ∧ p = 0) ∨
      (∃ c, current = some c ∧ get_type_size c = some p ∧ 1 ≤ alignment))
    (hal : alignment = 0 ∨ ∃ j, alignment = 2 ^ j)
    (hroom : offset + p + s + a < 2 ^ cfg.il_size_bits) :
    ∃ m' current' offset' alignment' bit' p',
      pack_bitfield_member_big_endian cfg get_type_size get_type_alignment member base_type w
        current offset alignment bit_offset = some (m', current', offset', alignment', bit') ∧
      (∃ c, current' = some c ∧ get_type_size c = some p' ∧ 1 ≤ alignment') ∧
      (alignment' = 0 ∨ ∃ j, alignment' = 2 ^ j) ∧ alignment ≤ alignment' ∧
      alignment' ≤ max alignment a ∧
      m'.kind = member.kind ∧ m'.type = member.type ∧ m'.offset ≤ offset' ∧
      offset + p ≤ offset' + p' ∧ offset' + p' + 1 ≤ offset + p + s + a := by
  have hapos : 0 < a := by rw [ha]; exact Nat.two_pow_pos _
  have hmask : alignment_mask_of cfg a = a - 1 := alignment_mask_of_pos cfg a hapos hafit
  have hmax : (if a > alignment then a else alignment) = max alignment a := by
    by_cases h : a > alignment
    · simp only [h, if_true]; omega
    · simp only [h, if_false]; omega
  have hun : to_unsigned (s * 8) = 8 * s := by
    unfold to_unsigned
    rw [Nat.mod_eq_of_lt (by omega)]; omega
  have hclose := pack_big_endian_close_bound cfg get_type_size current p offset alignment hcur
    (by omega)
  unfold pack_bitfield_member_big_endian
  simp only [hbase]
  by_cases hc : (decide (some base ≠ current) || decide (w > bit_offset)) = true
  · simp only [hc, if_true, hclose, halign, hsize, to_il_alignment_of_lt hafit, hmask, hmax,
      BITS_PER_BYTE, hun]
    subst ha
    rw [align_mask_expr_two_pow cfg _ k (by omega)]
    have h1 := le_round_up (offset + p) (2 ^ k)
    have h2 := round_up_lt_add (offset + p) (2 ^ k) hapos
    have hge : 8 * s ≥ w := hw
    simp only [hge, if_true]
    refine ⟨_, _, _, _, _, s, rfl, ⟨base, rfl, hsize, by omega⟩, ?_, by omega,
      Nat.le_refl _, rfl, rfl, ?_, by omega, by omega⟩
    · rcases Nat.le_total alignment (2 ^ k) with h | h
      · rw [Nat.max_eq_right h]; exact Or.inr ⟨k, rfl⟩
      · rw [Nat.max_eq_left h]; exact hal
    · show to_ushort _ ≤ _
      unfold to_ushort
      exact Nat.mod_le _ _
  · simp only [hc, if_false, Bool.false_eq_true]
    simp only [Bool.or_eq_true, decide_eq_true_eq, not_or, not_not, not_lt] at hc
    obtain ⟨hcb, _⟩ := hc
    rcases hcur with ⟨hn, _⟩ | ⟨c, hcs, hg, h1⟩
    · rw [hn] at hcb; cases hcb
    · have hcbase : c = base := by
        rw [hcs] at hcb
        exact (Option.some.inj hcb).symm
      subst hcbase
      have hps : p = s := by
        rw [hsize] at hg
        exact (Option.some.inj hg).symm
      refine ⟨_, _, _, _, _, p, rfl, ⟨c, hcs, hg, h1⟩, hal, Nat.le_refl _, by omega, rfl, rfl,
        ?_, by omega, by omega⟩
      show to_ushort _ ≤ _
      unfold to_ushort
      exact Nat.mod_le _ _

theorem pack_bitfield_members_big_endian_loop_bound (cfg : config_t)
    (get_type_size get_type_alignment : type_t → Option Nat)
    (size_of alignment_of : type_t → Nat) (bound : Nat)
    (hbound : bound < 2 ^ cfg.il_size_bits) :
    ∀ (members : List entity_t) (current : Option type_t) (p offset alignment bit_offset : Nat),
      ((current = none ∧ p = 0) ∨
        (∃ c, current = some c ∧ get_type_size c = some p ∧ 1 ≤ alignment)) →
      (∀ m ∈ members, m.kind = .ENTITY_COMPOUND_MEMBER →
        layout_member get_type_size get_type_alignment size_of alignment_of m ∧
        (∃ k, alignment_of (member_unit_type m) = 2 ^ k) ∧
        alignment_of (member_unit_type m) < 2 ^ cfg.il_alignment_bits) →
      (alignment = 0 ∨ ∃ k, alignment = 2 ^ k) →
      offset + p + struct_room size_of alignment_of alignment members ≤ bound →
      ∃ r, pack_bitfield_members_big_endian_loop cfg get_type_size get_type_alignment members
          current offset alignment bit_offset = some r ∧
        offset + p ≤ r.offset ∧
        r.offset + struct_room size_of alignment_of r.alignment r.rest ≤
          offset + p + struct_room size_of alignment_of alignment members ∧
        (r.alignment = 0 ∨ ∃ k, r.alignment = 2 ^ k) ∧ alignment ≤ r.alignment ∧
        (∀ e rest, members = e :: rest → e.kind = .ENTITY_COMPOUND_MEMBER →
          (∃ q b w, e.type = .bitfield q b w) → 1 ≤ r.alignment) ∧
        (∀ m ∈ r.members, m.kind = .ENTITY_COMPOUND_MEMBER →
          m.offset + size_of m.type ≤ r.offset) ∧
        (∀ m ∈ r.rest, m ∈ members) ∧ r.rest.length ≤ members.length ∧
        (∀ e rest, members = e :: rest → e.kind = .ENTITY_COMPOUND_MEMBER →
          (∃ q b w, e.type = .bitfield q b w) → r.rest.length < members.length) := by
  intro members
  induction members with
  | nil =>
    intro current p offset alignment bit_offset hcur _ hal hroom
    simp only [struct_room] at hroom
    have hclose := pack_big_endian_close_bound cfg get_type_size current p offset alignment hcur
      (by omega)
    simp only [pack_bitfield_members_big_endian_loop, hclose]
    refine ⟨_, rfl, Nat.le_refl _, Nat.le_refl _, hal, Nat.le_refl _, ?_, ?_, ?_,
      Nat.le_refl _, ?_⟩
    · intro e rest h; cases h
    · intro m hm; cases hm
    · intro m hm; cases hm
    · intro e rest h; cases h
  | cons e rest ih =>
    intro current p offset alignment bit_offset hcur hm hal hroom
    have hrest : ∀ m ∈ rest, m.kind = .ENTITY_COMPOUND_MEMBER →
        layout_member get_type_size get_type_alignment size_of alignment_of m ∧
        (∃ k, alignment_of (member_unit_type m) = 2 ^ k) ∧
        alignment_of (member_unit_type m) < 2 ^ cfg.il_alignment_bits :=
      fun m hm' => hm m (List.mem_cons_of_mem _ hm')
    rw [pack_bitfield_members_big_endian_loop]
    by_cases hk : e.kind = .ENTITY_COMPOUND_MEMBER
    · simp only [hk, ne_eq, not_true_eq_false, if_false]
      simp only [struct_room, hk, if_true] at hroom ⊢
      obtain ⟨hwf, ⟨k, hpow⟩, hfit⟩ := hm e (List.mem_cons_self _ _) hk
      have hclose := pack_big_endian_close_bound cfg get_type_size current p offset alignment
        hcur (by omega)
      cases hty : e.type with
      | bitfield q b w =>
        obtain ⟨base, hb, hu, hgs, hga, hs0, hw, hs32⟩ :=
          layout_member_bitfield get_type_size get_type_alignment size_of alignment_of e q b w
            hwf hty
        rw [hu] at hroom hpow hfit ⊢
        obtain ⟨m', c', o', a', b', p', hstep, hcur', hal', hmono, hamax, hmk, hmt, hmo, hq1,
            hq2⟩ :=
          pack_bitfield_member_big_endian_bound cfg get_type_size get_type_alignment e b base w
            (size_of base) (alignment_of base) k current p offset alignment bit_offset hb hgs
            hga hpow hfit hw hs32 hcur hal (by omega)
        have hmr := struct_room_mono size_of alignment_of rest a'
          (max alignment (alignment_of base)) hamax
        obtain ⟨r, hr, h1, h2, h3, h3a, _, h4, h5, h6, _⟩ :=
          ih c' p' o' a' b' (Or.inr hcur') hrest hal' (by omega)
        obtain ⟨_, _, _, ha1⟩ := hcur'
        simp only [hstep, hr, Option.map_some']
        refine ⟨_, rfl, ?_, ?_, h3, ?_, ?_, ?_, ?_, ?_, ?_⟩
        · show offset + p ≤ r.offset
          omega
        · show r.offset + struct_room size_of alignment_of r.alignment r.rest ≤ _
          omega
        · show alignment ≤ r.alignment
          omega
        · intro _ _ _ _ _
          show 1 ≤ r.alignment
          omega
        · intro m hmem hmk'
          simp only [pack_result.push, List.mem_cons] at hmem
          rcases hmem with hmem | hmem
          · rw [hmem, hmt, hs0]
            show m'.offset + 0 ≤ r.offset
            omega
          · exact h4 m hmem hmk'
        · intro m hmem
          exact List.mem_cons_of_mem _ (h5 m hmem)
        · simp only [pack_result.push, List.length_cons]; omega
        · intro _ _ _ _ _
          simp only [pack_result.push, List.length_cons]; omega
      | _ =>
        simp only [hclose]
        refine ⟨_, rfl, Nat.le_refl _, ?_, hal, Nat.le_refl _, ?_, ?_, ?_, Nat.le_refl _, ?_⟩
        · simp only [struct_room, hk, if_true]
          exact Nat.le_refl _
        · intro e' rest' heq _ hb
          simp only [List.cons.injEq] at heq
          obtain ⟨q, b, w, hb⟩ := hb
          rw [← heq.1, hty] at hb
          cases hb
        · intro m hmem; cases hmem
        · intro m hmem; exact hmem
        · intro e' rest' heq _ hb
          simp only [List.cons.injEq] at heq
          obtain ⟨q, b, w, hb⟩ := hb
          rw [← heq.1, hty] at hb
          cases hb
    · simp only [ne_eq, hk, not_false_eq_true, if_true]
      simp only [struct_room, hk, if_false] at hroom ⊢
      obtain ⟨r, hr, h1, h2, h3, h3a, _, h4, h5, h6, _⟩ :=
        ih current p offset alignment bit_offset hcur hrest hal hroom
      simp only [hr, Option.map_some']
      refine ⟨_, rfl, h1, h2, h3, h3a, ?_, ?_, ?_, ?_, ?_⟩
      · intro e' rest' heq hk' _
        simp only [List.cons.injEq] at heq
        rw [← heq.1] at hk'
        exact absurd hk' hk
      · intro m hmem hmk'
        simp only [pack_result.push, List.mem_cons] at hmem
        rcases hmem with hmem | hmem
        · rw [hmem] at hmk'; exact absurd hmk' hk
        · exact h4 m hmem hmk'
      · intro m hmem
        exact List.mem_cons_of_mem _ (h5 m hmem)
      · simp only [pack_result.push, List.length_cons]; omega
      · intro e' rest' heq hk' _
        simp only [List.cons.injEq] at heq
        rw [← heq.1] at hk'
        exact absurd hk' hk

theorem skip_typeref_bitfield (q : Nat) (base_type : type_t) (bit_size : Nat) :
    skip_typeref (.bitfield q base_type bit_size) = some (.bitfield q base_type bit_size) :=
  rfl


theorem layout_struct_loop_bound (cfg : config_t)
    (get_type_size get_type_alignment : type_t → Option Nat)
    (size_of alignment_of : type_t → Nat) (packed : Bool) (bound : Nat)
    (hbound : bound < 2 ^ cfg.il_size_bits) :
    ∀ (fuel : Nat) (members : List entity_t) (offset alignment : Nat) (need_pad : Bool),
      members.length < fuel →
      (∀ m ∈ members, m.kind = .ENTITY_COMPOUND_MEMBER → (∃ q b w, m.type = .bitfield q b w) →
        cfg.byte_order_big_endian = false ∨ packed = false) →
      (∀ m ∈ members, m.kind = .ENTITY_COMPOUND_MEMBER →
        layout_member get_type_size get_type_alignment size_of alignment_of m ∧
        (∃ k, alignment_of (member_unit_type m) = 2 ^ k) ∧
        alignment_of (member_unit_type m) < 2 ^ cfg.il_alignment_bits) →
      (alignment = 0 ∨ ∃ k, alignment = 2 ^ k) →
      offset + struct_room size_of alignment_of alignment members ≤ bound →
      ∃ out offset' alignment' need_pad',
        layout_struct_loop cfg get_type_size get_type_alignment packed fuel members
          offset alignment need_pad = some (out, offset', alignment', need_pad') ∧
        offset ≤ offset' ∧
        offset' + alignment' ≤ offset + struct_room size_of alignment_of alignment members ∧
        (alignment' = 0 ∨ ∃ k, alignment' = 2 ^ k) ∧ alignment ≤ alignment' ∧
        (alignment' = 0 → offset' = offset) ∧
        ∀ m ∈ out, m.kind = .ENTITY_COMPOUND_MEMBER → m.offset + size_of m.type ≤ offset' := by
  intro fuel
  induction fuel with
  | zero => intro members _ _ _ hf; exact absurd hf (Nat.not_lt_zero _)
  | succ n ih =>
    intro members offset alignment need_pad hf hbits hm hal hroom
    cases members with
    | nil =>
      simp only [struct_room] at hroom ⊢
      exact ⟨_, _, _, _, rfl, Nat.le_refl _, Nat.le_refl _, hal, Nat.le_refl _, fun _ => rfl,
        fun m hmem => by cases hmem⟩
    | cons e next =>
      have hf' : next.length < n := by
        simp only [List.length_cons] at hf; omega
      have hbrest : ∀ m ∈ next, m.kind = .ENTITY_COMPOUND_MEMBER →
          (∃ q b w, m.type = .bitfield q b w) →
          cfg.byte_order_big_endian = false ∨ packed = false :=
        fun m hm' => hbits m (List.mem_cons_of_mem _ hm')
      have hrest : ∀ m ∈ next, m.kind = .ENTITY_COMPOUND_MEMBER →
          layout_member get_type_size get_type_alignment size_of alignment_of m ∧
          (∃ k, alignment_of (member_unit_type m) = 2 ^ k) ∧
          alignment_of (member_unit_type m) < 2 ^ cfg.il_alignment_bits :=
        fun m hm' => hm m (List.mem_cons_of_mem _ hm')
      rw [layout_struct_loop]
      by_cases hk : e.kind = .ENTITY_COMPOUND_MEMBER
      · simp only [hk, ne_eq, not_true_eq_false, if_false]
        obtain ⟨hwf, ⟨k, hpow⟩, hfit⟩ := hm e (List.mem_cons_self _ _) hk
        by_cases hbf : ∃ q b w, e.type = .bitfield q b w
        · have hmode := hbits e (List.mem_cons_self _ _) hk hbf
          obtain ⟨q, b, w, hty⟩ := hbf
          have hskip : skip_typeref e.type = some e.type := by
            rw [hty]; exact skip_typeref_bitfield q b w
          have hvalid : is_type_valid e.type = true := by rw [hty]; rfl
          have hkind : e.type.kind = .TYPE_BITFIELD := by rw [hty]; rfl
          have hpack : ∃ r,
              (if cfg.byte_order_big_endian = true then
                pack_bitfield_members_big_endian cfg get_type_size get_type_alignment
                  offset alignment packed (e :: next)
              else
                pack_bitfield_members cfg get_type_size get_type_alignment
                  offset alignment packed (e :: next)) = some r ∧
              offset ≤ r.offset ∧
              r.offset + struct_room size_of alignment_of r.alignment r.rest ≤
                offset + struct_room size_of alignment_of alignment (e :: next) ∧
              (r.alignment = 0 ∨ ∃ k, r.alignment = 2 ^ k) ∧ alignment ≤ r.alignment ∧
              1 ≤ r.alignment ∧
              (∀ m ∈ r.members, m.kind = .ENTITY_COMPOUND_MEMBER →
                m.offset + size_of m.type ≤ r.offset) ∧
              (∀ m ∈ r.rest, m ∈ e :: next) ∧ r.rest.length < (e :: next).length := by
            by_cases hbe : cfg.byte_order_big_endian = true
            · have hp : packed = false := by
                rcases hmode with h | h
                · rw [h] at hbe; cases hbe
                · exact h
              obtain ⟨r, hr, h1, h2, h3, h4, h5, h6, h7, _, h9⟩ :=
                pack_bitfield_members_big_endian_loop_bound cfg get_type_size get_type_alignment
                  size_of alignment_of bound hbound (e :: next) none 0 offset alignment 0
                  (Or.inl ⟨rfl, rfl⟩) hm hal (by omega)
              refine ⟨r, ?_, by omega, by omega, h3, h4, h5 e next rfl hk ⟨q, b, w, hty⟩, h6,
                h7, h9 e next rfl hk ⟨q, b, w, hty⟩⟩
              simp only [hbe, if_true, pack_bitfield_members_big_endian, hp, Bool.false_eq_true,
                if_false, hr]
            · obtain ⟨r, hr, h1, h2, h3, h4, h5, h6, h7, _, h9⟩ :=
                pack_bitfield_members_loop_bound cfg get_type_size get_type_alignment
                  size_of alignment_of packed bound hbound (e :: next) offset alignment 0
                  (by decide) hm hal (by omega)
              refine ⟨r, ?_, by omega, by omega, h3, h4, h5 e next rfl hk ⟨q, b, w, hty⟩, h6,
                h7, h9 e next rfl hk ⟨q, b, w, hty⟩⟩
              simp only [hbe, Bool.false_eq_true, if_false, pack_bitfield_members, hr]
          obtain ⟨r, hr, h1, h2, h3, h4, h5, h6, h7, h8⟩ := hpack
          have hlen : r.rest.length < n := by
            simp only [List.length_cons] at hf h8; omega
          obtain ⟨out, o', a', np', hl, g1, g2, g3, g4, g5, g6⟩ :=
            ih r.rest r.offset r.alignment need_pad hlen (fun m hmem => hbits m (h7 m hmem))
              (fun m hmem => hm m (h7 m hmem)) h3
              (by omega)
          simp only [hskip, hvalid, Bool.not_true, Bool.false_eq_true, if_false, hkind, if_true]
          simp only [hr, hl, Option.map_some']
          refine ⟨_, _, _, _, rfl, by omega, by omega, g3, by omega, ?_, ?_⟩
          · intro h0; omega
          · intro m hmem hmk
            rcases List.mem_append.mp hmem with hmem | hmem
            · have := h6 m hmem hmk
              omega
            · exact g6 m hmem hmk
        · have hnb : ∀ q b w, e.type ≠ .bitfield q b w := fun q b w h => hbf ⟨q, b, w, h⟩
          obtain ⟨hu, hgs, hga, skipped, hs1, hs2, hs3⟩ :=
            layout_member_plain get_type_size get_type_alignment size_of alignment_of e hwf hnb
          rw [hu] at hpow hfit
          simp only [struct_room, hk, if_true, hu] at hroom ⊢
          have hapos : 0 < alignment_of e.type := by rw [hpow]; exact Nat.two_pow_pos _
          have hmax : (if alignment_of e.type > alignment then alignment_of e.type
              else alignment) = max alignment (alignment_of e.type) := by
            by_cases h : alignment_of e.type > alignment
            · simp only [h, if_true]; omega
            · simp only [h, if_false]; omega
          have hru := round_up_lt_add offset (alignment_of e.type) hapos
          have hge := le_round_up offset (alignment_of e.type)
          obtain ⟨hstep, _⟩ := align_expr_round_up cfg offset (alignment_of e.type)
            (Or.inr ⟨k, hpow⟩) (by omega)
          have hoa : ∃ oa,
              (if (!packed && decide (align_expr cfg offset (alignment_of e.type) > offset)) = true
                then align_expr cfg offset (alignment_of e.type) else offset) = oa ∧
              offset ≤ oa ∧ oa < offset + alignment_of e.type := by
            cases packed with
            | true => exact ⟨offset, by simp, Nat.le_refl _, by omega⟩
            | false =>
              refine ⟨round_up offset (alignment_of e.type), ?_, hge, hru⟩
              simpa using hstep
          obtain ⟨oa, hoa, ho1, ho2⟩ := hoa
          have hal' : max alignment (alignment_of e.type) = 0 ∨
              ∃ k, max alignment (alignment_of e.type) = 2 ^ k := by
            rcases Nat.le_total alignment (alignment_of e.type) with h | h
            · rw [Nat.max_eq_right h]; exact Or.inr ⟨k, hpow⟩
            · rw [Nat.max_eq_left h]; exact hal
          have hM1 : alignment ≤ max alignment (alignment_of e.type) := Nat.le_max_left _ _
          have hM2 : alignment_of e.type ≤ max alignment (alignment_of e.type) :=
            Nat.le_max_right _ _
          generalize max alignment (alignment_of e.type) = M at hmax hal' hroom hM1 hM2 ⊢
          obtain ⟨out, o', a', np', hl, g1, g2, g3, g4, g5, g6⟩ :=
            ih next (oa + size_of e.type) M
              (if (!packed && decide (align_expr cfg offset (alignment_of e.type) > offset)) = true
                then true else need_pad) hf' hbrest hrest hal' (by omega)
          simp only [hs1, hs2, hs3, Bool.not_true, Bool.false_eq_true, if_false, hga, hgs,
            to_il_alignment_of_lt hfit, hmax, hoa]
          rw [to_il_size_of_lt (by omega), hl]
          simp only [Option.map_some']
          refine ⟨_, _, _, _, rfl, by omega, by omega, g3, by omega, ?_, ?_⟩
          · intro h0; omega
          · intro m hmem hmk
            rcases List.mem_cons.mp hmem with hmem | hmem
            · rw [hmem]
              show to_ushort oa + size_of e.type ≤ o'
              have := Nat.mod_le oa 65536
              unfold to_ushort
              omega
            · exact g6 m hmem hmk
      · simp only [ne_eq, hk, not_false_eq_true, if_true]
        simp only [struct_room, hk, if_false] at hroom ⊢
        obtain ⟨out, o', a', np', hl, g1, g2, g3, g4, g5, g6⟩ :=
          ih next offset alignment need_pad hf' hbrest hrest hal hroom
        simp only [hl, Option.map_some']
        refine ⟨_, _, _, _, rfl, g1, g2, g3, g4, g5, ?_⟩
        intro m hmem hmk
        rcases List.mem_cons.mp hmem with hmem | hmem
        · rw [hmem] at hmk; exact absurd hmk hk
        · exact g6 m hmem hmk

/-- Claim C2, amended: for a complete, not yet layouted struct, packed or
not (with bit-fields in a packed struct only for the little-endian packer),
and for a complete union, whose members have valid types with power-of-two
alignments, whose initial alignment is zero or a power of two and whose sizes
fit `il_size_t`, the layout functions return, every struct member satisfies
`offset + size_of(member) <= size`, the size of a struct that is not packed
is a multiple of its alignment, every union member has offset 0 and a size
not above the size of the union, and the size of the union is a multiple of
its alignment. -/
theorem layout_size_invariant (cfg : config_t)
    (get_type_size get_type_alignment : type_t → Option Nat)
    (size_of alignment_of : type_t → Nat) (struct_compound union_compound : compound_t)
    (hcomplete : struct_compound.complete = true)
    (hlayouted : struct_compound.layouted = false)
    (hbits : ∀ m ∈ struct_compound.members, m.kind = .ENTITY_COMPOUND_MEMBER →
      (∃ q b w, m.type = .bitfield q b w) →
      cfg.byte_order_big_endian = false ∨ struct_compound.packed = false)
    (hmembers : ∀ m ∈ struct_compound.members, m.kind = .ENTITY_COMPOUND_MEMBER →
      layout_member get_type_size get_type_alignment size_of alignment_of m ∧
      (∃ k, alignment_of (member_unit_type m) = 2 ^ k) ∧
      alignment_of (member_unit_type m) < 2 ^ cfg.il_alignment_bits)
    (hinit : struct_compound.alignment = 0 ∨ ∃ k, struct_compound.alignment = 2 ^ k)
    (hroom : struct_room size_of alignment_of struct_compound.alignment
      struct_compound.members < 2 ^ cfg.il_size_bits)
    (hucomplete : union_compound.complete = true)
    (humembers : ∀ m ∈ union_compound.members, m.kind = .ENTITY_COMPOUND_MEMBER →
      union_member get_type_size get_type_alignment size_of alignment_of m ∧
      (∃ k, alignment_of m.type = 2 ^ k) ∧
      alignment_of m.type < 2 ^ cfg.il_alignment_bits ∧
      size_of m.type < 2 ^ cfg.il_size_bits)
    (huinit : union_compound.alignment = 0 ∨ ∃ k, union_compound.alignment = 2 ^ k)
    (husize : round_up (union_members_size size_of 0 union_compound.members)
      (struct_members_alignment alignment_of union_compound.alignment
        union_compound.members) < 2 ^ cfg.il_size_bits) :
    (∃ result warnings,
      layout_struct_type cfg get_type_size get_type_alignment struct_compound =
        some (result, warnings) ∧
      (struct_compound.packed = false → result.size % result.alignment = 0) ∧
      ∀ m ∈ result.members, m.kind = .ENTITY_COMPOUND_MEMBER →
        m.offset + size_of m.type ≤ result.size) ∧
    (∃ result,
      layout_union_type cfg get_type_size get_type_alignment union_compound = some result ∧
      result.size % result.alignment = 0 ∧
      ∀ m ∈ result.members, m.kind = .ENTITY_COMPOUND_MEMBER →
        m.offset = 0 ∧ size_of m.type ≤ result.size) := by
  constructor
  · obtain ⟨out, o', a', np', hl, _, g2, g3, _, g5, g6⟩ :=
      layout_struct_loop_bound cfg get_type_size get_type_alignment size_of alignment_of
        struct_compound.packed _ hroom (struct_compound.members.length + 1)
        struct_compound.members 0 struct_compound.alignment false (Nat.lt_succ_self _)
        hbits hmembers hinit (by omega)
    have hsz : ∃ sz,
        (if (!struct_compound.packed && decide (align_expr cfg o' a' > o')) = true
          then align_expr cfg o' a' else o') = sz ∧
        o' ≤ sz ∧ (struct_compound.packed = false → sz % a' = 0) := by
      cases hp : struct_compound.packed with
      | true => exact ⟨o', by simp, Nat.le_refl _, fun h => by cases h⟩
      | false =>
        have hge := le_round_up o' a'
        have hlt : round_up o' a' < 2 ^ cfg.il_size_bits := by
          rcases Nat.eq_zero_or_pos a' with h0 | hpos
          · rw [h0]
            have : round_up o' 0 = o' := by simp [round_up]
            omega
          · have := round_up_lt_add o' a' hpos
            omega
        obtain ⟨hstep, _⟩ := align_expr_round_up cfg o' a' g3 hlt
        refine ⟨round_up o' a', by simpa using hstep, hge, fun _ => ?_⟩
        rcases Nat.eq_zero_or_pos a' with h0 | hpos
        · rw [g5 h0, h0]; rfl
        · exact Nat.mod_eq_zero_of_dvd (round_up_dvd _ _ hpos)
    obtain ⟨sz, hsz, hs1, hs2⟩ := hsz
    unfold layout_struct_type
    simp only [hcomplete, hlayouted, Bool.not_true, Bool.false_eq_true, if_false, hl, hsz]
    exact ⟨_, _, rfl, hs2, fun m hm hk => Nat.le_trans (g6 m hm hk) hs1⟩
  · have hloop := layout_union_loop_spec cfg get_type_size get_type_alignment size_of
      alignment_of union_compound.members 0 union_compound.alignment
      (fun m hm hk => ⟨(humembers m hm hk).1, (humembers m hm hk).2.2.2,
        (humembers m hm hk).2.2.1⟩)
    have hpow := struct_members_alignment_pow alignment_of union_compound.members
      union_compound.alignment huinit (fun m hm hk => (humembers m hm hk).2.1)
    have hal : align_expr cfg (union_members_size size_of 0 union_compound.members)
        (struct_members_alignment alignment_of union_compound.alignment
          union_compound.members) =
        round_up (union_members_size size_of 0 union_compound.members)
          (struct_members_alignment alignment_of union_compound.alignment
            union_compound.members) := by
      rcases hpow with h0 | ⟨k, hk⟩
      · have hno := (struct_members_alignment_zero alignment_of union_compound.members
          union_compound.alignment (fun m hm hk => by
            obtain ⟨k, hk2⟩ := (humembers m hm hk).2.1
            rw [hk2]; exact Nat.two_pow_pos _) h0).2
        rw [h0, union_members_size_no_member size_of _ 0 hno]
        simp [align_expr, to_il_size, round_up]
      · rw [hk] at husize ⊢
        exact align_expr_two_pow cfg _ k husize
    refine ⟨{ union_compound with
        members := union_member_offsets union_compound.members,
        size := round_up (union_members_size size_of 0 union_compound.members)
          (struct_members_alignment alignment_of union_compound.alignment
            union_compound.members),
        alignment := struct_members_alignment alignment_of union_compound.alignment
          union_compound.members }, ?_, ?_, ?_⟩
    · simp only [layout_union_type, hucomplete, Bool.not_true, Bool.false_eq_true, if_false,
        hloop, hal]
    · show round_up (union_members_size size_of 0 union_compound.members)
        (struct_members_alignment alignment_of union_compound.alignment
          union_compound.members) %
        struct_members_alignment alignment_of union_compound.alignment
          union_compound.members = 0
      rcases Nat.eq_zero_or_pos (struct_members_alignment alignment_of
        union_compound.alignment union_compound.members) with h0 | hpos
      · have hno := (struct_members_alignment_zero alignment_of union_compound.members
          union_compound.alignment (fun m hm hk => by
            obtain ⟨k, hk2⟩ := (humembers m hm hk).2.1
            rw [hk2]; exact Nat.two_pow_pos _) h0).2
        rw [h0, union_members_size_no_member size_of _ 0 hno]
        rfl
      · exact Nat.mod_eq_zero_of_dvd (round_up_dvd _ _ hpos)
    · intro m hm hk
      obtain ⟨h1, m0, hm0, hk0, ht0⟩ :=
        union_member_offsets_spec union_compound.members m hm
      refine ⟨h1 hk, ?_⟩
      have h2 := (le_union_members_size size_of union_compound.members 0).2 m0 hm0
        (hk0.trans hk)
      have h3 := le_round_up (union_members_size size_of 0 union_compound.members)
        (struct_members_alignment alignment_of union_compound.alignment
          union_compound.members)
      show size_of m.type ≤
        round_up (union_members_size size_of 0 union_compound.members)
          (struct_members_alignment alignment_of union_compound.alignment
            union_compound.members)
      rw [← ht0]
      omega

/-- Witness of C2, amended: `struct { char a; unsigned x:3; int b; }`, laid
out as size 8 with alignment 4, and `union U { char c; int i; }`. -/
theorem layout_size_invariant_witness :
    example_struct_mixed.complete = true ∧ example_union_U.complete = true ∧
    (layout_struct_type example_config example_get_type_size example_get_type_alignment
        example_struct_mixed).map
        (fun r => (r.1.members.map (fun m => (m.offset, m.bit_offset)), r.1.size,
          r.1.alignment)) = some ([(0, 0), (0, 8), (4, 0)], 8, 4) ∧
    (∃ result warnings,
      layout_struct_type example_config example_get_type_size example_get_type_alignment
        example_struct_mixed = some (result, warnings) ∧
      (example_struct_mixed.packed = false → result.size % result.alignment = 0) ∧
      ∀ m ∈ result.members, m.kind = .ENTITY_COMPOUND_MEMBER →
        m.offset + example_size_of m.type ≤ result.size) ∧
    (∃ result,
      layout_union_type example_config example_get_type_size example_get_type_alignment
        example_union_U = some result ∧
      result.size % result.alignment = 0 ∧
      ∀ m ∈ result.members, m.kind = .ENTITY_COMPOUND_MEMBER →
        m.offset = 0 ∧ example_size_of m.type ≤ result.size) :=
  ⟨rfl, rfl, by decide,
    layout_size_invariant example_config example_get_type_size example_get_type_alignment
      example_size_of example_alignment_of example_struct_mixed example_union_U rfl rfl
      (fun _ _ _ _ => Or.inl rfl)
      (by
        intro m hm _
        simp only [example_struct_mixed, example_compound, List.mem_cons, List.mem_singleton,
          List.mem_nil_iff, or_false] at hm
        rcases hm with h | h | h <;> subst h
        · exact ⟨⟨rfl, rfl, _, rfl, by decide, by decide⟩, ⟨0, by decide⟩, by decide⟩
        · exact ⟨⟨rfl, rfl, ⟨_, rfl⟩, rfl, by decide, by decide⟩, ⟨2, by decide⟩, by decide⟩
        · exact ⟨⟨rfl, rfl, _, rfl, by decide, by decide⟩, ⟨2, by decide⟩, by decide⟩)
      (Or.inl rfl) (by decide) rfl
      (by
        intro m hm _
        simp only [example_union_U, example_compound, List.mem_cons, List.mem_singleton,
          List.mem_nil_iff, or_false] at hm
        rcases hm with h | h <;> subst h
        · exact ⟨⟨⟨_, rfl, by decide⟩, rfl, rfl⟩, ⟨0, by decide⟩, by decide, by decide⟩
        · exact ⟨⟨⟨_, rfl, by decide⟩, rfl, rfl⟩, ⟨2, by decide⟩, by decide, by decide⟩)
      (Or.inl rfl) (by decide)⟩

/-- Claim C2 fails on a packed struct and on a member whose alignment is no
power of two: `struct __attribute__((packed)) P { char a; int b; }` gets
size 5 and alignment 4, and with a 12 byte `long double`
`struct { char a; long double b; }` gets size 16 and alignment 12. -/
theorem layout_size_invariant_counterexample :
    (example_struct_P.complete = true ∧
      (layout_struct_type example_config example_get_type_size example_get_type_alignment
        example_struct_P).map (fun r => (r.1.size, r.1.alignment, r.1.size % r.1.alignment)) =
      some (5, 4, 1)) ∧
    (layout_struct_type { example_config with force_long_double_size := 12 }
        (get_type_size { example_config with force_long_double_size := 12 }
          example_compounds 2)
        (get_type_alignment { example_config with force_long_double_size := 12 }
          example_compounds 2)
        (example_compound [example_member example_char,
          example_member (.atomic TYPE_QUALIFIER_NONE .ATOMIC_TYPE_LONG_DOUBLE)] false)).map
        (fun r => (r.1.size, r.1.alignment, r.1.size % r.1.alignment)) =
      some (16, 12, 4) := by
  decide

/-! ## Bit-field buckets -/

theorem to_uchar_le (x : Nat) : to_uchar x ≤ x := Nat.mod_le _ _

theorem pack_bitfield_member_bucket (cfg : config_t)
    (get_type_size get_type_alignment : type_t → Option Nat)
    (member : entity_t) (q : Nat) (base_type : type_t) (bit_size : Nat)
    (offset alignment bit_offset : Nat) (member' : entity_t) (offset' alignment' bit_offset' : Nat)
    (hk : member.type = .bitfield q base_type bit_size)
    (h : pack_bitfield_member cfg get_type_size get_type_alignment false member base_type bit_size
      offset alignment bit_offset = some (member', offset', alignment', bit_offset')) :
    bitfield_in_bucket get_type_size member' := by
  unfold pack_bitfield_member at h
  cases hs : skip_typeref base_type with
  | none => simp [hs] at h
  | some base =>
    cases ha : get_type_alignment base with
    | none => simp [hs, ha] at h
    | some a =>
      cases hz : get_type_size base with
      | none => simp [hs, ha, hz] at h
      | some s =>
        simp only [hs, ha, hz, Bool.not_false, if_true] at h
        intro _ q2 base2 w2 hty base' s' hs' hz' hw
        by_cases hc : (decide (bit_offset + (offset &&& alignment_mask_of cfg (to_il_alignment cfg a))
            * BITS_PER_BYTE + bit_size > to_unsigned (s * BITS_PER_BYTE)) || decide (bit_size = 0)) = true
        · simp only [hc, if_true, Option.some.injEq, Prod.mk.injEq] at h
          obtain ⟨hm, _, _, _⟩ := h
          subst hm
          simp only [hk, type_t.bitfield.injEq] at hty
          obtain ⟨_, hb, hw2⟩ := hty
          subst hb hw2
          simp only [to_uchar, Nat.zero_mod, Nat.zero_add]
          exact hw
        · simp only [hc, Bool.false_eq_true, if_false, Option.some.injEq, Prod.mk.injEq] at h
          obtain ⟨hm, _, _, _⟩ := h
          subst hm
          simp only [hk, type_t.bitfield.injEq] at hty
          obtain ⟨_, hb, hw2⟩ := hty
          subst hb hw2
          rw [hs] at hs'
          have hbb : base = base' := Option.some.inj hs'
          subst hbb
          rw [hz] at hz'
          have hss : s = s' := Option.some.inj hz'
          subst hss
          simp only [Bool.or_eq_true, decide_eq_true_eq, not_or, not_lt] at hc
          have := to_uchar_le (bit_offset + (offset &&& alignment_mask_of cfg (to_il_alignment cfg a))
            * BITS_PER_BYTE)
          simp only at this ⊢
          omega

theorem pack_bitfield_members_loop_bucket (cfg : config_t)
    (get_type_size get_type_alignment : type_t → Option Nat) :
    ∀ (first : List entity_t) (offset alignment bit_offset : Nat) (r : pack_result),
      pack_bitfield_members_loop cfg get_type_size get_type_alignment false first
        offset alignment bit_offset = some r →
      (∀ m ∈ r.members, bitfield_in_bucket get_type_size m) ∧
      (∀ m ∈ r.rest, m ∈ first) ∧ r.rest.length ≤ first.length ∧
      (∀ e rest, first = e :: rest → e.kind = .ENTITY_COMPOUND_MEMBER →
        (∃ q b w, e.type = .bitfield q b w) → r.rest.length < first.length) := by
  intro first
  induction first with
  | nil =>
    intro offset alignment bit_offset r h
    simp only [pack_bitfield_members_loop, Option.some.injEq] at h
    subst h
    simp
  | cons e rest ih =>
    intro offset alignment bit_offset r h
    rw [pack_bitfield_members_loop] at h
    by_cases hk : e.kind = .ENTITY_COMPOUND_MEMBER
    · simp only [hk, ne_eq, not_true_eq_false, if_false] at h
      cases hty : e.type with
      | bitfield q base w =>
        simp only [hty] at h
        cases hstep : pack_bitfield_member cfg get_type_size get_type_alignment false e base w
            offset alignment bit_offset with
        | none => simp [hstep] at h
        | some res =>
          obtain ⟨m', o', a', b'⟩ := res
          simp only [hstep] at h
          cases hloop : pack_bitfield_members_loop cfg get_type_size get_type_alignment false rest
              o' a' b' with
          | none => simp [hloop] at h
          | some r' =>
            simp only [hloop, Option.map_some', Option.some.injEq] at h
            subst h
            obtain ⟨h1, h2, h3, _⟩ := ih o' a' b' r' hloop
            have hq := pack_bitfield_member_bucket cfg get_type_size get_type_alignment e q base w
              offset alignment bit_offset m' o' a' b' hty hstep
            refine ⟨?_, ?_, ?_, ?_⟩
            · intro m hm
              simp only [pack_result.push, List.mem_cons] at hm
              rcases hm with hm | hm
              · rw [hm]; exact hq
              · exact h1 m hm
            · intro m hm
              exact List.mem_cons_of_mem _ (h2 m hm)
            · simp only [pack_result.push, List.length_cons]; omega
            · intro _ _ _ _ _
              simp only [pack_result.push, List.length_cons]; omega
      | _ =>
        simp only [hty, Option.some.injEq] at h
        subst h
        refine ⟨by simp, by simp, by simp, ?_⟩
        intro e' rest' heq _ hb
        simp only [List.cons.injEq] at heq
        obtain ⟨q, b, w, hb⟩ := hb
        rw [← heq.1, hty] at hb
        cases hb
    · simp only [ne_eq, hk, not_false_eq_true, if_true] at h
      cases hloop : pack_bitfield_members_loop cfg get_type_size get_type_alignment false rest
          offset alignment bit_offset with
      | none => simp [hloop] at h
      | some r' =>
        simp only [hloop, Option.map_some', Option.some.injEq] at h
        subst h
        obtain ⟨h1, h2, h3, _⟩ := ih offset alignment bit_offset r' hloop
        refine ⟨?_, ?_, ?_, ?_⟩
        · intro m hm
          simp only [pack_result.push, List.mem_cons] at hm
          rcases hm with hm | hm
          · rw [hm]; intro hk'; exact absurd hk' hk
          · exact h1 m hm
        · intro m hm
          exact List.mem_cons_of_mem _ (h2 m hm)
        · simp only [pack_result.push, List.length_cons]; omega
        · intro e' rest' heq hk' _
          simp only [List.cons.injEq] at heq
          rw [← heq.1] at hk'
          exact absurd hk' hk

/-- The invariant of the big-endian packer: the bits left in the current
bucket do not exceed the width of its base type. -/
theorem pack_bitfield_member_big_endian_bucket (cfg : config_t)
    (get_type_size get_type_alignment : type_t → Option Nat)
    (member : entity_t) (q : Nat) (base_type : type_t) (bit_size : Nat)
    (current : Option type_t) (offset alignment bit_offset : Nat)
    (member' : entity_t) (current' : Option type_t) (offset' alignment' bit_offset' : Nat)
    (hk : member.type = .bitfield q base_type bit_size)
    (hinv : ∀ b s, current = some b → get_type_size b = some s →
      bit_offset ≤ to_unsigned (s * BITS_PER_BYTE))
    (h : pack_bitfield_member_big_endian cfg get_type_size get_type_alignment member base_type
      bit_size current offset alignment bit_offset =
        some (member', current', offset', alignment', bit_offset')) :
    bitfield_in_bucket get_type_size member' ∧
    (∀ b s, current' = some b → get_type_size b = some s →
      bit_offset' ≤ to_unsigned (s * BITS_PER_BYTE)) := by
  unfold pack_bitfield_member_big_endian at h
  cases hs : skip_typeref base_type with
  | none => simp [hs] at h
  | some base =>
    simp only [hs] at h
    by_cases hc : (decide (some base ≠ current) || decide (bit_size > bit_offset)) = true
    · simp only [hc, if_true] at h
      cases hcl : pack_big_endian_close cfg get_type_size current offset with
      | none => simp [hcl] at h
      | some oc =>
        cases ha : get_type_alignment base with
        | none => simp [hcl, ha] at h
        | some a =>
          cases hz : get_type_size base with
          | none => simp [hcl, ha, hz] at h
          | some s =>
            simp only [hcl, ha, hz] at h
            by_cases hge : to_unsigned (s * BITS_PER_BYTE) ≥ bit_size
            · simp only [hge, if_true, Option.some.injEq, Prod.mk.injEq] at h
              obtain ⟨hm, hcur, _, _, hbo⟩ := h
              subst hm hcur hbo
              constructor
              · intro _ q2 base2 w2 hty base' s' hs' hz' hw
                simp only [hk, type_t.bitfield.injEq] at hty
                obtain ⟨_, hb, hw2⟩ := hty
                subst hb hw2
                rw [hs] at hs'
                have hbb : base = base' := Option.some.inj hs'
                subst hbb
                rw [hz] at hz'
                have hss : s = s' := Option.some.inj hz'
                subst hss
                have := to_uchar_le (to_unsigned (s * BITS_PER_BYTE) - bit_size)
                simp only at this ⊢
                omega
              · intro b s' hb hz'
                have hbb : base = b := Option.some.inj hb
                subst hbb
                rw [hz] at hz'
                have hss : s = s' := Option.some.inj hz'
                subst hss
                omega
            · simp [hge] at h
    · simp only [hc, Bool.false_eq_true, if_false, Option.some.injEq, Prod.mk.injEq] at h
      obtain ⟨hm, hcur, _, _, hbo⟩ := h
      subst hm hcur hbo
      simp only [Bool.or_eq_true, decide_eq_true_eq, not_or, not_not, not_lt] at hc
      obtain ⟨hc1, hc2⟩ := hc
      constructor
      · intro _ q2 base2 w2 hty base' s' hs' hz' hw
        simp only [hk, type_t.bitfield.injEq] at hty
        obtain ⟨_, hb, hw2⟩ := hty
        subst hb hw2
        rw [hs] at hs'
        have hbb : base = base' := Option.some.inj hs'
        subst hbb
        have hi := hinv base s' hc1.symm hz'
        have := to_uchar_le (bit_offset - bit_size)
        simp only at this ⊢
        omega
      · intro b s' hb hz'
        have hi := hinv b s' hb hz'
        omega

theorem pack_bitfield_members_big_endian_loop_bucket (cfg : config_t)
    (get_type_size get_type_alignment : type_t → Option Nat) :
    ∀ (first : List entity_t) (current : Option type_t) (offset alignment bit_offset : Nat)
      (r : pack_result),
      (∀ b s, current = some b → get_type_size b = some s →
        bit_offset ≤ to_unsigned (s * BITS_PER_BYTE)) →
      pack_bitfield_members_big_endian_loop cfg get_type_size get_type_alignment first
        current offset alignment bit_offset = some r →
      (∀ m ∈ r.members, bitfield_in_bucket get_type_size m) ∧
      r.rest.length ≤ first.length ∧
      (∀ e rest, first = e :: rest → e.kind = .ENTITY_COMPOUND_MEMBER →
        (∃ q b w, e.type = .bitfield q b w) → r.rest.length < first.length) := by
  intro first
  induction first with
  | nil =>
    intro current offset alignment bit_offset r _ h
    simp only [pack_bitfield_members_big_endian_loop] at h
    cases hcl : pack_big_endian_close cfg get_type_size current offset with
    | none => simp [hcl] at h
    | some o =>
      simp only [hcl, Option.some.injEq] at h
      subst h
      simp
  | cons e rest ih =>
    intro current offset alignment bit_offset r hinv h
    rw [pack_bitfield_members_big_endian_loop] at h
    by_cases hk : e.kind = .ENTITY_COMPOUND_MEMBER
    · simp only [hk, ne_eq, not_true_eq_false, if_false] at h
      cases hty : e.type with
      | bitfield q base w =>
        simp only [hty] at h
        cases hstep : pack_bitfield_member_big_endian cfg get_type_size get_type_alignment e
            base w current offset alignment bit_offset with
        | none => simp [hstep] at h
        | some res =>
          obtain ⟨m', c', o', a', b'⟩ := res
          simp only [hstep] at h
          cases hloop : pack_bitfield_members_big_endian_loop cfg get_type_size
              get_type_alignment rest c' o' a' b' with
          | none => simp [hloop] at h
          | some r' =>
            simp only [hloop, Option.map_some', Option.some.injEq] at h
            subst h
            obtain ⟨hq, hinv'⟩ := pack_bitfield_member_big_endian_bucket cfg get_type_size
              get_type_alignment e q base w current offset alignment bit_offset m' c' o' a' b'
              hty hinv hstep
            obtain ⟨h1, h3, _⟩ := ih c' o' a' b' r' hinv' hloop
            refine ⟨?_, ?_, ?_⟩
            · intro m hm
              simp only [pack_result.push, List.mem_cons] at hm
              rcases hm with hm | hm
              · rw [hm]; exact hq
              · exact h1 m hm
            · simp only [pack_result.push, List.length_cons]; omega
            · intro _ _ _ _ _
              simp only [pack_result.push, List.length_cons]; omega
      | _ =>
        simp only [hty] at h
        cases hcl : pack_big_endian_close cfg get_type_size current offset with
        | none => simp [hcl] at h
        | some o =>
          simp only [hcl, Option.some.injEq] at h
          subst h
          refine ⟨by simp, by simp, ?_⟩
          intro e' rest' heq _ hb
          simp only [List.cons.injEq] at heq
          obtain ⟨q, b, w, hb⟩ := hb
          rw [← heq.1, hty] at hb
          cases hb
    · simp only [ne_eq, hk, not_false_eq_true, if_true] at h
      cases hloop : pack_bitfield_members_big_endian_loop cfg get_type_size get_type_alignment
          rest current offset alignment bit_offset with
      | none => simp [hloop] at h
      | some r' =>
        simp only [hloop, Option.map_some', Option.some.injEq] at h
        subst h
        obtain ⟨h1, h3, _⟩ := ih current offset alignment bit_offset r' hinv hloop
        refine ⟨?_, ?_, ?_⟩
        · intro m hm
          simp only [pack_result.push, List.mem_cons] at hm
          rcases hm with hm | hm
          · rw [hm]; intro hk'; exact absurd hk' hk
          · exact h1 m hm
        · simp only [pack_result.push, List.length_cons]; omega
        · intro e' rest' heq hk' _
          simp only [List.cons.injEq] at heq
          rw [← heq.1] at hk'
          exact absurd hk' hk

theorem layout_struct_loop_bucket (cfg : config_t)
    (get_type_size get_type_alignment : type_t → Option Nat) (packed : Bool)
    (hmode : cfg.byte_order_big_endian = true ∨ packed = false) :
    ∀ (fuel : Nat) (entries : List entity_t) (offset alignment : Nat) (need_pad : Bool)
      (out : List entity_t) (res : Nat × Nat × Bool),
      layout_struct_loop cfg get_type_size get_type_alignment packed fuel entries
        offset alignment need_pad = some (out, res) →
      ∀ m ∈ out, bitfield_in_bucket get_type_size m := by
  intro fuel
  induction fuel with
  | zero =>
    intro entries offset alignment need_pad out res h
    simp [layout_struct_loop] at h
  | succ n ih =>
    intro entries offset alignment need_pad out res h
    cases entries with
    | nil =>
      simp only [layout_struct_loop, Option.some.injEq, Prod.mk.injEq] at h
      intro m hm
      rw [← h.1] at hm
      cases hm
    | cons entry next =>
      rw [layout_struct_loop] at h
      by_cases hk : entry.kind = .ENTITY_COMPOUND_MEMBER
      · simp only [hk, ne_eq, not_true_eq_false, if_false] at h
        cases hs : skip_typeref entry.type with
        | none => simp [hs] at h
        | some skipped =>
          simp only [hs] at h
          have hnb : skipped.kind ≠ .TYPE_BITFIELD → ∀ q b w, entry.type ≠ .bitfield q b w := by
            intro hne q b w hty
            rw [hty, skip_typeref_bitfield] at hs
            have := Option.some.inj hs
            rw [← this] at hne
            exact hne rfl
          by_cases hv : is_type_valid skipped = true
          · simp only [hv, Bool.not_true, Bool.false_eq_true, if_false] at h
            by_cases hb : skipped.kind = .TYPE_BITFIELD
            · simp only [hb, if_true] at h
              cases hp : (if cfg.byte_order_big_endian = true then
                  pack_bitfield_members_big_endian cfg get_type_size get_type_alignment
                    offset alignment packed (entry :: next)
                else
                  pack_bitfield_members cfg get_type_size get_type_alignment
                    offset alignment packed (entry :: next)) with
              | none => rw [hp] at h; simp at h
              | some r =>
                rw [hp] at h
                simp only [] at h
                rw [Option.map_eq_some'] at h
                obtain ⟨q, hl, hq⟩ := h
                simp only [Prod.mk.injEq] at hq
                have hrest := ih r.rest r.offset r.alignment need_pad q.1 q.2 hl
                have h := hq
                have hpack : ∀ m ∈ r.members, bitfield_in_bucket get_type_size m := by
                  by_cases hbe : cfg.byte_order_big_endian = true
                  · simp only [hbe, if_true, pack_bitfield_members_big_endian] at hp
                    by_cases hpk : packed = true
                    · simp [hpk] at hp
                    · simp only [hpk, Bool.false_eq_true, if_false] at hp
                      exact (pack_bitfield_members_big_endian_loop_bucket cfg get_type_size
                        get_type_alignment _ none offset alignment 0 r
                        (fun b s hb _ => by cases hb) hp).1
                  · have hpk : packed = false := by
                      rcases hmode with h1 | h1
                      · exact absurd h1 hbe
                      · exact h1
                    subst hpk
                    simp only [hbe, Bool.false_eq_true, if_false, pack_bitfield_members] at hp
                    exact (pack_bitfield_members_loop_bucket cfg get_type_size
                      get_type_alignment _ offset alignment 0 r hp).1
                intro m hm
                rw [← h.1, List.mem_append] at hm
                rcases hm with hm | hm
                · exact hpack m hm
                · exact hrest m hm
            · simp only [hb, if_false] at h
              cases ha : get_type_alignment entry.type with
              | none => simp [ha] at h
              | some a =>
                cases hz : get_type_size entry.type with
                | none => simp [ha, hz] at h
                | some s =>
                  simp only [ha, hz] at h
                  rw [Option.map_eq_some'] at h
                  obtain ⟨q, hl, hq⟩ := h
                  simp only [Prod.mk.injEq] at hq
                  have hrest := ih _ _ _ _ q.1 q.2 hl
                  intro m hm
                  rw [← hq.1, List.mem_cons] at hm
                  rcases hm with hm | hm
                  · rw [hm]
                    intro _ q' b' w' hty
                    exact absurd hty (hnb hb q' b' w')
                  · exact hrest m hm
          · simp only [hv, Bool.not_false, if_true] at h
            rw [Option.map_eq_some'] at h
            obtain ⟨q, hl, hq⟩ := h
            simp only [Prod.mk.injEq] at hq
            have hrest := ih _ _ _ _ q.1 q.2 hl
            have hb : skipped.kind ≠ .TYPE_BITFIELD := by
              intro hb
              simp only [is_type_valid, hb] at hv
              exact hv (by decide)
            intro m hm
            rw [← hq.1, List.mem_cons] at hm
            rcases hm with hm | hm
            · rw [hm]
              intro _ q' b' w' hty
              exact absurd hty (hnb hb q' b' w')
            · exact hrest m hm
      · simp only [ne_eq, hk, not_false_eq_true, if_true] at h
        rw [Option.map_eq_some'] at h
        obtain ⟨q, hl, hq⟩ := h
        simp only [Prod.mk.injEq] at hq
        have hrest := ih _ _ _ _ q.1 q.2 hl
        intro m hm
        rw [← hq.1, List.mem_cons] at hm
        rcases hm with hm | hm
        · rw [hm]; intro hk'; exact absurd hk' hk
        · exact hrest m hm

/-- Claim C5, amended: after `layout_struct_type` has laid out a complete
struct with the big-endian packer, or with the little-endian packer when the
struct is not packed, every bit-field member whose declared width does not
exceed the width of its base type has `bit_offset + bit_size <= base_size * 8`. -/
theorem layout_struct_type_bitfield_bucket (cfg : config_t)
    (get_type_size get_type_alignment : type_t → Option Nat) (compound : compound_t)
    (hcomplete : compound.complete = true) (hlayouted : compound.layouted = false)
    (hmode : cfg.byte_order_big_endian = true ∨ compound.packed = false)
    (result : compound_t) (warnings : List warning_t)
    (h : layout_struct_type cfg get_type_size get_type_alignment compound =
      some (result, warnings)) :
    ∀ m ∈ result.members, bitfield_in_bucket get_type_size m := by
  unfold layout_struct_type at h
  simp only [hcomplete, hlayouted, Bool.not_true, Bool.false_eq_true, if_false] at h
  cases hl : layout_struct_loop cfg get_type_size get_type_alignment compound.packed
      (compound.members.length + 1) compound.members 0 compound.alignment false with
  | none => simp [hl] at h
  | some q =>
    obtain ⟨out, o, a, n⟩ := q
    simp only [hl, Option.some.injEq, Prod.mk.injEq] at h
    have hb := layout_struct_loop_bucket cfg get_type_size get_type_alignment compound.packed
      hmode _ _ _ _ _ out (o, a, n) hl
    rw [← h.1]
    exact hb

/-- Witness of C5, amended: the members of `struct B { unsigned x:3;
unsigned y:5; unsigned z:9; }` laid out with the little-endian packer. -/
theorem layout_struct_type_bitfield_bucket_witness :
    (example_config.byte_order_big_endian = true ∨ example_struct_B.packed = false) ∧
    layout_struct_type example_config example_get_type_size example_get_type_alignment
        example_struct_B =
      some ({ example_struct_B with
              members := [{ example_bitfield 3 with offset := 0, bit_offset := 0 },
                { example_bitfield 5 with offset := 0, bit_offset := 3 },
                { example_bitfield 9 with offset := 0, bit_offset := 8 }],
              size := 4, alignment := 4, layouted := true },
            [warning_t.needs_padding]) ∧
    ∀ m ∈ [{ example_bitfield 3 with offset := 0, bit_offset := 0 },
        { example_bitfield 5 with offset := 0, bit_offset := 3 },
        { example_bitfield 9 with offset := 0, bit_offset := 8 }],
      bitfield_in_bucket example_get_type_size m :=
  ⟨Or.inr rfl, by decide,
    layout_struct_type_bitfield_bucket example_config example_get_type_size
      example_get_type_alignment example_struct_B rfl rfl (Or.inr rfl)
      { example_struct_B with
        members := [{ example_bitfield 3 with offset := 0, bit_offset := 0 },
          { example_bitfield 5 with offset := 0, bit_offset := 3 },
          { example_bitfield 9 with offset := 0, bit_offset := 8 }],
        size := 4, alignment := 4, layouted := true }
      [warning_t.needs_padding] (by decide)⟩

/-- Claim C5 fails for the little-endian packer on a packed struct: in
`struct __attribute__((packed)) { unsigned a:1; unsigned b:32; }` the
bit-field `b`, as wide as its base type, is recorded at bit 1, and
1 + 32 exceeds the 32 bits of `unsigned`. -/
theorem layout_struct_type_bitfield_bucket_counterexample :
    example_config.byte_order_big_endian = false ∧
    example_struct_packed_bits.packed = true ∧
    layout_struct_type example_config example_get_type_size example_get_type_alignment
        example_struct_packed_bits =
      some ({ example_struct_packed_bits with
              members := [{ example_bitfield 1 with offset := 0, bit_offset := 0 },
                { example_bitfield 32 with offset := 0, bit_offset := 1 }],
              size := 5, alignment := 4, layouted := true },
            [warning_t.superfluous_packed]) ∧
    ¬ bitfield_in_bucket example_get_type_size
        { example_bitfield 32 with offset := 0, bit_offset := 1 } := by
  refine ⟨rfl, rfl, by decide, ?_⟩
  intro h
  have h1 := h rfl TYPE_QUALIFIER_NONE example_unsigned 32 rfl example_unsigned 4 rfl rfl
    (by decide)
  revert h1
  decide

/-! ## Hash-consing -/

theorem make_type_spec (store : type_store) (h : store.consistent) (node : type_node) :
    (make_type store node).2.consistent ∧
    (make_type store node).1 ∈ (make_type store node).2.typehash ∧
    (make_type store node).2.type_obst[(make_type store node).1]? = some node ∧
    (∀ a ∈ store.typehash, a ∈ (make_type store node).2.typehash ∧
      (make_type store node).2.type_obst[a]? = store.type_obst[a]?) ∧
    (store.type_obst.length ≤ (make_type store node).2.type_obst.length) ∧
    ((make_type store node).1 ∈ store.typehash ∨
      (make_type store node).1 = store.type_obst.length ∧
      ∀ a ∈ store.typehash, store.type_obst[a]? ≠ some node) := by
  obtain ⟨h1, h2⟩ := h
  have hget : ∀ a ∈ store.typehash, (store.type_obst ++ [node])[a]? = store.type_obst[a]? := by
    intro a ha
    exact List.getElem?_append_left (h1 a ha)
  have hnew : (store.type_obst ++ [node])[store.type_obst.length]? = some node := by
    simp
  simp only [make_type, obstack_alloc, identify_new_type, typehash_insert]
  cases hf : store.typehash.find?
      (fun existing => (store.type_obst ++ [node])[existing]? ==
        (store.type_obst ++ [node])[store.type_obst.length]?) with
  | some e =>
    have hmem : e ∈ store.typehash := List.mem_of_find?_eq_some hf
    have hp := List.find?_some hf
    simp only [beq_iff_eq] at hp
    rw [hnew, hget e hmem] at hp
    have hne : e ≠ store.type_obst.length := Nat.ne_of_lt (h1 e hmem)
    simp only [ne_eq, hne, not_false_eq_true, if_true, obstack_free, List.take_left']
    exact ⟨⟨h1, h2⟩, hmem, hp, fun a ha => ⟨ha, trivial⟩, le_refl _, Or.inl hmem⟩
  | none =>
    have hnone := List.find?_eq_none.mp hf
    simp only [beq_iff_eq] at hnone
    simp only [ne_eq, not_true_eq_false, if_false]
    have hno : ∀ a ∈ store.typehash, store.type_obst[a]? ≠ some node := by
      intro a ha heq
      apply hnone a ha
      rw [hnew, hget a ha, heq]
    refine ⟨⟨?_, ?_⟩, ?_, hnew, ?_, ?_, Or.inr ⟨trivial, hno⟩⟩
    · intro a ha
      simp only [List.mem_append, List.mem_singleton] at ha
      simp only [List.length_append, List.length_singleton]
      rcases ha with ha | ha
      · exact Nat.lt_succ_of_lt (h1 a ha)
      · rw [ha]; exact Nat.lt_succ_self _
    · intro a ha b hb hab
      simp only [List.mem_append, List.mem_singleton] at ha hb
      rcases ha with ha | ha <;> rcases hb with hb | hb
      · rw [hget a ha, hget b hb] at hab
        exact h2 a ha b hb hab
      · subst hb
        rw [hget a ha, hnew] at hab
        exact absurd hab (hno a ha)
      · subst ha
        rw [hget b hb, hnew] at hab
        exact absurd hab.symm (hno b hb)
      · rw [ha, hb]
    · simp
    · intro a ha
      exact ⟨by simp [ha], hget a ha⟩
    · simp

/-- Claim C6: in a consistent type memory, two constructions in a row return
the same address exactly when the two nodes are structurally equal (same
variant, payload and qualifiers). -/
theorem hash_consing_canonical (store : type_store) (h : store.consistent)
    (node1 node2 : type_node) :
    ((make_type store node1).1 = (make_type (make_type store node1).2 node2).1 ↔
      node1 = node2) := by
  obtain ⟨hc1, hm1, hn1, _, _, _⟩ := make_type_spec store h node1
  obtain ⟨hc2, hm2, hn2, hk2, hl2, hcase⟩ := make_type_spec (make_type store node1).2 hc1 node2
  constructor
  · intro heq
    have h3 := (hk2 _ hm1).2
    rw [heq] at h3 hn1
    rw [hn2] at h3
    rw [← h3] at hn1
    exact (Option.some.inj hn1).symm
  · intro heq
    subst heq
    rcases hcase with hin | ⟨_, hno⟩
    · have h3 := (hk2 _ hin).2
      rw [hn2] at h3
      exact hc1.2 _ hm1 _ hin (hn1.trans h3)
    · exact absurd hn1 (hno _ hm1)

/-- Witness of C6: with `int` and `const int` in the table, two calls of
`make_pointer_type(int, none)` return one address, and the pointer to
`const int` made after the pointer to `int` has another address. -/
theorem hash_consing_canonical_witness :
    example_store.consistent ∧
    (make_pointer_type example_store 0 TYPE_QUALIFIER_NONE).1 =
      (make_pointer_type (make_pointer_type example_store 0 TYPE_QUALIFIER_NONE).2 0
        TYPE_QUALIFIER_NONE).1 ∧
    (make_pointer_type example_store 0 TYPE_QUALIFIER_NONE).1 ≠
      (make_pointer_type (make_pointer_type example_store 0 TYPE_QUALIFIER_NONE).2 1
        TYPE_QUALIFIER_NONE).1 :=
  have hc : example_store.consistent := by
    unfold type_store.consistent
    decide
  ⟨hc,
    (hash_consing_canonical example_store hc (.pointer TYPE_QUALIFIER_NONE 0 none)
      (.pointer TYPE_QUALIFIER_NONE 0 none)).mpr rfl,
    fun heq => absurd
      ((hash_consing_canonical example_store hc (.pointer TYPE_QUALIFIER_NONE 0 none)
        (.pointer TYPE_QUALIFIER_NONE 1 none)).mp heq) (by decide)⟩

/-! ## skip_typeref -/

theorem skip_typeref_loop_end : ∀ (type : type_t) (qualifiers : Nat) (u : type_t),
    typeref_chain_end type = some u →
      ∃ returned q', skip_typeref_loop type qualifiers = some (returned, u, q') ∧
        (returned = false → q' = qualifiers ||| typeref_chain_qualifiers type) ∧
        (returned = true → u.kind = .TYPE_ERROR)
  | .typedeft q _ _ (.ptr resolved), qualifiers, u, h => by
      simp only [typeref_chain_end, Option.some.injEq] at h
      subst h
      exact ⟨false, qualifiers ||| q, by simp [skip_typeref_loop],
        by simp [typeref_chain_qualifiers], by simp⟩
  | .typedeft q t _ .null, qualifiers, u, h => by
      simp only [typeref_chain_end] at h
      obtain ⟨r, q', h1, h2, h3⟩ := skip_typeref_loop_end t (qualifiers ||| q) u h
      refine ⟨r, q', ?_, ?_, h3⟩
      · simp only [skip_typeref_loop, h1]
      · intro hr
        rw [h2 hr, typeref_chain_qualifiers, Nat.lor_assoc]
  | .typeoft q (.ptr t) _, qualifiers, u, h => by
      simp only [typeref_chain_end] at h
      obtain ⟨r, q', h1, h2, h3⟩ := skip_typeref_loop_end t (qualifiers ||| q) u h
      refine ⟨r, q', ?_, ?_, h3⟩
      · simp only [skip_typeref_loop, h1]
      · intro hr
        rw [h2 hr, typeref_chain_qualifiers, Nat.lor_assoc]
  | .typeoft _ .null _, _, _, h => by simp [typeref_chain_end] at h
  | .error q, qualifiers, u, h => by
      simp only [typeref_chain_end, Option.some.injEq] at h
      subst h
      exact ⟨true, qualifiers, by simp [skip_typeref_loop], by simp, by simp [type_t.kind]⟩
  | .invalid q, qualifiers, u, h => by
      simp only [typeref_chain_end, Option.some.injEq] at h
      subst h
      exact ⟨false, qualifiers, by simp [skip_typeref_loop],
        by simp [typeref_chain_qualifiers], by simp⟩
  | .atomic q k, qualifiers, u, h => by
      simp only [typeref_chain_end, Option.some.injEq] at h
      subst h
      exact ⟨false, qualifiers, by simp [skip_typeref_loop],
        by simp [typeref_chain_qualifiers], by simp⟩
  | .complex q k, qualifiers, u, h => by
      simp only [typeref_chain_end, Option.some.injEq] at h
      subst h
      exact ⟨false, qualifiers, by simp [skip_typeref_loop],
        by simp [typeref_chain_qualifiers], by simp⟩
  | .imaginary q k, qualifiers, u, h => by
      simp only [typeref_chain_end, Option.some.injEq] at h
      subst h
      exact ⟨false, qualifiers, by simp [skip_typeref_loop],
        by simp [typeref_chain_qualifiers], by simp⟩
  | .compound_struct q k, qualifiers, u, h => by
      simp only [typeref_chain_end, Option.some.injEq] at h
      subst h
      exact ⟨false, qualifiers, by simp [skip_typeref_loop],
        by simp [typeref_chain_qualifiers], by simp⟩
  | .compound_union q k, qualifiers, u, h => by
      simp only [typeref_chain_end, Option.some.injEq] at h
      subst h
      exact ⟨false, qualifiers, by simp [skip_typeref_loop],
        by simp [typeref_chain_qualifiers], by simp⟩
  | .enumt q e k, qualifiers, u, h => by
      simp only [typeref_chain_end, Option.some.injEq] at h
      subst h
      exact ⟨false, qualifiers, by simp [skip_typeref_loop],
        by simp [typeref_chain_qualifiers], by simp⟩
  | .function q r p v us k l c m, qualifiers, u, h => by
      simp only [typeref_chain_end, Option.some.injEq] at h
      subst h
      exact ⟨false, qualifiers, by simp [skip_typeref_loop],
        by simp [typeref_chain_qualifiers], by simp⟩
  | .pointer q p b, qualifiers, u, h => by
      simp only [typeref_chain_end, Option.some.injEq] at h
      subst h
      exact ⟨false, qualifiers, by simp [skip_typeref_loop],
        by simp [typeref_chain_qualifiers], by simp⟩
  | .reference q r, qualifiers, u, h => by
      simp only [typeref_chain_end, Option.some.injEq] at h
      subst h
      exact ⟨false, qualifiers, by simp [skip_typeref_loop],
        by simp [typeref_chain_qualifiers], by simp⟩
  | .array q e s c x v, qualifiers, u, h => by
      simp only [typeref_chain_end, Option.some.injEq] at h
      subst h
      exact ⟨false, qualifiers, by simp [skip_typeref_loop],
        by simp [typeref_chain_qualifiers], by simp⟩
  | .bitfield q b s, qualifiers, u, h => by
      simp only [typeref_chain_end, Option.some.injEq] at h
      subst h
      exact ⟨false, qualifiers, by simp [skip_typeref_loop],
        by simp [typeref_chain_qualifiers], by simp⟩
  | .builtin q s r, qualifiers, u, h => by
      simp only [typeref_chain_end, Option.some.injEq] at h
      subst h
      exact ⟨false, qualifiers, by simp [skip_typeref_loop],
        by simp [typeref_chain_qualifiers], by simp⟩

theorem skip_typeref_loop_not_typeref : ∀ (type : type_t) (qualifiers : Nat) (returned : Bool)
    (u : type_t) (q' : Nat), typeref_cache_resolved type = true →
    skip_typeref_loop type qualifiers = some (returned, u, q') → is_typeref u = false
  | .typedeft q _ _ (.ptr resolved), qualifiers, returned, u, q', hc, h => by
      simp only [skip_typeref_loop, Option.some.injEq, Prod.mk.injEq] at h
      simp only [typeref_cache_resolved, Bool.not_eq_true'] at hc
      rw [← h.2.1]; exact hc
  | .typedeft q t _ .null, qualifiers, returned, u, q', hc, h => by
      simp only [skip_typeref_loop] at h
      simp only [typeref_cache_resolved] at hc
      exact skip_typeref_loop_not_typeref t _ returned u q' hc h
  | .typeoft q (.ptr t) _, qualifiers, returned, u, q', hc, h => by
      simp only [skip_typeref_loop] at h
      simp only [typeref_cache_resolved] at hc
      exact skip_typeref_loop_not_typeref t _ returned u q' hc h
  | .typeoft _ .null _, _, _, _, _, _, h => by simp [skip_typeref_loop] at h
  | .error q, qualifiers, returned, u, q', _, h => by
      simp only [skip_typeref_loop, Option.some.injEq, Prod.mk.injEq] at h
      rw [← h.2.1]; rfl
  | .invalid q, qualifiers, returned, u, q', _, h => by
      simp only [skip_typeref_loop, Option.some.injEq, Prod.mk.injEq] at h
      rw [← h.2.1]; rfl
  | .atomic q k, qualifiers, returned, u, q', _, h => by
      simp only [skip_typeref_loop, Option.some.injEq, Prod.mk.injEq] at h
      rw [← h.2.1]; rfl
  | .complex q k, qualifiers, returned, u, q', _, h => by
      simp only [skip_typeref_loop, Option.some.injEq, Prod.mk.injEq] at h
      rw [← h.2.1]; rfl
  | .imaginary q k, qualifiers, returned, u, q', _, h => by
      simp only [skip_typeref_loop, Option.some.injEq, Prod.mk.injEq] at h
      rw [← h.2.1]; rfl
  | .compound_struct q k, qualifiers, returned, u, q', _, h => by
      simp only [skip_typeref_loop, Option.some.injEq, Prod.mk.injEq] at h
      rw [← h.2.1]; rfl
  | .compound_union q k, qualifiers, returned, u, q', _, h => by
      simp only [skip_typeref_loop, Option.some.injEq, Prod.mk.injEq] at h
      rw [← h.2.1]; rfl
  | .enumt q e k, qualifiers, returned, u, q', _, h => by
      simp only [skip_typeref_loop, Option.some.injEq, Prod.mk.injEq] at h
      rw [← h.2.1]; rfl
  | .function q r p v us k l c m, qualifiers, returned, u, q', _, h => by
      simp only [skip_typeref_loop, Option.some.injEq, Prod.mk.injEq] at h
      rw [← h.2.1]; rfl
  | .pointer q p b, qualifiers, returned, u, q', _, h => by
      simp only [skip_typeref_loop, Option.some.injEq, Prod.mk.injEq] at h
      rw [← h.2.1]; rfl
  | .reference q r, qualifiers, returned, u, q', _, h => by
      simp only [skip_typeref_loop, Option.some.injEq, Prod.mk.injEq] at h
      rw [← h.2.1]; rfl
  | .array q e s c x v, qualifiers, returned, u, q', _, h => by
      simp only [skip_typeref_loop, Option.some.injEq, Prod.mk.injEq] at h
      rw [← h.2.1]; rfl
  | .bitfield q b s, qualifiers, returned, u, q', _, h => by
      simp only [skip_typeref_loop, Option.some.injEq, Prod.mk.injEq] at h
      rw [← h.2.1]; rfl
  | .builtin q s r, qualifiers, returned, u, q', _, h => by
      simp only [skip_typeref_loop, Option.some.injEq, Prod.mk.injEq] at h
      rw [← h.2.1]; rfl

theorem set_qualifiers_kind (q : Nat) (type : type_t) : (type.set_qualifiers q).kind = type.kind := by
  cases type <;> rfl

theorem set_qualifiers_qualifiers (q : Nat) (type : type_t) :
    (type.set_qualifiers q).qualifiers = q := by
  cases type <;> rfl

theorem set_qualifiers_self (type : type_t) : type.set_qualifiers type.qualifiers = type := by
  cases type <;> rfl

theorem skip_typeref_qualify_not_typeref (type : type_t) (qualifiers : Nat) (r : type_t)
    (hu : is_typeref type = false) (h : skip_typeref_qualify type qualifiers = some r) :
    is_typeref r = false := by
  unfold skip_typeref_qualify duplicate_type at h
  by_cases hk : get_type_struct_size_known type.kind = true
  · simp only [hk, if_true] at h
    cases type with
    | array q e s c x v =>
      simp only [] at h
      cases hd : (if get_type_struct_size_known e.kind = true then some e else none) with
      | none => rw [hd] at h; cases h
      | some el =>
        rw [hd] at h
        simp only [Option.some.injEq] at h
        rw [← h]; rfl
    | _ =>
      simp only [Option.some.injEq] at h
      rw [← h]
      simp only [is_typeref, set_qualifiers_kind] at hu ⊢
      exact hu
  · simp [hk] at h

theorem skip_typeref_of_not_typeref (type : type_t) (h : is_typeref type = false) :
    skip_typeref type = some type := by
  cases type <;> first | rfl | (simp [is_typeref, type_t.kind] at h)

theorem skip_typeref_not_typeref (type r : type_t) (hc : typeref_cache_resolved type = true)
    (h : skip_typeref type = some r) : is_typeref r = false := by
  unfold skip_typeref at h
  cases hl : skip_typeref_loop type TYPE_QUALIFIER_NONE with
  | none => rw [hl] at h; cases h
  | some res =>
    obtain ⟨returned, u, q'⟩ := res
    have hu := skip_typeref_loop_not_typeref type _ returned u q' hc hl
    rw [hl] at h
    cases returned
    · simp only [] at h
      by_cases hq : q' = TYPE_QUALIFIER_NONE
      · simp only [hq, ne_eq, not_true_eq_false, if_false, Option.some.injEq] at h
        rw [← h]; exact hu
      · simp only [ne_eq, hq, not_false_eq_true, if_true] at h
        exact skip_typeref_qualify_not_typeref u q' r hu h
    · simp only [Option.some.injEq] at h
      rw [← h]; exact hu

theorem add_chain_qualifiers_none (u : type_t) :
    add_chain_qualifiers u TYPE_QUALIFIER_NONE = u := by
  cases u <;> simp only [add_chain_qualifiers, TYPE_QUALIFIER_NONE, Nat.or_zero, set_qualifiers_self]

theorem skip_typeref_qualify_eq (u : type_t) (qualifiers : Nat) (hk : clone_possible u = true)
    (hr : u.kind ≠ .TYPE_REFERENCE) (hi : u.kind ≠ .TYPE_INVALID) (he : u.kind ≠ .TYPE_ERROR) :
    skip_typeref_qualify u qualifiers = some (add_chain_qualifiers u qualifiers) := by
  cases u <;> simp_all [skip_typeref_qualify, duplicate_type, clone_possible,
    add_chain_qualifiers, type_t.kind, get_type_struct_size_known]

/-- Where `duplicate_type` can copy the end `u` of the chain, `skip_typeref`
returns `u` with the qualifiers of the chain added. -/
theorem skip_typeref_chain (type u : type_t) (hend : typeref_chain_end type = some u)
    (he : u.kind ≠ .TYPE_ERROR) (hi : u.kind ≠ .TYPE_INVALID)
    (hr : u.kind ≠ .TYPE_REFERENCE) (hk : clone_possible u = true) :
    skip_typeref type = some (add_chain_qualifiers u (typeref_chain_qualifiers type)) := by
  obtain ⟨returned, q', h1, h2, h3⟩ := skip_typeref_loop_end type TYPE_QUALIFIER_NONE u hend
  cases returned with
  | true => exact absurd (h3 rfl) he
  | false =>
    have hq := h2 rfl
    simp only [TYPE_QUALIFIER_NONE, Nat.zero_or] at hq
    subst hq
    unfold skip_typeref
    rw [h1]
    simp only []
    by_cases hz : typeref_chain_qualifiers type = TYPE_QUALIFIER_NONE
    · rw [hz, add_chain_qualifiers_none]; simp
    · simp only [ne_eq, hz, not_false_eq_true, if_true]
      exact skip_typeref_qualify_eq u _ hk hr hi he

/-- Claim C7: for a type whose chain of typerefs ends in a resolved type
(the resolved-type cache, where set, holds no typeref), every result of
`skip_typeref` is neither a Typedef nor a Typeof and is a fixed point of
`skip_typeref`; applying `skip_typeref` twice is the same as applying it
once; and a result is returned whenever the chain has an end that
`duplicate_type` can copy. -/
theorem skip_typeref_idempotent (type : type_t) (hc : typeref_cache_resolved type = true) :
    (∀ r, skip_typeref type = some r →
      r.kind ≠ .TYPE_TYPEDEF ∧ r.kind ≠ .TYPE_TYPEOF ∧ skip_typeref r = some r) ∧
    ((skip_typeref type).bind skip_typeref = skip_typeref type) ∧
    (∀ u, typeref_chain_end type = some u → u.kind ≠ .TYPE_INVALID →
      u.kind ≠ .TYPE_REFERENCE → clone_possible u = true → ∃ r, skip_typeref type = some r) := by
  have h1 : ∀ r, skip_typeref type = some r →
      r.kind ≠ .TYPE_TYPEDEF ∧ r.kind ≠ .TYPE_TYPEOF ∧ skip_typeref r = some r := by
    intro r hr
    have hn := skip_typeref_not_typeref type r hc hr
    refine ⟨?_, ?_, skip_typeref_of_not_typeref r hn⟩
    · intro hk; simp [is_typeref, hk] at hn
    · intro hk; simp [is_typeref, hk] at hn
  refine ⟨h1, ?_, ?_⟩
  · cases hs : skip_typeref type with
    | none => rfl
    | some r => exact (h1 r hs).2.2
  · intro u hend hi hr hk
    by_cases he : u.kind = .TYPE_ERROR
    · obtain ⟨returned, q', hl, h2, _⟩ := skip_typeref_loop_end type TYPE_QUALIFIER_NONE u hend
      have hcl : get_type_struct_size_known u.kind = true := by
        cases u <;> simp_all [clone_possible, type_t.kind]
      rw [he] at hcl
      exact absurd hcl (by decide)
    · exact ⟨_, skip_typeref_chain type u hend he hi hr hk⟩

/-- Witness of C7 on `const T` with `typedef typeof(volatile int[3]) T`. -/
theorem skip_typeref_idempotent_witness :
    typeref_cache_resolved example_typedef_array = true ∧
    ((∀ r, skip_typeref example_typedef_array = some r →
      r.kind ≠ .TYPE_TYPEDEF ∧ r.kind ≠ .TYPE_TYPEOF ∧ skip_typeref r = some r) ∧
    ((skip_typeref example_typedef_array).bind skip_typeref =
      skip_typeref example_typedef_array) ∧
    (∀ u, typeref_chain_end example_typedef_array = some u → u.kind ≠ .TYPE_INVALID →
      u.kind ≠ .TYPE_REFERENCE → clone_possible u = true →
      ∃ r, skip_typeref example_typedef_array = some r)) :=
  ⟨by decide, skip_typeref_idempotent example_typedef_array (by decide)⟩

/-- Claim C8 at the failing input `const R` with `typedef int &R`: the chain
ends in the reference type, a type that is neither a typeref nor the error
type, and carries `const`; the claim asks for the reference type with
`const` added, but `skip_typeref` fails in `duplicate_type`, whose size
table has no entry for `TYPE_REFERENCE`. -/
theorem skip_typeref_reference_fails :
    typeref_chain_end example_typedef_reference = some (.reference 0 example_int) ∧
    typeref_chain_qualifiers example_typedef_reference = TYPE_QUALIFIER_CONST ∧
    is_typeref (.reference 0 example_int) = false ∧
    (type_t.reference 0 example_int).kind ≠ .TYPE_ERROR ∧
    skip_typeref example_typedef_reference = none := by
  decide

/-! ## types_compatible -/

theorem function_parameters_compatible_symm (tc : type_t → type_t → Option Bool)
    (h : ∀ x y, tc x y = tc y x) :
    ∀ p1 p2 : function_parameter_t,
      function_parameters_compatible tc p1 p2 = function_parameters_compatible tc p2 p1
  | .null, .null => rfl
  | .null, .param _ _ => rfl
  | .param _ _, .null => rfl
  | .param t1 n1, .param t2 n2 => by
      have ih := function_parameters_compatible_symm tc h n1 n2
      simp only [function_parameters_compatible]
      cases h1 : skip_typeref t1 <;> cases h2 : skip_typeref t2 <;> simp only []
      rename_i p1 p2
      cases h3 : get_unqualified_type p1 <;> cases h4 : get_unqualified_type p2 <;> simp only []
      rename_i u1 u2
      rw [h u2 u1, ih]

theorem function_types_compatible_symm (cfg : config_t) (tc : type_t → type_t → Option Bool)
    (h : ∀ x y, tc x y = tc y x) (f1 f2 : type_t) :
    function_types_compatible cfg tc f1 f2 = function_types_compatible cfg tc f2 f1 := by
  cases f1 <;> cases f2 <;> simp only [function_types_compatible]
  rename_i q1 r1 p1 v1 u1 k1 l1 c1 m1 q2 r2 p2 v2 u2 k2 l2 c2 m2
  cases h1 : skip_typeref r1 <;> cases h2 : skip_typeref r2 <;> simp only []
  rename_i a b
  rw [h b a, function_parameters_compatible_symm tc h p2 p1]
  cases tc a b with
  | none => rfl
  | some v =>
    cases v
    · rfl
    · simp only []
      by_cases hl : l1 = l2
      · subst hl
        by_cases hv : v1 = v2
        · subst hv
          simp only [ne_eq, not_true_eq_false, if_false]
          by_cases hc : (if c1 = cc_kind_t.CC_DEFAULT then cfg.default_calling_convention else c1)
              = (if c2 = cc_kind_t.CC_DEFAULT then cfg.default_calling_convention else c2)
          · simp only [hc, not_true_eq_false, if_false, Bool.or_comm]
          · have hc' := Ne.symm hc
            simp only [hc, hc', not_false_eq_true, if_true]
        · have hv' := Ne.symm hv
          simp only [ne_eq, not_true_eq_false, if_false, hv, hv', not_false_eq_true, if_true, ite_self]
      · have hl' := Ne.symm hl
        simp only [ne_eq, hl, hl', not_false_eq_true, if_true]

theorem array_types_compatible_symm (tc : type_t → type_t → Option Bool)
    (h : ∀ x y, tc x y = tc y x) (a1 a2 : type_t) :
    array_types_compatible tc a1 a2 = array_types_compatible tc a2 a1 := by
  cases a1 <;> cases a2 <;> simp only [array_types_compatible]
  rename_i q1 e1 s1 c1 x1 v1 q2 e2 s2 c2 x2 v2
  cases h1 : skip_typeref e1 <;> cases h2 : skip_typeref e2 <;> simp only []
  rename_i a b
  rw [h b a]
  cases tc a b with
  | none => rfl
  | some v =>
    cases v
    · rfl
    · simp only [Bool.or_comm (!c1) (!c2)]
      by_cases hs : s1 = s2
      · subst hs; rfl
      · have hs' := Ne.symm hs
        have hb : (s1 == s2) = false := by simpa using hs
        have hb' : (s2 == s1) = false := by simpa using hs'
        rw [hb, hb']

theorem beq_symm {α : Type} [DecidableEq α] (a b : α) : (a == b) = (b == a) := by
  by_cases h : a = b
  · subst h; rfl
  · have h' := Ne.symm h
    have hb : (a == b) = false := by simpa using h
    have hb' : (b == a) = false := by simpa using h'
    rw [hb, hb']

/-- Claim C9: `types_compatible` is symmetric.  For every bound on the
recursion depth and all types the two calls agree, in the verdict and in
being defined; the recursive function, array, pointer and reference cases
are covered. -/
theorem types_compatible_symmetric (cfg : config_t) (fuel : Nat) :
    ∀ (type1 type2 : type_t),
      types_compatible cfg fuel type1 type2 = types_compatible cfg fuel type2 type1 := by
  induction fuel with
  | zero => intro type1 type2; rfl
  | succ fuel ih =>
      intro type1 type2
      simp only [types_compatible]
      rw [Bool.or_comm (is_typeref type1)]
      by_cases hr : (is_typeref type2 || is_typeref type1) = true
      · simp only [hr, if_true]
      · simp only [hr, Bool.false_eq_true, if_false]
        by_cases he : type1 = type2
        · subst he; rfl
        · have he' := Ne.symm he
          simp only [he, he', if_false]
          rw [Bool.or_comm (!is_type_valid type1)]
          by_cases hv : (!is_type_valid type2 || !is_type_valid type1) = true
          · simp only [hv, if_true]
          · simp only [hv, Bool.false_eq_true, if_false]
            by_cases hq : type1.qualifiers = type2.qualifiers
            · by_cases hk : type1.kind = type2.kind
              · simp only [ne_eq, hq, hk, not_true_eq_false, if_false]
                cases type1 <;> cases type2 <;> simp only [type_t.kind] at hk <;>
                  first
                  | rfl
                  | exact absurd hk (by decide)
                  | exact function_types_compatible_symm cfg _ ih _ _
                  | exact array_types_compatible_symm _ ih _ _
                  | (dsimp only; rw [beq_symm])
                  | (dsimp only
                     cases skip_typeref _ <;> cases skip_typeref _ <;> simp only [ih])
              · have hk' := Ne.symm hk
                simp only [ne_eq, hq, hk, hk', not_true_eq_false, not_false_eq_true, if_false, if_true]
            · have hq' := Ne.symm hq
              simp only [ne_eq, hq, hq', not_false_eq_true, if_true]

theorem types_compatible_self (cfg : config_t) (fuel : Nat) (type : type_t) (r : Bool)
    (h : types_compatible cfg fuel type type = some r) : r = true := by
  cases fuel with
  | zero => simp [types_compatible] at h
  | succ n =>
    simp only [types_compatible] at h
    by_cases hr : (is_typeref type || is_typeref type) = true
    · rw [if_pos hr] at h
      cases h
    · rw [if_neg hr] at h
      simp only [if_true] at h
      exact (Option.some.inj h).symm

theorem function_parameters_compatible_iff (tc : type_t → type_t → Option Bool) :
    ∀ p1 p2 : function_parameter_t,
      (function_parameters_compatible tc p1 p2 = some true ↔
        parameters_pairwise_compatible tc p1 p2)
  | .null, .null => by simp [function_parameters_compatible, parameters_pairwise_compatible]
  | .null, .param _ _ => by
      simp [function_parameters_compatible, parameters_pairwise_compatible]
  | .param _ _, .null => by
      simp [function_parameters_compatible, parameters_pairwise_compatible]
  | .param t1 n1, .param t2 n2 => by
      have ih := function_parameters_compatible_iff tc n1 n2
      simp only [function_parameters_compatible, parameters_pairwise_compatible,
        parameter_pair_compatible]
      cases h1 : skip_typeref t1 with
      | none => simp
      | some a =>
        cases h2 : skip_typeref t2 with
        | none => simp
        | some b =>
          simp only []
          cases h3 : get_unqualified_type a with
          | none => simp [h3]
          | some ua =>
            cases h4 : get_unqualified_type b with
            | none => simp [h3, h4]
            | some ub =>
              simp only []
              cases h5 : tc ua ub with
              | none => simp [h3, h4, h5]
              | some v =>
                cases v
                · simp [h3, h4, h5]
                · simp [h3, h4, h5, ih]

theorem function_parameters_compatible_defined (tc : type_t → type_t → Option Bool) :
    ∀ p1 p2 : function_parameter_t, parameters_checked tc p1 p2 →
      ∃ r, function_parameters_compatible tc p1 p2 = some r
  | .null, .null => fun _ => ⟨true, rfl⟩
  | .null, .param _ _ => fun _ => ⟨false, rfl⟩
  | .param _ _, .null => fun _ => ⟨false, rfl⟩
  | .param t1 n1, .param t2 n2 => by
      intro h
      obtain ⟨⟨a, b, ua, ub, r, h1, h2, h3, h4, h5⟩, hrest⟩ := h
      have ih := function_parameters_compatible_defined tc n1 n2 hrest
      simp only [function_parameters_compatible, h1, h2, h3, h4, h5]
      cases r
      · exact ⟨false, rfl⟩
      · exact ih

theorem parameters_pairwise_compatible_self (tc : type_t → type_t → Option Bool)
    (hself : ∀ t r, tc t t = some r → r = true) :
    ∀ p : function_parameter_t, parameters_checked tc p p →
      parameters_pairwise_compatible tc p p
  | .null => fun _ => trivial
  | .param t n => by
      intro h
      obtain ⟨⟨a, b, ua, ub, r, h1, h2, h3, h4, h5⟩, hrest⟩ := h
      have hab : a = b := Option.some.inj (h1.symm.trans h2)
      subst hab
      have hu : ua = ub := Option.some.inj (h3.symm.trans h4)
      subst hu
      have hr := hself ua r h5
      subst hr
      exact ⟨⟨a, a, ua, ua, h1, h2, h3, h4, h5⟩,
        parameters_pairwise_compatible_self tc hself n hrest⟩

/-- Claim C10: for two function types with equal qualifier sets whose return
types and parameter types can be checked, `types_compatible` returns a
verdict, and the verdict is `true` exactly when the return types are
compatible after `skip_typeref`, the linkages are equal, the calling
conventions are equal after the default one is replaced by
`default_calling_convention`, the variadic flags are equal, and one side
has unspecified non-K&R parameters or the parameter lists have the same
length and are pairwise compatible after `skip_typeref` and the removal of
the top-level qualifiers. -/
theorem function_types_compatible_characterisation (cfg : config_t) (fuel : Nat) (qualifiers : Nat)
    (return_type1 return_type2 : type_t) (parameters1 parameters2 : function_parameter_t)
    (variadic1 variadic2 unspecified1 unspecified2 kr_style1 kr_style2 : Bool)
    (linkage1 linkage2 : linkage_kind_t) (cc1 cc2 : cc_kind_t) (modifiers1 modifiers2 : Nat)
    (ret1 ret2 : type_t) (ret_compatible : Bool)
    (hret1 : skip_typeref return_type1 = some ret1)
    (hret2 : skip_typeref return_type2 = some ret2)
    (hret : types_compatible cfg fuel ret1 ret2 = some ret_compatible)
    (hparams : parameters_checked (types_compatible cfg fuel) parameters1 parameters2) :
    (∃ r, types_compatible cfg (fuel + 1)
        (.function qualifiers return_type1 parameters1 variadic1 unspecified1 kr_style1
          linkage1 cc1 modifiers1)
        (.function qualifiers return_type2 parameters2 variadic2 unspecified2 kr_style2
          linkage2 cc2 modifiers2) = some r) ∧
    (types_compatible cfg (fuel + 1)
        (.function qualifiers return_type1 parameters1 variadic1 unspecified1 kr_style1
          linkage1 cc1 modifiers1)
        (.function qualifiers return_type2 parameters2 variadic2 unspecified2 kr_style2
          linkage2 cc2 modifiers2) = some true ↔
      (ret_compatible = true ∧ linkage1 = linkage2 ∧
        effective_calling_convention cfg cc1 = effective_calling_convention cfg cc2 ∧
        variadic1 = variadic2 ∧
        ((unspecified1 = true ∧ kr_style1 = false) ∨ (unspecified2 = true ∧ kr_style2 = false) ∨
          parameters_pairwise_compatible (types_compatible cfg fuel) parameters1 parameters2))) := by
  have hpd := function_parameters_compatible_defined _ parameters1 parameters2 hparams
  have hpi := function_parameters_compatible_iff (types_compatible cfg fuel) parameters1 parameters2
  simp only [types_compatible, is_typeref, is_type_valid, type_t.kind, type_t.qualifiers]
  by_cases he : type_t.function qualifiers return_type1 parameters1 variadic1 unspecified1
      kr_style1 linkage1 cc1 modifiers1 =
    type_t.function qualifiers return_type2 parameters2 variadic2 unspecified2 kr_style2
      linkage2 cc2 modifiers2
  · simp only [he]
    injection he with _ h1 h2 h3 h4 h5 h6 h7 h8
    subst h1 h2 h3 h4 h5 h6 h7
    have hab : ret1 = ret2 := Option.some.inj (hret1.symm.trans hret2)
    subst hab
    have hrc := types_compatible_self cfg fuel ret1 ret_compatible hret
    have hpp := parameters_pairwise_compatible_self (types_compatible cfg fuel)
      (types_compatible_self cfg fuel) parameters1 hparams
    simp [hrc, hpp]
  · simp only [he]
    simp only [function_types_compatible, hret1, hret2, hret, effective_calling_convention]
    obtain ⟨pr, hpr⟩ := hpd
    cases ret_compatible
    · simp
    · by_cases hl : linkage1 = linkage2
      · by_cases hc : (if cc1 = cc_kind_t.CC_DEFAULT then cfg.default_calling_convention else cc1)
            = (if cc2 = cc_kind_t.CC_DEFAULT then cfg.default_calling_convention else cc2)
        · by_cases hv : variadic1 = variadic2
          · by_cases hu : (unspecified1 && !kr_style1 || unspecified2 && !kr_style2) = true
            · have hu' := hu
              simp only [Bool.or_eq_true, Bool.and_eq_true, Bool.not_eq_true'] at hu'
              simp [hl, hc, hv, hu]
              rcases hu' with h | h
              · exact Or.inl h
              · exact Or.inr (Or.inl h)
            · have hu' := hu
              simp only [Bool.or_eq_true, Bool.and_eq_true, Bool.not_eq_true', not_or] at hu'
              simp [hl, hc, hv, hu, hpr, ← hpi, hu'.1, hu'.2]
          · simp [hl, hc, hv]
        · simp [hl, hc]
      · simp [hl]

/-- Witness of C10: `int f(const int)` is compatible with `int f(int)`. -/
theorem function_types_compatible_witness :
    skip_typeref example_int = some example_int ∧
    types_compatible example_config 1 example_int example_int = some true ∧
    parameters_checked (types_compatible example_config 1)
      (.param example_const_int .null) (.param example_int .null) ∧
    types_compatible example_config 2
      (.function 0 example_int (.param example_const_int .null) false false false
        .LINKAGE_C .CC_DEFAULT 0)
      (.function 0 example_int (.param example_int .null) false false false
        .LINKAGE_C .CC_CDECL 0) = some true :=
  have hp : parameters_checked (types_compatible example_config 1)
      (.param example_const_int .null) (.param example_int .null) :=
    ⟨⟨example_const_int, example_int, example_int, example_int, true,
      by decide, by decide, by decide, by decide, by decide⟩, trivial⟩
  ⟨by decide, by decide, hp,
    ((function_types_compatible_characterisation example_config 1 0 example_int example_int
      (.param example_const_int .null) (.param example_int .null) false false false false
      false false .LINKAGE_C .LINKAGE_C .CC_DEFAULT .CC_CDECL 0 0 example_int example_int true
      (by decide) (by decide) (by decide) hp).2).mpr
      ⟨rfl, rfl, by decide, rfl, Or.inr (Or.inr
        ⟨⟨example_const_int, example_int, example_int, example_int,
          by decide, by decide, by decide, by decide, by decide⟩, trivial⟩)⟩⟩

/-! ## get_qualified_type -/

theorem or_and_self_right (a q : Nat) : (a ||| q) &&& q = q := by
  apply Nat.eq_of_testBit_eq
  intro i
  simp only [Nat.testBit_and, Nat.testBit_or]
  cases a.testBit i <;> cases q.testBit i <;> rfl

theorem get_qualified_type_same :
    ∀ (depth : Nat) (type : type_t) (qual : Nat),
      qualifiers_carried depth type qual = true →
      get_qualified_type depth type qual = some type := by
  intro depth
  induction depth with
  | zero => intro type qual h; simp [qualifiers_carried] at h
  | succ n ih =>
    intro type qual h
    unfold qualifiers_carried at h
    unfold get_qualified_type
    cases hs : skip_typeref type with
    | none => simp [hs] at h
    | some r =>
      rw [hs] at h
      cases r with
      | array aq e s c x v =>
        simp only [] at h
        simp only [is_type_array, type_t.kind, decide_True, if_true, ih e qual h]
      | _ =>
        simp only [Bool.and_eq_true, beq_iff_eq] at h
        simp [is_type_array, type_t.kind, h.1, h.2]

theorem qualifiers_carried_none :
    ∀ (depth : Nat) (type : type_t) (qual : Nat),
      qualifiers_carried depth type qual = true →
      qualifiers_carried depth type TYPE_QUALIFIER_NONE = true := by
  intro depth
  induction depth with
  | zero => intro type qual h; simp [qualifiers_carried] at h
  | succ n ih =>
    intro type qual h
    unfold qualifiers_carried at h ⊢
    cases hs : skip_typeref type with
    | none => simp [hs] at h
    | some r =>
      rw [hs] at h
      cases r with
      | array aq e s c x v => exact ih e qual h
      | _ =>
        simp only [Bool.and_eq_true, beq_iff_eq] at h
        simp [h.1, TYPE_QUALIFIER_NONE]

/-- Claim C11, amended: when the resolved type is valid and already carries
every qualifier of `qual` (for an array: its element type does, through
nested arrays), `get_qualified_type` returns the type it was given, typedefs
and typeofs included; such a type is also returned as it is for the empty
qualifier set. -/
theorem get_qualified_type_unchanged (depth : Nat) (type : type_t) (qual : Nat)
    (h : qualifiers_carried depth type qual = true) :
    get_qualified_type depth type qual = some type ∧
    get_qualified_type depth type TYPE_QUALIFIER_NONE = some type :=
  ⟨get_qualified_type_same depth type qual h,
    get_qualified_type_same depth type TYPE_QUALIFIER_NONE
      (qualifiers_carried_none depth type qual h)⟩

/-- Witness of C11, amended: `const T` with `typedef typeof(volatile int[3]) T`
resolves to an array of `const volatile int` and is returned as it is for
`const`. -/
theorem get_qualified_type_unchanged_witness :
    qualifiers_carried 2 example_typedef_array TYPE_QUALIFIER_CONST = true ∧
    get_qualified_type 2 example_typedef_array TYPE_QUALIFIER_CONST =
      some example_typedef_array ∧
    get_qualified_type 2 example_typedef_array TYPE_QUALIFIER_NONE =
      some example_typedef_array :=
  ⟨by decide, get_qualified_type_unchanged 2 example_typedef_array TYPE_QUALIFIER_CONST
    (by decide)⟩

/-- Claim C11 fails on a typedef of the error type: the resolved type is the
error type, which is not valid, and `get_qualified_type` returns the error
type instead of the typedef, also for the empty qualifier set. -/
theorem get_qualified_type_unchanged_counterexample :
    skip_typeref example_typedef_error = some (.error 0) ∧
    (type_t.error 0).qualifiers &&& TYPE_QUALIFIER_NONE = TYPE_QUALIFIER_NONE ∧
    get_qualified_type 1 example_typedef_error TYPE_QUALIFIER_NONE = some (.error 0) ∧
    get_qualified_type 2 example_typedef_error TYPE_QUALIFIER_NONE ≠
      some example_typedef_error := by
  decide


theorem is_type_array_false (r : type_t)
    (h : ∀ aq e s c x v, r ≠ .array aq e s c x v) : is_type_array r = false := by
  cases r with
  | array aq e s c x v => exact absurd rfl (h aq e s c x v)
  | _ => simp [is_type_array, type_t.kind]

theorem qualifiers_carried_plain (depth : Nat) (type r : type_t) (qual : Nat)
    (hs : skip_typeref type = some r) (h : ∀ aq e s c x v, r ≠ .array aq e s c x v) :
    qualifiers_carried (depth + 1) type qual =
      (is_type_valid r && (r.qualifiers &&& qual == qual)) := by
  unfold qualifiers_carried
  rw [hs]
  cases r with
  | array aq e s c x v => exact absurd rfl (h aq e s c x v)
  | _ => rfl

theorem array_qualifiable_plain (depth : Nat) (type r : type_t)
    (hs : skip_typeref type = some r) (h : ∀ aq e s c x v, r ≠ .array aq e s c x v) :
    array_qualifiable (depth + 1) type =
      (is_type_valid r && !is_typeref r && get_type_struct_size_known r.kind) := by
  unfold array_qualifiable
  rw [hs]
  cases r with
  | array aq e s c x v => exact absurd rfl (h aq e s c x v)
  | _ => rfl

theorem get_qualified_type_carried :
    ∀ (depth : Nat) (type : type_t) (qual : Nat),
      array_qualifiable depth type = true →
      ∃ r, get_qualified_type depth type qual = some r ∧
        qualifiers_carried depth r qual = true := by
  intro depth
  induction depth with
  | zero => intro type qual h; simp [array_qualifiable] at h
  | succ n ih =>
    intro type qual h
    cases hs : skip_typeref type with
    | none => simp [array_qualifiable, hs] at h
    | some r0 =>
      by_cases harr : ∃ aq e s c x v, r0 = .array aq e s c x v
      · obtain ⟨aq, e, s, c, x, v, hr0⟩ := harr
        subst hr0
        unfold array_qualifiable at h
        rw [hs] at h
        simp only [] at h
        obtain ⟨qe, hqe, hcar⟩ := ih e qual h
        unfold get_qualified_type
        simp only [hs, is_type_array, type_t.kind, decide_True, if_true, hqe]
        by_cases heq : qe = e
        · refine ⟨type, by simp [heq], ?_⟩
          unfold qualifiers_carried
          simp only [hs]
          rw [← heq]; exact hcar
        · refine ⟨.array aq qe s c x v, by simp [heq, duplicate_type, type_t.kind,
            get_type_struct_size_known], ?_⟩
          unfold qualifiers_carried
          rw [skip_typeref_of_not_typeref _ (by rfl)]
          exact hcar
      · have hne : ∀ aq e s c x v, r0 ≠ .array aq e s c x v :=
          fun aq e s c x v h => harr ⟨aq, e, s, c, x, v, h⟩
        have hna := is_type_array_false r0 hne
        rw [array_qualifiable_plain n type r0 hs hne] at h
        simp only [Bool.and_eq_true, Bool.not_eq_true'] at h
        obtain ⟨⟨hv, hnt⟩, hk⟩ := h
        unfold get_qualified_type
        simp only [hs, hna, Bool.false_eq_true, if_false, hv, if_true]
        by_cases hq : r0.qualifiers &&& qual = qual
        · refine ⟨type, by simp [hq], ?_⟩
          rw [qualifiers_carried_plain n type r0 qual hs hne]
          simp [hv, hq]
        · refine ⟨r0.set_qualifiers (r0.qualifiers ||| qual), by simp [hq, duplicate_type, hk],
            ?_⟩
          have hnt' : is_typeref (r0.set_qualifiers (r0.qualifiers ||| qual)) = false := by
            unfold is_typeref at hnt ⊢
            rw [set_qualifiers_kind]; exact hnt
          have hv' : is_type_valid (r0.set_qualifiers (r0.qualifiers ||| qual)) = true := by
            unfold is_type_valid at hv ⊢
            rw [set_qualifiers_kind]; exact hv
          have hne' : ∀ aq e s c x v,
              r0.set_qualifiers (r0.qualifiers ||| qual) ≠ .array aq e s c x v := by
            intro aq e s c x v h
            have hk' := congrArg type_t.kind h
            rw [set_qualifiers_kind] at hk'
            cases r0 <;> first | exact hne _ _ _ _ _ _ rfl | cases hk'
          rw [qualifiers_carried_plain n _ _ qual (skip_typeref_of_not_typeref _ hnt') hne']
          simp [hv', set_qualifiers_qualifiers, or_and_self_right]

/-- Claim C12, amended: for a type that resolves to an array whose element
types resolve, through nested arrays, down to a valid innermost element type,
`get_qualified_type` returns a type that resolves to an array with the
qualifier set and size of the resolved array and with the element type
`get_qualified_type(element, qual)`; in the result every array level is left
as it was and the innermost element type carries `qual`. -/
theorem get_qualified_type_array (depth : Nat) (type : type_t) (qual aq : Nat)
    (element_type : type_t) (size : Nat) (size_constant : Bool) (size_expression : Option Nat)
    (is_vla : Bool)
    (harray : skip_typeref type =
      some (.array aq element_type size size_constant size_expression is_vla))
    (helement : array_qualifiable depth element_type = true) :
    ∃ result qual_element_type,
      get_qualified_type (depth + 1) type qual = some result ∧
      get_qualified_type depth element_type qual = some qual_element_type ∧
      skip_typeref result =
        some (.array aq qual_element_type size size_constant size_expression is_vla) ∧
      qualifiers_carried depth qual_element_type qual = true ∧
      qualifiers_carried (depth + 1) result qual = true := by
  obtain ⟨qe, hqe, hcar⟩ := get_qualified_type_carried depth element_type qual helement
  rw [get_qualified_type]
  simp only [harray, is_type_array, type_t.kind, decide_True, if_true, hqe]
  by_cases heq : qe = element_type
  · refine ⟨type, qe, by simp [heq], rfl, by rw [harray, heq], hcar, ?_⟩
    unfold qualifiers_carried
    simp only [harray]
    rw [← heq]; exact hcar
  · refine ⟨.array aq qe size size_constant size_expression is_vla, qe,
      by simp [heq, duplicate_type, type_t.kind, get_type_struct_size_known], rfl,
      skip_typeref_of_not_typeref _ (by rfl), hcar, ?_⟩
    unfold qualifiers_carried
    rw [skip_typeref_of_not_typeref _ (by rfl)]
    exact hcar

/-- Witness of C12, amended: `A` with `typedef int A[2][3]` and `const` gives
the array of 2 arrays of 3 `const int`. -/
theorem get_qualified_type_array_witness :
    skip_typeref example_typedef_matrix =
      some (.array TYPE_QUALIFIER_NONE example_int_array 2 true none false) ∧
    array_qualifiable 2 example_int_array = true ∧
    get_qualified_type 3 example_typedef_matrix TYPE_QUALIFIER_CONST =
      some (.array TYPE_QUALIFIER_NONE
        (.array TYPE_QUALIFIER_NONE example_const_int 3 true none false) 2 true none false) ∧
    ∃ result qual_element_type,
      get_qualified_type 3 example_typedef_matrix TYPE_QUALIFIER_CONST = some result ∧
      get_qualified_type 2 example_int_array TYPE_QUALIFIER_CONST = some qual_element_type ∧
      skip_typeref result =
        some (.array TYPE_QUALIFIER_NONE qual_element_type 2 true none false) ∧
      qualifiers_carried 2 qual_element_type TYPE_QUALIFIER_CONST = true ∧
      qualifiers_carried 3 result TYPE_QUALIFIER_CONST = true :=
  ⟨by decide, by decide, by decide,
    get_qualified_type_array 2 example_typedef_matrix TYPE_QUALIFIER_CONST TYPE_QUALIFIER_NONE
      example_int_array 2 true none false (by decide) (by decide)⟩

/-- Claim C12 fails on an array of the error type: `get_qualified_type`
returns the array as it is, and its innermost element type, the error type,
does not carry `const`. -/
theorem get_qualified_type_array_counterexample :
    get_qualified_type 2 example_error_array TYPE_QUALIFIER_CONST = some example_error_array ∧
    get_qualified_type 1 (.error 0) TYPE_QUALIFIER_CONST = some (.error 0) ∧
    (type_t.error 0).qualifiers &&& TYPE_QUALIFIER_CONST ≠ TYPE_QUALIFIER_CONST ∧
    qualifiers_carried 2 example_error_array TYPE_QUALIFIER_CONST = false := by
  decide

/-! ## The constant classifier -/

theorem is_constant_initializer_succ (cfg : config_t) (env : ast_env_t) (fuel : Nat) (x : initializer_t) :
    is_constant_initializer cfg env (fuel + 1) x =
      is_constant_initializer_step (classifier_calls cfg env fuel) x := rfl

theorem is_constant_initializer_zero (cfg : config_t) (env : ast_env_t) (x : initializer_t) :
    is_constant_initializer cfg env 0 x = none := rfl

theorem calls_is_constant_initializer (cfg : config_t) (env : ast_env_t) (fuel : Nat) (x : initializer_t) :
    (classifier_calls cfg env fuel).is_constant_initializer x = is_constant_initializer cfg env fuel x := rfl

theorem is_constant_initializer_list_succ (cfg : config_t) (env : ast_env_t) (fuel : Nat) (x : initializer_list_t) :
    is_constant_initializer_list cfg env (fuel + 1) x =
      is_constant_initializer_list_step (classifier_calls cfg env fuel) x := rfl

theorem is_constant_initializer_list_zero (cfg : config_t) (env : ast_env_t) (x : initializer_list_t) :
    is_constant_initializer_list cfg env 0 x = none := rfl

theorem calls_is_constant_initializer_list (cfg : config_t) (env : ast_env_t) (fuel : Nat) (x : initializer_list_t) :
    (classifier_calls cfg env fuel).is_constant_initializer_list x = is_constant_initializer_list cfg env fuel x := rfl

theorem is_object_with_linker_constant_address_succ (cfg : config_t) (env : ast_env_t) (fuel : Nat) (x : expression_t) :
    is_object_with_linker_constant_address cfg env (fuel + 1) x =
      is_object_with_linker_constant_address_step (classifier_calls cfg env fuel) x := rfl

theorem is_object_with_linker_constant_address_zero (cfg : config_t) (env : ast_env_t) (x : expression_t) :
    is_object_with_linker_constant_address cfg env 0 x = none := rfl

theorem calls_is_object_with_linker_constant_address (cfg : config_t) (env : ast_env_t) (fuel : Nat) (x : expression_t) :
    (classifier_calls cfg env fuel).is_object_with_linker_constant_address x = is_object_with_linker_constant_address cfg env fuel x := rfl

theorem is_address_constant_succ (cfg : config_t) (env : ast_env_t) (fuel : Nat) (x : expression_t) :
    is_address_constant cfg env (fuel + 1) x =
      is_address_constant_step cfg env (classifier_calls cfg env fuel) x := rfl

theorem is_address_constant_zero (cfg : config_t) (env : ast_env_t) (x : expression_t) :
    is_address_constant cfg env 0 x = none := rfl

theorem calls_is_address_constant (cfg : config_t) (env : ast_env_t) (fuel : Nat) (x : expression_t) :
    (classifier_calls cfg env fuel).is_address_constant x = is_address_constant cfg env fuel x := rfl

theorem is_constant_pointer_succ (cfg : config_t) (env : ast_env_t) (fuel : Nat) (x : expression_t) :
    is_constant_pointer cfg env (fuel + 1) x =
      is_constant_pointer_step (classifier_calls cfg env fuel) x := rfl

theorem is_constant_pointer_zero (cfg : config_t) (env : ast_env_t) (x : expression_t) :
    is_constant_pointer cfg env 0 x = none := rfl

theorem calls_is_constant_pointer (cfg : config_t) (env : ast_env_t) (fuel : Nat) (x : expression_t) :
    (classifier_calls cfg env fuel).is_constant_pointer x = is_constant_pointer cfg env fuel x := rfl

theorem is_object_with_constant_address_succ (cfg : config_t) (env : ast_env_t) (fuel : Nat) (x : expression_t) :
    is_object_with_constant_address cfg env (fuel + 1) x =
      is_object_with_constant_address_step (classifier_calls cfg env fuel) x := rfl

theorem is_object_with_constant_address_zero (cfg : config_t) (env : ast_env_t) (x : expression_t) :
    is_object_with_constant_address cfg env 0 x = none := rfl

theorem calls_is_object_with_constant_address (cfg : config_t) (env : ast_env_t) (fuel : Nat) (x : expression_t) :
    (classifier_calls cfg env fuel).is_object_with_constant_address x = is_object_with_constant_address cfg env fuel x := rfl

theorem is_constant_expression_succ (cfg : config_t) (env : ast_env_t) (fuel : Nat) (x : expression_t) :
    is_constant_expression cfg env (fuel + 1) x =
      is_constant_expression_step cfg env (classifier_calls cfg env fuel) x := rfl

theorem is_constant_expression_zero (cfg : config_t) (env : ast_env_t) (x : expression_t) :
    is_constant_expression cfg env 0 x = none := rfl

theorem calls_is_constant_expression (cfg : config_t) (env : ast_env_t) (fuel : Nat) (x : expression_t) :
    (classifier_calls cfg env fuel).is_constant_expression x = is_constant_expression cfg env fuel x := rfl


/-- Claim C13: `is_constant_expression(l && r)` is false when `l` is not
constant, true when `l` is constant and folds to false, whatever `r` is, and
equal to `is_constant_expression(r)` when `l` is constant and folds to true;
`is_constant_expression(l || r)` is false when `l` is not constant, true when
`l` is constant and folds to true, and equal to `is_constant_expression(r)`
when `l` is constant and folds to false. -/
theorem is_constant_expression_short_circuit (cfg : config_t) (env : ast_env_t) (fuel : Nat)
    (base : expression_base_t) (l r : expression_t) :
    (is_constant_expression cfg env fuel l = some false →
      is_constant_expression cfg env (fuel + 1) (.binary .EXPR_BINARY_LOGICAL_AND base l r)
        = some false) ∧
    (is_constant_expression cfg env fuel l = some true →
      env.fold_constant_to_bool l = false →
      is_constant_expression cfg env (fuel + 1) (.binary .EXPR_BINARY_LOGICAL_AND base l r)
        = some true) ∧
    (is_constant_expression cfg env fuel l = some true →
      env.fold_constant_to_bool l = true →
      is_constant_expression cfg env (fuel + 1) (.binary .EXPR_BINARY_LOGICAL_AND base l r)
        = is_constant_expression cfg env fuel r) ∧
    (is_constant_expression cfg env fuel l = some false →
      is_constant_expression cfg env (fuel + 1) (.binary .EXPR_BINARY_LOGICAL_OR base l r)
        = some false) ∧
    (is_constant_expression cfg env fuel l = some true →
      env.fold_constant_to_bool l = true →
      is_constant_expression cfg env (fuel + 1) (.binary .EXPR_BINARY_LOGICAL_OR base l r)
        = some true) ∧
    (is_constant_expression cfg env fuel l = some true →
      env.fold_constant_to_bool l = false →
      is_constant_expression cfg env (fuel + 1) (.binary .EXPR_BINARY_LOGICAL_OR base l r)
        = is_constant_expression cfg env fuel r) := by
  refine ⟨?_, ?_, ?_, ?_, ?_, ?_⟩
  · intro h
    simp only [is_constant_expression_succ, is_constant_expression_step,
      calls_is_constant_expression, h]
  · intro h hf
    simp only [is_constant_expression_succ, is_constant_expression_step,
      calls_is_constant_expression, h, hf, if_true]
  · intro h hf
    simp only [is_constant_expression_succ, is_constant_expression_step,
      calls_is_constant_expression, h, hf, Bool.true_eq_false, if_false]
  · intro h
    simp only [is_constant_expression_succ, is_constant_expression_step,
      calls_is_constant_expression, h]
  · intro h hf
    simp only [is_constant_expression_succ, is_constant_expression_step,
      calls_is_constant_expression, h, hf, if_true]
  · intro h hf
    simp only [is_constant_expression_succ, is_constant_expression_step,
      calls_is_constant_expression, h, hf, Bool.false_eq_true, if_false]

/-- Witness of C13: `0 && u` with a constant `0` that folds to false and an
operand `u` of kind `EXPR_UNKNOWN`, on which the classifier would panic, is
classified constant; `0 || 0` with `0` folding to false is classified as its
right operand is. -/
theorem is_constant_expression_short_circuit_witness :
    is_constant_expression example_config example_env 1 example_zero = some true ∧
    example_env.fold_constant_to_bool example_zero = false ∧
    is_constant_expression example_config example_env 2
      (.binary .EXPR_BINARY_LOGICAL_AND { type := example_int } example_zero
        (.unknown { type := example_int })) = some true ∧
    is_constant_expression example_config example_env 2
      (.binary .EXPR_BINARY_LOGICAL_OR { type := example_int } example_zero example_zero) =
      is_constant_expression example_config example_env 1 example_zero :=
  ⟨rfl, rfl,
    (is_constant_expression_short_circuit example_config example_env 1
      { type := example_int } example_zero (.unknown { type := example_int })).2.1 rfl rfl,
    (is_constant_expression_short_circuit example_config example_env 1
      { type := example_int } example_zero example_zero).2.2.2.2.2 rfl rfl⟩

/-- Claim C16: for a reference expression `x` to an entity `e`,
`is_address_constant(&x)` is true iff `e` is a declaration whose storage
class is none, extern or static and `e` is not a thread-local variable. -/
theorem is_address_constant_take_address_reference (cfg : config_t) (env : ast_env_t)
    (fuel : Nat) (base base_x : expression_base_t) (e : declaration_t) :
    is_address_constant cfg env (fuel + 2)
        (.unary .EXPR_UNARY_TAKE_ADDRESS base (.reference base_x e)) =
      some (decide (is_declaration e = true ∧
        (e.storage_class = .STORAGE_CLASS_NONE ∨ e.storage_class = .STORAGE_CLASS_EXTERN ∨
          e.storage_class = .STORAGE_CLASS_STATIC) ∧
        ¬ (e.kind = .ENTITY_VARIABLE ∧ e.thread_local = true))) := by
  simp only [is_address_constant_succ, is_address_constant_step,
    calls_is_object_with_linker_constant_address,
    is_object_with_linker_constant_address_succ, is_object_with_linker_constant_address_step]
  cases hd : is_declaration e <;> cases hs : e.storage_class <;>
    cases ht : e.thread_local <;>
    by_cases hk : e.kind = .ENTITY_VARIABLE <;> simp [hk]

theorem type_resolves_skip (cfg : config_t) (type : type_t)
    (h : type_resolves cfg type = true) :
    ∃ r, skip_typeref type = some r ∧ ∃ b, is_type_scalar cfg r = some b := by
  unfold type_resolves at h
  cases hs : skip_typeref type with
  | none => simp [hs] at h
  | some r =>
    rw [hs] at h
    exact ⟨r, rfl, Option.isSome_iff_exists.mp h⟩

theorem well_formed_base (cfg : config_t) (e : expression_t)
    (h : e.well_formed cfg = true) : type_resolves cfg e.base.type = true := by
  cases e <;> simp_all [expression_t.well_formed, expression_t.base]

theorem expression_node_count_pos (e : expression_t) : 1 ≤ e.node_count := by
  cases e <;> simp [expression_t.node_count] <;> omega

set_option maxHeartbeats 2000000 in
theorem is_constant_expression_step_defined (cfg : config_t) (env : ast_env_t)
    (calls : classifier_calls_t) (e : expression_t) (hwf : e.well_formed cfg = true)
    (hc : calls_defined_below cfg calls e.node_count) :
    ∃ b, is_constant_expression_step cfg env calls e = some b := by
  obtain ⟨hce, hci, hcl⟩ := hc
  cases e with
  | unknown b => simp [expression_t.well_formed] at hwf
  | unary kind base value =>
    simp only [expression_t.well_formed, Bool.and_eq_true] at hwf
    obtain ⟨t, ht, bs, hbs⟩ := type_resolves_skip cfg _ hwf.1
    have hv := hce value (by simp only [expression_t.node_count]; omega) hwf.2
    obtain ⟨h1, h2, h3, h4, h5⟩ := hv
    cases kind <;> simp only [is_constant_expression_step, ht, hbs, c_and] <;>
      repeat' (first | exact ⟨_, rfl⟩ | assumption | split | (exfalso; simp_all))
  | binary kind base l r =>
    simp only [expression_t.well_formed, Bool.and_eq_true] at hwf
    obtain ⟨h1, _⟩ := hce l (by simp only [expression_t.node_count]; omega) hwf.1.2
    obtain ⟨h2, _⟩ := hce r (by simp only [expression_t.node_count]; omega) hwf.2
    cases kind <;> simp only [is_constant_expression_step, c_and] <;>
      repeat' (first | exact ⟨_, rfl⟩ | assumption | split | (exfalso; simp_all))
  | conditional base c t f =>
    simp only [expression_t.well_formed, Bool.and_eq_true] at hwf
    obtain ⟨h1, _⟩ := hce c (by simp only [expression_t.node_count]; omega) hwf.1.1.2
    obtain ⟨h2, _⟩ := hce f (by simp only [expression_t.node_count]; omega) hwf.2
    cases t with
    | null =>
      simp only [is_constant_expression_step]
      repeat' (first | exact ⟨_, rfl⟩ | assumption | split | (exfalso; simp_all))
    | ptr t =>
      obtain ⟨h3, _⟩ := hce t (by simp only [expression_t.node_count, expression_ptr.node_count]; omega)
        hwf.1.2
      simp only [is_constant_expression_step]
      repeat' (first | exact ⟨_, rfl⟩ | assumption | split | (exfalso; simp_all))
  | compound_literal base type i =>
    simp only [expression_t.well_formed, Bool.and_eq_true] at hwf
    exact hci i (by simp only [expression_t.node_count]; omega) hwf.2
  | sizeof base type p =>
    simp only [expression_t.well_formed, Bool.and_eq_true] at hwf
    obtain ⟨t, ht, _⟩ := type_resolves_skip cfg _ hwf.1.2
    simp only [is_constant_expression_step, ht]
    repeat' (first | exact ⟨_, rfl⟩ | assumption | split)
  | _ => exact ⟨_, rfl⟩

set_option maxHeartbeats 2000000 in
theorem is_object_with_constant_address_step_defined (cfg : config_t)
    (calls : classifier_calls_t) (e : expression_t) (hwf : e.well_formed cfg = true)
    (hc : calls_defined_below cfg calls e.node_count) :
    ∃ b, is_object_with_constant_address_step calls e = some b := by
  obtain ⟨hce, hci, hcl⟩ := hc
  cases e with
  | unary kind base value =>
    simp only [expression_t.well_formed, Bool.and_eq_true] at hwf
    obtain ⟨h1, h2, h3, h4, h5⟩ := hce value (by simp only [expression_t.node_count]; omega) hwf.2
    cases kind <;> simp only [is_object_with_constant_address_step] <;>
      first | exact ⟨_, rfl⟩ | assumption
  | select base c m =>
    simp only [expression_t.well_formed, Bool.and_eq_true] at hwf
    obtain ⟨t, ht, _⟩ := type_resolves_skip cfg _ (well_formed_base cfg c hwf.2)
    obtain ⟨h1, h2, h3, h4, h5⟩ := hce c (by simp only [expression_t.node_count]; omega) hwf.2
    simp only [is_object_with_constant_address_step, ht]
    repeat' (first | exact ⟨_, rfl⟩ | assumption | split)
  | array_access base a i =>
    simp only [expression_t.well_formed, Bool.and_eq_true] at hwf
    obtain ⟨h1, h2, h3, h4, h5⟩ :=
      hce a (by simp only [expression_t.node_count]; omega) hwf.1.2
    obtain ⟨g1, _⟩ := hce i (by simp only [expression_t.node_count]; omega) hwf.2
    simp only [is_object_with_constant_address_step, c_and, c_or]
    repeat' (first | exact ⟨_, rfl⟩ | assumption | split | (exfalso; simp_all))
  | _ => exact ⟨_, rfl⟩

set_option maxHeartbeats 2000000 in
theorem is_object_with_linker_constant_address_step_defined (cfg : config_t)
    (calls : classifier_calls_t) (e : expression_t) (hwf : e.well_formed cfg = true)
    (hc : calls_defined_below cfg calls e.node_count) :
    ∃ b, is_object_with_linker_constant_address_step calls e = some b := by
  obtain ⟨hce, hci, hcl⟩ := hc
  cases e with
  | unary kind base value =>
    simp only [expression_t.well_formed, Bool.and_eq_true] at hwf
    obtain ⟨h1, h2, h3, h4, h5⟩ := hce value (by simp only [expression_t.node_count]; omega) hwf.2
    cases kind <;> simp only [is_object_with_linker_constant_address_step] <;>
      first | exact ⟨_, rfl⟩ | assumption
  | select base c m =>
    simp only [expression_t.well_formed, Bool.and_eq_true] at hwf
    obtain ⟨t, ht, _⟩ := type_resolves_skip cfg _ (well_formed_base cfg c hwf.2)
    obtain ⟨h1, h2, h3, h4, h5⟩ := hce c (by simp only [expression_t.node_count]; omega) hwf.2
    simp only [is_object_with_linker_constant_address_step, ht]
    repeat' (first | exact ⟨_, rfl⟩ | assumption | split)
  | array_access base a i =>
    simp only [expression_t.well_formed, Bool.and_eq_true] at hwf
    obtain ⟨h1, h2, h3, h4, h5⟩ :=
      hce a (by simp only [expression_t.node_count]; omega) hwf.1.2
    obtain ⟨g1, _⟩ := hce i (by simp only [expression_t.node_count]; omega) hwf.2
    simp only [is_object_with_linker_constant_address_step, c_and]
    repeat' (first | exact ⟨_, rfl⟩ | assumption | split | (exfalso; simp_all))
  | reference base entity =>
    simp only [is_object_with_linker_constant_address_step]
    repeat' (first | exact ⟨_, rfl⟩ | split)
  | _ => exact ⟨_, rfl⟩

set_option maxHeartbeats 2000000 in
theorem is_address_constant_step_defined (cfg : config_t) (env : ast_env_t)
    (henv : ∀ x : expression_t, x.well_formed cfg = true →
      ∃ r, skip_typeref (env.revert_automatic_type_conversion x) = some r)
    (calls : classifier_calls_t) (e : expression_t) (hwf : e.well_formed cfg = true)
    (hc : calls_defined_below cfg calls e.node_count)
    (hself : ∀ base entity, e = .reference base entity →
      ∃ b, calls.is_object_with_linker_constant_address e = some b) :
    ∃ b, is_address_constant_step cfg env calls e = some b := by
  obtain ⟨hce, hci, hcl⟩ := hc
  cases e with
  | unary kind base value =>
    simp only [expression_t.well_formed, Bool.and_eq_true] at hwf
    obtain ⟨t, ht, _⟩ := type_resolves_skip cfg _ hwf.1
    obtain ⟨h1, h2, h3, h4, h5⟩ := hce value (by simp only [expression_t.node_count]; omega) hwf.2
    cases kind <;> simp only [is_address_constant_step, ht, c_or] <;>
      repeat' (first | exact ⟨_, rfl⟩ | assumption | split | (exfalso; simp_all))
  | binary kind base l r =>
    simp only [expression_t.well_formed, Bool.and_eq_true] at hwf
    obtain ⟨tl, htl, _⟩ := type_resolves_skip cfg _ (well_formed_base cfg l hwf.1.2)
    obtain ⟨tr, htr, _⟩ := type_resolves_skip cfg _ (well_formed_base cfg r hwf.2)
    obtain ⟨h1, h2, _⟩ := hce l (by simp only [expression_t.node_count]; omega) hwf.1.2
    obtain ⟨g1, g2, _⟩ := hce r (by simp only [expression_t.node_count]; omega) hwf.2
    simp only [is_address_constant_step, htl, htr, c_and]
    repeat' (first | exact ⟨_, rfl⟩ | assumption | split | (exfalso; simp_all))
  | reference base entity =>
    simp only [expression_t.well_formed, Bool.and_eq_true] at hwf
    obtain ⟨t, ht, _⟩ := type_resolves_skip cfg _ hwf.2
    have hs := hself base entity rfl
    simp only [is_address_constant_step, ht]
    repeat' (first | exact ⟨_, rfl⟩ | assumption | split)
  | array_access base a i =>
    obtain ⟨t, ht⟩ := henv (.array_access base a i) hwf
    simp only [expression_t.well_formed, Bool.and_eq_true] at hwf
    obtain ⟨h1, h2, _⟩ := hce a (by simp only [expression_t.node_count]; omega) hwf.1.2
    obtain ⟨g1, g2, _⟩ := hce i (by simp only [expression_t.node_count]; omega) hwf.2
    simp only [is_address_constant_step, ht, c_and]
    repeat' (first | exact ⟨_, rfl⟩ | assumption | split | (exfalso; simp_all))
  | conditional base c t f =>
    simp only [expression_t.well_formed, Bool.and_eq_true] at hwf
    obtain ⟨h1, h2, _⟩ := hce c (by simp only [expression_t.node_count]; omega) hwf.1.1.2
    obtain ⟨g1, g2, _⟩ := hce f (by simp only [expression_t.node_count]; omega) hwf.2
    cases t with
    | null =>
      simp only [is_address_constant_step]
      repeat' (first | exact ⟨_, rfl⟩ | assumption | split | (exfalso; simp_all))
    | ptr t =>
      obtain ⟨k1, k2, _⟩ :=
        hce t (by simp only [expression_t.node_count, expression_ptr.node_count]; omega) hwf.1.2
      simp only [is_address_constant_step]
      repeat' (first | exact ⟨_, rfl⟩ | assumption | split | (exfalso; simp_all))
  | _ => exact ⟨_, rfl⟩

theorem is_constant_pointer_step_defined (cfg : config_t)
    (calls : classifier_calls_t) (e : expression_t) (hwf : e.well_formed cfg = true)
    (hc : calls_defined_below cfg calls e.node_count)
    (hself : ∃ b, calls.is_constant_expression e = some b) :
    ∃ b, is_constant_pointer_step calls e = some b := by
  obtain ⟨hce, hci, hcl⟩ := hc
  obtain ⟨b, hb⟩ := hself
  cases b with
  | true => exact ⟨true, by simp only [is_constant_pointer_step, hb]⟩
  | false =>
    cases e with
    | unary kind base value =>
      simp only [expression_t.well_formed, Bool.and_eq_true] at hwf
      obtain ⟨h1, h2, h3, h4, h5⟩ := hce value (by simp only [expression_t.node_count]; omega) hwf.2
      cases kind <;> simp only [is_constant_pointer_step, hb] <;>
        first | exact ⟨_, rfl⟩ | assumption
    | _ => exact ⟨false, by simp only [is_constant_pointer_step, hb]⟩

theorem is_constant_initializer_step_defined (cfg : config_t)
    (calls : classifier_calls_t) (i : initializer_t) (hwf : i.well_formed cfg = true)
    (hc : calls_defined_below cfg calls i.node_count) :
    ∃ b, is_constant_initializer_step calls i = some b := by
  obtain ⟨hce, hci, hcl⟩ := hc
  cases i with
  | INITIALIZER_VALUE e =>
    simp only [initializer_t.well_formed] at hwf
    exact (hce e (by simp only [initializer_t.node_count]; omega) hwf).1
  | INITIALIZER_LIST l =>
    simp only [initializer_t.well_formed] at hwf
    exact hcl l (by simp only [initializer_t.node_count]; omega) hwf
  | _ => exact ⟨_, rfl⟩

theorem is_constant_initializer_list_step_defined (cfg : config_t)
    (calls : classifier_calls_t) (l : initializer_list_t) (hwf : l.well_formed cfg = true)
    (hc : calls_defined_below cfg calls l.node_count) :
    ∃ b, is_constant_initializer_list_step calls l = some b := by
  obtain ⟨hce, hci, hcl⟩ := hc
  cases l with
  | nil => exact ⟨_, rfl⟩
  | cons h t =>
    simp only [initializer_list_t.well_formed, Bool.and_eq_true] at hwf
    have h1 := hci h (by simp only [initializer_list_t.node_count]; omega) hwf.1
    have h2 := hcl t (by simp only [initializer_list_t.node_count]; omega) hwf.2
    simp only [is_constant_initializer_list_step]
    repeat' (first | exact ⟨_, rfl⟩ | assumption | split | (exfalso; simp_all))

theorem initializer_node_count_pos (i : initializer_t) : 1 ≤ i.node_count := by
  cases i <;> simp only [initializer_t.node_count] <;> omega

theorem initializer_list_node_count_pos (l : initializer_list_t) : 1 ≤ l.node_count := by
  cases l <;> simp only [initializer_list_t.node_count] <;> omega

theorem calls_defined_below_one (cfg : config_t) (calls : classifier_calls_t) :
    calls_defined_below cfg calls 1 := by
  refine ⟨?_, ?_, ?_⟩
  · intro x hx
    have := expression_node_count_pos x
    omega
  · intro x hx
    have := initializer_node_count_pos x
    omega
  · intro x hx
    have := initializer_list_node_count_pos x
    omega

theorem classifier_defined (cfg : config_t) (env : ast_env_t)
    (henv : ∀ x : expression_t, x.well_formed cfg = true →
      ∃ r, skip_typeref (env.revert_automatic_type_conversion x) = some r) :
    ∀ n : Nat,
      (∀ x : expression_t, x.node_count ≤ n → x.well_formed cfg = true →
        (∀ f, 2 * x.node_count ≤ f →
          (∃ b, is_constant_expression cfg env f x = some b) ∧
          (∃ b, is_address_constant cfg env f x = some b) ∧
          (∃ b, is_object_with_linker_constant_address cfg env f x = some b) ∧
          (∃ b, is_object_with_constant_address cfg env f x = some b)) ∧
        (∀ f, 2 * x.node_count + 1 ≤ f → ∃ b, is_constant_pointer cfg env f x = some b)) ∧
      (∀ x : initializer_t, x.node_count ≤ n → x.well_formed cfg = true →
        ∀ f, 2 * x.node_count ≤ f → ∃ b, is_constant_initializer cfg env f x = some b) ∧
      (∀ x : initializer_list_t, x.node_count ≤ n → x.well_formed cfg = true →
        ∀ f, 2 * x.node_count ≤ f → ∃ b, is_constant_initializer_list cfg env f x = some b) := by
  intro n
  induction n with
  | zero =>
    refine ⟨?_, ?_, ?_⟩
    · intro x hx
      have := expression_node_count_pos x
      omega
    · intro x hx
      have := initializer_node_count_pos x
      omega
    · intro x hx
      have := initializer_list_node_count_pos x
      omega
  | succ n ih =>
    obtain ⟨ihe, ihi, ihl⟩ := ih
    have below : ∀ m g, m ≤ n + 1 → 2 * m ≤ g + 1 →
        calls_defined_below cfg (classifier_calls cfg env g) m := by
      intro m g hm hg
      refine ⟨?_, ?_, ?_⟩
      · intro x hx hwf
        obtain ⟨h1, h2⟩ := ihe x (by omega) hwf
        obtain ⟨a1, a2, a3, a4⟩ := h1 g (by omega)
        exact ⟨a1, a2, a3, a4, h2 g (by omega)⟩
      · intro x hx hwf
        exact ihi x (by omega) hwf g (by omega)
      · intro x hx hwf
        exact ihl x (by omega) hwf g (by omega)
    have first : ∀ x : expression_t, x.node_count ≤ n + 1 → x.well_formed cfg = true →
        ∀ f, 2 * x.node_count ≤ f →
          (∃ b, is_constant_expression cfg env f x = some b) ∧
          (∃ b, is_address_constant cfg env f x = some b) ∧
          (∃ b, is_object_with_linker_constant_address cfg env f x = some b) ∧
          (∃ b, is_object_with_constant_address cfg env f x = some b) := by
      intro x hx hwf f hf
      have hpos := expression_node_count_pos x
      obtain ⟨g, rfl⟩ : ∃ g, f = g + 1 := ⟨f - 1, by omega⟩
      have hb := below x.node_count g hx (by omega)
      refine ⟨?_, ?_, ?_, ?_⟩
      · exact is_constant_expression_step_defined cfg env _ x hwf hb
      · refine is_address_constant_step_defined cfg env henv _ x hwf hb ?_
        intro base entity hxe
        obtain ⟨k, rfl⟩ : ∃ k, g = k + 1 := ⟨g - 1, by omega⟩
        refine is_object_with_linker_constant_address_step_defined cfg _ x hwf ?_
        rw [hxe]
        exact calls_defined_below_one cfg _
      · exact is_object_with_linker_constant_address_step_defined cfg _ x hwf hb
      · exact is_object_with_constant_address_step_defined cfg _ x hwf hb
    refine ⟨?_, ?_, ?_⟩
    · intro x hx hwf
      refine ⟨first x hx hwf, ?_⟩
      intro f hf
      obtain ⟨g, rfl⟩ : ∃ g, f = g + 1 := ⟨f - 1, by omega⟩
      exact is_constant_pointer_step_defined cfg _ x hwf (below x.node_count g hx (by omega))
        (first x hx hwf g (by omega)).1
    · intro x hx hwf f hf
      have hpos := initializer_node_count_pos x
      obtain ⟨g, rfl⟩ : ∃ g, f = g + 1 := ⟨f - 1, by omega⟩
      exact is_constant_initializer_step_defined cfg _ x hwf (below x.node_count g hx (by omega))
    · intro x hx hwf f hf
      have hpos := initializer_list_node_count_pos x
      obtain ⟨g, rfl⟩ : ∃ g, f = g + 1 := ⟨f - 1, by omega⟩
      exact is_constant_initializer_list_step_defined cfg _ x hwf
        (below x.node_count g hx (by omega))

/-- Claim C15, amended: on well-formed input (no `EXPR_UNKNOWN` node, every
type resolves) `is_constant_expression`, `is_address_constant` and
`is_constant_initializer` return a boolean once the fuel covers twice the
node count; `is_address_constant` returns false on `EXPR_UNKNOWN` and
`EXPR_INVALID`, while `is_constant_expression` returns true on
`EXPR_INVALID` and panics on `EXPR_UNKNOWN`. -/
theorem classification_predicates_return (cfg : config_t) (env : ast_env_t)
    (expression : expression_t) (initializer_value : initializer_t) (fuel : Nat)
    (base : expression_base_t)
    (henv : ∀ x : expression_t, x.well_formed cfg = true →
      ∃ r, skip_typeref (env.revert_automatic_type_conversion x) = some r)
    (hexpression : expression.well_formed cfg = true)
    (hinitializer : initializer_value.well_formed cfg = true)
    (hfuel : 2 * expression.node_count ≤ fuel)
    (hfuel_initializer : 2 * initializer_value.node_count ≤ fuel) :
    (∃ b, is_constant_expression cfg env fuel expression = some b) ∧
    (∃ b, is_address_constant cfg env fuel expression = some b) ∧
    (∃ b, is_constant_initializer cfg env fuel initializer_value = some b) ∧
    is_address_constant cfg env fuel (.unknown base) = some false ∧
    is_address_constant cfg env fuel (.invalid base) = some false ∧
    is_constant_expression cfg env fuel (.invalid base) = some true ∧
    is_constant_expression cfg env fuel (.unknown base) = none := by
  obtain ⟨he, hi, _⟩ := classifier_defined cfg env henv
    (max expression.node_count initializer_value.node_count)
  have h1 := (he expression (Nat.le_max_left _ _) hexpression).1 fuel hfuel
  have h2 := hi initializer_value (Nat.le_max_right _ _) hinitializer fuel hfuel_initializer
  have hpos := expression_node_count_pos expression
  obtain ⟨g, rfl⟩ : ∃ g, fuel = g + 1 := ⟨fuel - 1, by omega⟩
  exact ⟨h1.1, h1.2.1, h2, rfl, rfl, rfl, rfl⟩

/-- Witness of `classification_predicates_return`: the expression
`__builtin_nan((x = 0, ""))` and the initializer made of it. -/
theorem classification_predicates_return_witness :
    (∀ x : expression_t, x.well_formed example_config = true →
      ∃ r, skip_typeref (example_env.revert_automatic_type_conversion x) = some r) ∧
    example_nan_call.well_formed example_config = true ∧
    (initializer_t.INITIALIZER_VALUE example_nan_call).well_formed example_config = true ∧
    2 * example_nan_call.node_count ≤ 40 ∧
    2 * (initializer_t.INITIALIZER_VALUE example_nan_call).node_count ≤ 40 ∧
    (∃ b, is_constant_expression example_config example_env 40 example_nan_call = some b) ∧
    (∃ b, is_address_constant example_config example_env 40 example_nan_call = some b) ∧
    (∃ b, is_constant_initializer example_config example_env 40
      (.INITIALIZER_VALUE example_nan_call) = some b) ∧
    is_address_constant example_config example_env 40 (.unknown { type := example_int })
      = some false ∧
    is_address_constant example_config example_env 40 (.invalid { type := example_int })
      = some false ∧
    is_constant_expression example_config example_env 40 (.invalid { type := example_int })
      = some true ∧
    is_constant_expression example_config example_env 40 (.unknown { type := example_int })
      = none :=
  have henv : ∀ x : expression_t, x.well_formed example_config = true →
      ∃ r, skip_typeref (example_env.revert_automatic_type_conversion x) = some r :=
    fun x h =>
      let ⟨r, hr, _⟩ := type_resolves_skip example_config _ (well_formed_base example_config x h)
      ⟨r, hr⟩
  ⟨henv, by decide, by decide, by decide, by decide,
    classification_predicates_return example_config example_env example_nan_call
      (.INITIALIZER_VALUE example_nan_call) 40 { type := example_int } henv
      (by decide) (by decide) (by decide) (by decide)⟩

/-- Claim C15 fails on the two forms it names: `is_constant_expression`
returns true on `EXPR_INVALID` and returns nothing (it panics) on
`EXPR_UNKNOWN`, whatever the fuel. -/
theorem classification_predicates_return_counterexample :
    is_constant_expression example_config example_env 1 (.invalid { type := example_int })
      = some true ∧
    ∀ fuel, is_constant_expression example_config example_env fuel
      (.unknown { type := example_int }) = none := by
  refine ⟨rfl, ?_⟩
  intro fuel
  cases fuel <;> rfl

/-- Claim C14 fails on `__builtin_nan((x = 0, ""))`: the call is classified
as a constant expression although its argument, which is evaluated, is a
comma expression whose left operand is an assignment. -/
theorem is_constant_expression_call_ignores_arguments :
    (∀ fuel, is_constant_expression example_config example_env (fuel + 1) example_nan_call
      = some true) ∧
    ∃ base function comma_base right,
      example_nan_call = .call base function
        (.argument (.binary .EXPR_BINARY_COMMA comma_base example_assignment right) .null) ∧
      ∃ assign_base left value,
        example_assignment = .binary .EXPR_BINARY_ASSIGN assign_base left value :=
  ⟨fun _ => rfl, _, _, _, _, rfl, _, _, _, rfl⟩

/-! ## Name mangling -/

/-- Claim C17 fails on `void ns::f(int, const char *)`: the symbol returned
by `create_name_linux_elf` has no `E` after the nested name. -/
theorem create_name_linux_elf_nested_name :
    (∀ fuel, create_name_linux_elf example_tags (fuel + 2) example_namespace_function
      = some "_ZN2ns1fiPKc") ∧
    create_name_linux_elf example_tags 2 example_namespace_function ≠ some "_ZN2ns1fEiPKc" :=
  ⟨fun _ => rfl, by decide⟩

theorem make_id_from_obst_underscore (name : String) :
    make_id_from_obst ('_' :: name.toList) = "_" ++ name := by
  cases name
  rfl

/-- Claim C19, amended: `create_name_macho` returns `_` followed by the
identifier for every entity that is not a function and for every function
whose type resolves to a function type of C or of C++ linkage; it panics
only on a function of invalid linkage. -/
theorem create_name_macho_underscore (entity : linker_entity_t) (name : String)
    (qualifiers : Nat) (return_type : type_t) (parameters : function_parameter_t)
    (variadic unspecified_parameters kr_style_parameters : Bool) (linkage : linkage_kind_t)
    (calling_convention : cc_kind_t) (modifiers : Nat)
    (hsymbol : entity.symbol = some name)
    (htype : entity.kind = .ENTITY_FUNCTION →
      skip_typeref entity.type = some (.function qualifiers return_type parameters variadic
        unspecified_parameters kr_style_parameters linkage calling_convention modifiers)) :
    create_name_macho entity =
      if entity.kind = .ENTITY_FUNCTION ∧ linkage = .LINKAGE_INVALID then none
      else some ("_" ++ name) := by
  unfold create_name_macho
  by_cases hk : entity.kind = .ENTITY_FUNCTION
  · rw [if_pos hk, htype hk]
    by_cases hl : linkage = .LINKAGE_INVALID
    · simp [hk, hl]
    · simp only [hl, if_false, hsymbol, and_false]
      exact congrArg some (make_id_from_obst_underscore name)
  · simp only [hk, if_false, hsymbol, false_and]
    exact congrArg some (make_id_from_obst_underscore name)

/-- Witness of `create_name_macho_underscore`: the C++ function
`void ns::f(int, const char *)` is given the name `_f`. -/
theorem create_name_macho_underscore_witness :
    example_namespace_function.symbol = some "f" ∧
    (example_namespace_function.kind = .ENTITY_FUNCTION →
      skip_typeref example_namespace_function.type = some (example_function_type .LINKAGE_CXX)) ∧
    create_name_macho example_namespace_function =
      if example_namespace_function.kind = .ENTITY_FUNCTION ∧
          linkage_kind_t.LINKAGE_CXX = .LINKAGE_INVALID then none
      else some ("_" ++ "f") :=
  ⟨rfl, fun _ => rfl,
    create_name_macho_underscore example_namespace_function "f" _ _ _ _ _ _ .LINKAGE_CXX _ _ rfl
      (fun _ => rfl)⟩

/-- Claim C19 fails on a function of C++ linkage: `create_name_macho` does
not panic on `void ns::f(int, const char *)` but returns `_f`. -/
theorem create_name_macho_underscore_counterexample :
    create_name_macho example_namespace_function = some "_f" ∧
    create_name_macho example_namespace_function ≠ none :=
  ⟨by decide, by decide⟩

/-! ## Injectivity of the mangling -/

theorem decimal_digit_is_digit (n : Nat) (h : n < 10) :
    is_digit_char (decimal_digit n) = true ∧ (decimal_digit n).toNat - 48 = n := by
  interval_cases n <;> exact ⟨by decide, by decide⟩

theorem parse_number_digits : ∀ (fuel n : Nat), n < 10 ^ fuel → ∀ (acc : Nat) (r : List Char),
    ∃ m, parse_number (decimal_digits fuel n ++ r) acc = parse_number r (acc * m + n)
  | 0, n, h, acc, r => by
    have hn : n = 0 := by simpa using h
    exact ⟨1, by simp [decimal_digits, hn]⟩
  | fuel + 1, n, h, acc, r => by
    by_cases hlt : n < 10
    · obtain ⟨hd, hv⟩ := decimal_digit_is_digit n hlt
      exact ⟨10, by simp [decimal_digits, hlt, parse_number, hd, hv]⟩
    · have hdiv : n / 10 < 10 ^ fuel := by
        apply Nat.div_lt_of_lt_mul
        rw [pow_succ] at h
        omega
      obtain ⟨hd, hv⟩ := decimal_digit_is_digit (n % 10) (Nat.mod_lt _ (by decide))
      obtain ⟨m, hm⟩ := parse_number_digits fuel (n / 10) hdiv acc (decimal_digit (n % 10) :: r)
      refine ⟨m * 10, ?_⟩
      simp only [decimal_digits, hlt, if_false, List.append_assoc, List.singleton_append]
      rw [hm]
      simp only [parse_number, hd, if_true, hv]
      congr 1
      have := Nat.div_add_mod n 10
      ring_nf
      omega

theorem decimal_digits_head : ∀ (fuel n : Nat),
    ∃ ch rest, decimal_digits (fuel + 1) n = ch :: rest ∧ is_digit_char ch = true
  | 0, n => by
    by_cases hlt : n < 10
    · exact ⟨_, [], by simp [decimal_digits, hlt], (decimal_digit_is_digit n hlt).1⟩
    · exact ⟨_, [], by simp [decimal_digits, hlt],
        (decimal_digit_is_digit (n % 10) (Nat.mod_lt _ (by decide))).1⟩
  | fuel + 1, n => by
    by_cases hlt : n < 10
    · exact ⟨_, [], by simp [decimal_digits, hlt], (decimal_digit_is_digit n hlt).1⟩
    · obtain ⟨ch, rest, h, hd⟩ := decimal_digits_head fuel (n / 10)
      refine ⟨ch, rest ++ [decimal_digit (n % 10)], ?_, hd⟩
      rw [decimal_digits]
      simp only [hlt, if_false, h, List.cons_append]

theorem parse_number_not_digit (ch : Char) (rest : List Char) (acc : Nat)
    (h : is_digit_char ch = false) : parse_number (ch :: rest) acc = (acc, ch :: rest) := by
  simp [parse_number, h]

theorem print_unsigned_head (n : Nat) :
    ∃ ch rest, print_unsigned n = ch :: rest ∧ is_digit_char ch = true :=
  decimal_digits_head 9 (to_unsigned n)

theorem parse_number_print_unsigned (n : Nat) (hn : n < 4294967296) (ch : Char)
    (rest : List Char) (h : is_digit_char ch = false) :
    parse_number (print_unsigned n ++ ch :: rest) 0 = (n, ch :: rest) := by
  have hu : to_unsigned n = n := Nat.mod_eq_of_lt hn
  obtain ⟨m, hm⟩ := parse_number_digits 10 n (by omega) 0 (ch :: rest)
  rw [print_unsigned, hu, hm, parse_number_not_digit _ _ _ h]
  simp

theorem is_identifier_head (name : String) (h : is_identifier name = true) :
    ∃ ch rest, name.toList = ch :: rest ∧ is_digit_char ch = false ∧
      name.length < 4294967296 := by
  cases name with
  | mk data =>
    cases data with
    | nil => simp [is_identifier, String.toList] at h
    | cons ch rest =>
      simp only [is_identifier, String.toList, Bool.and_eq_true, Bool.not_eq_true',
        decide_eq_true_eq] at h
      exact ⟨ch, rest, rfl, h.1, h.2⟩

theorem parse_name_print_name (name : String) (r : List Char)
    (h : is_identifier name = true) :
    parse_name (print_name name ++ r) = some (name, r) := by
  obtain ⟨ch, rest, hl, hd, hlen⟩ := is_identifier_head name h
  have hlength : name.length = (ch :: rest).length := by
    rw [← hl]; rfl
  unfold parse_name print_name
  rw [List.append_assoc, hl, List.cons_append,
    parse_number_print_unsigned _ hlen _ _ hd]
  simp only [hlength]
  have h1 : (ch :: rest).length ≤ (ch :: (rest ++ r)).length := by simp
  rw [if_pos h1]
  have h2 : List.take (ch :: rest).length (ch :: (rest ++ r)) = ch :: rest := by
    rw [← List.cons_append]; exact List.take_left _ _
  have h3 : List.drop (ch :: rest).length (ch :: (rest ++ r)) = r := by
    rw [← List.cons_append]; exact List.drop_left _ _
  rw [h2, h3, ← hl]
  cases name
  rfl

theorem print_name_head (name : String) :
    ∃ ch rest, print_name name = ch :: rest ∧ is_digit_char ch = true := by
  obtain ⟨ch, rest, h, hd⟩ := print_unsigned_head name.length
  exact ⟨ch, rest ++ name.toList, by rw [print_name, h, List.cons_append], hd⟩

theorem letter_kind_atomic_letter (akind : atomic_type_kind_t)
    (h : akind ≠ .ATOMIC_TYPE_INVALID) :
    letter_kind (atomic_letter akind) = some akind ∧
    is_digit_char (atomic_letter akind) = false ∧
    atomic_letter akind ≠ 'V' ∧ atomic_letter akind ≠ 'K' ∧ atomic_letter akind ≠ 'P' ∧
    atomic_letter akind ≠ 'R' ∧ atomic_letter akind ≠ 'C' ∧ atomic_letter akind ≠ 'G' ∧
    atomic_letter akind ≠ 'A' ∧ atomic_letter akind ≠ 'F' := by
  cases akind <;> first | exact absurd rfl h | decide

theorem is_digit_char_ne (ch : Char) (h : is_digit_char ch = true) :
    ch ≠ 'V' ∧ ch ≠ 'K' ∧ ch ≠ 'v' ∧ ch ≠ 'z' ∧ ch ≠ 'N' ∧ ch ≠ '_' := by
  refine ⟨?_, ?_, ?_, ?_, ?_, ?_⟩ <;> (intro hc; rw [hc] at h; revert h; decide)

theorem parse_qualifiers_print (v c : Bool) (ch : Char) (rest : List Char)
    (hV : ch ≠ 'V') (hK : ch ≠ 'K') :
    parse_qualifiers (print_qualifiers v c ++ ch :: rest) = (v, c, ch :: rest) := by
  cases v <;> cases c <;> simp [parse_qualifiers, print_qualifiers, strip_char, hV, hK]

theorem signature_size_pos (k : signature_t) : 1 ≤ k.size := by
  cases k <;> simp only [signature_t.size] <;> omega

theorem signature_list_size_pos (l : signature_list_t) : 1 ≤ l.size := by
  cases l <;> simp only [signature_list_t.size] <;> omega

theorem print_qualifiers_head (v c : Bool) (ch : Char) (rest : List Char)
    (h : type_start_char ch = true) :
    ∃ ch2 rest2, print_qualifiers v c ++ ch :: rest = ch2 :: rest2 ∧
      type_start_char ch2 = true := by
  cases v <;> cases c
  · exact ⟨ch, rest, rfl, h⟩
  · exact ⟨'K', ch :: rest, rfl, by decide⟩
  · exact ⟨'V', ch :: rest, rfl, by decide⟩
  · exact ⟨'V', 'K' :: ch :: rest, rfl, by decide⟩

theorem type_start_of_digit (ch : Char) (h : is_digit_char ch = true) :
    type_start_char ch = true := by
  simp [type_start_char, h]

theorem type_start_of_letter (akind : atomic_type_kind_t)
    (h : akind ≠ .ATOMIC_TYPE_INVALID) : type_start_char (atomic_letter akind) = true := by
  simp [type_start_char, (letter_kind_atomic_letter akind h).1]

theorem print_signature_head (k : signature_t) (h : k.unambiguous = true) :
    ∃ ch rest, print_signature k = ch :: rest ∧ type_start_char ch = true := by
  cases k with
  | atomic v c akind =>
    simp only [signature_t.unambiguous, decide_eq_true_eq] at h
    exact print_qualifiers_head v c _ [] (type_start_of_letter akind h)
  | complex v c akind => exact print_qualifiers_head v c 'C' _ (by decide)
  | imaginary v c akind => exact print_qualifiers_head v c 'G' _ (by decide)
  | pointer v c p => exact print_qualifiers_head v c 'P' _ (by decide)
  | reference v c p => exact print_qualifiers_head v c 'R' _ (by decide)
  | array v c size e => exact print_qualifiers_head v c 'A' _ (by decide)
  | tag v c name =>
    obtain ⟨ch, rest, hp, hd⟩ := print_name_head name
    simp only [print_signature, hp]
    exact print_qualifiers_head v c ch rest (type_start_of_digit ch hd)
  | function v c y ret params variadic =>
    simp only [print_signature]
    exact print_qualifiers_head v c 'F' _ (by decide)

theorem print_signature_head_void (head : signature_t) (tail : signature_list_t)
    (hu : head.unambiguous = true)
    (hv : (signature_list_t.cons head tail).head_is_void = false) :
    ∃ ch rest, print_signature head = ch :: rest ∧ type_start_char ch = true ∧ ch ≠ 'v' := by
  cases head with
  | atomic v c akind =>
    simp only [signature_t.unambiguous, decide_eq_true_eq] at hu
    cases v <;> cases c
    · refine ⟨atomic_letter akind, [], rfl, type_start_of_letter akind hu, ?_⟩
      cases akind <;> first | decide | exact absurd rfl hu | simp [signature_list_t.head_is_void] at hv
    · exact ⟨'K', _, rfl, by decide, by decide⟩
    · exact ⟨'V', _, rfl, by decide, by decide⟩
    · exact ⟨'V', _, rfl, by decide, by decide⟩
  | tag v c name =>
    obtain ⟨ch, rest, hp, hd⟩ := print_name_head name
    have hne := (is_digit_char_ne ch hd).2.2.1
    cases v <;> cases c
    · exact ⟨ch, rest, by simp [print_signature, print_qualifiers, hp],
        type_start_of_digit ch hd, hne⟩
    · exact ⟨'K', _, rfl, by decide, by decide⟩
    · exact ⟨'V', _, rfl, by decide, by decide⟩
    · exact ⟨'V', _, rfl, by decide, by decide⟩
  | complex v c akind =>
    cases v <;> cases c <;> exact ⟨_, _, rfl, by decide, by decide⟩
  | imaginary v c akind =>
    cases v <;> cases c <;> exact ⟨_, _, rfl, by decide, by decide⟩
  | pointer v c p =>
    cases v <;> cases c <;> exact ⟨_, _, rfl, by decide, by decide⟩
  | reference v c p =>
    cases v <;> cases c <;> exact ⟨_, _, rfl, by decide, by decide⟩
  | array v c size e =>
    cases v <;> cases c <;> exact ⟨_, _, rfl, by decide, by decide⟩
  | function v c y ret params variadic =>
    simp only [print_signature]
    cases v <;> cases c <;> exact ⟨_, _, rfl, by decide, by decide⟩

theorem parse_signature_list_print (parse : List Char → Option (signature_t × List Char))
    (bound : Nat)
    (hparse : ∀ (k : signature_t) (r : List Char), k.size ≤ bound → k.unambiguous = true →
      parse (print_signature k ++ r) = some (k, r)) :
    ∀ (n : Nat) (l : signature_list_t) (r : List Char), l.size ≤ n → l.size ≤ bound + 1 →
      l.unambiguous = true →
      (∀ ch rest, r = ch :: rest → type_start_char ch = false) →
      parse_signature_list_with parse n (print_signature_list l ++ r) = some (l, r)
  | 0, l, r, hn, _, _, _ => by
    have := signature_list_size_pos l
    omega
  | n + 1, .nil, r, _, _, _, hr => by
    cases r with
    | nil => rfl
    | cons ch rest =>
      simp only [print_signature_list, List.nil_append, parse_signature_list_with,
        hr ch rest rfl]
      rfl
  | n + 1, .cons head tail, r, hn, hb, hu, hr => by
    simp only [signature_list_t.unambiguous, Bool.and_eq_true] at hu
    simp only [signature_list_t.size] at hn hb
    obtain ⟨ch, rest, hp, hs⟩ := print_signature_head head hu.1
    have h1 := hparse head (print_signature_list tail ++ r) (by omega) hu.1
    have h2 := parse_signature_list_print parse bound hparse n tail r (by omega) (by omega)
      hu.2 hr
    have hform : print_signature_list (.cons head tail) ++ r =
        ch :: (rest ++ (print_signature_list tail ++ r)) := by
      simp only [print_signature_list, hp, List.append_assoc, List.cons_append]
    rw [hp, List.cons_append] at h1
    rw [hform, parse_signature_list_with]
    simp only [hs, if_true, h1, h2]

theorem strip_char_ne (ch c : Char) (rest : List Char) (h : c ≠ ch) :
    strip_char ch (c :: rest) = (false, c :: rest) := by
  simp [strip_char, h]

theorem strip_char_eq (ch : Char) (rest : List Char) :
    strip_char ch (ch :: rest) = (true, rest) := by
  simp [strip_char]

theorem strip_char_follows (r : List Char) (h : follows_parameters r) :
    strip_char 'z' r = (false, r) := by
  rcases h with h | ⟨rest, h⟩
  · rw [h]; rfl
  · rw [h]; exact strip_char_ne _ _ _ (by decide)

theorem type_start_follows (r : List Char) (h : follows_parameters r) :
    ∀ ch rest, r = ch :: rest → type_start_char ch = false := by
  intro ch rest hr
  rcases h with h | ⟨rest2, h⟩
  · rw [h] at hr; cases hr
  · rw [h] at hr
    cases hr
    decide

theorem parse_parameters_print (parse : List Char → Option (signature_t × List Char))
    (bound : Nat)
    (hparse : ∀ (k : signature_t) (r : List Char), k.size ≤ bound → k.unambiguous = true →
      parse (print_signature k ++ r) = some (k, r))
    (n : Nat) (l : signature_list_t) (variadic : Bool) (r : List Char)
    (hn : l.size ≤ n) (hb : l.size ≤ bound + 1) (hu : l.unambiguous = true)
    (hnil : (l.is_nil && variadic) = false) (hvoid : l.head_is_void = false)
    (hr : follows_parameters r) :
    parse_parameters_with parse n (print_parameters l variadic ++ r) =
      some (l, variadic, r) := by
  cases l with
  | nil =>
    have hv : variadic = false := by simpa [signature_list_t.is_nil] using hnil
    rw [hv]
    rfl
  | cons head tail =>
    have hu0 := hu
    simp only [signature_list_t.unambiguous, Bool.and_eq_true] at hu
    obtain ⟨ch, rest, hp, hs, hne⟩ := print_signature_head_void head tail hu.1 hvoid
    have hform : print_parameters (.cons head tail) variadic ++ r =
        print_signature_list (.cons head tail) ++ ((if variadic then ['z'] else []) ++ r) := by
      simp only [print_parameters, print_signature_list, List.append_assoc]
    have hhead : print_signature_list (.cons head tail) ++
        ((if variadic then ['z'] else []) ++ r) =
        ch :: (rest ++ (print_signature_list tail ++ ((if variadic then ['z'] else []) ++ r))) := by
      simp only [print_signature_list, hp, List.append_assoc, List.cons_append]
    have hlist := parse_signature_list_print parse bound hparse n (.cons head tail)
      ((if variadic then ['z'] else []) ++ r) hn hb hu0 (by
        intro c rest2 hc
        cases variadic
        · exact type_start_follows r hr c rest2 (by simpa using hc)
        · simp only [if_true, List.singleton_append, List.cons.injEq] at hc
          rw [← hc.1]
          decide)
    unfold parse_parameters_with
    rw [hform]
    rw [hhead] at hlist ⊢
    rw [strip_char_ne _ _ _ hne]
    simp only [hlist]
    cases variadic
    · simp only [Bool.false_eq_true, if_false, List.nil_append, strip_char_follows r hr]
    · simp only [if_true, List.singleton_append, strip_char_eq]

theorem type_start_ne_Y (ch : Char) (h : type_start_char ch = true) : ch ≠ 'Y' := by
  intro hc
  rw [hc] at h
  revert h
  decide

theorem parse_print_signature : ∀ (fuel : Nat) (k : signature_t) (r : List Char),
    k.size ≤ fuel → k.unambiguous = true →
    parse_signature fuel (print_signature k ++ r) = some (k, r)
  | 0, k, r, hs, _ => by
    have := signature_size_pos k
    omega
  | fuel + 1, k, r, hs, hu => by
    have ih := parse_print_signature fuel
    cases k with
    | atomic v c akind =>
      simp only [signature_t.unambiguous, decide_eq_true_eq] at hu
      obtain ⟨hl, hd, hV, hK, hP, hR, hC, hG, hA, hF⟩ := letter_kind_atomic_letter akind hu
      simp only [print_signature, List.append_assoc, List.singleton_append, parse_signature]
      rw [parse_qualifiers_print v c _ _ hV hK]
      simp only [parse_body, hd, hP, hR, hC, hG, hA, hF, hl, if_false, Bool.false_eq_true]
    | complex v c akind =>
      simp only [signature_t.unambiguous, decide_eq_true_eq] at hu
      obtain ⟨hl, _⟩ := letter_kind_atomic_letter akind hu
      simp only [print_signature, List.append_assoc, List.cons_append, List.nil_append,
        parse_signature]
      rw [parse_qualifiers_print v c _ _ (by decide) (by decide)]
      have h1 : is_digit_char 'C' = false := by decide
      simp only [parse_body, h1, hl, Bool.false_eq_true, if_false,
        show ('C' : Char) ≠ 'P' by decide, show ('C' : Char) ≠ 'R' by decide, if_true]
    | imaginary v c akind =>
      simp only [signature_t.unambiguous, decide_eq_true_eq] at hu
      obtain ⟨hl, _⟩ := letter_kind_atomic_letter akind hu
      simp only [print_signature, List.append_assoc, List.cons_append, List.nil_append,
        parse_signature]
      rw [parse_qualifiers_print v c _ _ (by decide) (by decide)]
      have h1 : is_digit_char 'G' = false := by decide
      simp only [parse_body, h1, hl, Bool.false_eq_true, if_false,
        show ('G' : Char) ≠ 'P' by decide, show ('G' : Char) ≠ 'R' by decide,
        show ('G' : Char) ≠ 'C' by decide, if_true]
    | pointer v c p =>
      simp only [signature_t.unambiguous] at hu
      simp only [signature_t.size] at hs
      simp only [print_signature, List.append_assoc, List.cons_append, parse_signature]
      rw [parse_qualifiers_print v c _ _ (by decide) (by decide)]
      have h1 : is_digit_char 'P' = false := by decide
      simp only [parse_body, h1, Bool.false_eq_true, if_false, if_true,
        ih p r (by omega) hu]
    | reference v c p =>
      simp only [signature_t.unambiguous] at hu
      simp only [signature_t.size] at hs
      simp only [print_signature, List.append_assoc, List.cons_append, parse_signature]
      rw [parse_qualifiers_print v c _ _ (by decide) (by decide)]
      have h1 : is_digit_char 'R' = false := by decide
      simp only [parse_body, h1, Bool.false_eq_true, if_false, if_true,
        show ('R' : Char) ≠ 'P' by decide, ih p r (by omega) hu]
    | tag v c name =>
      simp only [signature_t.unambiguous] at hu
      obtain ⟨ch, rest, hp, hd⟩ := print_name_head name
      obtain ⟨hV, hK, _⟩ := is_digit_char_ne ch hd
      have hn := parse_name_print_name name r hu
      simp only [print_signature, List.append_assoc, parse_signature]
      rw [hp, List.cons_append] at hn ⊢
      rw [parse_qualifiers_print v c _ _ hV hK]
      simp only [parse_body, hd, if_true, hn]
    | array v c size e =>
      simp only [signature_t.unambiguous, Bool.and_eq_true] at hu
      simp only [signature_t.size] at hs
      simp only [print_signature, List.append_assoc, List.cons_append, parse_signature]
      rw [parse_qualifiers_print v c _ _ (by decide) (by decide)]
      have h1 : is_digit_char 'A' = false := by decide
      have hrec := ih e r (by omega) hu.2
      cases size with
      | none =>
        simp only [parse_body, h1, Bool.false_eq_true, if_false, if_true,
          show ('A' : Char) ≠ 'P' by decide, show ('A' : Char) ≠ 'R' by decide,
          show ('A' : Char) ≠ 'C' by decide, show ('A' : Char) ≠ 'G' by decide,
          List.nil_append, strip_char_eq, hrec]
      | some n =>
        have hn : n < 4294967296 := by simpa using hu.1
        obtain ⟨ch, rest, hp, hd⟩ := print_unsigned_head n
        have hnum := parse_number_print_unsigned n hn '_' (print_signature e ++ r)
          (by decide)
        simp only [parse_body, h1, Bool.false_eq_true, if_false, if_true,
          show ('A' : Char) ≠ 'P' by decide, show ('A' : Char) ≠ 'R' by decide,
          show ('A' : Char) ≠ 'C' by decide, show ('A' : Char) ≠ 'G' by decide]
        rw [hp, List.cons_append] at hnum ⊢
        rw [strip_char_ne _ _ _ (is_digit_char_ne ch hd).2.2.2.2.2]
        simp only [hnum, strip_char_eq, hrec]
    | function v c y ret params variadic =>
      simp only [signature_t.unambiguous, Bool.and_eq_true, Bool.not_eq_true'] at hu
      simp only [signature_t.size] at hs
      obtain ⟨⟨⟨hret, hparams⟩, hnil⟩, hvoid⟩ := hu
      simp only [print_signature, List.append_assoc, List.cons_append, parse_signature,
        List.singleton_append, List.nil_append]
      rw [parse_qualifiers_print v c _ _ (by decide) (by decide)]
      have h1 : is_digit_char 'F' = false := by decide
      have hrec := ih ret (print_parameters params variadic ++ 'E' :: r) (by omega) hret
      have hpar := parse_parameters_print (parse_signature fuel) fuel
        (fun k r hk hu => ih k r hk hu) fuel params variadic ('E' :: r) (by omega) (by omega)
        hparams hnil hvoid (Or.inr ⟨r, rfl⟩)
      obtain ⟨ch, rest, hp, hst⟩ := print_signature_head ret hret
      simp only [parse_body, h1, Bool.false_eq_true, if_false, if_true,
        show ('F' : Char) ≠ 'P' by decide, show ('F' : Char) ≠ 'R' by decide,
        show ('F' : Char) ≠ 'C' by decide, show ('F' : Char) ≠ 'G' by decide,
        show ('F' : Char) ≠ 'A' by decide]
      cases y
      · simp only [Bool.false_eq_true, if_false, List.nil_append]
        rw [hp, List.cons_append] at hrec ⊢
        rw [strip_char_ne _ _ _ (type_start_ne_Y ch hst)]
        simp only [hrec, hpar, strip_char_eq]
      · simp only [if_true, List.singleton_append, List.cons_append, List.nil_append,
          strip_char_eq, hrec, hpar]

theorem mangle_qualifiers_print (qualifiers : Nat) :
    mangle_qualifiers qualifiers =
      print_qualifiers (decide (qualifiers &&& TYPE_QUALIFIER_VOLATILE ≠ 0))
        (decide (qualifiers &&& TYPE_QUALIFIER_CONST ≠ 0)) := by
  simp [mangle_qualifiers, print_qualifiers]

theorem mangle_parameters_loop_print (tags : tag_entities_t) (fuel : Nat)
    (ih : ∀ (t : type_t) (s : List Char), mangle_type tags fuel t = some s →
      ∃ k, type_signature tags fuel t = some k ∧ print_signature k = s) :
    ∀ (parameters : function_parameter_t) (s : List Char),
      mangle_parameters_loop (mangle_type tags fuel) parameters = some s →
      ∃ l, parameter_signatures (type_signature tags fuel) parameters = some l ∧
        print_signature_list l = s
  | .null, s, h => by
    simp only [mangle_parameters_loop, Option.some.injEq] at h
    exact ⟨.nil, rfl, by rw [← h]; rfl⟩
  | .param type next, s, h => by
    simp only [mangle_parameters_loop] at h
    cases h1 : mangle_type tags fuel type with
    | none => simp [h1] at h
    | some s1 =>
      cases h2 : mangle_parameters_loop (mangle_type tags fuel) next with
      | none => simp [h1, h2] at h
      | some s2 =>
        simp only [h1, h2, Option.some.injEq] at h
        obtain ⟨k, hk, hp⟩ := ih type s1 h1
        obtain ⟨l, hl, hpl⟩ := mangle_parameters_loop_print tags fuel ih next s2 h2
        exact ⟨.cons k l, by simp only [parameter_signatures, hk, hl],
          by simp only [print_signature_list, hp, hpl, h]⟩

theorem mangle_parameters_print (tags : tag_entities_t) (fuel : Nat)
    (ih : ∀ (t : type_t) (s : List Char), mangle_type tags fuel t = some s →
      ∃ k, type_signature tags fuel t = some k ∧ print_signature k = s)
    (parameters : function_parameter_t) (variadic unspecified_parameters
      kr_style_parameters : Bool) (s : List Char)
    (h : mangle_parameters (mangle_type tags fuel) parameters variadic unspecified_parameters
      kr_style_parameters = some s) :
    unspecified_parameters = false ∧ kr_style_parameters = false ∧
    ∃ l, parameter_signatures (type_signature tags fuel) parameters = some l ∧
      print_parameters l variadic = s := by
  unfold mangle_parameters at h
  cases unspecified_parameters
  · cases kr_style_parameters
    · refine ⟨rfl, rfl, ?_⟩
      simp only [Bool.false_eq_true, if_false] at h
      cases parameters with
      | null =>
        simp only [Option.some.injEq] at h
        exact ⟨.nil, rfl, by rw [← h]; rfl⟩
      | param type next =>
        cases h1 : mangle_parameters_loop (mangle_type tags fuel) (.param type next) with
        | none => simp [h1] at h
        | some s1 =>
          simp only [h1, Option.some.injEq] at h
          obtain ⟨l, hl, hpl⟩ := mangle_parameters_loop_print tags fuel ih _ s1 h1
          refine ⟨l, hl, ?_⟩
          cases l with
          | nil =>
            simp only [parameter_signatures] at hl
            cases h3 : type_signature tags fuel type with
            | none => simp [h3] at hl
            | some k =>
              cases h4 : parameter_signatures (type_signature tags fuel) next with
              | none => simp [h3, h4] at hl
              | some l2 => simp [h3, h4] at hl
          | cons head tail =>
            simp only [print_signature_list] at hpl
            simp only [print_parameters, hpl, h]
    · simp at h
  · simp at h

theorem mangle_type_print (tags : tag_entities_t) : ∀ (fuel : Nat) (t : type_t) (s : List Char),
    mangle_type tags fuel t = some s →
    ∃ k, type_signature tags fuel t = some k ∧ print_signature k = s
  | 0, t, s, h => by simp [mangle_type] at h
  | fuel + 1, t, s, h => by
    have ih := mangle_type_print tags fuel
    rw [mangle_type] at h
    rw [type_signature]
    cases hs : skip_typeref t with
    | none => simp [hs] at h
    | some type =>
      simp only [hs] at h ⊢
      rw [mangle_qualifiers_print] at h
      cases type with
      | atomic q akind =>
        simp only [mangle_atomic_type] at h
        cases hm : get_atomic_type_mangle akind with
        | none => simp [hm] at h
        | some ch =>
          have hne : akind ≠ .ATOMIC_TYPE_INVALID := by
            intro hc; rw [hc] at hm; cases hm
          simp only [hm, Option.some.injEq] at h
          simp only [hne, if_false]
          exact ⟨_, rfl,
            by simpa only [print_signature, atomic_letter, hm, Option.getD_some] using h⟩
      | complex q akind =>
        simp only [mangle_complex_type] at h
        cases hm : get_atomic_type_mangle akind with
        | none => simp [hm] at h
        | some ch =>
          have hne : akind ≠ .ATOMIC_TYPE_INVALID := by
            intro hc; rw [hc] at hm; cases hm
          simp only [hm, Option.some.injEq] at h
          simp only [hne, if_false]
          exact ⟨_, rfl,
            by simpa only [print_signature, atomic_letter, hm, Option.getD_some] using h⟩
      | imaginary q akind =>
        simp only [mangle_imaginary_type] at h
        cases hm : get_atomic_type_mangle akind with
        | none => simp [hm] at h
        | some ch =>
          have hne : akind ≠ .ATOMIC_TYPE_INVALID := by
            intro hc; rw [hc] at hm; cases hm
          simp only [hm, Option.some.injEq] at h
          simp only [hne, if_false]
          exact ⟨_, rfl,
            by simpa only [print_signature, atomic_letter, hm, Option.getD_some] using h⟩
      | pointer q p b =>
        simp only [mangle_pointer_type] at h
        cases hm : mangle_type tags fuel p with
        | none => simp [hm] at h
        | some s1 =>
          obtain ⟨k, hk, hp⟩ := ih p s1 hm
          simp only [hm, Option.some.injEq] at h
          simp only [hk]
          exact ⟨_, rfl, by simpa only [print_signature, hp] using h⟩
      | reference q p =>
        simp only [mangle_reference_type] at h
        cases hm : mangle_type tags fuel p with
        | none => simp [hm] at h
        | some s1 =>
          obtain ⟨k, hk, hp⟩ := ih p s1 hm
          simp only [hm, Option.some.injEq] at h
          simp only [hk]
          exact ⟨_, rfl, by simpa only [print_signature, hp] using h⟩
      | array q e size size_constant x is_vla =>
        simp only [mangle_array_type] at h
        cases hm : mangle_type tags fuel e with
        | none => cases is_vla <;> cases size_constant <;> simp [hm] at h
        | some s1 =>
          obtain ⟨k, hk, hp⟩ := ih e s1 hm
          cases is_vla
          · cases size_constant
            · simp at h
            · simp only [hm, Bool.false_eq_true, if_false, if_true, Option.some.injEq] at h
              simp only [hk, Bool.false_eq_true, if_false, if_true]
              exact ⟨_, rfl, by
                simpa only [print_signature, hp, print_unsigned, to_unsigned, Nat.mod_mod]
                  using h⟩
          · simp only [hm, if_true, Option.some.injEq] at h
            simp only [hk, if_true]
            exact ⟨_, rfl, by simpa only [print_signature, hp, List.nil_append] using h⟩
      | compound_struct q i =>
        simp only [mangle_class_type] at h
        cases hsym : (tags.compound i).symbol with
        | some sym =>
          simp only [hsym, Option.some.injEq] at h
          simp only [tag_name, hsym]
          exact ⟨_, rfl, by simpa only [print_signature] using h⟩
        | none =>
          cases hal : (tags.compound i).alias_entity with
          | none => simp [hsym, hal] at h
          | some a =>
            cases a with
            | none => simp [hsym, hal] at h
            | some sym =>
              simp only [hsym, hal, Option.some.injEq] at h
              simp only [tag_name, hsym, hal]
              exact ⟨_, rfl, by simpa only [print_signature] using h⟩
      | compound_union q i =>
        simp only [mangle_class_type] at h
        cases hsym : (tags.compound i).symbol with
        | some sym =>
          simp only [hsym, Option.some.injEq] at h
          simp only [tag_name, hsym]
          exact ⟨_, rfl, by simpa only [print_signature] using h⟩
        | none =>
          cases hal : (tags.compound i).alias_entity with
          | none => simp [hsym, hal] at h
          | some a =>
            cases a with
            | none => simp [hsym, hal] at h
            | some sym =>
              simp only [hsym, hal, Option.some.injEq] at h
              simp only [tag_name, hsym, hal]
              exact ⟨_, rfl, by simpa only [print_signature] using h⟩
      | enumt q i akind =>
        simp only [mangle_enum_type, mangle_class_type] at h
        cases hsym : (tags.enume i).symbol with
        | some sym =>
          simp only [hsym, Option.some.injEq] at h
          simp only [tag_name, hsym]
          exact ⟨_, rfl, by simpa only [print_signature] using h⟩
        | none =>
          cases hal : (tags.enume i).alias_entity with
          | none => simp [hsym, hal] at h
          | some a =>
            cases a with
            | none => simp [hsym, hal] at h
            | some sym =>
              simp only [hsym, hal, Option.some.injEq] at h
              simp only [tag_name, hsym, hal]
              exact ⟨_, rfl, by simpa only [print_signature] using h⟩
      | function q ret params variadic unspec kr linkage cc m =>
        simp only [mangle_function_type] at h
        cases hm : mangle_type tags fuel ret with
        | none => simp [hm] at h
        | some s1 =>
          cases hpm : mangle_parameters (mangle_type tags fuel) params variadic unspec kr with
          | none => simp [hm, hpm] at h
          | some s2 =>
            obtain ⟨k, hk, hp⟩ := ih ret s1 hm
            obtain ⟨hu, hkr, l, hl, hpl⟩ := mangle_parameters_print tags fuel ih params variadic
              unspec kr s2 hpm
            subst hu hkr
            simp only [hm, hpm, Option.some.injEq] at h
            simp only [Bool.false_eq_true, if_false, hk, hl]
            refine ⟨_, rfl, ?_⟩
            simp only [print_signature, hp, hpl, ← h, decide_eq_true_eq, List.append_assoc]
      | invalid q => simp at h
      | error q => simp at h
      | bitfield q b sz => simp at h
      | builtin q sy r => simp at h
      | typedeft q a b c => simp at h
      | typeoft q a b => simp at h

theorem print_names_append (names : List String) (name : String) :
    print_names (names ++ [name]) = print_names names ++ print_name name := by
  induction names with
  | nil => simp [print_names]
  | cons x rest ih =>
    rw [List.cons_append, print_names, print_names, ih, List.append_assoc]

theorem mangle_namespace_print : ∀ (parent : parent_entity_t) (s : List Char),
    mangle_namespace parent = some s →
    ∃ names, entity_namespaces parent = some names ∧ print_names names = s
  | .null, s, h => by
    simp only [mangle_namespace, Option.some.injEq] at h
    exact ⟨[], rfl, by rw [← h]; rfl⟩
  | .entity kind symbol parent, s, h => by
    simp only [mangle_namespace] at h
    simp only [entity_namespaces]
    by_cases hk : kind = .ENTITY_NAMESPACE
    · simp only [hk, if_true] at h ⊢
      cases hm : mangle_namespace parent with
      | none => simp [hm] at h
      | some outer =>
        obtain ⟨names, hn, hp⟩ := mangle_namespace_print parent outer hm
        cases symbol with
        | none => simp [hm] at h
        | some name =>
          simp only [hm, Option.some.injEq] at h
          simp only [hn]
          exact ⟨_, rfl, by rw [print_names_append, hp, h]⟩
    · simp only [hk, if_false] at h ⊢
      exact mangle_namespace_print parent s h

theorem mangle_entity_print (tags : tag_entities_t) (fuel : Nat) (entity : linker_entity_t)
    (s : List Char) (hkind : entity.kind = .ENTITY_FUNCTION)
    (hdeclared : declared_with_function_type entity = true)
    (h : mangle_entity tags fuel entity = some s) :
    ∃ k, entity_signature tags fuel entity = some k ∧ print_entity k = s ∧
      (k.nested = false → k.namespaces = []) := by
  unfold mangle_entity declaration_type_function at h
  unfold entity_signature
  cases hsym : entity.symbol with
  | none =>
    rw [hsym] at h
    split at h <;> simp at h
  | some name =>
    cases hty : entity.type with
    | function q ret params variadic unspec kr linkage cc m =>
      by_cases hp : entity.parent_entity = .null
      · simp only [hp, ne_eq, not_true_eq_false, if_false, hsym, hkind, if_true, hty] at h
        cases hpm : mangle_parameters (mangle_type tags fuel) params variadic unspec kr with
        | none => simp [hpm] at h
        | some p =>
          obtain ⟨hu, hkr, l, hl, hpl⟩ := mangle_parameters_print tags fuel
            (mangle_type_print tags fuel) params variadic unspec kr p hpm
          subst hu hkr
          simp only [hpm, Option.some.injEq, List.nil_append] at h
          simp only [hp, entity_namespaces, Bool.false_eq_true, if_false, hl, ne_eq,
            not_true_eq_false, decide_False]
          exact ⟨_, rfl, by simp only [print_entity, Bool.false_eq_true, if_false,
            List.nil_append, hpl, h], fun _ => rfl⟩
      · simp only [ne_eq, hp, not_false_eq_true, if_true, hsym, hkind, hty] at h
        cases hns : mangle_namespace entity.parent_entity with
        | none => simp [hns] at h
        | some ns =>
          obtain ⟨names, hn, hpn⟩ := mangle_namespace_print _ ns hns
          cases hpm : mangle_parameters (mangle_type tags fuel) params variadic unspec kr with
          | none => simp [hns, hpm] at h
          | some p =>
            obtain ⟨hu, hkr, l, hl, hpl⟩ := mangle_parameters_print tags fuel
              (mangle_type_print tags fuel) params variadic unspec kr p hpm
            subst hu hkr
            simp only [hns, hpm, Option.some.injEq] at h
            simp only [hn, Bool.false_eq_true, if_false, hl, ne_eq, hp, not_false_eq_true,
              decide_True]
            exact ⟨_, rfl, by simp only [print_entity, if_true, hpn, hpl, h],
              fun hc => by cases hc⟩
    | _ =>
      rw [declared_with_function_type, hty] at hdeclared
      exact absurd hdeclared (by simp [is_type_function, type_t.kind])

theorem parse_names_print : ∀ (n : Nat) (names : List String) (r : List Char),
    names.length < n → (∀ x ∈ names, is_identifier x = true) →
    (∀ ch rest, r = ch :: rest → is_digit_char ch = false) →
    parse_names n (print_names names ++ r) = some (names, r)
  | 0, names, r, hn, _, _ => by omega
  | n + 1, [], r, _, _, hr => by
    cases r with
    | nil => rfl
    | cons ch rest =>
      simp only [print_names, List.nil_append, parse_names, hr ch rest rfl]
      rfl
  | n + 1, name :: names, r, hn, hid, hr => by
    obtain ⟨ch, rest, hp, hd⟩ := print_name_head name
    have h1 := parse_name_print_name name (print_names names ++ r)
      (hid name (List.mem_cons_self _ _))
    have h2 := parse_names_print n names r (by simpa using hn)
      (fun x hx => hid x (List.mem_cons_of_mem _ hx)) hr
    have hform : print_names (name :: names) ++ r =
        ch :: (rest ++ (print_names names ++ r)) := by
      simp only [print_names, hp, List.append_assoc, List.cons_append]
    rw [hp, List.cons_append] at h1
    rw [hform, parse_names]
    simp only [hd, if_true, h1, h2]

theorem print_parameters_head (l : signature_list_t) (variadic : Bool)
    (hu : l.unambiguous = true) (ht : l.head_is_tag = false) :
    ∃ ch rest, print_parameters l variadic = ch :: rest ∧ is_digit_char ch = false := by
  cases l with
  | nil => exact ⟨'v', [], rfl, by decide⟩
  | cons head tail =>
    simp only [signature_list_t.unambiguous, Bool.and_eq_true] at hu
    simp only [print_parameters, List.append_assoc]
    cases head with
    | atomic v c akind =>
      have hne : akind ≠ .ATOMIC_TYPE_INVALID := by
        simpa [signature_t.unambiguous] using hu.1
      cases v <;> cases c
      · exact ⟨atomic_letter akind, _, rfl, (letter_kind_atomic_letter akind hne).2.1⟩
      · exact ⟨'K', _, rfl, by decide⟩
      · exact ⟨'V', _, rfl, by decide⟩
      · exact ⟨'V', _, rfl, by decide⟩
    | tag v c name =>
      cases v <;> cases c
      · simp [signature_list_t.head_is_tag] at ht
      · exact ⟨'K', _, rfl, by decide⟩
      · exact ⟨'V', _, rfl, by decide⟩
      · exact ⟨'V', _, rfl, by decide⟩
    | complex v c akind => cases v <;> cases c <;> exact ⟨_, _, rfl, by decide⟩
    | imaginary v c akind => cases v <;> cases c <;> exact ⟨_, _, rfl, by decide⟩
    | pointer v c p => cases v <;> cases c <;> exact ⟨_, _, rfl, by decide⟩
    | reference v c p => cases v <;> cases c <;> exact ⟨_, _, rfl, by decide⟩
    | array v c size e => cases v <;> cases c <;> exact ⟨_, _, rfl, by decide⟩
    | function v c y ret params va =>
      simp only [print_signature]
      cases v <;> cases c <;> exact ⟨_, _, rfl, by decide⟩

theorem parse_entity_print (fuel : Nat) (k : entity_signature_t)
    (hu : k.unambiguous = true) (hns : k.nested = false → k.namespaces = [])
    (hsize : k.parameters.size ≤ fuel) (hnames : k.namespaces.length + 2 ≤ fuel) :
    parse_entity fuel (print_entity k) = some k := by
  obtain ⟨nested, namespaces, name, parameters, variadic⟩ := k
  simp only [entity_signature_t.unambiguous, Bool.and_eq_true, Bool.not_eq_true',
    List.all_eq_true] at hu
  obtain ⟨⟨⟨⟨⟨hids, hid⟩, hpu⟩, hnil⟩, hvoid⟩, htag⟩ := hu
  simp only at hns hsize hnames
  have hpar := parse_parameters_print (parse_signature fuel) fuel
    (fun k r hk hu => parse_print_signature fuel k r hk hu) fuel parameters variadic []
    hsize (by omega) hpu hnil hvoid (Or.inl rfl)
  rw [List.append_nil] at hpar
  obtain ⟨ch, rest, hp, hd⟩ := print_name_head name
  cases nested with
  | false =>
    have hnil2 : namespaces = [] := hns rfl
    subst hnil2
    have hname := parse_name_print_name name (print_parameters parameters variadic) hid
    simp only [print_entity, Bool.false_eq_true, if_false, List.nil_append, parse_entity]
    rw [hp, List.cons_append] at hname ⊢
    rw [strip_char_ne _ _ _ (is_digit_char_ne ch hd).2.2.2.2.1]
    simp only [hname, hpar]
  | true =>
    have htag2 : parameters.head_is_tag = false := by simpa using htag
    obtain ⟨c2, rest2, hp2, hd2⟩ := print_parameters_head parameters variadic hpu htag2
    have hnames2 := parse_names_print fuel (namespaces ++ [name])
      (print_parameters parameters variadic) (by simp; omega)
      (by
        intro x hx
        rcases List.mem_append.mp hx with hx | hx
        · exact hids x hx
        · rw [List.mem_singleton.mp hx]; exact hid)
      (by
        intro c3 rest3 hc
        rw [hp2] at hc
        cases hc
        exact hd2)
    rw [print_names_append, List.append_assoc] at hnames2
    simp only [print_entity, if_true, List.cons_append, List.append_assoc, parse_entity,
      strip_char_eq, hnames2, List.getLast?_append, List.getLast?_singleton, Option.or_some,
      List.dropLast_concat, hpar]

theorem create_name_linux_elf_cxx (tags : tag_entities_t) (fuel : Nat)
    (entity : linker_entity_t) (symbol : String) (hcxx : is_cxx_function entity = true)
    (h : create_name_linux_elf tags fuel entity = some symbol) :
    entity.kind = .ENTITY_FUNCTION ∧
    ∃ obst, mangle_entity tags fuel entity = some obst ∧ symbol = String.mk obst := by
  unfold is_cxx_function at hcxx
  simp only [Bool.and_eq_true, decide_eq_true_eq] at hcxx
  obtain ⟨hkind, hlink⟩ := hcxx
  refine ⟨hkind, ?_⟩
  unfold create_name_linux_elf at h
  cases hsym : entity.symbol with
  | none => simp [hsym] at h
  | some name =>
    cases hs : skip_typeref entity.type with
    | none => simp [hs] at hlink
    | some type =>
      cases type with
      | function q ret params variadic unspec kr linkage cc m =>
        simp only [hs, decide_eq_true_eq] at hlink
        subst hlink
        simp only [hsym, hkind, if_true, hs] at h
        cases hm : mangle_entity tags fuel entity with
        | none => simp [hm] at h
        | some obst =>
          simp only [hm, Option.some.injEq, make_id_from_obst] at h
          exact ⟨obst, rfl, h.symm⟩
      | _ => simp [hs] at hlink

/-- Claim C18, amended: two functions of C++ linkage, each declared with a
function type of its own (not through a typedef name), that receive the
same symbol from `create_name_linux_elf` have the same signature, that is
the same nesting, namespace names, identifier and parameter types, the
types compared after resolving typedefs by what the mangling encodes: the
kind of the type with `const` and `volatile` (no other qualifier), the
atomic kind, the target of a pointer or reference, the element type of an
array and its size as an `unsigned` (no size for a VLA), the tag name of a
struct, union or enum, and for a function type its linkage (C or not),
return type, parameter types and variadic flag (not the calling
convention); provided their signatures can be read back from the mangling:
the names are identifiers, no parameter list is both empty and variadic or
starts with `void`, and below a parent entity the first parameter is no
unqualified struct, union or enum type. -/
theorem create_name_linux_elf_injective (tags : tag_entities_t) (fuel1 fuel2 : Nat)
    (entity1 entity2 : linker_entity_t) (symbol : String)
    (hcxx1 : is_cxx_function entity1 = true) (hcxx2 : is_cxx_function entity2 = true)
    (hdeclared1 : declared_with_function_type entity1 = true)
    (hdeclared2 : declared_with_function_type entity2 = true)
    (h1 : create_name_linux_elf tags fuel1 entity1 = some symbol)
    (h2 : create_name_linux_elf tags fuel2 entity2 = some symbol)
    (hu1 : ∀ k, entity_signature tags fuel1 entity1 = some k → k.unambiguous = true)
    (hu2 : ∀ k, entity_signature tags fuel2 entity2 = some k → k.unambiguous = true) :
    ∃ k, entity_signature tags fuel1 entity1 = some k ∧
      entity_signature tags fuel2 entity2 = some k := by
  obtain ⟨hk1, obst1, hm1, hs1⟩ := create_name_linux_elf_cxx tags fuel1 entity1 symbol hcxx1 h1
  obtain ⟨hk2, obst2, hm2, hs2⟩ := create_name_linux_elf_cxx tags fuel2 entity2 symbol hcxx2 h2
  have hobst : obst1 = obst2 := by
    have := hs1.symm.trans hs2
    exact congrArg String.data this
  obtain ⟨k1, he1, hp1, hn1⟩ :=
    mangle_entity_print tags fuel1 entity1 obst1 hk1 hdeclared1 hm1
  obtain ⟨k2, he2, hp2, hn2⟩ :=
    mangle_entity_print tags fuel2 entity2 obst2 hk2 hdeclared2 hm2
  have hfuel : ∃ fuel, (k1.parameters.size ≤ fuel ∧ k1.namespaces.length + 2 ≤ fuel) ∧
      (k2.parameters.size ≤ fuel ∧ k2.namespaces.length + 2 ≤ fuel) :=
    ⟨k1.parameters.size + k1.namespaces.length + k2.parameters.size + k2.namespaces.length + 2,
      ⟨by omega, by omega⟩, ⟨by omega, by omega⟩⟩
  obtain ⟨fuel, ⟨ha1, hb1⟩, ⟨ha2, hb2⟩⟩ := hfuel
  have hr1 := parse_entity_print fuel k1 (hu1 k1 he1) hn1 ha1 hb1
  have hr2 := parse_entity_print fuel k2 (hu2 k2 he2) hn2 ha2 hb2
  rw [hp1, hobst] at hr1
  rw [hp2, hr1] at hr2
  have hk : k1 = k2 := Option.some.inj hr2
  exact ⟨k1, he1, by rw [he2, hk]⟩

/-- Witness of `create_name_linux_elf_injective`: `void ns::f(int, const
char *)` and `void ns::f(I, const char *restrict)` with `typedef int I`
receive the same symbol and have the same signature.  The function `F f;`
with `typedef void F(int, const char *)` is not declared with a function
type of its own: its symbol has the parameters that the member `function`
of the typedef node reads as, here none. -/
theorem create_name_linux_elf_injective_witness :
    is_cxx_function example_namespace_function = true ∧
    is_cxx_function example_namespace_function_typedef = true ∧
    declared_with_function_type example_namespace_function = true ∧
    declared_with_function_type example_namespace_function_typedef = true ∧
    create_name_linux_elf example_tags 2 example_namespace_function = some "_ZN2ns1fiPKc" ∧
    create_name_linux_elf example_tags 3 example_namespace_function_typedef
      = some "_ZN2ns1fiPKc" ∧
    entity_signature example_tags 2 example_namespace_function
      = some example_namespace_signature ∧
    example_namespace_signature.unambiguous = true ∧
    is_cxx_function example_typedef_function = true ∧
    declared_with_function_type example_typedef_function = false ∧
    create_name_linux_elf example_tags 3 example_typedef_function = some "_Z1fv" ∧
    ∃ k, entity_signature example_tags 2 example_namespace_function = some k ∧
      entity_signature example_tags 3 example_namespace_function_typedef = some k :=
  have hs1 : entity_signature example_tags 2 example_namespace_function
      = some example_namespace_signature := by decide
  have hs2 : entity_signature example_tags 3 example_namespace_function_typedef
      = some example_namespace_signature := by decide
  have hu : example_namespace_signature.unambiguous = true := by decide
  ⟨by decide, by decide, by decide, by decide, by decide, by decide, hs1, hu, by decide,
    by decide, by decide,
    create_name_linux_elf_injective example_tags 2 3 example_namespace_function
      example_namespace_function_typedef "_ZN2ns1fiPKc" (by decide) (by decide) (by decide)
      (by decide) (by decide) (by decide)
      (fun k hk => by rw [hs1] at hk; cases hk; exact hu)
      (fun k hk => by rw [hs2] at hk; cases hk; exact hu)⟩

/-- Claim C18 fails on `void f(int *restrict)` and `void f(int *)`: the
parameter types differ in the qualifier `restrict`, which the mangler
leaves out, and both functions receive the symbol `_Z1fPi`.  It fails too on
`void f(void (__stdcall *)())` and `void f(void (*)())`, whose parameter
types differ in the calling convention, which has no letter in the
mangling: both receive `_Z1fPFvvE`; and on `void f(int (*)[4294967297])` and
`void f(int (*)[1])`, since the size of an array is printed as an
`unsigned`: both receive `_Z1fPA1_i`. -/
theorem create_name_linux_elf_injective_counterexample :
    create_name_linux_elf example_tags 3 (example_pointer_function TYPE_QUALIFIER_RESTRICT)
      = some "_Z1fPi" ∧
    create_name_linux_elf example_tags 3 (example_pointer_function TYPE_QUALIFIER_NONE)
      = some "_Z1fPi" ∧
    skip_typeref (.pointer TYPE_QUALIFIER_RESTRICT example_int none) ≠
      skip_typeref (.pointer TYPE_QUALIFIER_NONE example_int none) ∧
    create_name_linux_elf example_tags 4 (example_callback_function .CC_STDCALL)
      = some "_Z1fPFvvE" ∧
    create_name_linux_elf example_tags 4 (example_callback_function .CC_DEFAULT)
      = some "_Z1fPFvvE" ∧
    (example_callback_function .CC_STDCALL).type ≠
      (example_callback_function .CC_DEFAULT).type ∧
    create_name_linux_elf example_tags 4 (example_array_function 4294967297)
      = some "_Z1fPA1_i" ∧
    create_name_linux_elf example_tags 4 (example_array_function 1) = some "_Z1fPA1_i" := by
  decide

/-! ## Format checker -/

/-- Claim C20 fails on `printf("%*d", 5, 1)`: the argument of the `*` is
consumed but not counted, so the matching call draws the warning
`2 arguments but only 1 format specifier`; `printf("%d %s\n", 1, "x")` is
silent. -/
theorem check_format_star_width :
    check_format example_format_env 8 (example_callee "printf")
      (example_arguments [example_string_literal "%*d", example_int_literal,
        example_int_literal]) = some [.too_many_arguments 2 1] ∧
    check_format example_format_env 8 (example_callee "printf")
      (example_arguments [example_string_literal "%d %s\n", example_int_literal,
        example_string_literal "x"]) = some [] := by
  constructor <;> decide

/-- Claim C22 fails on `scanf("%5s", buf)` with `char *buf`: the scanf
checker goes from `%` straight to the length modifier, takes the `5` of the
field width for the conversion specifier and warns of the unknown
conversion specifier `%5`; without the width, `scanf("%s", buf)` is
silent. -/
theorem check_format_scanf_width :
    check_format example_format_env 8 (example_callee "scanf")
      (example_arguments [example_string_literal "%5s",
        .reference { type := example_char_pointer }
          { kind := .ENTITY_VARIABLE, type := example_char_pointer }])
      = some [.unknown_conversion '5'.toNat 1] ∧
    check_format example_format_env 8 (example_callee "scanf")
      (example_arguments [example_string_literal "%s",
        .reference { type := example_char_pointer }
          { kind := .ENTITY_VARIABLE, type := example_char_pointer }])
      = some [] := by
  constructor <;> decide

/-! ## Attributes -/

/-- Claim C23 fails where `char` is unsigned: `signed int` with `mode(QI)`
becomes `char`, which is then no signed type.  With `mode(__DI__)`, `int`
becomes `long long` and `unsigned int` becomes `unsigned long long`. -/
theorem handle_attribute_mode_char_sign :
    handle_attribute_mode example_config_unsigned_char example_attribute_env
      (example_mode "QI") example_int
      = some (.atomic TYPE_QUALIFIER_NONE .ATOMIC_TYPE_CHAR, []) ∧
    is_type_signed example_config_unsigned_char example_int = some true ∧
    is_type_signed example_config_unsigned_char
      (.atomic TYPE_QUALIFIER_NONE .ATOMIC_TYPE_CHAR) = some false ∧
    handle_attribute_mode example_config_unsigned_char example_attribute_env
      (example_mode "__DI__") example_int
      = some (.atomic TYPE_QUALIFIER_NONE .ATOMIC_TYPE_LONGLONG, []) ∧
    handle_attribute_mode example_config_unsigned_char example_attribute_env
      (example_mode "__DI__") example_unsigned
      = some (.atomic TYPE_QUALIFIER_NONE .ATOMIC_TYPE_ULONGLONG, []) := by
  decide

/-- Claim C24 fails on `float`: `handle_attribute_mode` tests the kind of
the type for `TYPE_ATOMIC`, not for an integer type, emits no diagnostic
and returns `int` for `float` with `mode(SI)`; on a struct type it emits
the error and returns the type. -/
theorem handle_attribute_mode_float :
    handle_attribute_mode example_config example_attribute_env (example_mode "SI")
      (.atomic TYPE_QUALIFIER_NONE .ATOMIC_TYPE_FLOAT)
      = some (.atomic TYPE_QUALIFIER_NONE .ATOMIC_TYPE_INT, []) ∧
    is_type_integer example_config (.atomic TYPE_QUALIFIER_NONE .ATOMIC_TYPE_FLOAT)
      = some false ∧
    handle_attribute_mode example_config example_attribute_env (example_mode "SI")
      (.compound_struct TYPE_QUALIFIER_NONE 0)
      = some (.compound_struct TYPE_QUALIFIER_NONE 0, [.mode_not_allowed]) := by
  decide

theorem and_pred_eq_zero : ∀ (x : Nat), 0 < x → x &&& (x - 1) = 0 → ∃ k : Nat, x = 2 ^ k := by
  intro x
  induction x using Nat.strong_induction_on with
  | _ x ih =>
    intro hx h
    have hdiv : x / 2 &&& (x - 1) / 2 = 0 := by
      rw [← Nat.and_div_two, h]
    rcases Nat.mod_two_eq_zero_or_one x with hm | hm
    · have hx2 : 0 < x / 2 := by omega
      have hpred : (x - 1) / 2 = x / 2 - 1 := by omega
      rw [hpred] at hdiv
      obtain ⟨k, hk⟩ := ih (x / 2) (by omega) hx2 hdiv
      exact ⟨k + 1, by rw [pow_succ, ← hk]; omega⟩
    · have hpred : (x - 1) / 2 = x / 2 := by omega
      rw [hpred, Nat.and_self] at hdiv
      exact ⟨0, by simp; omega⟩

theorem is_po2_iff (x : Nat) (hx : 0 < x) (hlt : x < 4294967296) :
    is_po2 x = true ↔ ∃ k : Nat, x = 2 ^ k := by
  have hsub : (x + 4294967295) % 4294967296 = x - 1 := by omega
  unfold is_po2
  rw [hsub, beq_iff_eq]
  constructor
  · exact and_pred_eq_zero x hx
  · rintro ⟨k, rfl⟩
    rw [Nat.and_pow_two_sub_one_eq_mod, Nat.mod_self]

theorem int_to_unsigned_of_pos (n : Int) (h0 : 0 < n) (h1 : n < 2147483648) :
    int_to_unsigned n = n.toNat ∧ 0 < n.toNat ∧ n.toNat < 4294967296 := by
  unfold int_to_unsigned
  have : n % 4294967296 = n := Int.emod_eq_of_lt (by omega) (by omega)
  rw [this]
  omega

theorem int_two_pow_iff (n : Int) (h0 : 0 < n) :
    (∃ k : Nat, n.toNat = 2 ^ k) ↔ ∃ k : Nat, n = 2 ^ k := by
  constructor
  · rintro ⟨k, hk⟩
    refine ⟨k, ?_⟩
    have h : ((n.toNat : Nat) : Int) = n := Int.toNat_of_nonneg (by omega)
    rw [← h, hk]
    push_cast
    rfl
  · rintro ⟨k, hk⟩
    refine ⟨k, ?_⟩
    rw [hk]
    have : ((2 : Int) ^ k) = ((2 ^ k : Nat) : Int) := by push_cast; rfl
    rw [this, Int.toNat_natCast]

/-- Claim C25: for the 32-bit signed value `n` of the argument of
`aligned(n)` or `align(n)`, `handle_attribute_aligned` returns, and it
emits no error iff `n > 0` and `n` is a power of two; for any other `n` it
emits an error and returns the entity as it was. -/
theorem handle_attribute_aligned_validation (cfg : config_t) (env : attribute_env_t)
    (kind : attribute_kind_t) (expression : expression_t)
    (rest : List attribute_argument_t) (entity : attributed_entity_t)
    (hmin : -2147483648 ≤ env.fold_constant_to_int expression)
    (hmax : env.fold_constant_to_int expression < 2147483648) :
    ∃ result diagnostics,
      handle_attribute_aligned cfg env
        { kind := kind, arguments := .ATTRIBUTE_ARGUMENT_EXPRESSION expression :: rest } entity
        = some (result, diagnostics) ∧
      ((∀ d ∈ diagnostics, d.is_error = false) ↔
        (0 < env.fold_constant_to_int expression ∧
          ∃ k : Nat, env.fold_constant_to_int expression = 2 ^ k)) ∧
      (¬ (0 < env.fold_constant_to_int expression ∧
          ∃ k : Nat, env.fold_constant_to_int expression = 2 ^ k) →
        result = entity ∧ ∃ d, diagnostics = [d] ∧ d.is_error = true) := by
  generalize hn : env.fold_constant_to_int expression = n at hmin hmax
  unfold handle_attribute_aligned
  simp only [hn]
  by_cases hpos : 0 < n
  · obtain ⟨hu, hu0, hult⟩ := int_to_unsigned_of_pos n hpos hmax
    have hiff := (is_po2_iff n.toNat hu0 hult).trans (int_two_pow_iff n hpos)
    rw [hu]
    by_cases hp : is_po2 n.toNat = true
    · have hk := hiff.mp hp
      have hle : ¬ n ≤ 0 := by omega
      simp only [hp, Bool.not_true, Bool.false_eq_true, if_false, hle]
      split
      · exact ⟨_, _, rfl, by simp [hpos, hk], fun hc => absurd ⟨hpos, hk⟩ hc⟩
      · split
        · exact ⟨_, _, rfl, by simp [hpos, hk], fun hc => absurd ⟨hpos, hk⟩ hc⟩
        · split
          · split
            · exact ⟨_, _, rfl, by simp [hpos, hk], fun hc => absurd ⟨hpos, hk⟩ hc⟩
            · exact ⟨_, _, rfl, by simp [hpos, hk], fun hc => absurd ⟨hpos, hk⟩ hc⟩
          · refine ⟨_, _, rfl, ?_, fun hc => absurd ⟨hpos, hk⟩ hc⟩
            cases env.warning_other <;>
              simp [hpos, hk, attribute_diagnostic_t.is_error]
    · have hk : ¬ ∃ k : Nat, n = 2 ^ k := fun h => hp (hiff.mpr h)
      simp only [hp, Bool.not_false, if_true]
      exact ⟨_, _, rfl, by simp [hk, attribute_diagnostic_t.is_error],
        fun _ => ⟨rfl, _, rfl, rfl⟩⟩
  · have hno : ¬ (0 < n ∧ ∃ k : Nat, n = 2 ^ k) := fun h => hpos h.1
    have hle : n ≤ 0 := by omega
    by_cases hp : is_po2 (int_to_unsigned n) = true
    · simp only [hp, Bool.not_true, Bool.false_eq_true, if_false, hle, if_true]
      exact ⟨_, _, rfl, by simp [hno, attribute_diagnostic_t.is_error],
        fun _ => ⟨rfl, _, rfl, rfl⟩⟩
    · simp only [hp, Bool.not_false, if_true]
      exact ⟨_, _, rfl, by simp [hno, attribute_diagnostic_t.is_error],
        fun _ => ⟨rfl, _, rfl, rfl⟩⟩

/-- Witness of `handle_attribute_aligned_validation`: `aligned(8)` on a
variable is accepted, the alignment becomes 8. -/
theorem handle_attribute_aligned_validation_witness :
    -2147483648 ≤ (example_fold_env 8).fold_constant_to_int example_zero ∧
    (example_fold_env 8).fold_constant_to_int example_zero < 2147483648 ∧
    handle_attribute_aligned example_config (example_fold_env 8) example_aligned
      (example_attributed_entity .ENTITY_VARIABLE example_int)
      = some ({ example_attributed_entity .ENTITY_VARIABLE example_int with
                declaration_alignment := 8, typedefe_alignment := 8 }, []) ∧
    ∃ result diagnostics,
      handle_attribute_aligned example_config (example_fold_env 8)
        { kind := .ATTRIBUTE_GNU_ALIGNED,
          arguments := .ATTRIBUTE_ARGUMENT_EXPRESSION example_zero :: [] }
        (example_attributed_entity .ENTITY_VARIABLE example_int)
        = some (result, diagnostics) ∧
      ((∀ d ∈ diagnostics, d.is_error = false) ↔
        (0 < (example_fold_env 8).fold_constant_to_int example_zero ∧
          ∃ k : Nat, (example_fold_env 8).fold_constant_to_int example_zero = 2 ^ k)) ∧
      (¬ (0 < (example_fold_env 8).fold_constant_to_int example_zero ∧
          ∃ k : Nat, (example_fold_env 8).fold_constant_to_int example_zero = 2 ^ k) →
        result = example_attributed_entity .ENTITY_VARIABLE example_int ∧
          ∃ d, diagnostics = [d] ∧ d.is_error = true) :=
  ⟨by decide, by decide, by decide,
    handle_attribute_aligned_validation example_config (example_fold_env 8)
      .ATTRIBUTE_GNU_ALIGNED example_zero [] _ (by decide) (by decide)⟩

theorem mode_applicable_of_not_typeref (cfg : config_t) (type : type_t) (sign : Bool)
    (htype : is_typeref type = false) (hsign : is_type_signed cfg type = some sign) :
    mode_applicable cfg type = true := by
  unfold mode_applicable
  rw [skip_typeref_of_not_typeref type htype]
  simp only [hsign, Option.isSome_some]

theorem handle_attribute_mode_returns (cfg : config_t) (env : attribute_env_t)
    (attr : attribute_t) (type : type_t) (symbol_str : String)
    (rest : List attribute_argument_t)
    (harg : attr.arguments = .ATTRIBUTE_ARGUMENT_SYMBOL symbol_str :: rest)
    (htype : mode_applicable cfg type = true) :
    ∃ result diagnostics,
      handle_attribute_mode cfg env attr type = some (result, diagnostics) ∧
      mode_applicable cfg result = true := by
  have htype0 := htype
  unfold mode_applicable at htype
  cases hskip : skip_typeref type with
  | none => rw [hskip] at htype; simp at htype
  | some skipped =>
      rw [hskip] at htype
      simp only [] at htype
      cases hsign : is_type_signed cfg skipped with
      | none => rw [hsign] at htype; simp at htype
      | some sign =>
          unfold handle_attribute_mode
          rw [hskip, harg]
          simp only [hsign]
          cases hkind : mode_atomic_kind sign symbol_str with
          | none => exact ⟨_, _, rfl, htype0⟩
          | some akind =>
              simp only []
              cases skipped with
              | atomic q k =>
                  exact ⟨_, _, rfl, mode_applicable_of_not_typeref cfg _ _ rfl rfl⟩
              | enumt q e k =>
                  exact ⟨_, _, rfl, mode_applicable_of_not_typeref cfg _ _ rfl rfl⟩
              | pointer q p b =>
                  exact ⟨_, _, rfl, mode_applicable_of_not_typeref cfg _ false rfl rfl⟩
              | typedeft q t a r => exact absurd hsign (by simp [is_type_signed])
              | typeoft q t e => exact absurd hsign (by simp [is_type_signed])
              | _ => exact ⟨_, _, rfl, htype0⟩

theorem change_calling_convention_returns (cfg : config_t) (type : type_t)
    (cconv : cc_kind_t) :
    ∃ result, change_calling_convention type cconv = some result ∧
      (mode_applicable cfg type = true → mode_applicable cfg result = true) := by
  unfold change_calling_convention
  by_cases h : (is_typeref type || !is_type_function type) = true
  · rw [if_pos h]
    exact ⟨type, rfl, fun h => h⟩
  · rw [if_neg h]
    cases type with
    | function q r p v u k l calling_convention m =>
        simp only []
        by_cases hc : calling_convention = cconv
        · rw [if_pos hc]
          exact ⟨_, rfl, fun h => h⟩
        · rw [if_neg hc]
          exact ⟨_, rfl, fun _ => mode_applicable_of_not_typeref cfg _ false rfl rfl⟩
    | _ => exact absurd (by simp [is_typeref, is_type_function, type_t.kind]) h

theorem handle_type_attribute_returns (cfg : config_t) (env : attribute_env_t)
    (attr : attribute_t) (compounds : Nat → compound_t) (type : type_t)
    (hread : attribute_arguments_readable [attr] = true)
    (hmode : attr.kind = .ATTRIBUTE_GNU_MODE → mode_applicable cfg type = true) :
    ∃ result compounds1 diagnostics,
      handle_type_attribute cfg env attr compounds type
        = some (result, compounds1, diagnostics) ∧
      (mode_applicable cfg type = true → mode_applicable cfg result = true) := by
  have hcc : ∀ cconv, ∃ result compounds1 diagnostics,
      Option.map (fun t => (t, compounds, ([] : List attribute_diagnostic_t)))
        (change_calling_convention type cconv) = some (result, compounds1, diagnostics) ∧
      (mode_applicable cfg type = true → mode_applicable cfg result = true) := by
    intro cconv
    obtain ⟨result, h, hm⟩ := change_calling_convention_returns cfg type cconv
    exact ⟨result, compounds, [], by rw [h]; rfl, hm⟩
  unfold handle_type_attribute
  cases hk : attr.kind
  case ATTRIBUTE_GNU_MODE =>
    simp only [attribute_arguments_readable, hk, Bool.and_true] at hread
    cases harg : attr.arguments with
    | nil => rw [harg] at hread; simp at hread
    | cons argument rest =>
        cases argument with
        | ATTRIBUTE_ARGUMENT_EXPRESSION expression =>
            rw [harg] at hread; simp at hread
        | ATTRIBUTE_ARGUMENT_SYMBOL symbol_str =>
            obtain ⟨result, diagnostics, h, hm⟩ :=
              handle_attribute_mode_returns cfg env attr type symbol_str rest harg (hmode hk)
            exact ⟨result, compounds, diagnostics, by simp only [h, Option.map_some'],
              fun _ => hm⟩
  case ATTRIBUTE_GNU_PACKED =>
    exact ⟨type, (handle_attribute_packed env attr compounds type).1,
      (handle_attribute_packed env attr compounds type).2, rfl, fun h => h⟩
  case ATTRIBUTE_GNU_CDECL => exact hcc _
  case ATTRIBUTE_MS_CDECL => exact hcc _
  case ATTRIBUTE_MS_STDCALL => exact hcc _
  case ATTRIBUTE_GNU_STDCALL => exact hcc _
  case ATTRIBUTE_MS_FASTCALL => exact hcc _
  case ATTRIBUTE_GNU_FASTCALL => exact hcc _
  case ATTRIBUTE_MS_THISCALL => exact hcc _
  all_goals exact ⟨type, compounds, [], rfl, fun h => h⟩

theorem handle_type_attributes_returns (cfg : config_t) (env : attribute_env_t) :
    ∀ (attributes : List attribute_t) (compounds : Nat → compound_t) (type : type_t),
      attribute_arguments_readable attributes = true →
      (contains_mode attributes = true → mode_applicable cfg type = true) →
      ∃ result compounds1 diagnostics,
        handle_type_attributes cfg env attributes compounds type
          = some (result, compounds1, diagnostics)
  | [], compounds, type, _, _ => ⟨type, compounds, [], rfl⟩
  | attr :: next, compounds, type, hread, hmode => by
      rw [attribute_arguments_readable, Bool.and_eq_true] at hread
      obtain ⟨hattr, hnext⟩ := hread
      have hmode1 : attr.kind = .ATTRIBUTE_GNU_MODE → mode_applicable cfg type = true := by
        intro hk
        apply hmode
        simp only [contains_mode, hk, decide_True, Bool.true_or]
      obtain ⟨type1, compounds1, diagnostics1, h1, hm1⟩ :=
        handle_type_attribute_returns cfg env attr compounds type
          (by rw [attribute_arguments_readable, Bool.and_eq_true]; exact ⟨hattr, rfl⟩) hmode1
      have hmode2 : contains_mode next = true → mode_applicable cfg type1 = true := by
        intro hc
        apply hm1
        apply hmode
        simp only [contains_mode, hc, Bool.or_true]
      obtain ⟨type2, compounds2, diagnostics2, h2⟩ :=
        handle_type_attributes_returns cfg env next compounds1 type1 hnext hmode2
      refine ⟨type2, compounds2, diagnostics1 ++ diagnostics2, ?_⟩
      rw [handle_type_attributes, h1]
      simp only [h2]

theorem set_compound_packed_twice (compounds : Nat → compound_t) (index : Nat) :
    set_compound (set_compound compounds index { compounds index with packed := true }) index
      { set_compound compounds index { compounds index with packed := true } index with
        packed := true }
      = set_compound compounds index { compounds index with packed := true } := by
  funext i
  unfold set_compound
  by_cases h : i = index <;> simp [h]

theorem handle_type_attribute_struct (cfg : config_t) (env : attribute_env_t)
    (attr : attribute_t) (next : List attribute_t) (compounds : Nat → compound_t)
    (qualifiers compound : Nat)
    (hread : attribute_arguments_readable (attr :: next) = true) :
    ∃ diagnostics,
      handle_type_attribute cfg env attr compounds (.compound_struct qualifiers compound)
        = some (.compound_struct qualifiers compound,
            if attr.kind = .ATTRIBUTE_GNU_PACKED then
              set_compound compounds compound { compounds compound with packed := true }
            else compounds, diagnostics) := by
  rw [attribute_arguments_readable, Bool.and_eq_true] at hread
  replace hread := hread.1
  unfold handle_type_attribute
  cases hk : attr.kind
  case ATTRIBUTE_GNU_MODE =>
    rw [hk] at hread
    cases harg : attr.arguments with
    | nil => rw [harg] at hread; simp at hread
    | cons argument rest =>
        cases argument with
        | ATTRIBUTE_ARGUMENT_EXPRESSION expression => rw [harg] at hread; simp at hread
        | ATTRIBUTE_ARGUMENT_SYMBOL symbol_str =>
            simp only [handle_attribute_mode, skip_typeref, skip_typeref_loop, harg,
              is_type_signed, TYPE_QUALIFIER_NONE, ne_eq, not_true_eq_false, if_false,
              reduceCtorEq]
            cases mode_atomic_kind false symbol_str <;>
              simp [is_type_pointer, type_t.kind]
  case ATTRIBUTE_GNU_PACKED =>
    exact ⟨warn_arguments env attr, by simp [handle_attribute_packed]⟩
  all_goals
    exact ⟨[], by simp [change_calling_convention, is_typeref, is_type_function, type_t.kind]⟩

theorem handle_type_attribute_union (cfg : config_t) (env : attribute_env_t)
    (attr : attribute_t) (next : List attribute_t) (compounds : Nat → compound_t)
    (qualifiers compound : Nat)
    (hread : attribute_arguments_readable (attr :: next) = true) :
    ∃ diagnostics,
      handle_type_attribute cfg env attr compounds (.compound_union qualifiers compound)
        = some (.compound_union qualifiers compound, compounds, diagnostics) := by
  rw [attribute_arguments_readable, Bool.and_eq_true] at hread
  replace hread := hread.1
  unfold handle_type_attribute
  cases hk : attr.kind
  case ATTRIBUTE_GNU_MODE =>
    rw [hk] at hread
    cases harg : attr.arguments with
    | nil => rw [harg] at hread; simp at hread
    | cons argument rest =>
        cases argument with
        | ATTRIBUTE_ARGUMENT_EXPRESSION expression => rw [harg] at hread; simp at hread
        | ATTRIBUTE_ARGUMENT_SYMBOL symbol_str =>
            simp only [handle_attribute_mode, skip_typeref, skip_typeref_loop, harg,
              is_type_signed, TYPE_QUALIFIER_NONE, ne_eq, not_true_eq_false, if_false,
              reduceCtorEq]
            cases mode_atomic_kind false symbol_str <;>
              simp [is_type_pointer, type_t.kind]
  case ATTRIBUTE_GNU_PACKED =>
    exact ⟨[.packed_ignored (.compound_union qualifiers compound)],
      by simp [handle_attribute_packed]⟩
  all_goals
    exact ⟨[], by simp [change_calling_convention, is_typeref, is_type_function, type_t.kind]⟩

theorem handle_type_attributes_struct (cfg : config_t) (env : attribute_env_t)
    (qualifiers compound : Nat) :
    ∀ (attributes : List attribute_t) (compounds : Nat → compound_t),
      attribute_arguments_readable attributes = true →
      ∃ diagnostics,
        handle_type_attributes cfg env attributes compounds
            (.compound_struct qualifiers compound)
          = some (.compound_struct qualifiers compound,
              if contains_packed attributes = true then
                set_compound compounds compound { compounds compound with packed := true }
              else compounds, diagnostics)
  | [], compounds, _ => ⟨[], by simp [handle_type_attributes, contains_packed]⟩
  | attr :: next, compounds, hread => by
      obtain ⟨d1, h1⟩ :=
        handle_type_attribute_struct cfg env attr next compounds qualifiers compound hread
      rw [attribute_arguments_readable, Bool.and_eq_true] at hread
      generalize hc1 : (if attr.kind = .ATTRIBUTE_GNU_PACKED then
          set_compound compounds compound { compounds compound with packed := true }
        else compounds) = compounds1 at h1
      obtain ⟨d2, h2⟩ :=
        handle_type_attributes_struct cfg env qualifiers compound next compounds1 hread.2
      refine ⟨d1 ++ d2, ?_⟩
      rw [handle_type_attributes, h1]
      simp only [h2, contains_packed, Bool.or_eq_true, decide_eq_true_eq]
      subst hc1
      by_cases hk : attr.kind = .ATTRIBUTE_GNU_PACKED <;>
        by_cases hn : contains_packed next = true <;>
        simp only [hk, hn, if_true, if_false, or_true, or_false, true_or,
          set_compound_packed_twice, reduceCtorEq, Bool.false_eq_true]

theorem handle_type_attributes_union (cfg : config_t) (env : attribute_env_t)
    (qualifiers compound : Nat) (compounds : Nat → compound_t) :
    ∀ (attributes : List attribute_t),
      attribute_arguments_readable attributes = true →
      ∃ diagnostics,
        handle_type_attributes cfg env attributes compounds
            (.compound_union qualifiers compound)
          = some (.compound_union qualifiers compound, compounds, diagnostics)
  | [], _ => ⟨[], by simp [handle_type_attributes]⟩
  | attr :: next, hread => by
      obtain ⟨d1, h1⟩ :=
        handle_type_attribute_union cfg env attr next compounds qualifiers compound hread
      rw [attribute_arguments_readable, Bool.and_eq_true] at hread
      obtain ⟨d2, h2⟩ := handle_type_attributes_union cfg env qualifiers compound compounds
        next hread.2
      refine ⟨d1 ++ d2, ?_⟩
      rw [handle_type_attributes, h1]
      simp only [h2]

theorem handle_attribute_mode_no_struct (cfg : config_t) (env : attribute_env_t)
    (attr : attribute_t) (type result : type_t) (diagnostics : List attribute_diagnostic_t)
    (htype : ∀ q c, type ≠ .compound_struct q c)
    (h : handle_attribute_mode cfg env attr type = some (result, diagnostics)) :
    ∀ q c, result ≠ .compound_struct q c := by
  unfold handle_attribute_mode at h
  intro q c hr
  subst hr
  revert h
  repeat' (first | (intro h; exact absurd h (by simp only [reduceCtorEq, not_false_eq_true])) | split)
  all_goals intro h
  all_goals simp only [Option.some.injEq, Prod.mk.injEq, reduceCtorEq, false_and] at h
  all_goals first
    | exact htype q c h.1
    | (obtain ⟨h1, _⟩ := h; subst h1; simp [is_type_pointer, type_t.kind] at *)

theorem change_calling_convention_no_struct (type result : type_t) (cconv : cc_kind_t)
    (htype : ∀ q c, type ≠ .compound_struct q c)
    (h : change_calling_convention type cconv = some result) :
    ∀ q c, result ≠ .compound_struct q c := by
  unfold change_calling_convention at h
  intro q c hr
  subst hr
  revert h
  repeat' (first | (intro h; exact absurd h (by simp only [reduceCtorEq, not_false_eq_true])) | split)
  all_goals intro h
  all_goals simp only [Option.some.injEq, reduceCtorEq] at h
  all_goals exact htype q c h

theorem handle_type_attribute_frame (cfg : config_t) (env : attribute_env_t)
    (attr : attribute_t) (compounds compounds1 : Nat → compound_t) (type result : type_t)
    (diagnostics : List attribute_diagnostic_t)
    (htype : ∀ q c, type ≠ .compound_struct q c)
    (h : handle_type_attribute cfg env attr compounds type
      = some (result, compounds1, diagnostics)) :
    compounds1 = compounds ∧ ∀ q c, result ≠ .compound_struct q c := by
  unfold handle_type_attribute at h
  have hcc : ∀ cconv, Option.map (fun t => (t, compounds, ([] : List attribute_diagnostic_t)))
      (change_calling_convention type cconv) = some (result, compounds1, diagnostics) →
      compounds1 = compounds ∧ ∀ q c, result ≠ .compound_struct q c := by
    intro cconv h
    rw [Option.map_eq_some'] at h
    obtain ⟨t, ht, heq⟩ := h
    simp only [Prod.mk.injEq] at heq
    obtain ⟨h1, h2, _⟩ := heq
    subst h1
    exact ⟨h2.symm, change_calling_convention_no_struct type t cconv htype ht⟩
  cases hk : attr.kind <;> rw [hk] at h <;> simp only [] at h
  case ATTRIBUTE_GNU_MODE =>
    rw [Option.map_eq_some'] at h
    obtain ⟨⟨t, d⟩, ht, heq⟩ := h
    simp only [Prod.mk.injEq] at heq
    obtain ⟨h1, h2, _⟩ := heq
    subst h1
    exact ⟨h2.symm, handle_attribute_mode_no_struct cfg env attr type t d htype ht⟩
  case ATTRIBUTE_GNU_PACKED =>
    unfold handle_attribute_packed at h
    cases type <;> simp only [Option.some.injEq, Prod.mk.injEq] at h
    case compound_struct q c => exact absurd rfl (htype q c)
    all_goals exact ⟨h.2.1.symm, by rw [← h.1]; exact htype⟩
  case ATTRIBUTE_GNU_CDECL => exact hcc _ h
  case ATTRIBUTE_MS_CDECL => exact hcc _ h
  case ATTRIBUTE_MS_STDCALL => exact hcc _ h
  case ATTRIBUTE_GNU_STDCALL => exact hcc _ h
  case ATTRIBUTE_MS_FASTCALL => exact hcc _ h
  case ATTRIBUTE_GNU_FASTCALL => exact hcc _ h
  case ATTRIBUTE_MS_THISCALL => exact hcc _ h
  all_goals
    simp only [Option.some.injEq, Prod.mk.injEq] at h
    exact ⟨h.2.1.symm, by rw [← h.1]; exact htype⟩

theorem handle_type_attributes_frame (cfg : config_t) (env : attribute_env_t) :
    ∀ (attributes : List attribute_t) (compounds compounds1 : Nat → compound_t)
      (type result : type_t) (diagnostics : List attribute_diagnostic_t),
      (∀ q c, type ≠ .compound_struct q c) →
      handle_type_attributes cfg env attributes compounds type
        = some (result, compounds1, diagnostics) →
      compounds1 = compounds
  | [], compounds, compounds1, type, result, diagnostics, _, h => by
      simp only [handle_type_attributes, Option.some.injEq, Prod.mk.injEq] at h
      exact h.2.1.symm
  | attr :: next, compounds, compounds1, type, result, diagnostics, htype, h => by
      rw [handle_type_attributes] at h
      cases h1 : handle_type_attribute cfg env attr compounds type with
      | none => rw [h1] at h; simp at h
      | some r1 =>
          obtain ⟨type2, compounds2, d1⟩ := r1
          rw [h1] at h
          simp only [] at h
          obtain ⟨hc, ht⟩ :=
            handle_type_attribute_frame cfg env attr compounds compounds2 type type2 d1 htype h1
          cases h2 : handle_type_attributes cfg env next compounds2 type2 with
          | none => rw [h2] at h; simp at h
          | some r2 =>
              obtain ⟨type3, compounds3, d2⟩ := r2
              rw [h2] at h
              simp only [Option.some.injEq, Prod.mk.injEq] at h
              have := handle_type_attributes_frame cfg env next compounds2 compounds3 type2
                type3 d2 ht h2
              rw [← h.2.1, this, hc]

/-- Claim C27, amended: for every struct type `t` and every attribute list
with readable arguments that contains `packed`, `handle_type_attributes`
returns `t` and sets the packed flag of the compound entity of `t`, the
other compound entities are unchanged; for a union type it returns the type
and changes no compound entity; and for every other type that is no struct
type (when the list holds `mode`: one on which `handle_attribute_mode`
passes `skip_typeref` and the assertion of `is_type_signed`) it returns and
changes no compound entity. -/
theorem handle_type_attributes_packed (cfg : config_t) (env : attribute_env_t)
    (attributes : List attribute_t) (compounds : Nat → compound_t)
    (hread : attribute_arguments_readable attributes = true) :
    (∀ qualifiers compound, contains_packed attributes = true →
      ∃ compounds1 diagnostics,
        handle_type_attributes cfg env attributes compounds
            (.compound_struct qualifiers compound)
          = some (.compound_struct qualifiers compound, compounds1, diagnostics) ∧
        compounds1 compound = { compounds compound with packed := true } ∧
        ∀ i, i ≠ compound → compounds1 i = compounds i) ∧
    (∀ qualifiers compound, ∃ diagnostics,
        handle_type_attributes cfg env attributes compounds
            (.compound_union qualifiers compound)
          = some (.compound_union qualifiers compound, compounds, diagnostics)) ∧
    (∀ type, (∀ q c, type ≠ .compound_struct q c) →
      (contains_mode attributes = true → mode_applicable cfg type = true) →
      ∃ result diagnostics,
        handle_type_attributes cfg env attributes compounds type
          = some (result, compounds, diagnostics)) := by
  refine ⟨?_, ?_, ?_⟩
  · intro qualifiers compound hpacked
    obtain ⟨d, h⟩ :=
      handle_type_attributes_struct cfg env qualifiers compound attributes compounds hread
    rw [if_pos hpacked] at h
    refine ⟨_, d, h, ?_, ?_⟩
    · simp [set_compound]
    · intro i hi
      simp [set_compound, hi]
  · intro qualifiers compound
    exact handle_type_attributes_union cfg env qualifiers compound compounds attributes hread
  · intro type htype hmode
    obtain ⟨result, compounds1, diagnostics, h⟩ :=
      handle_type_attributes_returns cfg env attributes compounds type hread hmode
    have hc := handle_type_attributes_frame cfg env attributes compounds compounds1 type
      result diagnostics htype h
    rw [hc] at h
    exact ⟨result, diagnostics, h⟩

/-- Witness of `handle_type_attributes_packed`: `packed` and `mode(SI)` on
the struct type of compound 0 set the packed flag of compound 0 and draw
the error of `mode`; on the builtin type `__builtin_va_list` they draw the
warning that `packed` is ignored and the error of `mode`, and compound 0
stays unpacked. -/
theorem handle_type_attributes_packed_witness :
    attribute_arguments_readable
      [example_attribute .ATTRIBUTE_GNU_PACKED, example_mode "SI"] = true ∧
    (handle_type_attributes example_config example_attribute_env
      [example_attribute .ATTRIBUTE_GNU_PACKED, example_mode "SI"] example_compounds
      (.compound_struct 0 0)).map (fun r => (r.1, (r.2.1 0).packed, r.2.2))
      = some (.compound_struct 0 0, true, [.mode_not_allowed]) ∧
    (handle_type_attributes example_config example_attribute_env
      [example_attribute .ATTRIBUTE_GNU_PACKED, example_mode "SI"] example_compounds
      example_builtin).map (fun r => (r.1, (r.2.1 0).packed, r.2.2))
      = some (example_builtin, false,
          [.packed_ignored example_builtin, .mode_not_allowed]) ∧
    (∀ qualifiers compound,
      contains_packed [example_attribute .ATTRIBUTE_GNU_PACKED, example_mode "SI"] = true →
      ∃ compounds1 diagnostics,
        handle_type_attributes example_config example_attribute_env
            [example_attribute .ATTRIBUTE_GNU_PACKED, example_mode "SI"] example_compounds
            (.compound_struct qualifiers compound)
          = some (.compound_struct qualifiers compound, compounds1, diagnostics) ∧
        compounds1 compound = { example_compounds compound with packed := true } ∧
        ∀ i, i ≠ compound → compounds1 i = example_compounds i) ∧
    (∃ result diagnostics,
      handle_type_attributes example_config example_attribute_env
          [example_attribute .ATTRIBUTE_GNU_PACKED, example_mode "SI"] example_compounds
          example_builtin
        = some (result, example_compounds, diagnostics)) :=
  ⟨by decide, by decide, by decide,
    (handle_type_attributes_packed example_config example_attribute_env
      [example_attribute .ATTRIBUTE_GNU_PACKED, example_mode "SI"] example_compounds
      (by decide)).1,
    (handle_type_attributes_packed example_config example_attribute_env
      [example_attribute .ATTRIBUTE_GNU_PACKED, example_mode "SI"] example_compounds
      (by decide)).2.2 example_builtin (fun q c h => by cases h) (fun _ => by decide)⟩

/-- Claim C27 fails on a union type: `handle_attribute_packed` accepts only
struct types, so `packed` on the union type of compound 0 leaves the packed
flag of compound 0 unset and draws the warning that the attribute is
ignored. -/
theorem handle_type_attributes_packed_counterexample :
    (example_compounds 0).packed = false ∧
    (handle_type_attributes example_config example_attribute_env
      [example_attribute .ATTRIBUTE_GNU_PACKED] example_compounds
      (.compound_union 0 0)).map (fun r => (r.1, (r.2.1 0).packed, r.2.2))
      = some (.compound_union 0 0, false, [.packed_ignored (.compound_union 0 0)]) := by
  decide

/-! ## The expression printer -/

/-- Claim C28 fails on `-(-x)`: `print_unary_expression` prints the minus
sign and then the operand, which at the precedence of a unary operator gets
no parentheses, so the text is `--x`, the text of the decrement `--x`; two
different trees without implicit casts have the same text, and by the
longest match `--x` is read as the decrement.  In the same way `+(+x)`
prints as `++x`. -/
theorem print_expression_double_negate :
    print_expression example_print_env 3
      (example_unary .EXPR_UNARY_NEGATE
        (example_unary .EXPR_UNARY_NEGATE (example_reference "x")))
      = some "--x".toList ∧
    print_expression example_print_env 3
      (example_unary .EXPR_UNARY_PREFIX_DECREMENT (example_reference "x"))
      = some "--x".toList ∧
    example_unary .EXPR_UNARY_NEGATE
        (example_unary .EXPR_UNARY_NEGATE (example_reference "x"))
      ≠ example_unary .EXPR_UNARY_PREFIX_DECREMENT (example_reference "x") ∧
    print_expression example_print_env 3
      (example_unary .EXPR_UNARY_PLUS
        (example_unary .EXPR_UNARY_PLUS (example_reference "x")))
      = some "++x".toList := by
  refine ⟨by decide, by decide, ?_, by decide⟩
  simp [example_unary]

/-- Claim C30 fails on an implicit cast directly inside an implicit cast:
with `print_implicit_casts` off, `print_expression_prec` replaces the outer
cast by its operand once, and `print_unary_expression` prints the inner
cast as `(int)x`, while the expression without the casts prints as `x`; a
single implicit cast is left out. -/
theorem print_expression_nested_implicit_cast :
    example_print_env.print_implicit_casts = false ∧
    print_expression example_print_env 3
      (example_unary .EXPR_UNARY_CAST_IMPLICIT
        (example_unary .EXPR_UNARY_CAST_IMPLICIT (example_reference "x")))
      = some "(int)x".toList ∧
    print_expression example_print_env 3 (example_reference "x") = some "x".toList ∧
    print_expression example_print_env 3
      (example_unary .EXPR_UNARY_CAST_IMPLICIT (example_reference "x"))
      = some "x".toList := by
  decide

theorem right_to_left_binary (kind : binary_kind_t) :
    right_to_left (get_binary_precedence kind) = if is_assignment_operator kind then 1 else 0 := by
  cases kind <;> rfl

theorem print_expression_prec_binary (env : print_env_t) (fuel : Nat) (kind : binary_kind_t)
    (base : expression_base_t) (left right : expression_t) (top_prec : Nat)
    (hmode : env.print_parenthesis = false) (hflag : base.parenthesized = false) :
    print_expression_prec env (fuel + 1) (.binary kind base left right) top_prec
      = (print_binary_expression (print_expression_prec env fuel) kind left right).map
          (parenthesize (decide (top_prec > get_binary_precedence kind))) := by
  rw [print_expression_prec]
  simp only [skip_implicit_cast, is_parenthesized, expression_t.base, hflag, hmode,
    Bool.false_and, Bool.or_false, Bool.false_eq_true, if_false, get_expression_precedence,
    Option.map_some', print_expression_kind]
  cases print_binary_expression (print_expression_prec env fuel) kind left right <;>
    simp [parenthesize]

theorem operand_parenthesized_left (kind operand : binary_kind_t) :
    decide (get_binary_precedence kind + right_to_left (get_binary_precedence kind)
        > get_binary_precedence operand)
      = operand_parenthesized (get_binary_precedence kind) (get_binary_precedence operand)
          (is_assignment_operator kind) := by
  rw [right_to_left_binary, operand_parenthesized]
  generalize get_binary_precedence kind = p
  generalize get_binary_precedence operand = c
  rw [Bool.eq_iff_iff]
  cases is_assignment_operator kind <;>
    simp only [Bool.false_eq_true, if_false, if_true, decide_eq_true_eq, Bool.or_eq_true,
      Bool.and_eq_true, Bool.not_false, Bool.not_true, and_false, and_true, or_false] <;>
    omega

theorem operand_parenthesized_right (kind operand : binary_kind_t) :
    decide (get_binary_precedence kind + 1 - right_to_left (get_binary_precedence kind)
        > get_binary_precedence operand)
      = operand_parenthesized (get_binary_precedence kind) (get_binary_precedence operand)
          (!is_assignment_operator kind) := by
  rw [right_to_left_binary, operand_parenthesized]
  generalize get_binary_precedence kind = p
  generalize get_binary_precedence operand = c
  rw [Bool.eq_iff_iff]
  cases is_assignment_operator kind <;>
    simp only [Bool.false_eq_true, if_false, if_true, decide_eq_true_eq, Bool.or_eq_true,
      Bool.and_eq_true, Bool.not_false, Bool.not_true, and_false, and_true, or_false] <;>
    omega

theorem is_parenthesized_returns (env : print_env_t) (expression : expression_t)
    (top_prec prec : Nat) (hprec : get_expression_precedence expression = some prec) :
    ∃ parenthesized, is_parenthesized env expression top_prec = some parenthesized := by
  unfold is_parenthesized
  split
  · exact ⟨_, rfl⟩
  · exact ⟨_, by rw [hprec]; rfl⟩

theorem operator_tree_prints (env : print_env_t) :
    ∀ (fuel : Nat) (expression : expression_t) (top_prec : Nat),
      operator_tree fuel expression = true →
      ∃ text, print_expression_prec env fuel expression top_prec = some text
  | 0, _, _, h => by simp [operator_tree] at h
  | fuel + 1, expression, top_prec, h => by
      cases expression
      case reference base entity =>
        simp only [operator_tree] at h
        obtain ⟨symbol, hsymbol⟩ := Option.isSome_iff_exists.mp h
        obtain ⟨parenthesized, hp⟩ := is_parenthesized_returns env
          (.reference base entity) top_prec _ rfl
        rw [print_expression_prec]
        simp only [skip_implicit_cast, hp, print_expression_kind, print_reference_expression,
          hsymbol, Option.map_some']
        exact ⟨_, rfl⟩
      case binary kind base left right =>
        simp only [operator_tree, Bool.and_eq_true] at h
        obtain ⟨⟨hop, hleft⟩, hright⟩ := h
        obtain ⟨op, hop⟩ := Option.isSome_iff_exists.mp hop
        obtain ⟨left_text, hl⟩ := operator_tree_prints env fuel left
          (get_binary_precedence kind + right_to_left (get_binary_precedence kind)) hleft
        obtain ⟨right_text, hr⟩ := operator_tree_prints env fuel right
          (get_binary_precedence kind + 1 - right_to_left (get_binary_precedence kind)) hright
        obtain ⟨parenthesized, hp⟩ := is_parenthesized_returns env
          (.binary kind base left right) top_prec _ rfl
        rw [print_expression_prec]
        simp only [skip_implicit_cast, hp, print_expression_kind, print_binary_expression, hl,
          hop, hr]
        exact ⟨_, rfl⟩
      all_goals simp [operator_tree] at h

/-- Claim C29: with the always-parenthesize mode off and no
`parenthesized` flag, `print_binary_expression` for an operator of
precedence `p` prints an operand that is a binary expression of precedence
`c` in parentheses iff `c < p`, or `c = p` and the operand is the left
operand of an assignment operator or the right operand of another operator;
the printer returns a text for every tree of references and printed binary
operators; and the four examples of the claim print as the claim says. -/
theorem print_binary_expression_operand_parentheses (env : print_env_t) (fuel : Nat)
    (kind operand_kind : binary_kind_t) (base : expression_base_t)
    (inner_left inner_right other : expression_t)
    (hmode : env.print_parenthesis = false) (hflag : base.parenthesized = false) :
    print_binary_expression (print_expression_prec env (fuel + 1)) kind
        (.binary operand_kind base inner_left inner_right) other
      = (print_binary_expression (print_expression_prec env fuel) operand_kind
          inner_left inner_right).bind (fun operand_text =>
          (binary_operator kind).bind (fun op =>
            (print_expression_prec env (fuel + 1) other
              (get_binary_precedence kind + 1
                - right_to_left (get_binary_precedence kind))).bind (fun other_text =>
              some (parenthesize
                (operand_parenthesized (get_binary_precedence kind)
                  (get_binary_precedence operand_kind) (is_assignment_operator kind))
                operand_text ++ op.toList ++ other_text)))) ∧
    print_binary_expression (print_expression_prec env (fuel + 1)) kind other
        (.binary operand_kind base inner_left inner_right)
      = (print_expression_prec env (fuel + 1) other
          (get_binary_precedence kind
            + right_to_left (get_binary_precedence kind))).bind (fun other_text =>
          (binary_operator kind).bind (fun op =>
            (print_binary_expression (print_expression_prec env fuel) operand_kind
              inner_left inner_right).bind (fun operand_text =>
              some (other_text ++ op.toList ++ parenthesize
                (operand_parenthesized (get_binary_precedence kind)
                  (get_binary_precedence operand_kind) (!is_assignment_operator kind))
                operand_text)))) ∧
    (∀ depth expression, operator_tree depth expression = true →
      ∃ text, print_expression env depth expression = some text) ∧
    print_expression example_print_env 3
      (example_binary .EXPR_BINARY_SUB
        (example_binary .EXPR_BINARY_SUB (example_reference "a") (example_reference "b"))
        (example_reference "c")) = some "a - b - c".toList ∧
    print_expression example_print_env 3
      (example_binary .EXPR_BINARY_SUB (example_reference "a")
        (example_binary .EXPR_BINARY_SUB (example_reference "b") (example_reference "c")))
      = some "a - (b - c)".toList ∧
    print_expression example_print_env 3
      (example_binary .EXPR_BINARY_ASSIGN (example_reference "a")
        (example_binary .EXPR_BINARY_ASSIGN (example_reference "b") (example_reference "c")))
      = some "a = b = c".toList ∧
    print_expression example_print_env 3
      (example_binary .EXPR_BINARY_ASSIGN
        (example_binary .EXPR_BINARY_ASSIGN (example_reference "a") (example_reference "b"))
        (example_reference "c")) = some "(a = b) = c".toList := by
  refine ⟨?_, ?_, ?_, by decide, by decide, by decide, by decide⟩
  · rw [print_binary_expression,
      print_expression_prec_binary env fuel operand_kind base inner_left inner_right _ hmode
        hflag, operand_parenthesized_left]
    cases print_binary_expression (print_expression_prec env fuel) operand_kind inner_left
        inner_right with
    | none => rfl
    | some operand_text =>
        simp only [Option.map_some', Option.some_bind]
        cases binary_operator kind with
        | none => rfl
        | some op =>
            simp only [Option.some_bind]
            cases print_expression_prec env (fuel + 1) other (get_binary_precedence kind + 1
              - right_to_left (get_binary_precedence kind)) <;> rfl
  · rw [print_binary_expression,
      print_expression_prec_binary env fuel operand_kind base inner_left inner_right _ hmode
        hflag, operand_parenthesized_right]
    cases print_expression_prec env (fuel + 1) other (get_binary_precedence kind
        + right_to_left (get_binary_precedence kind)) with
    | none => rfl
    | some other_text =>
        simp only [Option.some_bind]
        cases binary_operator kind with
        | none => rfl
        | some op =>
            simp only [Option.some_bind]
            cases print_binary_expression (print_expression_prec env fuel) operand_kind
              inner_left inner_right <;> rfl
  · intro depth expression h
    exact operator_tree_prints env depth expression PREC_BOTTOM h

/-- Witness of `print_binary_expression_operand_parentheses`: the
subtraction with the operand `b - c` on either side. -/
theorem print_binary_expression_operand_parentheses_witness :
    example_print_env.print_parenthesis = false ∧
    ({ type := example_int } : expression_base_t).parenthesized = false ∧
    print_binary_expression (print_expression_prec example_print_env (1 + 1))
        .EXPR_BINARY_SUB
        (.binary .EXPR_BINARY_SUB { type := example_int } (example_reference "b")
          (example_reference "c")) (example_reference "a")
      = some "b - c - a".toList ∧
    print_binary_expression (print_expression_prec example_print_env (1 + 1))
        .EXPR_BINARY_SUB (example_reference "a")
        (.binary .EXPR_BINARY_SUB { type := example_int } (example_reference "b")
          (example_reference "c"))
      = some "a - (b - c)".toList :=
  ⟨rfl, rfl,
    (print_binary_expression_operand_parentheses example_print_env 1 .EXPR_BINARY_SUB
      .EXPR_BINARY_SUB { type := example_int } (example_reference "b") (example_reference "c")
      (example_reference "a") rfl rfl).1.trans (by decide),
    (print_binary_expression_operand_parentheses example_print_env 1 .EXPR_BINARY_SUB
      .EXPR_BINARY_SUB { type := example_int } (example_reference "b") (example_reference "c")
      (example_reference "a") rfl rfl).2.1.trans (by decide)⟩

/-! ## Format strings of valid conversion specifications -/

theorem vchar_next_cons (position x : Nat) (l : List Nat) (hl : l ≠ []) :
    vchar_next ⟨position, x :: l⟩ = some (l.headD 0, ⟨position + 1, l⟩) := by
  cases l with
  | nil => exact absurd rfl hl
  | cons c tail => rfl

theorem skip_digits_append :
    ∀ (digits : List Nat) (c : Nat) (tail : List Nat) (position : Nat),
      (∀ d ∈ digits, vchar_is_digit d = true) → vchar_is_digit c = false →
      skip_digits (digits ++ c :: tail) ((digits ++ c :: tail).headD 0) position
        = some (c, ⟨position + digits.length, c :: tail⟩)
  | [], c, tail, position, _, hc => by
      simp [skip_digits, hc]
  | d :: digits, c, tail, position, hd, hc => by
      have hd1 : vchar_is_digit d = true := hd d (List.mem_cons_self _ _)
      have ih := skip_digits_append digits c tail (position + 1)
        (fun x hx => hd x (List.mem_cons_of_mem _ hx)) hc
      cases hrest : digits ++ c :: tail with
      | nil => simp at hrest
      | cons y rest =>
          rw [hrest] at ih
          rw [List.cons_append, hrest, List.headD_cons, skip_digits]
          simp only [hd1, if_true]
          simp only [List.headD_cons] at ih
          rw [ih, List.length_cons, Nat.add_assoc, Nat.add_comm 1]

theorem printf_flag_of_flag_char (fmt fmt_flags num_fmt : Nat) (h : is_flag_char fmt = true) :
    ∃ flag warnings, printf_flag fmt fmt_flags num_fmt = some (flag, warnings) ∧
      warnings.filter format_warning_t.counted = [] := by
  simp only [is_flag_char, Bool.or_eq_true, decide_eq_true_eq] at h
  unfold printf_flag
  rcases h with ((((h | h) | h) | h) | h) | h <;> subst h
  · exact ⟨_, _, rfl, rfl⟩
  · exact ⟨_, _, rfl, rfl⟩
  · exact ⟨_, _, rfl, rfl⟩
  · exact ⟨_, _, rfl, rfl⟩
  · refine ⟨_, _, rfl, ?_⟩
    split <;> rfl
  · refine ⟨_, _, rfl, ?_⟩
    split <;> rfl

theorem printf_flag_of_not_flag_char (fmt fmt_flags num_fmt : Nat)
    (h : is_flag_char fmt = false) : printf_flag fmt fmt_flags num_fmt = none := by
  simp only [is_flag_char, Bool.or_eq_false_iff, decide_eq_false_iff_not,
    Char.reduceToNat] at h
  obtain ⟨⟨⟨⟨⟨h1, h2⟩, h3⟩, h4⟩, h5⟩, h6⟩ := h
  simp [printf_flag, h1, h2, h3, h4, h5, h6]

theorem printf_flags_loop_append (num_fmt : Nat) :
    ∀ (flags : List Nat) (c : Nat) (tail : List Nat) (position fmt_flags : Nat)
      (warnings : List format_warning_t),
      (∀ f ∈ flags, is_flag_char f = true) → is_flag_char c = false →
      ∃ fmt_flags1 warnings1,
        printf_flags_loop num_fmt (flags ++ c :: tail) ((flags ++ c :: tail).headD 0) position
            fmt_flags warnings
          = some (c, ⟨position + flags.length, c :: tail⟩, fmt_flags1, warnings1) ∧
        warnings1.filter format_warning_t.counted = warnings.filter format_warning_t.counted
  | [], c, tail, position, fmt_flags, warnings, _, hc => by
      refine ⟨fmt_flags, warnings, ?_, rfl⟩
      simp [printf_flags_loop, printf_flag_of_not_flag_char c fmt_flags num_fmt hc]
  | f :: flags, c, tail, position, fmt_flags, warnings, hf, hc => by
      obtain ⟨flag, ws, hflag, hws⟩ :=
        printf_flag_of_flag_char f fmt_flags num_fmt (hf f (List.mem_cons_self _ _))
      obtain ⟨fmt_flags1, warnings1, ih, hfilter⟩ :=
        printf_flags_loop_append num_fmt flags c tail (position + 1) (fmt_flags ||| flag)
          (warnings ++ ws ++
            (if fmt_flags &&& flag ≠ 0 then [.repeated_flag f num_fmt] else []))
          (fun x hx => hf x (List.mem_cons_of_mem _ hx)) hc
      refine ⟨fmt_flags1, warnings1, ?_, ?_⟩
      · cases hrest : flags ++ c :: tail with
        | nil => simp at hrest
        | cons y rest =>
            rw [hrest] at ih
            rw [List.cons_append, hrest, List.headD_cons, printf_flags_loop]
            simp only [hflag]
            simp only [List.headD_cons] at ih
            rw [ih, List.length_cons, Nat.add_assoc, Nat.add_comm 1]
      · rw [hfilter, List.filter_append, List.filter_append, hws, List.append_nil]
        split <;> simp [format_warning_t.counted]

theorem flag_char_not_digit (f : Nat) (hf : is_flag_char f = true) (h0 : f ≠ 48) :
    vchar_is_digit f = false := by
  simp only [is_flag_char, Bool.or_eq_true, decide_eq_true_eq, Char.reduceToNat] at hf
  simp only [vchar_is_digit, Bool.and_eq_false_iff, decide_eq_false_iff_not]
  omega

theorem digit_not_flag_char (d : Nat) (hd : vchar_is_digit d = true) (h0 : d ≠ 48) :
    is_flag_char d = false := by
  simp only [vchar_is_digit, Bool.and_eq_true, decide_eq_true_eq] at hd
  simp only [is_flag_char, Bool.or_eq_false_iff, decide_eq_false_iff_not, Char.reduceToNat]
  omega

theorem digit_not_star (d : Nat) (hd : vchar_is_digit d = true) : d ≠ 42 := by
  simp only [vchar_is_digit, Bool.and_eq_true, decide_eq_true_eq] at hd
  omega

theorem printf_width_digits (env : format_env_t) (num_fmt : Nat) (d : Nat)
    (digits : List Nat) (c : Nat) (tail : List Nat) (position fmt_flags : Nat)
    (arg : call_argument_t) (warnings : List format_warning_t)
    (hd : vchar_is_digit d = true) (hdigits : ∀ x ∈ digits, vchar_is_digit x = true)
    (hc : vchar_is_digit c = false) (hdollar : c ≠ 36) :
    printf_width env num_fmt d ⟨position, d :: (digits ++ c :: tail)⟩ fmt_flags arg warnings
      = some (.go c ⟨position + (d :: digits).length, c :: tail⟩ fmt_flags arg warnings) := by
  unfold printf_width
  rw [if_pos hd, vchar_next_cons position d (digits ++ c :: tail) (by simp)]
  simp only [skip_digits_append digits c tail (position + 1) hdigits hc, Char.reduceToNat,
    hdollar, if_false, List.length_cons]
  rw [Nat.add_assoc, Nat.add_comm 1]

theorem printf_width_flags (env : format_env_t) (num_fmt : Nat) (flags width : List Nat)
    (c : Nat) (tail : List Nat) (position fmt_flags : Nat) (arg : call_argument_t)
    (warnings : List format_warning_t)
    (hflags : ∀ f ∈ flags, is_flag_char f = true)
    (hhead : vchar_is_digit ((flags ++ (width ++ c :: tail)).headD 0) = false)
    (hwidth : ∀ d ∈ width, vchar_is_digit d = true) (hzero : width.head? ≠ some 48)
    (hc : vchar_is_digit c = false) (hflag : is_flag_char c = false) (hstar : c ≠ 42) :
    ∃ fmt_flags1 warnings1,
      printf_width env num_fmt ((flags ++ (width ++ c :: tail)).headD 0)
          ⟨position, flags ++ (width ++ c :: tail)⟩ fmt_flags arg warnings
        = some (.go c ⟨position + flags.length + width.length, c :: tail⟩ fmt_flags1 arg
            warnings1) ∧
      warnings1.filter format_warning_t.counted = warnings.filter format_warning_t.counted := by
  unfold printf_width
  rw [if_neg (by rw [hhead]; simp)]
  have hnext : ∃ c1 tail1, width ++ c :: tail = c1 :: tail1 ∧ is_flag_char c1 = false ∧
      c1 ≠ 42 := by
    cases width with
    | nil => exact ⟨c, tail, rfl, hflag, hstar⟩
    | cons d digits =>
        have hd := hwidth d (List.mem_cons_self _ _)
        refine ⟨d, digits ++ c :: tail, rfl, digit_not_flag_char d hd ?_, digit_not_star d hd⟩
        intro h
        exact hzero (by rw [h]; rfl)
  obtain ⟨c1, tail1, hsplit, hflag1, hstar1⟩ := hnext
  obtain ⟨fmt_flags1, warnings1, hloop, hfilter⟩ :=
    printf_flags_loop_append num_fmt flags c1 tail1 position fmt_flags warnings hflags hflag1
  refine ⟨fmt_flags1, warnings1, ?_, hfilter⟩
  rw [hsplit, hloop]
  simp only [Char.reduceToNat, hstar1, if_false]
  have hskip := skip_digits_append width c tail (position + flags.length) hwidth hc
  rw [hsplit, List.headD_cons] at hskip
  rw [hskip]

theorem printf_precision_walk (env : format_env_t) (num_fmt : Nat)
    (precision : Option (List Nat)) (c : Nat) (tail : List Nat) (position fmt_flags : Nat)
    (arg : call_argument_t) (warnings : List format_warning_t)
    (hprecision : ∀ digits, precision = some digits → ∀ d ∈ digits, vchar_is_digit d = true)
    (hc : vchar_is_digit c = false) (hstar : c ≠ 42) (hdot : c ≠ 46) :
    printf_precision env num_fmt ((precision_chars precision ++ c :: tail).headD 0)
        ⟨position, precision_chars precision ++ c :: tail⟩ fmt_flags arg warnings
      = some (.go c ⟨position + (precision_chars precision).length, c :: tail⟩ fmt_flags arg
          warnings) := by
  unfold printf_precision
  cases precision with
  | none =>
      simp only [precision_chars, List.nil_append, List.headD_cons, Char.reduceToNat, hdot,
        if_false, List.length_nil, Nat.add_zero]
  | some digits =>
      have hdigits := hprecision digits rfl
      have hnot : (digits ++ c :: tail).headD 0 ≠ 42 := by
        cases digits with
        | nil => exact hstar
        | cons d rest => exact digit_not_star d (hdigits d (List.mem_cons_self _ _))
      simp only [precision_chars, List.cons_append, List.headD_cons, Char.reduceToNat, if_true]
      rw [vchar_next_cons position 46 (digits ++ c :: tail) (by simp)]
      simp only [hnot, if_false, skip_digits_append digits c tail (position + 1) hdigits hc,
        List.length_cons]
      rw [Nat.add_assoc, Nat.add_comm 1]

theorem printf_length_modifier_walk (env : format_env_t) (fmt_mod : format_length_modifier_t)
    (k : Nat) (tail : List Nat) (position : Nat)
    (hknown : length_modifier_known env fmt_mod = true) (hk : k ∈ conversion_chars) :
    printf_length_modifier env ((length_modifier_chars fmt_mod ++ k :: tail).headD 0)
        ⟨position, length_modifier_chars fmt_mod ++ k :: tail⟩
      = some (k, ⟨position + (length_modifier_chars fmt_mod).length, k :: tail⟩, fmt_mod) := by
  simp only [conversion_chars, List.mem_cons, List.mem_singleton, List.not_mem_nil, or_false,
    Char.reduceToNat] at hk
  cases fmt_mod <;> simp only [length_modifier_known] at hknown <;>
    rcases hk with h | h | h | h | h | h | h | h | h | h | h | h | h | h | h | h | h | h | h | h <;>
    subst h <;>
    simp [printf_length_modifier, length_modifier_chars, length_modifier_one,
      length_modifier_I, vchar_next, hknown]

theorem resolved_type_some (type resolved : type_t) (h : resolved_type type = some resolved) :
    skip_typeref type = some resolved ∧ is_typeref resolved = false ∧
      get_type_struct_size_known resolved.kind = true := by
  unfold resolved_type at h
  cases hs : skip_typeref type with
  | none => rw [hs] at h; simp at h
  | some r =>
      rw [hs] at h
      simp only [] at h
      split at h
      · simp at h
      · rename_i hcond
        simp only [Option.some.injEq] at h
        subst h
        simp only [Bool.or_eq_true, Bool.not_eq_true', not_or, Bool.not_eq_true,
          Bool.not_eq_false] at hcond
        exact ⟨rfl, hcond.1, hcond.2⟩

theorem get_unqualified_type_resolved (type : type_t) (h1 : is_typeref type = false)
    (h2 : get_type_struct_size_known type.kind = true) :
    get_unqualified_type type = some (type.set_qualifiers TYPE_QUALIFIER_NONE) := by
  unfold get_unqualified_type
  rw [h1]
  simp only [Bool.false_eq_true, if_false]
  split
  · rename_i hq
    rw [← hq, set_qualifiers_self]
  · simp [duplicate_type, h2]

theorem is_type_valid_of_known (type : type_t)
    (h : get_type_struct_size_known type.kind = true) : is_type_valid type = true := by
  unfold is_type_valid
  cases hk : type.kind <;> rw [hk] at h <;> simp_all [get_type_struct_size_known]

theorem argument_type_matches_code (types : types_t) (spec : conversion_spec_t)
    (arg_type : type_t) (result : Bool)
    (h : argument_type_matches types spec arg_type = some result) :
    ∃ expected_type expected_qual allowed_flags arg_skip expected_type_skip,
      printf_expected types spec.conversion spec.length_modifier
        = .expected expected_type expected_qual allowed_flags ∧
      skip_typeref arg_type = some arg_skip ∧
      skip_typeref expected_type = some expected_type_skip ∧
      printf_argument_matches spec.conversion arg_skip expected_type_skip expected_qual
        = some result ∧
      is_type_valid arg_skip = true := by
  unfold argument_type_matches at h
  cases hexp : printf_expected types spec.conversion spec.length_modifier with
  | invalid_length_modifier => rw [hexp] at h; simp at h
  | unknown_conversion => rw [hexp] at h; simp at h
  | expected expected_type expected_qual allowed_flags =>
      rw [hexp] at h
      simp only [] at h
      cases ha : resolved_type arg_type with
      | none => rw [ha] at h; simp at h
      | some argument =>
          cases he : resolved_type expected_type with
          | none => rw [ha, he] at h; simp at h
          | some expected =>
              rw [ha, he] at h
              simp only [] at h
              obtain ⟨ha1, ha2, ha3⟩ := resolved_type_some arg_type argument ha
              obtain ⟨he1, _, _⟩ := resolved_type_some expected_type expected he
              refine ⟨expected_type, expected_qual, allowed_flags, argument, expected, rfl, ha1,
                he1, ?_, is_type_valid_of_known argument ha3⟩
              unfold printf_argument_matches
              by_cases hp : spec.conversion = 'p'.toNat ∧ is_type_pointer argument = true
              · rw [if_pos hp] at h
                rw [if_pos hp]
                exact h
              · rw [if_neg hp] at h
                rw [if_neg hp]
                cases expected with
                | pointer qe expected_to be =>
                  simp only [] at h ⊢
                  cases argument with
                  | pointer qa argument_to ba =>
                    simp only [] at h ⊢
                    cases het : resolved_type expected_to with
                    | none => rw [het] at h; simp at h
                    | some exp_to =>
                        cases hat : resolved_type argument_to with
                        | none => rw [het, hat] at h; simp at h
                        | some arg_to =>
                            rw [het, hat] at h
                            simp only [Option.some.injEq] at h
                            obtain ⟨het1, _, _⟩ := resolved_type_some expected_to exp_to het
                            obtain ⟨hat1, hat2, hat3⟩ :=
                              resolved_type_some argument_to arg_to hat
                            rw [het1, hat1]
                            simp only [get_unqualified_type_resolved arg_to hat2 hat3]
                            by_cases hq : and_not arg_to.qualifiers expected_qual = 0
                            · rw [if_pos hq]
                              rw [← h]
                              simp [hq]
                            · rw [if_neg hq]
                              rw [← h]
                              simp [hq]
                  | _ => simp only [] at h ⊢; exact h
                | _ =>
                  simp only [] at h ⊢
                  rw [get_unqualified_type_resolved argument ha2 ha3]
                  exact h

theorem conversion_char_separator (k : Nat) (hk : k ∈ conversion_chars) :
    vchar_is_digit k = false ∧ is_flag_char k = false ∧ k ≠ 42 ∧ k ≠ 36 ∧ k ≠ 46 ∧ k ≠ 0 := by
  simp only [conversion_chars, List.mem_cons, List.mem_singleton, List.not_mem_nil, or_false,
    Char.reduceToNat] at hk
  rcases hk with h | h | h | h | h | h | h | h | h | h | h | h | h | h | h | h | h | h | h | h <;>
    subst h <;> decide

theorem length_modifier_separator (fmt_mod : format_length_modifier_t) (k : Nat)
    (tail : List Nat) (hk : k ∈ conversion_chars) :
    ∃ c rest, length_modifier_chars fmt_mod ++ k :: tail = c :: rest ∧
      vchar_is_digit c = false ∧ is_flag_char c = false ∧ c ≠ 42 ∧ c ≠ 36 ∧ c ≠ 46 := by
  obtain ⟨h1, h2, h3, h4, h5, _⟩ := conversion_char_separator k hk
  cases fmt_mod
  case FMT_MOD_NONE => exact ⟨k, tail, rfl, h1, h2, h3, h4, h5⟩
  all_goals exact ⟨_, _, rfl, by decide, by decide, by decide, by decide, by decide⟩

theorem precision_separator (precision : Option (List Nat))
    (fmt_mod : format_length_modifier_t) (k : Nat) (tail : List Nat)
    (hk : k ∈ conversion_chars) :
    ∃ c rest,
      precision_chars precision ++ (length_modifier_chars fmt_mod ++ k :: tail) = c :: rest ∧
      vchar_is_digit c = false ∧ is_flag_char c = false ∧ c ≠ 42 ∧ c ≠ 36 := by
  cases precision with
  | none =>
      obtain ⟨c, rest, h, h1, h2, h3, h4, _⟩ := length_modifier_separator fmt_mod k tail hk
      exact ⟨c, rest, h, h1, h2, h3, h4⟩
  | some digits => exact ⟨46, _, rfl, by decide, by decide, by decide, by decide⟩

theorem printf_width_walk (env : format_env_t) (num_fmt : Nat) (flags width : List Nat)
    (c : Nat) (tail : List Nat) (position fmt_flags : Nat) (arg : call_argument_t)
    (warnings : List format_warning_t)
    (hflags : ∀ f ∈ flags, is_flag_char f = true) (hfzero : flags.head? ≠ some 48)
    (hwidth : ∀ d ∈ width, vchar_is_digit d = true) (hzero : width.head? ≠ some 48)
    (hc : vchar_is_digit c = false) (hflag : is_flag_char c = false) (hstar : c ≠ 42)
    (hdollar : c ≠ 36) :
    ∃ fmt_flags1 warnings1,
      printf_width env num_fmt ((flags ++ (width ++ c :: tail)).headD 0)
          ⟨position, flags ++ (width ++ c :: tail)⟩ fmt_flags arg warnings
        = some (.go c ⟨position + flags.length + width.length, c :: tail⟩ fmt_flags1 arg
            warnings1) ∧
      warnings1.filter format_warning_t.counted = warnings.filter format_warning_t.counted := by
  cases flags with
  | nil =>
      cases width with
      | nil =>
          exact printf_width_flags env num_fmt [] [] c tail position fmt_flags arg warnings
            hflags (by simpa using hc) hwidth hzero hc hflag hstar
      | cons d digits =>
          refine ⟨fmt_flags, warnings, ?_, rfl⟩
          have h := printf_width_digits env num_fmt d digits c tail position fmt_flags arg
            warnings (hwidth d (List.mem_cons_self _ _))
            (fun x hx => hwidth x (List.mem_cons_of_mem _ hx)) hc hdollar
          simpa using h
  | cons f rest =>
      refine printf_width_flags env num_fmt (f :: rest) width c tail position fmt_flags arg
        warnings hflags ?_ hwidth hzero hc hflag hstar
      simp only [List.cons_append, List.headD_cons]
      exact flag_char_not_digit f (hflags f (List.mem_cons_self _ _))
        (fun h => hfzero (by rw [h]; rfl))

theorem printf_zero_width_walk (env : format_env_t) (num_fmt : Nat) (flags width : List Nat)
    (c : Nat) (tail : List Nat) (position : Nat) (arg : call_argument_t)
    (warnings : List format_warning_t)
    (hflags : ∀ f ∈ flags, is_flag_char f = true) (hnodup : flags.Nodup)
    (hwidth : ∀ d ∈ width, vchar_is_digit d = true) (hzero : width.head? ≠ some 48)
    (hc : vchar_is_digit c = false) (hflag : is_flag_char c = false) (hstar : c ≠ 42)
    (hdollar : c ≠ 36) :
    ∃ fmt vchar fmt_flags fmt_flags1 warnings1,
      (if (flags ++ (width ++ c :: tail)).headD 0 = '0'.toNat then
        match vchar_next ⟨position, flags ++ (width ++ c :: tail)⟩ with
        | none => none
        | some (fmt, vchar) => some (fmt, vchar, FMT_FLAG_NONE ||| FMT_FLAG_ZERO)
      else some ((flags ++ (width ++ c :: tail)).headD 0,
        ⟨position, flags ++ (width ++ c :: tail)⟩, FMT_FLAG_NONE))
        = some (fmt, vchar, fmt_flags) ∧
      printf_width env num_fmt fmt vchar fmt_flags arg warnings
        = some (.go c ⟨position + flags.length + width.length, c :: tail⟩ fmt_flags1 arg
            warnings1) ∧
      warnings1.filter format_warning_t.counted = warnings.filter format_warning_t.counted := by
  by_cases hhead : flags.head? = some 48
  · cases flags with
    | nil => simp at hhead
    | cons f rest =>
        simp only [List.head?_cons, Option.some.injEq] at hhead
        subst hhead
        have hrest : rest.head? ≠ some 48 := by
          intro h
          cases rest with
          | nil => simp at h
          | cons g more =>
              simp only [List.head?_cons, Option.some.injEq] at h
              subst h
              simp at hnodup
        obtain ⟨fmt_flags1, warnings1, h, hfilter⟩ :=
          printf_width_walk env num_fmt rest width c tail (position + 1)
            (FMT_FLAG_NONE ||| FMT_FLAG_ZERO) arg warnings
            (fun x hx => hflags x (List.mem_cons_of_mem _ hx)) hrest hwidth hzero hc hflag hstar
            hdollar
        refine ⟨(rest ++ (width ++ c :: tail)).headD 0,
          ⟨position + 1, rest ++ (width ++ c :: tail)⟩, FMT_FLAG_NONE ||| FMT_FLAG_ZERO,
          fmt_flags1, warnings1, ?_, ?_, hfilter⟩
        · simp only [List.cons_append, List.headD_cons, Char.reduceToNat, if_true]
          rw [vchar_next_cons position 48 (rest ++ (width ++ c :: tail)) (by simp)]
        · rw [h, List.length_cons]
          congr 3
          omega
  · obtain ⟨fmt_flags1, warnings1, h, hfilter⟩ :=
      printf_width_walk env num_fmt flags width c tail position FMT_FLAG_NONE arg warnings
        hflags hhead hwidth hzero hc hflag hstar hdollar
    refine ⟨(flags ++ (width ++ c :: tail)).headD 0,
      ⟨position, flags ++ (width ++ c :: tail)⟩, FMT_FLAG_NONE, fmt_flags1, warnings1, ?_, h,
      hfilter⟩
    have hne : (flags ++ (width ++ c :: tail)).headD 0 ≠ '0'.toNat := by
      simp only [Char.reduceToNat]
      cases flags with
      | nil =>
          cases width with
          | nil =>
              simp only [List.nil_append, List.headD_cons]
              intro h
              rw [h] at hc
              simp [vchar_is_digit] at hc
          | cons d digits =>
              simp only [List.nil_append, List.cons_append, List.headD_cons]
              intro h
              exact hzero (by rw [h]; rfl)
      | cons f rest =>
          simp only [List.cons_append, List.headD_cons]
          intro h
          exact hhead (by rw [h]; rfl)
    rw [if_neg hne]

theorem filter_invalid_format_flags (wrong_flags fmt num_fmt : Nat) :
    List.filter format_warning_t.counted
      (if wrong_flags ≠ 0 then [.invalid_format_flags wrong_flags fmt num_fmt] else []) = [] := by
  split <;> rfl

theorem printf_specifier_valid (env : format_env_t) (num_fmt : Nat)
    (spec : conversion_spec_t) (tail : List Nat) (position fmt_flags : Nat)
    (expression : expression_t) (next : call_argument_t) (warnings : List format_warning_t)
    (result : Bool)
    (hknown : length_modifier_known env spec.length_modifier = true)
    (hk : spec.conversion ∈ conversion_chars)
    (hmatch : argument_type_matches env.types spec expression.base.type = some result) :
    ∃ warnings1,
      printf_specifier env num_fmt
          ((length_modifier_chars spec.length_modifier ++ spec.conversion :: tail).headD 0)
          ⟨position, length_modifier_chars spec.length_modifier ++ spec.conversion :: tail⟩
          fmt_flags (.argument expression next) warnings
        = some (.next_arg
            ⟨position + (length_modifier_chars spec.length_modifier).length,
              spec.conversion :: tail⟩ (.argument expression next) warnings1) ∧
      warnings1.filter format_warning_t.counted
        = warnings.filter format_warning_t.counted ++
          (if result = false then
            [.argument_type_mismatch expression.base.type spec.length_modifier spec.conversion
              num_fmt]
           else []) := by
  obtain ⟨expected_type, expected_qual, allowed_flags, arg_skip, expected_type_skip, hexp, hs1,
    hs2, hcmp, hvalid⟩ := argument_type_matches_code env.types spec expression.base.type result
      hmatch
  obtain ⟨_, _, _, _, _, hk0⟩ := conversion_char_separator spec.conversion hk
  unfold printf_specifier
  rw [printf_length_modifier_walk env spec.length_modifier spec.conversion tail position hknown
    hk]
  simp only [hk0, if_false, hexp, hs1, hs2, hcmp]
  cases result with
  | true =>
      refine ⟨_, rfl, ?_⟩
      rw [List.filter_append, filter_invalid_format_flags]
      simp
  | false =>
      refine ⟨_, rfl, ?_⟩
      simp only [hvalid, if_true, List.filter_append, filter_invalid_format_flags,
        List.append_nil]
      rfl

theorem printf_conversion_valid (env : format_env_t) (num_fmt : Nat)
    (spec : conversion_spec_t) (tail : List Nat) (position : Nat)
    (expression : expression_t) (next : call_argument_t) (warnings : List format_warning_t)
    (result : Bool) (hvalid : spec.valid env = true)
    (hmatch : argument_type_matches env.types spec expression.base.type = some result) :
    ∃ warnings1,
      printf_conversion env num_fmt ((spec.chars ++ tail).headD 0)
          ⟨position, spec.chars ++ tail⟩ (.argument expression next) warnings
        = some (.next_arg ⟨position + (spec.chars.length - 1), spec.conversion :: tail⟩
            (.argument expression next) warnings1) ∧
      warnings1.filter format_warning_t.counted
        = warnings.filter format_warning_t.counted ++
          (if result = false then
            [.argument_type_mismatch expression.base.type spec.length_modifier spec.conversion
              num_fmt]
           else []) := by
  simp only [conversion_spec_t.valid, Bool.and_eq_true, List.all_eq_true, decide_eq_true_eq,
    Char.reduceToNat] at hvalid
  obtain ⟨⟨⟨⟨⟨⟨⟨hflags, hnodup⟩, hwidth⟩, hzero⟩, hprecision⟩, hknown⟩, hk⟩, _⟩ := hvalid
  have hprecision1 : ∀ digits, spec.precision = some digits →
      ∀ d ∈ digits, vchar_is_digit d = true := by
    intro digits hd
    rw [hd] at hprecision
    simpa using hprecision
  obtain ⟨c, rest, hsplit, hc1, hc2, hc3, hc4⟩ :=
    precision_separator spec.precision spec.length_modifier spec.conversion tail hk
  obtain ⟨c2, rest2, hsplit2, hd1, _, hd3, _, hd5⟩ :=
    length_modifier_separator spec.length_modifier spec.conversion tail hk
  have hchars : spec.chars ++ tail = spec.flags ++ (spec.width ++ c :: rest) := by
    simp only [conversion_spec_t.chars, List.append_assoc, List.singleton_append, hsplit]
  obtain ⟨fmt0, vchar0, fmt_flags0, fmt_flags1, warnings1, hz, hw, hfilter1⟩ :=
    printf_zero_width_walk env num_fmt spec.flags spec.width c rest position
      (.argument expression next) warnings hflags hnodup hwidth hzero hc1 hc2 hc3 hc4
  have hp := printf_precision_walk env num_fmt spec.precision c2 rest2
    (position + spec.flags.length + spec.width.length) fmt_flags1 (.argument expression next)
    warnings1 hprecision1 hd1 hd3 hd5
  have hsplit3 : precision_chars spec.precision ++ c2 :: rest2 = c :: rest := by
    rw [← hsplit2]
    exact hsplit
  rw [hsplit3, List.headD_cons] at hp
  obtain ⟨warnings2, hs, hfilter2⟩ :=
    printf_specifier_valid env num_fmt spec tail
      (position + spec.flags.length + spec.width.length
        + (precision_chars spec.precision).length) fmt_flags1 expression next warnings1 result
      hknown hk hmatch
  rw [hsplit2, List.headD_cons] at hs
  refine ⟨warnings2, ?_, by rw [hfilter2, hfilter1]⟩
  unfold printf_conversion
  rw [hchars]
  erw [hz]
  simp only [hw, hp, hs]
  have hlen : position + spec.flags.length + spec.width.length
      + (precision_chars spec.precision).length
      + (length_modifier_chars spec.length_modifier).length
      = position + (spec.chars.length - 1) := by
    simp only [conversion_spec_t.chars, List.length_append, List.length_singleton]
    omega
  rw [hlen]

theorem conversion_head_not_percent (env : format_env_t) (spec : conversion_spec_t)
    (tail : List Nat) (hvalid : spec.valid env = true) :
    (spec.chars ++ tail).headD 0 ≠ '%'.toNat := by
  simp only [conversion_spec_t.valid, Bool.and_eq_true, List.all_eq_true, decide_eq_true_eq,
    Char.reduceToNat] at hvalid
  obtain ⟨⟨⟨⟨⟨⟨⟨hflags, _⟩, hwidth⟩, _⟩, _⟩, _⟩, hk⟩, _⟩ := hvalid
  simp only [conversion_spec_t.chars, List.append_assoc, List.singleton_append,
    Char.reduceToNat]
  cases hf : spec.flags with
  | cons f rest =>
      have h := hflags f (by rw [hf]; exact List.mem_cons_self _ _)
      simp only [is_flag_char, Bool.or_eq_true, decide_eq_true_eq, Char.reduceToNat] at h
      simp only [List.cons_append, List.headD_cons]
      omega
  | nil =>
      cases hw : spec.width with
      | cons d rest =>
          have h := hwidth d (by rw [hw]; exact List.mem_cons_self _ _)
          simp only [vchar_is_digit, Bool.and_eq_true, decide_eq_true_eq] at h
          simp only [List.nil_append, List.cons_append, List.headD_cons]
          omega
      | nil =>
          cases spec.precision with
          | some digits =>
              simp only [precision_chars, List.nil_append, List.cons_append, List.headD_cons]
              decide
          | none =>
              simp only [precision_chars, List.nil_append]
              simp only [conversion_chars, List.mem_cons, List.mem_singleton, List.not_mem_nil,
                or_false, Char.reduceToNat] at hk
              cases spec.length_modifier
              case FMT_MOD_NONE =>
                simp only [length_modifier_chars, List.nil_append, List.headD_cons]
                omega
              all_goals
                simp only [length_modifier_chars, List.cons_append, List.headD_cons]
                decide

theorem internal_check_printf_loop_valid (env : format_env_t) :
    ∀ (items : List format_item_t) (fuel size position num_fmt : Nat)
      (arguments : List expression_t) (warnings : List format_warning_t),
      (∀ item ∈ items, item.valid env = true) →
      arguments_comparable env.types items arguments = true →
      items.length < fuel → size = position + (format_chars items).length + 1 →
      ∃ warnings1,
        internal_check_printf_loop env size fuel ((format_chars items ++ [0]).headD 0)
            ⟨position, format_chars items ++ [0]⟩ num_fmt (example_arguments arguments) warnings
          = some (Int.ofNat (num_fmt + count_conversions items), warnings1) ∧
        warnings1.filter format_warning_t.counted
          = warnings.filter format_warning_t.counted ++
            mismatch_warnings env.types items num_fmt arguments
  | [], fuel, size, position, num_fmt, arguments, warnings, _, _, hfuel, hsize => by
      obtain ⟨fuel, rfl⟩ : ∃ f, fuel = f + 1 := ⟨fuel - 1, by simp at hfuel; omega⟩
      refine ⟨warnings, ?_, by simp [mismatch_warnings]⟩
      simp [format_chars, internal_check_printf_loop, format_finish, atend, hsize,
        count_conversions]
  | .ordinary c :: items, fuel, size, position, num_fmt, arguments, warnings, hvalid, hargs,
      hfuel, hsize => by
      obtain ⟨fuel, rfl⟩ : ∃ f, fuel = f + 1 := ⟨fuel - 1, by simp at hfuel; omega⟩
      have hc := hvalid (.ordinary c) (List.mem_cons_self _ _)
      simp only [format_item_t.valid, Bool.and_eq_true, decide_eq_true_eq] at hc
      obtain ⟨warnings1, h, hfilter⟩ :=
        internal_check_printf_loop_valid env items fuel size (position + 1) num_fmt arguments
          warnings (fun item hitem => hvalid item (List.mem_cons_of_mem _ hitem))
          (by simpa [arguments_comparable] using hargs)
          (by simp at hfuel; omega)
          (by simp only [format_chars, List.length_cons] at hsize; omega)
      refine ⟨warnings1, ?_, by simpa [mismatch_warnings] using hfilter⟩
      rw [format_chars, List.cons_append, List.headD_cons, internal_check_printf_loop]
      rw [if_neg hc.1, if_pos hc.2, vchar_next_cons position c (format_chars items ++ [0])
        (by simp)]
      simpa [count_conversions] using h
  | .percent :: items, fuel, size, position, num_fmt, arguments, warnings, hvalid, hargs,
      hfuel, hsize => by
      obtain ⟨fuel, rfl⟩ : ∃ f, fuel = f + 1 := ⟨fuel - 1, by simp at hfuel; omega⟩
      obtain ⟨warnings1, h, hfilter⟩ :=
        internal_check_printf_loop_valid env items fuel size (position + 1 + 1) num_fmt
          arguments warnings (fun item hitem => hvalid item (List.mem_cons_of_mem _ hitem))
          (by simpa [arguments_comparable] using hargs)
          (by simp at hfuel; omega)
          (by simp only [format_chars, List.length_cons] at hsize; omega)
      refine ⟨warnings1, ?_, by simpa [mismatch_warnings] using hfilter⟩
      rw [format_chars, List.cons_append, List.headD_cons, internal_check_printf_loop]
      rw [if_neg (by decide), if_neg (by simp),
        vchar_next_cons position '%'.toNat ('%'.toNat :: format_chars items ++ [0]) (by simp)]
      simp only [List.cons_append, List.headD_cons, if_true]
      rw [vchar_next_cons (position + 1) '%'.toNat (format_chars items ++ [0]) (by simp)]
      simpa [count_conversions] using h
  | .conversion spec :: items, fuel, size, position, num_fmt, arguments, warnings, hvalid,
      hargs, hfuel, hsize => by
      obtain ⟨fuel, rfl⟩ : ∃ f, fuel = f + 1 := ⟨fuel - 1, by simp at hfuel; omega⟩
      have hspec : spec.valid env = true := hvalid (.conversion spec) (List.mem_cons_self _ _)
      cases arguments with
      | nil => simp [arguments_comparable] at hargs
      | cons expression arguments =>
          simp only [arguments_comparable, Bool.and_eq_true] at hargs
          obtain ⟨result, hresult⟩ := Option.isSome_iff_exists.mp hargs.1
          obtain ⟨warnings1, hconv, hfilter1⟩ :=
            printf_conversion_valid env (num_fmt + 1) spec (format_chars items ++ [0])
              (position + 1) expression (example_arguments arguments) warnings result hspec
              hresult
          have hlen : 1 ≤ spec.chars.length := by
            simp only [conversion_spec_t.chars, List.length_append, List.length_singleton]
            omega
          obtain ⟨warnings2, h, hfilter2⟩ :=
            internal_check_printf_loop_valid env items fuel size
              (position + 1 + (spec.chars.length - 1) + 1) (num_fmt + 1) arguments warnings1
              (fun item hitem => hvalid item (List.mem_cons_of_mem _ hitem)) hargs.2
              (by simp at hfuel; omega)
              (by
                simp only [format_chars, List.length_cons, List.length_append] at hsize
                omega)
          refine ⟨warnings2, ?_, ?_⟩
          · rw [format_chars, List.cons_append, List.headD_cons, internal_check_printf_loop]
            rw [if_neg (by decide), if_neg (by simp),
              vchar_next_cons position '%'.toNat (spec.chars ++ format_chars items ++ [0])
                (by simp)]
            simp only [List.append_assoc]
            rw [if_neg (conversion_head_not_percent env spec _ hspec)]
            simp only [example_arguments, hconv]
            rw [vchar_next_cons _ spec.conversion (format_chars items ++ [0]) (by simp)]
            simp only [count_conversions]
            rw [h]
            congr 3
            omega
          · rw [hfilter2, hfilter1, mismatch_warnings, List.append_assoc, hresult]
            cases result <;> simp

theorem find_format_arg_leading :
    ∀ (leading : List expression_t) (rest : List expression_t),
      find_format_arg leading.length (example_arguments (leading ++ rest))
        = some (example_arguments rest)
  | [], rest => by simp [find_format_arg]
  | e :: leading, rest => by
      simp only [List.length_cons, List.cons_append, example_arguments, find_format_arg]
      exact find_format_arg_leading leading rest

theorem count_arguments_example :
    ∀ (arguments : List expression_t),
      count_arguments (example_arguments arguments) = arguments.length
  | [] => rfl
  | e :: arguments => by
      simp only [example_arguments, count_arguments, List.length_cons,
        count_arguments_example arguments]

/-- Claim C21: one warning per discrepancy.  For a call of a printf-family
function whose format is a string literal of ordinary characters, `%%` and
valid conversion specifications without `*`, and whose arguments are there
for every conversion specification and have types that resolve,
`check_printf_format` returns; among its warnings, those of the kind
`argument type does not match conversion specifier` are exactly one for each
argument whose type does not match the type that its conversion
specification expects, in the order of the arguments, and there is exactly
one warning `arguments but only ... format specifiers` if there are more
arguments than conversion specifications, else none. -/
theorem check_printf_format_discrepancies (env : format_env_t) (fuel : Nat) (name : String)
    (leading : List expression_t) (base : expression_base_t) (items : List format_item_t)
    (arguments : List expression_t)
    (hvalid : ∀ item ∈ items, item.valid env = true)
    (hargs : arguments_comparable env.types items arguments = true)
    (hfuel : items.length + 1 < fuel) :
    ∃ warnings,
      check_printf_format env fuel
          (example_arguments
            (leading ++ .string_literal base (format_string items) :: arguments))
          ⟨name, .FORMAT_PRINTF, leading.length, leading.length + 1⟩
        = some warnings ∧
      warnings.filter format_warning_t.counted
        = mismatch_warnings env.types items 0 arguments ++
          (if arguments.length > count_conversions items then
            [.too_many_arguments arguments.length (count_conversions items)]
           else []) := by
  obtain ⟨fuel, rfl⟩ : ∃ f, fuel = f + 1 := ⟨fuel - 1, by omega⟩
  obtain ⟨warnings1, hloop, hfilter⟩ :=
    internal_check_printf_loop_valid env items fuel ((format_chars items).length + 1) 0 0
      arguments [] hvalid hargs (by omega) (by omega)
  have hfirst : vchar_first (format_string items)
      = some ((format_chars items ++ [0]).headD 0, ⟨0, format_chars items ++ [0]⟩) := by
    unfold vchar_first format_string
    cases h : format_chars items ++ [0] with
    | nil => simp at h
    | cons c rest => rfl
  unfold check_printf_format
  simp only [find_format_arg_leading leading, example_arguments, Nat.add_sub_cancel_left,
    find_real_args, internal_check_printf_format, internal_check_printf_string, hfirst]
  have hsize : (format_string items).size = (format_chars items).length + 1 := rfl
  rw [hsize, hloop]
  simp only [Nat.zero_add, count_arguments_example, Int.ofNat_eq_coe, Int.toNat_ofNat,
    Nat.cast_lt]
  have hneg : ¬ ((count_conversions items : Int) < 0) := by omega
  rw [if_neg hneg]
  simp only [List.filter_nil, List.nil_append] at hfilter
  by_cases hmore : arguments.length > count_conversions items
  · have hmore1 : count_conversions items < arguments.length := hmore
    simp only [gt_iff_lt, hmore1, if_true, Option.some.injEq, exists_eq_left',
      List.filter_append, hfilter]
    rfl
  · have hmore1 : ¬ count_conversions items < arguments.length := hmore
    simp only [gt_iff_lt, hmore1, if_false, Option.some.injEq, exists_eq_left',
      List.append_nil, hfilter]

/-- Witness of `check_printf_format_discrepancies`: the call
`printf("%d %-5s", "x", "x", 1)` draws one warning for the first argument,
none for the second and one for the surplus of arguments. -/
theorem check_printf_format_discrepancies_witness :
    check_printf_format example_format_env 8
        (example_arguments
          ([] ++ .string_literal { type := example_char_pointer }
            (format_string
              [.conversion ⟨[], [], none, .FMT_MOD_NONE, 'd'.toNat⟩, .ordinary 32,
                .conversion ⟨['-'.toNat], ['5'.toNat], none, .FMT_MOD_NONE, 's'.toNat⟩]) ::
            [example_string_literal "x", example_string_literal "x", example_int_literal]))
        ⟨"printf", .FORMAT_PRINTF, 0, 1⟩
      = some [.argument_type_mismatch example_char_pointer .FMT_MOD_NONE 'd'.toNat 1,
          .too_many_arguments 3 2] ∧
    ∃ warnings,
      check_printf_format example_format_env 8
          (example_arguments
            ([] ++ .string_literal { type := example_char_pointer }
              (format_string
                [.conversion ⟨[], [], none, .FMT_MOD_NONE, 'd'.toNat⟩, .ordinary 32,
                  .conversion ⟨['-'.toNat], ['5'.toNat], none, .FMT_MOD_NONE, 's'.toNat⟩]) ::
              [example_string_literal "x", example_string_literal "x", example_int_literal]))
          ⟨"printf", .FORMAT_PRINTF, ([] : List expression_t).length,
            ([] : List expression_t).length + 1⟩
        = some warnings ∧
      warnings.filter format_warning_t.counted
        = mismatch_warnings example_format_env.types
            [.conversion ⟨[], [], none, .FMT_MOD_NONE, 'd'.toNat⟩, .ordinary 32,
              .conversion ⟨['-'.toNat], ['5'.toNat], none, .FMT_MOD_NONE, 's'.toNat⟩] 0
            [example_string_literal "x", example_string_literal "x", example_int_literal] ++
          (if [example_string_literal "x", example_string_literal "x",
                example_int_literal].length >
              count_conversions
                [.conversion ⟨[], [], none, .FMT_MOD_NONE, 'd'.toNat⟩, .ordinary 32,
                  .conversion ⟨['-'.toNat], ['5'.toNat], none, .FMT_MOD_NONE, 's'.toNat⟩] then
            [.too_many_arguments
              [example_string_literal "x", example_string_literal "x",
                example_int_literal].length
              (count_conversions
                [.conversion ⟨[], [], none, .FMT_MOD_NONE, 'd'.toNat⟩, .ordinary 32,
                  .conversion ⟨['-'.toNat], ['5'.toNat], none, .FMT_MOD_NONE, 's'.toNat⟩])]
           else []) :=
  ⟨by decide,
    check_printf_format_discrepancies example_format_env 8 "printf" []
      { type := example_char_pointer }
      [.conversion ⟨[], [], none, .FMT_MOD_NONE, 'd'.toNat⟩, .ordinary 32,
        .conversion ⟨['-'.toNat], ['5'.toNat], none, .FMT_MOD_NONE, 's'.toNat⟩]
      [example_string_literal "x", example_string_literal "x", example_int_literal]
      (by decide) (by decide) (by decide)⟩

/-! ## Type predicates, integer kinds by size and equality of attributes -/

theorem atomic_type_flags_initial (kind : atomic_type_kind_t) :
    (atomic_type_properties_initial kind).flags = 0 ∨
    (atomic_type_properties_initial kind).flags = 10 ∨
    (atomic_type_properties_initial kind).flags = 11 ∨
    (atomic_type_properties_initial kind).flags = 13 := by
  cases kind <;> decide

theorem get_atomic_type_flags_cases (cfg : config_t) (kind : atomic_type_kind_t) :
    get_atomic_type_flags cfg kind = 0 ∨ get_atomic_type_flags cfg kind = 10 ∨
    get_atomic_type_flags cfg kind = 11 ∨ get_atomic_type_flags cfg kind = 13 := by
  have key : ∀ k : atomic_type_kind_t,
      (if k = .ATOMIC_TYPE_BOOL then
        (atomic_type_properties_initial .ATOMIC_TYPE_UCHAR).flags
       else if k = .ATOMIC_TYPE_CHAR ∧ cfg.char_is_signed = true then
        (atomic_type_properties_initial .ATOMIC_TYPE_CHAR).flags ||| ATOMIC_TYPE_FLAG_SIGNED
       else (atomic_type_properties_initial k).flags) = 0 ∨
      (if k = .ATOMIC_TYPE_BOOL then
        (atomic_type_properties_initial .ATOMIC_TYPE_UCHAR).flags
       else if k = .ATOMIC_TYPE_CHAR ∧ cfg.char_is_signed = true then
        (atomic_type_properties_initial .ATOMIC_TYPE_CHAR).flags ||| ATOMIC_TYPE_FLAG_SIGNED
       else (atomic_type_properties_initial k).flags) = 10 ∨
      (if k = .ATOMIC_TYPE_BOOL then
        (atomic_type_properties_initial .ATOMIC_TYPE_UCHAR).flags
       else if k = .ATOMIC_TYPE_CHAR ∧ cfg.char_is_signed = true then
        (atomic_type_properties_initial .ATOMIC_TYPE_CHAR).flags ||| ATOMIC_TYPE_FLAG_SIGNED
       else (atomic_type_properties_initial k).flags) = 11 ∨
      (if k = .ATOMIC_TYPE_BOOL then
        (atomic_type_properties_initial .ATOMIC_TYPE_UCHAR).flags
       else if k = .ATOMIC_TYPE_CHAR ∧ cfg.char_is_signed = true then
        (atomic_type_properties_initial .ATOMIC_TYPE_CHAR).flags ||| ATOMIC_TYPE_FLAG_SIGNED
       else (atomic_type_properties_initial k).flags) = 13 := by
    intro k
    split
    · decide
    · split
      · decide
      · exact atomic_type_flags_initial k
  have hflags : ∀ k : atomic_type_kind_t, k ≠ .ATOMIC_TYPE_WCHAR_T →
      get_atomic_type_flags cfg k =
        (if k = .ATOMIC_TYPE_BOOL then
          (atomic_type_properties_initial .ATOMIC_TYPE_UCHAR).flags
         else if k = .ATOMIC_TYPE_CHAR ∧ cfg.char_is_signed = true then
          (atomic_type_properties_initial .ATOMIC_TYPE_CHAR).flags ||| ATOMIC_TYPE_FLAG_SIGNED
         else (atomic_type_properties_initial k).flags) := by
    intro k hk
    unfold get_atomic_type_flags atomic_type_properties
    cases hc : cfg.char_is_signed <;> cases k <;>
      simp [props_set] at hk ⊢ <;> (try split) <;> rfl
  by_cases hk : kind = .ATOMIC_TYPE_WCHAR_T
  · subst hk
    by_cases hw : cfg.wchar_atomic_kind = .ATOMIC_TYPE_WCHAR_T
    · have h : get_atomic_type_flags cfg .ATOMIC_TYPE_WCHAR_T = 10 := by
        unfold get_atomic_type_flags atomic_type_properties
        cases hc : cfg.char_is_signed <;> simp [props_set, hw] <;> (try split) <;> rfl
      exact Or.inr (Or.inl h)
    · have h : get_atomic_type_flags cfg .ATOMIC_TYPE_WCHAR_T
          = get_atomic_type_flags cfg cfg.wchar_atomic_kind := by
        unfold get_atomic_type_flags atomic_type_properties
        simp [props_set, hw]
      rw [h, hflags _ hw]
      exact key _
  · rw [hflags _ hk]
    exact key _

theorem test_atomic_type_flag_arithmetic (cfg : config_t) (kind : atomic_type_kind_t) :
    (test_atomic_type_flag cfg kind ATOMIC_TYPE_FLAG_INTEGER = true →
      test_atomic_type_flag cfg kind ATOMIC_TYPE_FLAG_ARITHMETIC = true) ∧
    (test_atomic_type_flag cfg kind ATOMIC_TYPE_FLAG_FLOAT = true →
      test_atomic_type_flag cfg kind ATOMIC_TYPE_FLAG_ARITHMETIC = true) ∧
    test_atomic_type_flag cfg kind ATOMIC_TYPE_FLAG_COMPLEX = false := by
  unfold test_atomic_type_flag
  rcases get_atomic_type_flags_cases cfg kind with h | h | h | h <;> rw [h] <;> decide

/-- Claim C35 fails on every complex type: `is_type_complex` returns false
for a type that is no atomic type and tests the flag
`ATOMIC_TYPE_FLAG_COMPLEX` of an atomic kind, which no kind has under any
configuration; for `_Complex double` it returns false, and it returns true
for no type at all. -/
theorem is_type_complex_never_true :
    is_type_complex example_config (.complex TYPE_QUALIFIER_NONE .ATOMIC_TYPE_DOUBLE)
      = some false ∧
    ∀ (cfg : config_t) (type : type_t), is_type_complex cfg type ≠ some true := by
  refine ⟨by decide, ?_⟩
  intro cfg type h
  unfold is_type_complex at h
  split at h
  · simp at h
  · split at h
    · rename_i akind _
      simp [(test_atomic_type_flag_arithmetic cfg akind).2.2] at h
    · simp at h

/-- Claim C39: under every configuration and for every type that is no
typeref, the three predicates return, `is_type_integer` implies
`is_type_arithmetic`, `is_type_float` implies `is_type_arithmetic`, and
`is_type_arithmetic` implies `is_type_scalar`. -/
theorem type_predicate_hierarchy (cfg : config_t) (type : type_t)
    (htype : is_typeref type = false) :
    (∃ integer float arithmetic,
      is_type_integer cfg type = some integer ∧ is_type_float cfg type = some float ∧
      is_type_arithmetic cfg type = some arithmetic) ∧
    (is_type_integer cfg type = some true → is_type_arithmetic cfg type = some true) ∧
    (is_type_float cfg type = some true → is_type_arithmetic cfg type = some true) ∧
    (is_type_arithmetic cfg type = some true → is_type_scalar cfg type = some true) := by
  cases type
  case atomic q akind =>
    obtain ⟨h1, h2, _⟩ := test_atomic_type_flag_arithmetic cfg akind
    simp only [is_type_integer, is_type_float, is_type_arithmetic, is_type_scalar, htype,
      Bool.false_eq_true, if_false, type_t.kind, reduceCtorEq, Option.some.injEq]
    exact ⟨⟨_, _, _, rfl, rfl, rfl⟩, h1, h2, fun h => h⟩
  case typedeft => simp [is_typeref, type_t.kind] at htype
  case typeoft => simp [is_typeref, type_t.kind] at htype
  all_goals
    simp only [is_type_integer, is_type_float, is_type_arithmetic, is_type_scalar, htype,
      Bool.false_eq_true, if_false, type_t.kind, reduceCtorEq, Option.some.injEq, if_true]
    first
    | exact ⟨⟨_, _, _, rfl, rfl, rfl⟩, fun h => h, fun h => absurd h (by simp), fun h => h⟩
    | exact ⟨⟨_, _, _, rfl, rfl, rfl⟩, fun h => absurd h (by simp),
        fun h => absurd h (by simp), fun h => h⟩
    | exact ⟨⟨_, _, _, rfl, rfl, rfl⟩, fun h => absurd h (by simp),
        fun h => absurd h (by simp), fun h => absurd h (by simp)⟩

/-- Witness of `type_predicate_hierarchy`: `int` is an integer, an
arithmetic and a scalar type. -/
theorem type_predicate_hierarchy_witness :
    is_typeref example_int = false ∧
    is_type_integer example_config example_int = some true ∧
    is_type_scalar example_config example_int = some true ∧
    (is_type_integer example_config example_int = some true →
      is_type_arithmetic example_config example_int = some true) :=
  ⟨by decide, by decide, by decide,
    (type_predicate_hierarchy example_config example_int (by decide)).2.1⟩

theorem find_possible_kind_eq (cfg : config_t) :
    ∀ (order : List atomic_type_kind_t) (n : Nat),
      find_possible_kind cfg order n = first_kind_of_size cfg order n
  | [], n => rfl
  | kind :: rest, n => by
      have ih := find_possible_kind_eq cfg rest n
      unfold first_kind_of_size at ih ⊢
      by_cases h : get_atomic_type_size cfg kind = n
      · simp [find_possible_kind, List.find?, h]
      · simp [find_possible_kind, List.find?, h, ih]

theorem first_kind_of_size_invalid (cfg : config_t) (order : List atomic_type_kind_t)
    (n : Nat) (horder : .ATOMIC_TYPE_INVALID ∉ order) :
    first_kind_of_size cfg order n = .ATOMIC_TYPE_INVALID ↔
      ∀ kind ∈ order, get_atomic_type_size cfg kind ≠ n := by
  unfold first_kind_of_size
  cases hfind : order.find? (fun kind => decide (get_atomic_type_size cfg kind = n)) with
  | none =>
      simp only [Option.getD_none, true_iff]
      intro kind hk
      have := List.find?_eq_none.mp hfind kind hk
      simpa using this
  | some kind =>
      have hmem := List.mem_of_find?_eq_some hfind
      have hsize := List.find?_some hfind
      simp only [Option.getD_some]
      constructor
      · intro h
        rw [h] at hmem
        exact absurd hmem horder
      · intro h
        exact absurd (by simpa using hsize) (h kind hmem)

theorem find_int_atomic_type_kind_for_size_spec (cfg : config_t)
    (order : List atomic_type_kind_t) (kinds : Nat → atomic_type_kind_t) (n : Nat)
    (hn : n < 32) (hkinds : kinds_consistent cfg order kinds) :
    ∃ kinds1,
      find_int_atomic_type_kind_for_size cfg order kinds n
        = some (first_kind_of_size cfg order n, kinds1) ∧
      kinds_consistent cfg order kinds1 ∧
      find_int_atomic_type_kind_for_size cfg order kinds1 n
        = some (first_kind_of_size cfg order n, kinds1) := by
  unfold find_int_atomic_type_kind_for_size
  simp only [hn, not_true_eq_false, if_false]
  by_cases h : kinds n = .ATOMIC_TYPE_INVALID
  · simp only [h, if_true, find_possible_kind_eq]
    refine ⟨_, rfl, ?_, ?_⟩
    · intro i
      by_cases hi : i = n
      · simp [hi]
      · simp only [hi, if_false]
        exact hkinds i
    · by_cases hinv : first_kind_of_size cfg order n = .ATOMIC_TYPE_INVALID
      · simp only [if_true, hinv]
        congr 2
        funext i
        by_cases hi : i = n <;> simp [hi, hinv]
      · simp only [if_true, hinv, if_false]
  · rcases hkinds n with h0 | h1
    · exact absurd h0 h
    · rw [if_neg h, h1]
      exact ⟨kinds, rfl, hkinds, by rw [if_neg h, h1]⟩

/-- Claim C34: for every `n < 32` and every state of the static arrays that
calls under the configuration lead to, both functions return the first kind
of their order whose size is exactly `n` bytes, the invalid kind iff there
is none, and a repeated call returns the same kind. -/
theorem find_int_atomic_type_kind_for_size_first (cfg : config_t)
    (signed_kinds unsigned_kinds : Nat → atomic_type_kind_t) (n : Nat) (hn : n < 32)
    (hsigned : kinds_consistent cfg possible_signed_kinds signed_kinds)
    (hunsigned : kinds_consistent cfg possible_unsigned_kinds unsigned_kinds) :
    (∃ kinds1,
      find_signed_int_atomic_type_kind_for_size cfg signed_kinds n
        = some (first_kind_of_size cfg possible_signed_kinds n, kinds1) ∧
      kinds_consistent cfg possible_signed_kinds kinds1 ∧
      find_signed_int_atomic_type_kind_for_size cfg kinds1 n
        = some (first_kind_of_size cfg possible_signed_kinds n, kinds1)) ∧
    (∃ kinds1,
      find_unsigned_int_atomic_type_kind_for_size cfg unsigned_kinds n
        = some (first_kind_of_size cfg possible_unsigned_kinds n, kinds1) ∧
      kinds_consistent cfg possible_unsigned_kinds kinds1 ∧
      find_unsigned_int_atomic_type_kind_for_size cfg kinds1 n
        = some (first_kind_of_size cfg possible_unsigned_kinds n, kinds1)) ∧
    (first_kind_of_size cfg possible_signed_kinds n = .ATOMIC_TYPE_INVALID ↔
      ∀ kind ∈ possible_signed_kinds, get_atomic_type_size cfg kind ≠ n) ∧
    (first_kind_of_size cfg possible_unsigned_kinds n = .ATOMIC_TYPE_INVALID ↔
      ∀ kind ∈ possible_unsigned_kinds, get_atomic_type_size cfg kind ≠ n) ∧
    kinds_consistent cfg possible_signed_kinds kinds_initial ∧
    kinds_consistent cfg possible_unsigned_kinds kinds_initial :=
  ⟨find_int_atomic_type_kind_for_size_spec cfg possible_signed_kinds signed_kinds n hn hsigned,
    find_int_atomic_type_kind_for_size_spec cfg possible_unsigned_kinds unsigned_kinds n hn
      hunsigned,
    first_kind_of_size_invalid cfg possible_signed_kinds n (by decide),
    first_kind_of_size_invalid cfg possible_unsigned_kinds n (by decide),
    fun _ => Or.inl rfl, fun _ => Or.inl rfl⟩

/-- Witness of `find_int_atomic_type_kind_for_size_first`: with a 4 byte
`int`, the first call for size 4 on the initial arrays returns `int` and
`unsigned int`; there is no kind of 3 bytes. -/
theorem find_int_atomic_type_kind_for_size_first_witness :
    (find_signed_int_atomic_type_kind_for_size example_config kinds_initial 4).map
      (fun r => r.1) = some .ATOMIC_TYPE_INT ∧
    (find_unsigned_int_atomic_type_kind_for_size example_config kinds_initial 4).map
      (fun r => r.1) = some .ATOMIC_TYPE_UINT ∧
    (find_signed_int_atomic_type_kind_for_size example_config kinds_initial 3).map
      (fun r => r.1) = some .ATOMIC_TYPE_INVALID ∧
    ∃ kinds1,
      find_signed_int_atomic_type_kind_for_size example_config kinds_initial 4
        = some (first_kind_of_size example_config possible_signed_kinds 4, kinds1) ∧
      kinds_consistent example_config possible_signed_kinds kinds1 ∧
      find_signed_int_atomic_type_kind_for_size example_config kinds1 4
        = some (first_kind_of_size example_config possible_signed_kinds 4, kinds1) :=
  ⟨by decide, by decide, by decide,
    (find_int_atomic_type_kind_for_size_first example_config kinds_initial kinds_initial 4
      (by decide) (fun _ => Or.inl rfl) (fun _ => Or.inl rfl)).1⟩

theorem attribute_arguments_equal_self :
    ∀ (arguments : List attribute_argument_t),
      attribute_arguments_equal arguments arguments = true ↔
        ∀ argument ∈ arguments, ∀ expression,
          argument ≠ .ATTRIBUTE_ARGUMENT_EXPRESSION expression
  | [] => by simp [attribute_arguments_equal]
  | argument :: rest => by
      have ih := attribute_arguments_equal_self rest
      cases argument with
      | ATTRIBUTE_ARGUMENT_SYMBOL symbol =>
          simp [attribute_arguments_equal, attribute_argument_equal, ih]
      | ATTRIBUTE_ARGUMENT_EXPRESSION expression =>
          simp [attribute_arguments_equal, attribute_argument_equal]

/-- Claim C40: for every attribute of a kind other than MS `property`,
`attributes_equal` of the attribute and itself is true iff none of its
arguments is an expression. -/
theorem attributes_equal_self (property : attribute_t → attribute_property_argument_t)
    (attr : attribute_t) (hkind : attr.kind ≠ .ATTRIBUTE_MS_PROPERTY) :
    attributes_equal property attr attr = true ↔
      ∀ argument ∈ attr.arguments, ∀ expression,
        argument ≠ .ATTRIBUTE_ARGUMENT_EXPRESSION expression := by
  rw [← attribute_arguments_equal_self]
  unfold attributes_equal
  simp only [ne_eq, not_true_eq_false, if_false]

/-- Witness of `attributes_equal_self`: `aligned(4)` compares unequal to
itself, `packed` compares equal to itself. -/
theorem attributes_equal_self_witness :
    attributes_equal example_property example_aligned_4 example_aligned_4 = false ∧
    attributes_equal example_property (example_attribute .ATTRIBUTE_GNU_PACKED)
      (example_attribute .ATTRIBUTE_GNU_PACKED) = true ∧
    (attributes_equal example_property example_aligned_4 example_aligned_4 = true ↔
      ∀ argument ∈ example_aligned_4.arguments, ∀ expression,
        argument ≠ .ATTRIBUTE_ARGUMENT_EXPRESSION expression) :=
  ⟨by decide, by decide,
    attributes_equal_self example_property example_aligned_4 (by decide)⟩

/-! ## Guards of the entry points -/

/-- Claim C33 fails on `union U { char c; int i; }`: `layout_union_type`
neither sets nor tests the flag `layouted`.  After the call the flag is
still false, where `layout_struct_type` sets it; and a compound whose flag
is set, with the recorded size 8, is laid out again and gets the size 4,
where `layout_struct_type` leaves it unchanged. -/
theorem layout_union_type_not_guarded :
    example_union_U.complete = true ∧
    (layout_union_type example_config example_get_type_size example_get_type_alignment
        example_union_U).map (fun c => (c.layouted, c.size, c.alignment))
      = some (false, 4, 4) ∧
    (layout_struct_type example_config example_get_type_size example_get_type_alignment
        example_union_U).map (fun r => r.1.layouted) = some true ∧
    (layout_union_type example_config example_get_type_size example_get_type_alignment
        { example_union_U with layouted := true, size := 8, alignment := 4 }).map
        (fun c => (c.layouted, c.size, c.alignment)) = some (true, 4, 4) ∧
    layout_struct_type example_config example_get_type_size example_get_type_alignment
        { example_union_U with layouted := true, size := 8, alignment := 4 }
      = some ({ example_union_U with layouted := true, size := 8, alignment := 4 }, []) := by
  refine ⟨rfl, ?_, ?_, ?_, ?_⟩ <;> decide

/-- Claim C36 fails on `printf("%Ld")`: the length modifier `L` is invalid
for `d`, the checker warns and jumps to `next_arg`, where it takes the
successor of the argument although no argument is left, so the run does not
come to its end.  The same holds for `printf()`, where the expression of the
missing format argument is taken.  With an argument left, as in
`printf("%Ld", 1)`, the run ends with the warning alone. -/
theorem check_format_missing_argument :
    check_format example_format_env 8 (example_callee "printf")
      (example_arguments [example_string_literal "%Ld"]) = none ∧
    check_format example_format_env 8 (example_callee "printf")
      (example_arguments []) = none ∧
    check_format example_format_env 8 (example_callee "printf")
      (example_arguments [example_string_literal "%Ld", example_int_literal])
      = some [.invalid_length_modifier .FMT_MOD_L 'd'.toNat] ∧
    check_format example_format_env 8 (example_callee "printf")
      (example_arguments [example_string_literal "%d"]) = some [.too_few_arguments] := by
  refine ⟨?_, ?_, ?_, ?_⟩ <;> decide

/-! ## Quoted strings and initializers -/

theorem char_toNat_ofNat (n : Nat) (h : n < 256) : (Char.ofNat n).toNat = n := by
  have hv : n.isValidChar := Or.inl (by omega)
  unfold Char.ofNat
  rw [dif_pos hv]
  simp only [Char.ofNatAux, Char.toNat, UInt32.toNat]
  show (BitVec.ofNatLt n _).toNat = n
  rfl

theorem octal_digit_ofNat (d : Nat) (h : d < 8) :
    is_octal_digit (Char.ofNat (48 + d)) = true ∧ (Char.ofNat (48 + d)).toNat - 48 = d := by
  have := char_toNat_ofNat (48 + d) (by omega)
  unfold is_octal_digit
  rw [this]
  exact ⟨by rw [decide_eq_true_eq]; omega, by omega⟩

theorem octal_digits_value (tc : Nat) (h : tc < 512) :
    octal_value (octal_digits tc) = tc ∧ ∀ d ∈ octal_digits tc, is_octal_digit d = true := by
  obtain ⟨h1, v1⟩ := octal_digit_ofNat (tc / 64 % 8) (Nat.mod_lt _ (by decide))
  obtain ⟨h2, v2⟩ := octal_digit_ofNat (tc / 8 % 8) (Nat.mod_lt _ (by decide))
  obtain ⟨h3, v3⟩ := octal_digit_ofNat (tc % 8) (Nat.mod_lt _ (by decide))
  constructor
  · simp only [octal_value, octal_digits, List.foldl, v1, v2, v3]
    omega
  · intro d hd
    simp only [octal_digits, List.mem_cons, List.mem_singleton, List.mem_nil_iff,
      or_false] at hd
    rcases hd with hd | hd | hd <;> subst hd <;> assumption

theorem print_quoted_char_octal (env : print_env_t) (border tc : Nat)
    (hborder : 32 ≤ border ∧ border < 127) (htc : tc < 128)
    (hprint : ¬ (32 ≤ tc ∧ tc < 127))
    (hnamed : tc ≠ 7 ∧ tc ≠ 8 ∧ tc ≠ 12 ∧ tc ≠ 10 ∧ tc ≠ 13 ∧ tc ≠ 9 ∧ tc ≠ 11)
    (hesc : ¬ (tc = 27 ∧ env.c_mode_gnuc = true)) :
    print_quoted_char env border tc = Char.ofNat 92 :: octal_digits tc := by
  obtain ⟨h7, h8, h12, h10, h13, h9, h11⟩ := hnamed
  have hb : tc ≠ border := by omega
  have h92 : tc ≠ 92 := by omega
  have h63 : tc ≠ 63 := by omega
  unfold print_quoted_char
  rw [if_neg hb, if_neg h92, if_neg h7, if_neg h8, if_neg h12, if_neg h10, if_neg h13,
    if_neg h9, if_neg h11, if_neg h63, if_neg hesc, if_pos ⟨htc, hprint⟩]
  rfl

/-- Claim C31, amended: `print_quoted_string`, called with a printable border
character, prints one piece of text per byte between the two border
characters, and for every byte below 128 that is no printable ASCII
character and has no named escape (the control bytes other than
`\a \b \f \n \r \t \v` and, in GNU mode, ESC; and the byte 127) the piece is
a backslash followed by exactly three octal digits that encode the byte. -/
theorem print_quoted_string_octal (env : print_env_t) (string : string_t) (border skip : Nat)
    (hskip : skip ≤ string.size)
    (hsize : string.size - skip ≤ string.begin_chars.length)
    (hborder : 32 ≤ border ∧ border < 127) :
    ∃ pieces : List (List Char),
      print_quoted_string env string border skip
        = some (Char.ofNat border :: pieces.flatten ++ [Char.ofNat border]) ∧
      pieces.length = string.size - skip ∧
      ∀ (i b : Nat), i < string.size - skip → string.begin_chars[i]? = some b →
        b < 128 → ¬ (32 ≤ b ∧ b < 127) →
        (b ≠ 7 ∧ b ≠ 8 ∧ b ≠ 12 ∧ b ≠ 10 ∧ b ≠ 13 ∧ b ≠ 9 ∧ b ≠ 11) →
        ¬ (b = 27 ∧ env.c_mode_gnuc = true) →
        ∃ d1 d2 d3, pieces[i]? = some [Char.ofNat 92, d1, d2, d3] ∧
          is_octal_digit d1 = true ∧ is_octal_digit d2 = true ∧ is_octal_digit d3 = true ∧
          octal_value [d1, d2, d3] = b := by
  refine ⟨(string.begin_chars.take (string.size - skip)).map (print_quoted_char env border),
    ?_, ?_, ?_⟩
  · unfold print_quoted_string
    rw [if_neg (by omega)]
  · rw [List.length_map, List.length_take]
    omega
  · intro i b hi hb h128 hprint hnamed hesc
    obtain ⟨hvalue, hdigits⟩ := octal_digits_value b (by omega)
    refine ⟨_, _, _, ?_, hdigits _ (List.mem_cons_self _ _),
      hdigits _ (List.mem_cons_of_mem _ (List.mem_cons_self _ _)),
      hdigits _ (List.mem_cons_of_mem _ (List.mem_cons_of_mem _ (List.mem_cons_self _ _))),
      hvalue⟩
    rw [List.getElem?_map, List.getElem?_take_of_lt hi, hb, Option.map_some',
      print_quoted_char_octal env border b hborder h128 hprint hnamed hesc]
    rfl

/-- Witness of `print_quoted_string_octal`: the string of the bytes 1, 127,
`a` and 200 is printed as `"\001\177a` followed by the byte 200 and the
closing quote. -/
theorem print_quoted_string_octal_witness :
    print_quoted_string example_print_env ⟨[1, 127, 97, 200, 0], 5⟩ 34 1
      = some ['"', Char.ofNat 92, '0', '0', '1', Char.ofNat 92, '1', '7', '7', 'a',
          Char.ofNat 200, '"'] ∧
    ∃ pieces : List (List Char),
      print_quoted_string example_print_env ⟨[1, 127, 97, 200, 0], 5⟩ 34 1
        = some (Char.ofNat 34 :: pieces.flatten ++ [Char.ofNat 34]) ∧
      pieces.length = 5 - 1 ∧
      ∀ (i b : Nat), i < 5 - 1 → [1, 127, 97, 200, 0][i]? = some b →
        b < 128 → ¬ (32 ≤ b ∧ b < 127) →
        (b ≠ 7 ∧ b ≠ 8 ∧ b ≠ 12 ∧ b ≠ 10 ∧ b ≠ 13 ∧ b ≠ 9 ∧ b ≠ 11) →
        ¬ (b = 27 ∧ example_print_env.c_mode_gnuc = true) →
        ∃ d1 d2 d3, pieces[i]? = some [Char.ofNat 92, d1, d2, d3] ∧
          is_octal_digit d1 = true ∧ is_octal_digit d2 = true ∧ is_octal_digit d3 = true ∧
          octal_value [d1, d2, d3] = b :=
  ⟨by decide,
    print_quoted_string_octal example_print_env ⟨[1, 127, 97, 200, 0], 5⟩ 34 1 (by decide)
      (by decide) (by decide)⟩

/-- Claim C31 fails on the byte 200: it is no printable ASCII character and
has no named escape, and `print_quoted_string` prints it unchanged, with no
backslash and no octal digit. -/
theorem print_quoted_string_octal_counterexample :
    ¬ (32 ≤ 200 ∧ 200 < 127) ∧
    print_quoted_char example_print_env 34 200 = [Char.ofNat 200] ∧
    print_quoted_string example_print_env ⟨[200, 0], 2⟩ 34 1
      = some ['"', Char.ofNat 200, '"'] := by
  refine ⟨by decide, ?_, ?_⟩ <;> decide

/-- Claim C32 fails on the wide-string initializer `L"ab"`: the case
`INITIALIZER_WIDE_STRING` of `print_initializer` prints what the case
`INITIALIZER_STRING` prints, the text `"ab"` without the prefix, also inside
an initializer list; `print_string_literal` and `print_literal` print the
prefix `L` for the wide string literal and the wide character literal and
none for the narrow ones. -/
theorem print_initializer_wide_string :
    print_initializer example_print_env (print_expression_prec example_print_env 8) []
      (.INITIALIZER_WIDE_STRING example_string_ab) = some ['"', 'a', 'b', '"'] ∧
    print_initializer example_print_env (print_expression_prec example_print_env 8) []
      (.INITIALIZER_LIST (.cons (.INITIALIZER_WIDE_STRING example_string_ab) .nil))
      = some ['{', ' ', '"', 'a', 'b', '"', ' ', '}'] ∧
    (∀ (env : print_env_t) (printer : expression_printer_t) (designator : List Char)
        (string : string_t),
      print_initializer env printer designator (.INITIALIZER_WIDE_STRING string)
        = print_initializer env printer designator (.INITIALIZER_STRING string)) ∧
    print_expression example_print_env 8
      (.wide_string_literal { type := example_char_pointer } example_string_ab)
      = some ['L', '"', 'a', 'b', '"'] ∧
    print_expression example_print_env 8
      (.string_literal { type := example_char_pointer } example_string_ab)
      = some ['"', 'a', 'b', '"'] ∧
    print_expression example_print_env 8
      (.literal .EXPR_LITERAL_WIDE_CHARACTER { type := example_int } [97])
      = some ['L', Char.ofNat 39, 'a', Char.ofNat 39] ∧
    print_expression example_print_env 8
      (.literal .EXPR_LITERAL_CHARACTER { type := example_int } [97])
      = some [Char.ofNat 39, 'a', Char.ofNat 39] := by
  refine ⟨?_, ?_, ?_, ?_, ?_, ?_, ?_⟩
  · decide
  · decide
  · intro env printer designator string
    rw [print_initializer, print_initializer]
  · decide
  · decide
  · decide
  · decide

theorem decode_escape_octal (border tc : Nat) (rest : List Char) (htc : tc < 256) :
    decode_escape border (Char.ofNat 92 :: octal_digits tc ++ rest) = some (tc, rest) := by
  obtain ⟨hvalue, hdigits⟩ := octal_digits_value tc (by omega)
  have h1 := hdigits _ (List.mem_cons_self _ _)
  have h2 := hdigits _ (List.mem_cons_of_mem _ (List.mem_cons_self _ _))
  have h3 := hdigits _
    (List.mem_cons_of_mem _ (List.mem_cons_of_mem _ (List.mem_cons_self _ _)))
  have hbs : (Char.ofNat 92).toNat = 92 := by decide
  have hv : octal_value [Char.ofNat (48 + tc / 64 % 8), Char.ofNat (48 + tc / 8 % 8),
      Char.ofNat (48 + tc % 8)] = tc := hvalue
  simp only [octal_digits, List.cons_append, List.nil_append, decode_escape, hbs, if_true,
    h1, List.take_succ_cons, List.take_zero, List.takeWhile_cons, h2, h3, List.takeWhile_nil,
    hv, htc, List.length_cons, List.length_nil, List.drop_succ_cons, List.drop_zero,
    Nat.add_sub_cancel, Nat.reduceAdd, Nat.reduceSub]

theorem decode_escape_plain (border tc : Nat) (rest : List Char) (htc : tc < 256)
    (h92 : tc ≠ 92) (hborder : tc ≠ border) :
    decode_escape border (Char.ofNat tc :: rest) = some (tc, rest) := by
  simp only [decode_escape, char_toNat_ofNat tc htc, h92, hborder, if_false]

theorem decode_escape_named (border : Nat) (e : Char) (value : Nat) (rest : List Char)
    (he : is_octal_digit e = false) (hvalue : named_escape e.toNat = some value) :
    decode_escape border (Char.ofNat 92 :: e :: rest) = some (value, rest) := by
  have hbs : (Char.ofNat 92).toNat = 92 := by decide
  simp only [decode_escape, hbs, if_true, he, Bool.false_eq_true, if_false, hvalue,
    Option.map_some']

theorem decode_escape_print_quoted_char (env : print_env_t) (border tc : Nat)
    (rest : List Char) (hborder : border = 34 ∨ border = 39) (htc : tc < 256) :
    decode_escape border (print_quoted_char env border tc ++ rest) = some (tc, rest) := by
  by_cases hb : tc = border
  · have hq : print_quoted_char env border tc = [Char.ofNat 92, Char.ofNat tc] := by
      rcases hborder with h | h <;> subst h <;> subst hb <;> rfl
    rw [hq]
    rcases hborder with h | h <;> subst h <;> subst hb <;>
      exact decode_escape_named _ _ _ rest (by decide) (by decide)
  · unfold print_quoted_char
    rw [if_neg hb, List.nil_append]
    by_cases h92 : tc = 92
    · rw [if_pos h92]; subst h92
      exact decode_escape_named _ _ _ rest (by decide) (by decide)
    rw [if_neg h92]
    by_cases h7 : tc = 7
    · rw [if_pos h7]; subst h7
      exact decode_escape_named _ _ _ rest (by decide) (by decide)
    rw [if_neg h7]
    by_cases h8 : tc = 8
    · rw [if_pos h8]; subst h8
      exact decode_escape_named _ _ _ rest (by decide) (by decide)
    rw [if_neg h8]
    by_cases h12 : tc = 12
    · rw [if_pos h12]; subst h12
      exact decode_escape_named _ _ _ rest (by decide) (by decide)
    rw [if_neg h12]
    by_cases h10 : tc = 10
    · rw [if_pos h10]; subst h10
      exact decode_escape_named _ _ _ rest (by decide) (by decide)
    rw [if_neg h10]
    by_cases h13 : tc = 13
    · rw [if_pos h13]; subst h13
      exact decode_escape_named _ _ _ rest (by decide) (by decide)
    rw [if_neg h13]
    by_cases h9 : tc = 9
    · rw [if_pos h9]; subst h9
      exact decode_escape_named _ _ _ rest (by decide) (by decide)
    rw [if_neg h9]
    by_cases h11 : tc = 11
    · rw [if_pos h11]; subst h11
      exact decode_escape_named _ _ _ rest (by decide) (by decide)
    rw [if_neg h11]
    by_cases h63 : tc = 63
    · rw [if_pos h63]; subst h63
      exact decode_escape_named _ _ _ rest (by decide) (by decide)
    rw [if_neg h63]
    by_cases hesc : tc = 27 ∧ env.c_mode_gnuc = true
    · rw [if_pos hesc]; obtain ⟨h27, _⟩ := hesc; subst h27
      exact decode_escape_named _ _ _ rest (by decide) (by decide)
    rw [if_neg hesc]
    by_cases hoctal : tc < 128 ∧ ¬ (32 ≤ tc ∧ tc < 127)
    · rw [if_pos hoctal]
      exact decode_escape_octal border tc rest htc
    · rw [if_neg hoctal]
      exact decode_escape_plain border tc rest htc h92 hb

theorem print_quoted_char_ne_nil (env : print_env_t) (border tc : Nat) :
    ∃ c tail, print_quoted_char env border tc = c :: tail := by
  have key : ∀ (a b : List Char), b ≠ [] → ∃ c tail, a ++ b = c :: tail := by
    intro a b hb
    cases a with
    | nil =>
        cases b with
        | nil => exact absurd rfl hb
        | cons c tail => exact ⟨c, tail, rfl⟩
    | cons c tail => exact ⟨c, tail ++ b, rfl⟩
  have hite : ∀ (c : Prop) [Decidable c] (a b : List Char), a ≠ [] → b ≠ [] →
      (if c then a else b) ≠ [] := by
    intro c _ a b ha hb
    by_cases hc : c
    · rw [if_pos hc]; exact ha
    · rw [if_neg hc]; exact hb
  unfold print_quoted_char
  apply key
  repeat' first
    | exact List.cons_ne_nil _ _
    | apply hite

theorem decode_escapes_loop_print (env : print_env_t) (border : Nat)
    (hborder : border = 34 ∨ border = 39) :
    ∀ (bytes : List Nat) (fuel : Nat), bytes.length ≤ fuel → (∀ b ∈ bytes, b < 256) →
      decode_escapes_loop border fuel ((bytes.map (print_quoted_char env border)).flatten)
        = some bytes := by
  intro bytes
  induction bytes with
  | nil =>
      intro fuel _ _
      cases fuel <;> rfl
  | cons tc rest ih =>
      intro fuel hfuel hbytes
      cases fuel with
      | zero => exact absurd hfuel (by simp only [List.length_cons]; omega)
      | succ fuel =>
          have hstep := decode_escape_print_quoted_char env border tc
            ((rest.map (print_quoted_char env border)).flatten) hborder
            (hbytes tc (List.mem_cons_self _ _))
          obtain ⟨c, tail, hc⟩ := print_quoted_char_ne_nil env border tc
          rw [List.map_cons, List.flatten_cons]
          rw [hc, List.cons_append] at hstep ⊢
          rw [decode_escapes_loop]
          simp only [hstep]
          rw [ih fuel (by simp only [List.length_cons] at hfuel; omega)
            (fun b hb => hbytes b (List.mem_cons_of_mem _ hb))]
          rfl

theorem length_le_print_quoted (env : print_env_t) (border : Nat) :
    ∀ (bytes : List Nat),
      bytes.length ≤ ((bytes.map (print_quoted_char env border)).flatten).length := by
  intro bytes
  induction bytes with
  | nil => exact Nat.le_refl _
  | cons tc rest ih =>
      obtain ⟨c, tail, hc⟩ := print_quoted_char_ne_nil env border tc
      rw [List.map_cons, List.flatten_cons, hc, List.length_append, List.length_cons,
        List.length_cons]
      omega

/-- Claim C37: for every byte string and each of the two border characters,
`print_quoted_string` prints a text between two border characters, and
decoding the text between them by the escape rules of C (named escapes,
`\e`, octal escapes of one to three digits, the longest run taken; no
unescaped border character and no lone backslash accepted) yields exactly
the bytes of the string. -/
theorem print_quoted_string_round_trip (env : print_env_t) (string : string_t)
    (border skip : Nat) (hborder : border = 34 ∨ border = 39)
    (hskip : skip ≤ string.size)
    (hsize : string.size - skip ≤ string.begin_chars.length)
    (hbytes : ∀ b ∈ string.begin_chars, b < 256) :
    ∃ text : List Char,
      print_quoted_string env string border skip
        = some (Char.ofNat border :: text ++ [Char.ofNat border]) ∧
      decode_escapes border text = some (string.begin_chars.take (string.size - skip)) := by
  refine ⟨((string.begin_chars.take (string.size - skip)).map
    (print_quoted_char env border)).flatten, ?_, ?_⟩
  · unfold print_quoted_string
    rw [if_neg (by omega)]
  · exact decode_escapes_loop_print env border hborder _ _
      (length_le_print_quoted env border _)
      (fun b hb => hbytes b (List.mem_of_mem_take hb))

/-- Witness of `print_quoted_string_round_trip`: the string of the bytes
`"`, backslash, newline, 1, `1`, 200, `?` and `'` is printed as
`"\"\\\n\0011` followed by the byte 200 and `\?'"`.  The decoder takes the
longest run of octal digits, `\11` is one character, and accepts neither a
bare border character nor a lone backslash. -/
theorem print_quoted_string_round_trip_witness :
    print_quoted_string example_print_env ⟨[34, 92, 10, 1, 49, 200, 63, 39, 0], 9⟩ 34 1
      = some ['"', Char.ofNat 92, '"', Char.ofNat 92, Char.ofNat 92, Char.ofNat 92, 'n',
          Char.ofNat 92, '0', '0', '1', '1', Char.ofNat 200, Char.ofNat 92, '?',
          Char.ofNat 39, '"'] ∧
    decode_escapes 34 [Char.ofNat 92, '1', '1'] = some [9] ∧
    decode_escapes 34 ['a', '"', 'b'] = none ∧
    decode_escapes 34 ['a', Char.ofNat 92] = none ∧
    ∃ text : List Char,
      print_quoted_string example_print_env ⟨[34, 92, 10, 1, 49, 200, 63, 39, 0], 9⟩ 34 1
        = some (Char.ofNat 34 :: text ++ [Char.ofNat 34]) ∧
      decode_escapes 34 text = some ([34, 92, 10, 1, 49, 200, 63, 39, 0].take (9 - 1)) :=
  ⟨by decide, by decide, by decide, by decide,
    print_quoted_string_round_trip example_print_env
      ⟨[34, 92, 10, 1, 49, 200, 63, 39, 0], 9⟩ 34 1 (Or.inl rfl) (by decide) (by decide)
      (by decide)⟩

/-! ## Order of the members of a struct -/

theorem align_expr_le (cfg : config_t) (offset a : Nat) :
    align_expr cfg offset a ≤ offset + a := by
  unfold align_expr to_il_size
  by_cases h0 : offset + a = 0
  · have ha : a = 0 := by omega
    subst ha
    have hz : (2 ^ cfg.il_size_bits - 0 % 2 ^ cfg.il_size_bits) % 2 ^ cfg.il_size_bits = 0 := by
      rw [Nat.zero_mod, Nat.sub_zero, Nat.mod_self]
    rw [hz, Nat.and_zero]
    exact Nat.zero_le _
  · have hpos : 0 < 2 ^ cfg.il_size_bits := Nat.two_pow_pos _
    have hsum : offset + a + (2 ^ cfg.il_size_bits - 1)
        = (offset + a - 1) + 2 ^ cfg.il_size_bits := by omega
    calc _ ≤ (offset + a + (2 ^ cfg.il_size_bits - 1)) % 2 ^ cfg.il_size_bits :=
          Nat.and_le_left
      _ = (offset + a - 1) % 2 ^ cfg.il_size_bits := by
          rw [hsum, Nat.add_mod_right]
      _ ≤ offset + a - 1 := Nat.mod_le _ _
      _ ≤ offset + a := Nat.sub_le _ _

theorem layout_struct_loop_ordered (cfg : config_t)
    (get_type_size get_type_alignment : type_t → Option Nat)
    (size_of alignment_of : type_t → Nat) (packed : Bool) :
    ∀ (members : List entity_t) (fuel offset alignment : Nat) (need_pad : Bool),
      members.length < fuel →
      (∀ m ∈ members, m.kind = .ENTITY_COMPOUND_MEMBER →
        plain_member get_type_size get_type_alignment size_of alignment_of m) →
      offset + struct_members_room size_of alignment_of members < 65536 →
      offset + struct_members_room size_of alignment_of members < 2 ^ cfg.il_size_bits →
      ∃ out offset1 alignment1 need_pad1,
        layout_struct_loop cfg get_type_size get_type_alignment packed fuel members
          offset alignment need_pad = some (out, offset1, alignment1, need_pad1) ∧
        out.map (fun m => (m.kind, m.type)) = members.map (fun m => (m.kind, m.type)) ∧
        (∀ m ∈ out, m.kind = .ENTITY_COMPOUND_MEMBER → offset ≤ m.offset) ∧
        out.Pairwise (fun m1 m2 => m1.kind = .ENTITY_COMPOUND_MEMBER →
          m2.kind = .ENTITY_COMPOUND_MEMBER → m1.offset + size_of m1.type ≤ m2.offset) := by
  intro members
  induction members with
  | nil =>
    intro fuel offset alignment need_pad hf _ _ _
    cases fuel with
    | zero => exact absurd hf (Nat.not_lt_zero _)
    | succ n =>
      exact ⟨[], offset, alignment, need_pad, rfl, rfl, fun m hm => absurd hm (List.not_mem_nil _),
        List.Pairwise.nil⟩
  | cons m rest ih =>
    intro fuel offset alignment need_pad hf hm h16 hw
    cases fuel with
    | zero => exact absurd hf (Nat.not_lt_zero _)
    | succ n =>
      have hf' : rest.length < n := by
        simp only [List.length_cons] at hf; omega
      have hrest : ∀ m' ∈ rest, m'.kind = .ENTITY_COMPOUND_MEMBER →
          plain_member get_type_size get_type_alignment size_of alignment_of m' :=
        fun m' hm' => hm m' (List.mem_cons_of_mem _ hm')
      by_cases hk : m.kind = .ENTITY_COMPOUND_MEMBER
      · obtain ⟨⟨skipped, hs1, hs2, hs3⟩, hgs, hga⟩ := hm m (List.mem_cons_self _ _) hk
        simp only [struct_members_room, hk, if_true] at h16 hw
        rw [layout_struct_loop]
        simp only [hk, ne_eq, not_true_eq_false, if_false, hs1, hs2, Bool.not_true,
          Bool.false_eq_true, hs3, hga, hgs]
        have ha : to_il_alignment cfg (alignment_of m.type) ≤ alignment_of m.type :=
          Nat.mod_le _ _
        have hae := align_expr_le cfg offset (to_il_alignment cfg (alignment_of m.type))
        obtain ⟨off1, hoff, hlo, hhi⟩ : ∃ off1,
            (if (!packed && decide (align_expr cfg offset
                (to_il_alignment cfg (alignment_of m.type)) > offset)) = true
              then align_expr cfg offset (to_il_alignment cfg (alignment_of m.type))
              else offset) = off1 ∧ offset ≤ off1 ∧ off1 ≤ offset + alignment_of m.type := by
          by_cases hc : (!packed && decide (align_expr cfg offset
              (to_il_alignment cfg (alignment_of m.type)) > offset)) = true
          · rw [if_pos hc]
            rw [Bool.and_eq_true, decide_eq_true_eq] at hc
            exact ⟨_, rfl, by omega, by omega⟩
          · rw [if_neg hc]
            exact ⟨_, rfl, Nat.le_refl _, by omega⟩
        rw [hoff, to_ushort_of_lt (by omega), to_il_size_of_lt (by omega)]
        obtain ⟨out, offset1, alignment1, need_pad1, hloop, hmap, hle, hpair⟩ :=
          ih n (off1 + size_of m.type)
            (if to_il_alignment cfg (alignment_of m.type) > alignment then
              to_il_alignment cfg (alignment_of m.type) else alignment)
            (if (!packed && decide (align_expr cfg offset
                (to_il_alignment cfg (alignment_of m.type)) > offset)) = true
              then true else need_pad) hf' hrest (by omega) (by omega)
        rw [hloop]
        refine ⟨_, offset1, alignment1, need_pad1, rfl, ?_, ?_, ?_⟩
        · rw [List.map_cons, List.map_cons, hmap, hk]
        · intro m' hm' hk'
          rcases List.mem_cons.mp hm' with h | h
          · rw [h]; exact hlo
          · have := hle m' h hk'
            omega
        · exact List.Pairwise.cons (fun m2 h2 _ hk2 => hle m2 h2 hk2) hpair
      · simp only [struct_members_room, hk, if_false] at h16 hw
        obtain ⟨out, offset1, alignment1, need_pad1, hloop, hmap, hle, hpair⟩ :=
          ih n offset alignment need_pad hf' hrest h16 hw
        rw [layout_struct_loop]
        simp only [ne_eq, hk, not_false_eq_true, if_true, hloop, Option.map_some']
        refine ⟨m :: out, offset1, alignment1, need_pad1, rfl, ?_, ?_, ?_⟩
        · rw [List.map_cons, List.map_cons, hmap]
        · intro m' hm' hk'
          rcases List.mem_cons.mp hm' with h | h
          · rw [h] at hk'; exact absurd hk' hk
          · exact hle m' h hk'
        · exact List.Pairwise.cons (fun m2 _ hk' _ => absurd hk' hk) hpair

/-- Claim C38, amended: for every complete, not yet laid out struct without
bit-fields, packed or not, whose member sizes and alignments add up to less
than 65536 and fit `il_size_t`, `layout_struct_type` returns the members in
declaration order, and any two members `m1` declared before `m2` have
recorded offsets with `m1.offset + size_of(m1) <= m2.offset`. -/
theorem layout_struct_type_ordered (cfg : config_t)
    (get_type_size get_type_alignment : type_t → Option Nat)
    (size_of alignment_of : type_t → Nat) (compound : compound_t)
    (hcomplete : compound.complete = true) (hlayouted : compound.layouted = false)
    (hmembers : ∀ m ∈ compound.members, m.kind = .ENTITY_COMPOUND_MEMBER →
      plain_member get_type_size get_type_alignment size_of alignment_of m)
    (hroom : struct_members_room size_of alignment_of compound.members < 65536)
    (hsize : struct_members_room size_of alignment_of compound.members
      < 2 ^ cfg.il_size_bits) :
    ∃ result warnings,
      layout_struct_type cfg get_type_size get_type_alignment compound
        = some (result, warnings) ∧
      result.members.map (fun m => (m.kind, m.type))
        = compound.members.map (fun m => (m.kind, m.type)) ∧
      result.members.Pairwise (fun m1 m2 => m1.kind = .ENTITY_COMPOUND_MEMBER →
        m2.kind = .ENTITY_COMPOUND_MEMBER → m1.offset + size_of m1.type ≤ m2.offset) := by
  obtain ⟨out, offset1, alignment1, need_pad1, hloop, hmap, _, hpair⟩ :=
    layout_struct_loop_ordered cfg get_type_size get_type_alignment size_of alignment_of
      compound.packed compound.members (compound.members.length + 1) 0 compound.alignment
      false (Nat.lt_succ_self _) hmembers (by omega) (by omega)
  unfold layout_struct_type
  simp only [hcomplete, hlayouted, Bool.not_true, Bool.false_eq_true, if_false, hloop]
  exact ⟨_, _, rfl, hmap, hpair⟩

/-- Witness of `layout_struct_type_ordered`: `struct S { char a; int b;
char c; }` gets the offsets 0, 4 and 8, and the packed
`struct P { char a; int b; }` the offsets 0 and 1. -/
theorem layout_struct_type_ordered_witness :
    (layout_struct_type example_config example_get_type_size example_get_type_alignment
        example_struct_S).map (fun r => r.1.members.map (fun m => m.offset))
      = some [0, 4, 8] ∧
    (layout_struct_type example_config example_get_type_size example_get_type_alignment
        example_struct_P).map (fun r => r.1.members.map (fun m => m.offset))
      = some [0, 1] ∧
    ∃ result warnings,
      layout_struct_type example_config example_get_type_size example_get_type_alignment
        example_struct_S = some (result, warnings) ∧
      result.members.map (fun m => (m.kind, m.type))
        = example_struct_S.members.map (fun m => (m.kind, m.type)) ∧
      result.members.Pairwise (fun m1 m2 => m1.kind = .ENTITY_COMPOUND_MEMBER →
        m2.kind = .ENTITY_COMPOUND_MEMBER →
        m1.offset + example_size_of m1.type ≤ m2.offset) :=
  ⟨by decide, by decide,
    layout_struct_type_ordered example_config example_get_type_size
      example_get_type_alignment example_size_of example_alignment_of example_struct_S
      rfl rfl
      (by
        intro m hm _
        simp only [example_struct_S, example_compound, List.mem_cons, List.mem_singleton,
          List.mem_nil_iff, or_false] at hm
        rcases hm with h | h | h <;> subst h <;>
          exact ⟨⟨_, rfl, by decide, by decide⟩, by decide, by decide⟩)
      (by decide) (by decide)⟩

/-- Claim C38 fails on `struct { char a[65536]; char b; }`: the offset of a
member is stored in an `unsigned short`, so the offset 65536 of `b` is
recorded as 0, and `a.offset + size_of(a) = 65536` is above `b.offset`. -/
theorem layout_struct_type_ordered_counterexample :
    example_struct_large.complete = true ∧
    example_size_of (.array TYPE_QUALIFIER_NONE example_char 65536 true none false)
      = 65536 ∧
    (layout_struct_type example_config example_get_type_size example_get_type_alignment
        example_struct_large).map
        (fun r => (r.1.members.map (fun m => m.offset), r.1.size))
      = some ([0, 0], 65537) := by
  refine ⟨rfl, ?_, ?_⟩ <;> decide

end CParser
